import Mathlib

/-!
# SanitUnpack: carving and frame decoding (`FileUnpacker.cpp`)

A shallow embedding of the scanning, carving and decoding code of
`src/FileUnpacker/FileUnpacker.cpp`:

* `findWavHeader`, `findGraphicsResourceHeader` (signature scanners),
* `getWavSize`, `getGraphicsResourceSize` (declared-size rules),
* the `while` loop of `extractFiles` (resource carving),
* `extractFrameToBMP`, `extractFramesToSpritesheet` (frame decoding),
* `generateSanitariumPalette`, `filenameToPalette` and the palette argument of
  `main` (palette selection).

Conventions of the embedding.

* A buffer handed over as `const char*` is the list of bytes that may be read
  through that pointer; `&fileBuffer[p]` is `fileBuffer.drop p`.
* A read at an index outside that list is undefined behaviour in the source.
  It is made observable: the computation stops with `Run.outOfBounds i`.
* `size_t` is 64 bits wide and `uint32_t` 32 bits wide; every arithmetic
  operation of the source is followed by the reduction the C++ type performs.
-/

set_option maxRecDepth 100000

namespace FileUnpacker

/-- One `char` of a buffer, seen through `static_cast<uint8_t>`. -/
abbrev Byte := Fin 256

/-- The value `SIZE_MAX` of a 64-bit `size_t`; the scanners return it for "not found". -/
def SIZE_MAX : Nat := 2 ^ 64 - 1

/-- Addition in `size_t`. -/
def add64 (a b : Nat) : Nat := (a + b) % 2 ^ 64

/-- Subtraction in `size_t` (wraps around below zero). -/
def sub64 (a b : Nat) : Nat := (a + 2 ^ 64 - b % 2 ^ 64) % 2 ^ 64

/-- Conversion to `uint32_t`. -/
def u32 (a : Nat) : Nat := a % 2 ^ 32

/-- Conversion to `uint16_t`. -/
def u16 (a : Nat) : Nat := a % 2 ^ 16

/-- Result of running a piece of the source: a normal return, or a read of
`data[i]` with `i` outside the bytes that belong to `data`. -/
inductive Run (α : Type) where
  | ret (a : α)
  | outOfBounds (i : Nat)
  deriving DecidableEq, Repr

/-- Sequencing of two computations; a faulting read ends the run. -/
def Run.bind {α β : Type} (r : Run α) (f : α → Run β) : Run β :=
  match r with
  | .ret a => f a
  | .outOfBounds i => .outOfBounds i

/-- The read `static_cast<uint8_t>(data[i])`. -/
def readU8 (data : List Byte) (i : Nat) : Run Nat :=
  match data[i]? with
  | some b => .ret b.val
  | none => .outOfBounds i

/-- A chain `buffer[i + k₁] == c₁ && buffer[i + k₂] == c₂ && ...`, evaluated left to
right with the short circuit of `&&`: a conjunct is read only when all the
conjuncts before it held. -/
def matchBytes (buffer : List Byte) (i : Nat) : List (Nat × Byte) → Run Bool
  | [] => .ret true
  | (k, c) :: rest =>
    match buffer[add64 i k]? with
    | none => .outOfBounds (add64 i k)
    | some b => if b = c then matchBytes buffer i rest else .ret false

/-- The loop `for (size_t i = ...; i <= bound; ++i) { if (<pattern at i>) return i; }
return SIZE_MAX;` shared by the two scanners. The first argument is the number
of values of `i` that are still to be visited, `bound + 1 - i`; as the loop starts
at 0 and `bound` is a `size_t`, `i` stays below 2^64 and `++i` is `i + 1`. -/
def scanLoop (pattern : List (Nat × Byte)) (buffer : List Byte) : Nat → Nat → Run Nat
  | 0, _ => .ret SIZE_MAX
  | n + 1, i =>
    match matchBytes buffer i pattern with
    | .outOfBounds j => .outOfBounds j
    | .ret true => .ret i
    | .ret false => scanLoop pattern buffer n (i + 1)

/-- The conjuncts of the `if` of `findWavHeader`: `RIFF` at `i .. i+3`, the four
size bytes skipped, `WAVE` at `i+8 .. i+11`. -/
def wavPattern : List (Nat × Byte) :=
  [(0, 0x52), (1, 0x49), (2, 0x46), (3, 0x46), (8, 0x57), (9, 0x41), (10, 0x56), (11, 0x45)]

/-- The conjuncts of the `if` of `findGraphicsResourceHeader`: `D3GR`. -/
def d3grPattern : List (Nat × Byte) :=
  [(0, 0x44), (1, 0x33), (2, 0x47), (3, 0x52)]

/-- The function `findWavHeader(buffer, bufferSize)`; the loop bound is
`bufferSize - 12` computed in `size_t`. -/
def findWavHeader (buffer : List Byte) (bufferSize : Nat) : Run Nat :=
  scanLoop wavPattern buffer (sub64 bufferSize 12 + 1) 0

/-- The function `findGraphicsResourceHeader(buffer, bufferSize)`; the loop bound is
`bufferSize - 4` computed in `size_t`. -/
def findGraphicsResourceHeader (buffer : List Byte) (bufferSize : Nat) : Run Nat :=
  scanLoop d3grPattern buffer (sub64 bufferSize 4 + 1) 0

/-- The function `getWavSize(data)`: the four bytes are promoted to `int`, shifted,
or-ed, converted to `uint32_t`, and 8 is added in `uint32_t`. -/
def getWavSize (data : List Byte) : Run Nat :=
  (readU8 data 4).bind fun b4 =>
  (readU8 data 5).bind fun b5 =>
  (readU8 data 6).bind fun b6 =>
  (readU8 data 7).bind fun b7 =>
  let size := u32 (b4 ||| (b5 <<< 8) ||| (b6 <<< 16) ||| (b7 <<< 24))
  .ret (u32 (size + 8))

/-- The function `getGraphicsResourceSize(data)`. `frameCount - 1` is computed in
`int`, so that `lastOffsetPos` is `0x18` for a frame count of 0; the positions
and the total are `uint32_t`, and so are the indices `lastFramePosition + 0x0E`
and `lastFramePosition + 0x0C`. The product `lastFrameWidth * lastFrameHeight` is
formed in `int` and stored in a `uint32_t`; it is taken modulo 2^32. -/
def getGraphicsResourceSize (data : List Byte) : Run Nat :=
  (readU8 data 0x18).bind fun c0 =>
  (readU8 data 0x19).bind fun c1 =>
  let frameCount := u16 (c0 ||| (c1 <<< 8))
  let offsetsEndPosition := u32 (0x1C + frameCount * 4)
  let lastOffsetPos := ((0x1C + ((frameCount : Int) - 1) * 4) % 2 ^ 64).toNat
  (readU8 data lastOffsetPos).bind fun o0 =>
  (readU8 data (add64 lastOffsetPos 1)).bind fun o1 =>
  (readU8 data (add64 lastOffsetPos 2)).bind fun o2 =>
  (readU8 data (add64 lastOffsetPos 3)).bind fun o3 =>
  let lastFrameOffset := u32 (o0 ||| (o1 <<< 8) ||| (o2 <<< 16) ||| (o3 <<< 24))
  let lastFramePosition := u32 (offsetsEndPosition + lastFrameOffset)
  (readU8 data (u32 (lastFramePosition + 0x0E))).bind fun w0 =>
  (readU8 data (u32 (u32 (lastFramePosition + 0x0E) + 1))).bind fun w1 =>
  let lastFrameWidth := u16 (w0 ||| (w1 <<< 8))
  (readU8 data (u32 (lastFramePosition + 0x0C))).bind fun h0 =>
  (readU8 data (u32 (u32 (lastFramePosition + 0x0C) + 1))).bind fun h1 =>
  let lastFrameHeight := u16 (h0 ||| (h1 <<< 8))
  let lastFrameDataSize := u32 (lastFrameWidth * lastFrameHeight)
  let totalSize := u32 (u32 (lastFramePosition + 0x10) + lastFrameDataSize)
  .ret totalSize

/-- The enumeration `FileFormat`. -/
inductive FileFormat where
  | WAV
  | D3GR
  deriving DecidableEq, Repr

/-- The function pointer `findHeader` selected by the `switch` of `extractFiles`. -/
def findHeader : FileFormat → List Byte → Nat → Run Nat
  | .WAV => findWavHeader
  | .D3GR => findGraphicsResourceHeader

/-- The function pointer `getSize` selected by the `switch` of `extractFiles`. -/
def getSize : FileFormat → List Byte → Run Nat
  | .WAV => getWavSize
  | .D3GR => getGraphicsResourceSize

/-- A carved resource: the arguments `&fileBuffer[fileStart], fileSize` of the
`resourceFile.write` call. -/
structure Span where
  offset : Nat
  length : Nat
  deriving DecidableEq, Repr

/-- What one pass through the body of the `while` loop of `extractFiles` does. -/
inductive Step where
  | stop
  | fault (i : Nat)
  | emit (s : Span) (next : Nat)
  deriving DecidableEq, Repr

/-- One evaluation of the loop condition and body of
`while (position < fileBuffer.size()) { ... }` in `extractFiles`, from the scan
position `position`. `stop` is the failing loop condition or a `break`; `emit s next`
writes the resource `s` and computes `next = fileStart + fileSize`. The output file
is taken to open. The `D3GR` branch of the body, which runs between the write and
the assignment `position = fileStart + fileSize` and changes neither the resource
written nor `fileStart` and `fileSize`, is not part of this definition: `loopPass`
adds it. -/
def carveStep (format : FileFormat) (fileBuffer : List Byte) (position : Nat) : Step :=
  if position < fileBuffer.length then
    match findHeader format (fileBuffer.drop position) (sub64 fileBuffer.length position) with
    | .outOfBounds i => .fault (position + i)
    | .ret headerPos =>
      if headerPos = SIZE_MAX then .stop
      else
        let fileStart := add64 position headerPos
        let minHeaderSize := 16
        if add64 fileStart minHeaderSize > fileBuffer.length then .stop
        else
          match getSize format (fileBuffer.drop fileStart) with
          | .outOfBounds i => .fault (fileStart + i)
          | .ret declared =>
            let fileSize :=
              if add64 fileStart declared > fileBuffer.length
              then u32 (sub64 fileBuffer.length fileStart)
              else declared
            .emit ⟨fileStart, fileSize⟩ (add64 fileStart fileSize)
  else .stop

/-- How a run of the carving loop ends. -/
inductive Outcome where
  | finished
  | fault (i : Nat)
  | outOfFuel
  deriving DecidableEq, Repr

/-- The resources written by a run of the carving loop, in the order written,
and the way the run ended. -/
structure Carve where
  spans : List Span
  outcome : Outcome
  deriving DecidableEq, Repr

/-- The `while` loop of `extractFiles`, run for at most `fuel` passes from the scan
position `position`. -/
def carveLoop (format : FileFormat) (fileBuffer : List Byte) : Nat → Nat → Carve
  | 0, _ => ⟨[], .outOfFuel⟩
  | fuel + 1, position =>
    match carveStep format fileBuffer position with
    | .stop => ⟨[], .finished⟩
    | .fault i => ⟨[], .fault i⟩
    | .emit s next =>
      let r := carveLoop format fileBuffer fuel next
      ⟨s :: r.spans, r.outcome⟩

/-- The carving part of `extractFiles(filename, format, ...)` on the contents
`fileBuffer` of the file: the early `return false` for an empty file, then the
loop from `position = 0`. -/
def extractFiles (fuel : Nat) (format : FileFormat) (fileBuffer : List Byte) : Carve :=
  if fileBuffer.isEmpty then ⟨[], .finished⟩
  else carveLoop format fileBuffer fuel 0

/-- The value `fileCount > 0` returned by `extractFiles`, when the run returns. -/
def extractFilesResult (c : Carve) : Option Bool :=
  match c.outcome with
  | .finished => some (decide (0 < c.spans.length))
  | _ => none

/-! ## Frame decoding (`extractFrameToBMP`, `extractFramesToSpritesheet`)

Further conventions.

* Arithmetic in `int` is taken to wrap modulo 2^32 in two's complement (`i32`),
  which is what the compilers this code is built with produce; the language
  leaves signed overflow undefined.
* The headers are written as the bytes of the packed structs on a little-endian
  host.
* The output file is taken to open; the result of a decoder is the sequence of
  bytes written to it.
-/

/-- Two's complement reduction of a value computed in `int`. -/
def i32 (z : Int) : Int := (z + 2 ^ 31) % 2 ^ 32 - 2 ^ 31

/-- Result of running a frame decoder: a normal result, a read of `resourceData`
outside the bytes that belong to it, or a read of `palette` outside the palette. -/
inductive Dec (α : Type) where
  | ok (a : α)
  | badResourceRead (i : Int)
  | badPaletteRead (i : Nat)
  deriving DecidableEq, Repr

/-- Sequencing of two decoder computations; a faulting read ends the run. -/
def Dec.bind {α β : Type} (r : Dec α) (f : α → Dec β) : Dec β :=
  match r with
  | .ok a => f a
  | .badResourceRead i => .badResourceRead i
  | .badPaletteRead i => .badPaletteRead i

/-- A computation that reads `resourceData`, seen as a decoder computation. -/
def Run.toDec {α : Type} (r : Run α) : Dec α :=
  match r with
  | .ret a => .ok a
  | .outOfBounds i => .badResourceRead i

/-- The read `indexedData[k]` of a palette index, at the address `z` counted from
`resourceData`. -/
def readAt (resourceData : List Byte) (z : Int) : Dec Nat :=
  if z < 0 then .badResourceRead z
  else
    match resourceData[z.toNat]? with
    | some b => .ok b.val
    | none => .badResourceRead z

/-- The read `palette[i]` of the `std::vector<uint8_t>` palette. -/
def readPalette (palette : List Byte) (i : Nat) : Dec Byte :=
  match palette[i]? with
  | some b => .ok b
  | none => .badPaletteRead i

/-- The byte with value `v mod 256`. -/
def toByte (v : Nat) : Byte := ⟨v % 256, Nat.mod_lt _ (by decide)⟩

/-- The two bytes of a `uint16_t` field in memory. -/
def le16 (v : Nat) : List Byte := [toByte v, toByte (v / 256)]

/-- The four bytes of a `uint32_t` or non-negative `int32_t` field in memory. -/
def le32 (v : Nat) : List Byte :=
  [toByte v, toByte (v / 256), toByte (v / 65536), toByte (v / 16777216)]

/-- The 14 bytes of `BMPHeader` followed by the 40 bytes of `DIBHeader`, as filled in
by both decoders and written by the two `file.write` calls. -/
def bmpHeaders (fileSize width height : Nat) : List Byte :=
  le16 0x4D42 ++ le32 fileSize ++ le16 0 ++ le16 0 ++ le32 (14 + 40) ++
  le32 40 ++ le32 width ++ le32 height ++ le16 1 ++ le16 24 ++ le32 0 ++
  le32 0 ++ le32 0 ++ le32 0 ++ le32 256 ++ le32 0

/-- The frame count: `static_cast<uint16_t>(resourceData[0x18] | resourceData[0x19] << 8)`. -/
def readFrameCount (resourceData : List Byte) : Run Nat :=
  (readU8 resourceData 0x18).bind fun c0 =>
  (readU8 resourceData 0x19).bind fun c1 =>
  .ret (u16 (c0 ||| (c1 <<< 8)))

/-- What a decoder reads about one frame. -/
structure Frame where
  position : Nat
  width : Nat
  height : Nat
  deriving DecidableEq, Repr

/-- The header reads of `extractFrameToBMP` after the test of `frameIndex`:
`offsetPos`, `frameOffset`, `offsetsArrayEnd`, `framePosition` (all `uint32_t`),
then `height` and `width`. -/
def bmpFrameHeader (resourceData : List Byte) (frameCount frameIndex : Nat) : Run Frame :=
  let offsetPos := u32 (0x1C + u32 (frameIndex * 4))
  (readU8 resourceData offsetPos).bind fun o0 =>
  (readU8 resourceData (u32 (offsetPos + 1))).bind fun o1 =>
  (readU8 resourceData (u32 (offsetPos + 2))).bind fun o2 =>
  (readU8 resourceData (u32 (offsetPos + 3))).bind fun o3 =>
  let frameOffset := u32 (o0 ||| (o1 <<< 8) ||| (o2 <<< 16) ||| (o3 <<< 24))
  let offsetsArrayEnd := u32 (0x1C + frameCount * 4)
  let framePosition := u32 (offsetsArrayEnd + frameOffset)
  (readU8 resourceData (u32 (framePosition + 0x0C))).bind fun h0 =>
  (readU8 resourceData (u32 (u32 (framePosition + 0x0C) + 1))).bind fun h1 =>
  let height := u16 (h0 ||| (h1 <<< 8))
  (readU8 resourceData (u32 (framePosition + 0x0E))).bind fun w0 =>
  (readU8 resourceData (u32 (u32 (framePosition + 0x0E) + 1))).bind fun w1 =>
  let width := u16 (w0 ||| (w1 <<< 8))
  .ret ⟨framePosition, width, height⟩

/-- The body of the inner loop of `extractFrameToBMP` for the pixel `x` of the row `y`:
the palette index is read at `indexedData[y * width + x]`, where `indexedData` is
`resourceData + framePosition + 0x10` and the index is an `int`; blue, green and
red are read from the palette and stored in `rowBuffer`. -/
def bmpPixel (resourceData palette : List Byte) (f : Frame) (y x : Nat)
    (rowBuffer : List Byte) : Dec (List Byte) :=
  (readAt resourceData ((f.position + 0x10 : Nat) + i32 (y * f.width + x))).bind fun index =>
  (readPalette palette (index * 3 + 2)).bind fun b =>
  (readPalette palette (index * 3 + 1)).bind fun g =>
  (readPalette palette (index * 3)).bind fun r =>
  .ok (((rowBuffer.set (x * 3) b).set (x * 3 + 1) g).set (x * 3 + 2) r)

/-- The loop `for (int x = ...; x < width; ++x)` of `extractFrameToBMP` on the row `y`;
the first argument is the number of pixels still to be visited, `width - x`. -/
def bmpRowLoop (resourceData palette : List Byte) (f : Frame) (y : Nat) :
    Nat → Nat → List Byte → Dec (List Byte)
  | 0, _, rowBuffer => .ok rowBuffer
  | k + 1, x, rowBuffer =>
    (bmpPixel resourceData palette f y x rowBuffer).bind fun rowBuffer =>
    bmpRowLoop resourceData palette f y k (x + 1) rowBuffer

/-- The loop `for (int y = height - 1; y >= 0; --y)` of `extractFrameToBMP`; the first
argument is `y + 1`. Each pass fills `rowBuffer`, which is kept from one row to the
next, and writes it; the result is the bytes written. -/
def bmpRows (resourceData palette : List Byte) (f : Frame) :
    Nat → List Byte → Dec (List Byte)
  | 0, _ => .ok []
  | y + 1, rowBuffer =>
    (bmpRowLoop resourceData palette f y f.width 0 rowBuffer).bind fun rowBuffer =>
    (bmpRows resourceData palette f y rowBuffer).bind fun rest =>
    .ok (rowBuffer ++ rest)

/-- The part of `extractFrameToBMP` that follows the reads of the frame header: the
sizes, the two headers and the pixel rows of the frame `f`. `paddedWidth` is
`(width * 3 + 3) & ~3` and `imageDataSize` is `paddedWidth * height`, both `int`;
`fileSize` is the `uint32_t` that receives
`sizeof(BMPHeader) + sizeof(DIBHeader) + imageDataSize`. -/
def bmpEncode (resourceData palette : List Byte) (f : Frame) : Dec (Option (List Byte)) :=
  let paddedWidth := (f.width * 3 + 3) &&& 0xFFFFFFFC
  let imageDataSize := paddedWidth * f.height
  let fileSize := u32 (14 + 40 + imageDataSize)
  (bmpRows resourceData palette f f.height (List.replicate paddedWidth 0)).bind fun rows =>
  .ok (some (bmpHeaders fileSize f.width f.height ++ rows))

/-- The function `extractFrameToBMP(resourceData, frameIndex, outputFilename, palette)`.
The result is `none` for `return false` and `some bytes` for `return true` with
`bytes` written to the file. -/
def extractFrameToBMP (resourceData : List Byte) (frameIndex : Nat) (palette : List Byte) :
    Dec (Option (List Byte)) :=
  (readFrameCount resourceData).toDec.bind fun frameCount =>
  if frameIndex ≥ frameCount then .ok none
  else
    (bmpFrameHeader resourceData frameCount frameIndex).toDec.bind fun f =>
    bmpEncode resourceData palette f

/-- The header reads of the first loop of `extractFramesToSpritesheet` for the frame
`i` (a `uint16_t`): `offsetPos`, `frameOffset`, `framePosition`, `height`, `width`. -/
def sheetFrameHeader (resourceData : List Byte) (offsetsArrayEnd i : Nat) : Run Frame :=
  let offsetPos := u32 (0x1C + i * 4)
  (readU8 resourceData offsetPos).bind fun o0 =>
  (readU8 resourceData (u32 (offsetPos + 1))).bind fun o1 =>
  (readU8 resourceData (u32 (offsetPos + 2))).bind fun o2 =>
  (readU8 resourceData (u32 (offsetPos + 3))).bind fun o3 =>
  let frameOffset := u32 (o0 ||| (o1 <<< 8) ||| (o2 <<< 16) ||| (o3 <<< 24))
  let framePosition := u32 (offsetsArrayEnd + frameOffset)
  (readU8 resourceData (u32 (framePosition + 0x0C))).bind fun h0 =>
  (readU8 resourceData (u32 (u32 (framePosition + 0x0C) + 1))).bind fun h1 =>
  let height := u16 (h0 ||| (h1 <<< 8))
  (readU8 resourceData (u32 (framePosition + 0x0E))).bind fun w0 =>
  (readU8 resourceData (u32 (u32 (framePosition + 0x0E) + 1))).bind fun w1 =>
  let width := u16 (w0 ||| (w1 <<< 8))
  .ret ⟨framePosition, width, height⟩

/-- The first loop of `extractFramesToSpritesheet`, `for (uint16_t i = ...; i < frameCount;
++i)`, which fills `framePositions`, `frameWidths` and `frameHeights`; the first
argument is the number of frames still to be read, `frameCount - i`. -/
def sheetFrames (resourceData : List Byte) (offsetsArrayEnd : Nat) :
    Nat → Nat → Run (List Frame)
  | 0, _ => .ret []
  | k + 1, i =>
    (sheetFrameHeader resourceData offsetsArrayEnd i).bind fun f =>
    (sheetFrames resourceData offsetsArrayEnd k (i + 1)).bind fun rest =>
    .ret (f :: rest)

/-- The accumulator `totalWidth` (a `uint32_t`) of the first loop. -/
def totalWidthOf (frames : List Frame) : Nat :=
  frames.foldl (fun t f => u32 (t + f.width)) 0

/-- The accumulator `maxHeight` (a `uint16_t`) of the first loop. -/
def maxHeightOf (frames : List Frame) : Nat :=
  frames.foldl (fun m f => max m f.height) 0

/-- The value `targetWidth`: `static_cast<uint32_t>(std::sqrt(totalWidth * maxHeight))`,
the product being a `uint32_t`. The square root of a 32-bit integer, rounded to
a `double` and truncated, is the integer square root. -/
def targetWidthOf (frames : List Frame) : Nat :=
  Nat.sqrt (u32 (totalWidthOf frames * maxHeightOf frames))

/-- The variables of the layout loop of `extractFramesToSpritesheet`, all `uint32_t`. -/
structure Cursor where
  currentX : Nat
  currentY : Nat
  rowHeight : Nat
  spritesheetWidth : Nat
  spritesheetHeight : Nat
  deriving DecidableEq, Repr

/-- The wrap test and wrap of the layout loop for a frame of width `width`. -/
def wrapRow (targetWidth : Nat) (c : Cursor) (width : Nat) : Cursor :=
  if u32 (c.currentX + width) > targetWidth ∧ c.currentX > 0 then
    { c with currentX := 0, currentY := u32 (c.currentY + c.rowHeight), rowHeight := 0 }
  else c

/-- One pass of the layout loop: the entry of `framePositionsInSheet` for the frame and
the variables after the pass. -/
def placeFrame (targetWidth : Nat) (c : Cursor) (f : Frame) : (Nat × Nat) × Cursor :=
  let c := wrapRow targetWidth c f.width
  let currentX := u32 (c.currentX + f.width)
  let rowHeight := max c.rowHeight f.height
  ((c.currentX, c.currentY),
    { currentX := currentX
      currentY := c.currentY
      rowHeight := rowHeight
      spritesheetWidth := max c.spritesheetWidth currentX
      spritesheetHeight := max c.spritesheetHeight (u32 (c.currentY + rowHeight)) })

/-- The layout loop of `extractFramesToSpritesheet` over the frames in index order:
`framePositionsInSheet` and the final variables. -/
def layoutLoop (targetWidth : Nat) : Cursor → List Frame → List (Nat × Nat) × Cursor
  | c, [] => ([], c)
  | c, f :: rest =>
    let (p, c1) := placeFrame targetWidth c f
    let (ps, c2) := layoutLoop targetWidth c1 rest
    (p :: ps, c2)

/-- The layout that `extractFramesToSpritesheet` computes for the frames it has read:
the placements, and the variables from which the canvas size is taken. -/
def sheetLayout (frames : List Frame) : List (Nat × Nat) × Cursor :=
  layoutLoop (targetWidthOf frames) ⟨0, 0, 0, 0, 0⟩ frames

/-- The assignment `pixelData[row][col] = v`. -/
def setCell (pixelData : List (List Byte)) (row col : Nat) (v : Byte) : List (List Byte) :=
  pixelData.set row ((pixelData.getD row []).set col v)

/-- The body of the innermost composition loop of `extractFramesToSpritesheet` for the
pixel `(x, y)` of a frame placed at `(frameX, frameY)`: the palette index is read,
and, under the guard of the source, blue, green and red are stored in `pixelData`. -/
def composePixel (resourceData palette : List Byte) (spritesheetWidth spritesheetHeight : Nat)
    (f : Frame) (frameX frameY y x : Nat) (pixelData : List (List Byte)) :
    Dec (List (List Byte)) :=
  (readAt resourceData ((f.position + 0x10 : Nat) + i32 (y * f.width + x))).bind fun index =>
  if u32 (frameY + y) < spritesheetHeight ∧ u32 (frameX + x) < spritesheetWidth then
    (readPalette palette (index * 3 + 2)).bind fun b =>
    (readPalette palette (index * 3 + 1)).bind fun g =>
    (readPalette palette (index * 3 + 0)).bind fun r =>
    .ok (setCell (setCell (setCell pixelData (u32 (frameY + y)) (u32 (u32 (frameX + x) * 3 + 0)) b)
      (u32 (frameY + y)) (u32 (u32 (frameX + x) * 3 + 1)) g)
      (u32 (frameY + y)) (u32 (u32 (frameX + x) * 3 + 2)) r)
  else .ok pixelData

/-- The loop `for (uint16_t x = ...; x < width; ++x)` of the composition; the first
argument is `width - x`. -/
def composeRow (resourceData palette : List Byte) (spritesheetWidth spritesheetHeight : Nat)
    (f : Frame) (frameX frameY y : Nat) : Nat → Nat → List (List Byte) → Dec (List (List Byte))
  | 0, _, pixelData => .ok pixelData
  | k + 1, x, pixelData =>
    (composePixel resourceData palette spritesheetWidth spritesheetHeight f frameX frameY y x
      pixelData).bind fun pixelData =>
    composeRow resourceData palette spritesheetWidth spritesheetHeight f frameX frameY y k
      (x + 1) pixelData

/-- The loop `for (uint16_t y = ...; y < height; ++y)` of the composition; the first
argument is `height - y`. -/
def composeFrame (resourceData palette : List Byte) (spritesheetWidth spritesheetHeight : Nat)
    (f : Frame) (frameX frameY : Nat) : Nat → Nat → List (List Byte) → Dec (List (List Byte))
  | 0, _, pixelData => .ok pixelData
  | k + 1, y, pixelData =>
    (composeRow resourceData palette spritesheetWidth spritesheetHeight f frameX frameY y
      f.width 0 pixelData).bind fun pixelData =>
    composeFrame resourceData palette spritesheetWidth spritesheetHeight f frameX frameY k
      (y + 1) pixelData

/-- The composition loop over the frames in index order, each with its entry of
`framePositionsInSheet`. -/
def composeFrames (resourceData palette : List Byte) (spritesheetWidth spritesheetHeight : Nat) :
    List (Frame × (Nat × Nat)) → List (List Byte) → Dec (List (List Byte))
  | [], pixelData => .ok pixelData
  | (f, (frameX, frameY)) :: rest, pixelData =>
    (composeFrame resourceData palette spritesheetWidth spritesheetHeight f frameX frameY
      f.height 0 pixelData).bind fun pixelData =>
    composeFrames resourceData palette spritesheetWidth spritesheetHeight rest pixelData

/-- The last loop of `extractFramesToSpritesheet`, `for (int y = spritesheetHeight - 1; y >= 0;
--y)`; the first argument is `y + 1`. Each pass copies the `pixelData[y].size()` bytes
of the row into the front of `rowBuffer` and writes `rowBuffer`. -/
def sheetRows (pixelData : List (List Byte)) : Nat → List Byte → List Byte
  | 0, _ => []
  | y + 1, rowBuffer =>
    let row := pixelData.getD y []
    let rowBuffer := row ++ rowBuffer.drop row.length
    rowBuffer ++ sheetRows pixelData y rowBuffer

/-- The part of `extractFramesToSpritesheet` that follows the first loop: layout, size
check, headers, composition and rows, for the frames read by the first loop. -/
def sheetEncode (resourceData palette : List Byte) (frames : List Frame) :
    Dec (Option (List Byte)) :=
  let layout := sheetLayout frames
  let spritesheetWidth := layout.2.spritesheetWidth
  let spritesheetHeight := layout.2.spritesheetHeight
  if spritesheetWidth > 8192 ∨ spritesheetHeight > 8192 then .ok none
  else
    let paddedWidth := u32 (u32 (spritesheetWidth * 3) + 3) &&& 0xFFFFFFFC
    let imageDataSize := u32 (paddedWidth * spritesheetHeight)
    let fileSize := u32 (14 + 40 + imageDataSize)
    let pixelData := List.replicate spritesheetHeight
      (List.replicate (u32 (spritesheetWidth * 3)) (255 : Byte))
    (composeFrames resourceData palette spritesheetWidth spritesheetHeight
      (frames.zip layout.1) pixelData).bind fun pixelData =>
    .ok (some (bmpHeaders fileSize spritesheetWidth spritesheetHeight ++
      sheetRows pixelData spritesheetHeight (List.replicate paddedWidth 0)))

/-- The function `extractFramesToSpritesheet(resourceData, outputFilename, palette)`. The
result is `none` for `return false` and `some bytes` for `return true` with `bytes`
written to the file. -/
def extractFramesToSpritesheet (resourceData palette : List Byte) : Dec (Option (List Byte)) :=
  (readFrameCount resourceData).toDec.bind fun frameCount =>
  if frameCount = 0 then .ok none
  else
    let offsetsArrayEnd := u32 (0x1C + frameCount * 4)
    (sheetFrames resourceData offsetsArrayEnd frameCount 0).toDec.bind fun frames =>
    sheetEncode resourceData palette frames

/-! ## Palette selection (`generateSanitariumPalette`, `filenameToPalette`, `main`) -/

/-- The table `paletteDataRes006[256][4]`: the 226 rows of its initialiser, in order; the
30 rows that the initialiser does not give are zero-initialised. -/
def paletteDataRes006 : List (List Byte) := [
  [0x00, 0x00, 0x00, 0xFF], [0xFC, 0xFC, 0xFC, 0xFF], [0xFC, 0xF4, 0xC4, 0xFF], [0xD4, 0xFC, 0xFC, 0xFF],
  [0xFC, 0xF4, 0x94, 0xFF], [0xE8, 0xE8, 0xE8, 0xFF], [0xE8, 0xE0, 0xFC, 0xFF], [0xFC, 0xF0, 0x1C, 0xFF],
  [0xFC, 0xF0, 0x18, 0xFF], [0xB8, 0xE0, 0xFC, 0xFF], [0xD4, 0xD4, 0xD4, 0xFF], [0xA8, 0xE4, 0xFC, 0xFF],
  [0xEC, 0xD0, 0xA0, 0xFF], [0xB8, 0xF0, 0x8C, 0xFF], [0xE4, 0xDC, 0x58, 0xFF], [0xD0, 0xD0, 0xD0, 0xFF],
  [0xB0, 0xE4, 0x84, 0xFF], [0xC4, 0xC4, 0xC4, 0xFF], [0xE0, 0xD0, 0x1C, 0xFF], [0xE8, 0xC8, 0x2C, 0xFF],
  [0xEC, 0xC8, 0x1C, 0xFF], [0xE4, 0xB8, 0x80, 0xFF], [0xC8, 0xB8, 0xB4, 0xFF], [0xA8, 0xD4, 0x74, 0xFF],
  [0xE0, 0xAC, 0x94, 0xFF], [0x9C, 0xD0, 0x70, 0xFF], [0xC4, 0xAC, 0xA4, 0xFF], [0xB8, 0xB8, 0xB8, 0xFF],
  [0x80, 0xBC, 0xFC, 0xFF], [0xC4, 0xA8, 0x9C, 0xFF], [0xC0, 0xBC, 0x34, 0xFF], [0xCC, 0x9C, 0x84, 0xFF],
  [0xD4, 0xAC, 0x1C, 0xFF], [0xDC, 0xA8, 0x28, 0xFF], [0xDC, 0xA4, 0x24, 0xFF], [0x8C, 0xC0, 0x64, 0xFF],
  [0xD8, 0xA4, 0x24, 0xFF], [0xB8, 0xA0, 0x98, 0xFF], [0xA4, 0xA4, 0xA4, 0xFF], [0xDC, 0x84, 0x6C, 0xFF],
  [0x64, 0xC4, 0x30, 0xFF], [0xC0, 0x90, 0x78, 0xFF], [0x80, 0xB4, 0x5C, 0xFF], [0xA8, 0x90, 0x88, 0xFF],
  [0xC8, 0x8C, 0x28, 0xFF], [0xA8, 0x8C, 0x9C, 0xFF], [0xC8, 0x88, 0x2C, 0xFF], [0xB4, 0x98, 0x34, 0xFF],
  [0xB0, 0x90, 0x44, 0xFF], [0x94, 0x94, 0x94, 0xFF], [0x94, 0x94, 0x80, 0xFF], [0x88, 0x84, 0xC4, 0xFF],
  [0xB0, 0x84, 0x68, 0xFF], [0xBC, 0x7C, 0x64, 0xFF], [0xB8, 0x70, 0x9C, 0xFF], [0x64, 0xAC, 0x34, 0xFF],
  [0xB4, 0x84, 0x24, 0xFF], [0x84, 0x80, 0xB8, 0xFF], [0x98, 0x7C, 0x90, 0xFF], [0x70, 0x9C, 0x40, 0xFF],
  [0x94, 0x80, 0x78, 0xFF], [0xBC, 0x74, 0x2C, 0xFF], [0x80, 0x80, 0x80, 0xFF], [0xA0, 0x74, 0x5C, 0xFF],
  [0xA8, 0x68, 0x88, 0xFF], [0x78, 0x78, 0xA8, 0xFF], [0xA0, 0x74, 0x38, 0xFF], [0xC0, 0x58, 0x40, 0xFF],
  [0x5C, 0x94, 0x34, 0xFF], [0x88, 0x6C, 0x80, 0xFF], [0x84, 0x70, 0x68, 0xFF], [0xA4, 0x68, 0x28, 0xFF],
  [0x70, 0x70, 0x9C, 0xFF], [0x68, 0x78, 0x74, 0xFF], [0x9C, 0x5C, 0x7C, 0xFF], [0xA8, 0x60, 0x2C, 0xFF],
  [0xA8, 0x60, 0x20, 0xFF], [0x94, 0x64, 0x50, 0xFF], [0x70, 0x70, 0x70, 0xFF], [0x5C, 0x80, 0x38, 0xFF],
  [0x8C, 0x5C, 0x6C, 0xFF], [0x80, 0x60, 0x74, 0xFF], [0x68, 0x64, 0x90, 0xFF], [0x9C, 0x60, 0x1C, 0xFF],
  [0x40, 0x8C, 0x1C, 0xFF], [0x84, 0x68, 0x20, 0xFF], [0x98, 0x58, 0x50, 0xFF], [0x84, 0x68, 0x20, 0xFF],
  [0x60, 0x70, 0x64, 0xFF], [0x74, 0x60, 0x58, 0xFF], [0x78, 0x5C, 0x64, 0xFF], [0x48, 0x7C, 0x24, 0xFF],
  [0xD4, 0x2C, 0x24, 0xFF], [0x90, 0x58, 0x18, 0xFF], [0x80, 0x58, 0x44, 0xFF], [0x88, 0x54, 0x34, 0xFF],
  [0x54, 0x68, 0x5C, 0xFF], [0x78, 0x60, 0x1C, 0xFF], [0x5C, 0x5C, 0x80, 0xFF], [0x98, 0x48, 0x2C, 0xFF],
  [0x5C, 0x5C, 0x80, 0xFF], [0x34, 0x80, 0x14, 0xFF], [0x74, 0x60, 0x0C, 0xFF], [0x5C, 0x5C, 0x5C, 0xFF],
  [0x58, 0x54, 0x94, 0xFF], [0x80, 0x4C, 0x64, 0xFF], [0x94, 0x44, 0x2C, 0xFF], [0x70, 0x58, 0x1C, 0xFF],
  [0x80, 0x54, 0x10, 0xFF], [0x70, 0x58, 0x1C, 0xFF], [0x64, 0x54, 0x50, 0xFF], [0x54, 0x54, 0x74, 0xFF],
  [0x84, 0x48, 0x24, 0xFF], [0x68, 0x4C, 0x60, 0xFF], [0xA8, 0x30, 0x24, 0xFF], [0x74, 0x4C, 0x3C, 0xFF],
  [0x50, 0x48, 0x9C, 0xFF], [0x78, 0x50, 0x10, 0xFF], [0x6C, 0x4C, 0x58, 0xFF], [0x5C, 0x54, 0x44, 0xFF],
  [0x84, 0x44, 0x2C, 0xFF], [0x4C, 0x58, 0x54, 0xFF], [0x70, 0x48, 0x54, 0xFF], [0x5C, 0x5C, 0x0C, 0xFF],
  [0x84, 0x3C, 0x2C, 0xFF], [0x30, 0x6C, 0x14, 0xFF], [0x68, 0x54, 0x0C, 0xFF], [0xAC, 0x28, 0x1C, 0xFF],
  [0x68, 0x4C, 0x18, 0xFF], [0xFC, 0x00, 0x00, 0xFF], [0x44, 0x54, 0x48, 0xFF], [0x6C, 0x4C, 0x0C, 0xFF],
  [0x4C, 0x48, 0x68, 0xFF], [0x74, 0x40, 0x2C, 0xFF], [0x54, 0x54, 0x08, 0xFF], [0x48, 0x48, 0x68, 0xFF],
  [0x68, 0x3C, 0x48, 0xFF], [0x58, 0x44, 0x50, 0xFF], [0x50, 0x48, 0x44, 0xFF], [0x5C, 0x48, 0x18, 0xFF],
  [0x44, 0x3C, 0x80, 0xFF], [0x60, 0x40, 0x28, 0xFF], [0x74, 0x34, 0x24, 0xFF], [0x28, 0x60, 0x10, 0xFF],
  [0x3C, 0x4C, 0x40, 0xFF], [0x78, 0x30, 0x14, 0xFF], [0x4C, 0x4C, 0x08, 0xFF], [0x5C, 0x40, 0x08, 0xFF],
  [0x60, 0x3C, 0x14, 0xFF], [0x54, 0x40, 0x14, 0xFF], [0x50, 0x3C, 0x38, 0xFF], [0x54, 0x40, 0x18, 0xFF],
  [0xD0, 0x00, 0x00, 0xFF], [0x40, 0x3C, 0x58, 0xFF], [0x58, 0x34, 0x40, 0xFF], [0x68, 0x30, 0x1C, 0xFF],
  [0x3C, 0x34, 0x70, 0xFF], [0x50, 0x40, 0x10, 0xFF], [0x34, 0x44, 0x38, 0xFF], [0x50, 0x3C, 0x04, 0xFF],
  [0x40, 0x44, 0x08, 0xFF], [0x4C, 0x38, 0x18, 0xFF], [0x50, 0x34, 0x10, 0xFF], [0x54, 0x2C, 0x34, 0xFF],
  [0x4C, 0x34, 0x18, 0xFF], [0x48, 0x38, 0x14, 0xFF], [0x48, 0x38, 0x04, 0xFF], [0x34, 0x30, 0x5C, 0xFF],
  [0x48, 0x30, 0x38, 0xFF], [0xAC, 0x00, 0x00, 0xFF], [0x30, 0x3C, 0x34, 0xFF], [0x3C, 0x3C, 0x08, 0xFF],
  [0x18, 0x48, 0x08, 0xFF], [0x44, 0x30, 0x14, 0xFF], [0x44, 0x30, 0x0C, 0xFF], [0x4C, 0x28, 0x0C, 0xFF],
  [0x44, 0x28, 0x2C, 0xFF], [0x38, 0x38, 0x04, 0xFF], [0x40, 0x28, 0x28, 0xFF], [0x3C, 0x30, 0x14, 0xFF],
  [0x28, 0x28, 0x4C, 0xFF], [0x24, 0x34, 0x2C, 0xFF], [0x38, 0x2C, 0x20, 0xFF], [0x38, 0x2C, 0x08, 0xFF],
  [0x80, 0x00, 0x00, 0xFF], [0x30, 0x30, 0x04, 0xFF], [0x24, 0x24, 0x44, 0xFF], [0x18, 0x38, 0x04, 0xFF],
  [0x34, 0x24, 0x08, 0xFF], [0x74, 0x00, 0x00, 0xFF], [0x1C, 0x2C, 0x24, 0xFF], [0x38, 0x1C, 0x20, 0xFF],
  [0x34, 0x20, 0x08, 0xFF], [0x6C, 0x00, 0x00, 0xFF], [0x68, 0x00, 0x00, 0xFF], [0x28, 0x28, 0x04, 0xFF],
  [0x60, 0x00, 0x00, 0xFF], [0x1C, 0x1C, 0x34, 0xFF], [0x58, 0x00, 0x00, 0xFF], [0x28, 0x20, 0x04, 0xFF],
  [0x2C, 0x18, 0x14, 0xFF], [0x14, 0x24, 0x18, 0xFF], [0x0C, 0x28, 0x00, 0xFF], [0x28, 0x18, 0x18, 0xFF],
  [0x50, 0x00, 0x00, 0xFF], [0x1C, 0x20, 0x00, 0xFF], [0x48, 0x00, 0x00, 0xFF], [0x44, 0x00, 0x00, 0xFF],
  [0x18, 0x1C, 0x10, 0xFF], [0x44, 0x00, 0x00, 0xFF], [0x1C, 0x18, 0x00, 0xFF], [0x04, 0x20, 0x00, 0xFF],
  [0x40, 0x00, 0x00, 0xFF], [0x14, 0x10, 0x28, 0xFF], [0x20, 0x10, 0x10, 0xFF], [0x38, 0x00, 0x00, 0xFF],
  [0x38, 0x00, 0x00, 0xFF], [0x18, 0x14, 0x14, 0xFF], [0x30, 0x00, 0x00, 0xFF], [0x08, 0x18, 0x00, 0xFF],
  [0x14, 0x14, 0x00, 0xFF], [0x0C, 0x0C, 0x1C, 0xFF], [0x28, 0x00, 0x00, 0xFF], [0x08, 0x10, 0x08, 0xFF],
  [0x10, 0x08, 0x08, 0xFF], [0x0C, 0x0C, 0x00, 0xFF]] ++ List.replicate 30 [0, 0, 0, 0]

/-- The table `paletteDataRes007[256][4]`: the 256 rows of its initialiser, in order. -/
def paletteDataRes007 : List (List Byte) := [
  [0x00, 0x00, 0x00, 0xFF], [0xFC, 0xFC, 0xF4, 0xFF], [0xFC, 0xF4, 0xF4, 0xFF], [0xF4, 0xF4, 0xF4, 0xFF],
  [0xF4, 0xF4, 0xEC, 0xFF], [0xF4, 0xEC, 0xEC, 0xFF], [0xF4, 0xEC, 0xE4, 0xFF], [0xEC, 0xEC, 0xE4, 0xFF],
  [0xEC, 0xEC, 0xDC, 0xFF], [0xEC, 0xE4, 0xDC, 0xFF], [0xEC, 0xE4, 0xD4, 0xFF], [0xE4, 0xE4, 0xD4, 0xFF],
  [0xE4, 0xDC, 0xD4, 0xFF], [0xE4, 0xDC, 0xCC, 0xFF], [0xE4, 0xD4, 0xCC, 0xFF], [0xE4, 0xD4, 0xC4, 0xFF],
  [0xDC, 0xD4, 0xC4, 0xFF], [0xDC, 0xD4, 0xBC, 0xFF], [0xDC, 0xCC, 0xBC, 0xFF], [0xDC, 0xCC, 0xB4, 0xFF],
  [0xD4, 0xCC, 0xBC, 0xFF], [0xD4, 0xCC, 0xB4, 0xFF], [0xD4, 0xC4, 0xB4, 0xFF], [0xD4, 0xC4, 0xAC, 0xFF],
  [0xD4, 0xC4, 0xA4, 0xFF], [0xCC, 0xC4, 0xAC, 0xFF], [0xCC, 0xBC, 0xA4, 0xFF], [0xD4, 0xBC, 0x8C, 0xFF],
  [0xCC, 0xBC, 0x9C, 0xFF], [0xC4, 0xBC, 0x9C, 0xFF], [0xD4, 0xB4, 0x8C, 0xFF], [0xCC, 0xB4, 0x9C, 0xFF],
  [0xD4, 0xB4, 0x84, 0xFF], [0xCC, 0xB4, 0x94, 0xFF], [0xD4, 0xB4, 0x78, 0xFF], [0xCC, 0xB4, 0x8C, 0xFF],
  [0xC4, 0xB4, 0x9C, 0xFF], [0xCC, 0xB4, 0x84, 0xFF], [0xC4, 0xB4, 0x94, 0xFF], [0xCC, 0xB4, 0x78, 0xFF],
  [0xC4, 0xB4, 0x8C, 0xFF], [0xC4, 0xB4, 0x84, 0xFF], [0xC0, 0xB8, 0xA0, 0xFF], [0xC0, 0xB8, 0x98, 0xFF],
  [0xCC, 0xAC, 0x84, 0xFF], [0xC4, 0xAC, 0x94, 0xFF], [0xCC, 0xAC, 0x78, 0xFF], [0xC4, 0xAC, 0x8C, 0xFF],
  [0xCC, 0xAC, 0x70, 0xFF], [0xC4, 0xAC, 0x84, 0xFF], [0xC0, 0xB0, 0x98, 0xFF], [0xC4, 0xAC, 0x78, 0xFF],
  [0xC0, 0xB0, 0x90, 0xFF], [0xC4, 0xAC, 0x70, 0xFF], [0xC0, 0xB0, 0x88, 0xFF], [0xC0, 0xB0, 0x7C, 0xFF],
  [0xB8, 0xB0, 0x90, 0xFF], [0xC4, 0xA4, 0x78, 0xFF], [0xC0, 0xA8, 0x90, 0xFF], [0xC4, 0xA4, 0x70, 0xFF],
  [0xC0, 0xA8, 0x88, 0xFF], [0xC4, 0xA4, 0x68, 0xFF], [0xC0, 0xA8, 0x7C, 0xFF], [0xB8, 0xA8, 0x90, 0xFF],
  [0xC0, 0xA8, 0x74, 0xFF], [0xB8, 0xA8, 0x88, 0xFF], [0xC0, 0xA8, 0x6C, 0xFF], [0xB8, 0xA8, 0x7C, 0xFF],
  [0xB8, 0xA8, 0x74, 0xFF], [0xB0, 0xA8, 0x88, 0xFF], [0xC0, 0xA0, 0x74, 0xFF], [0xC0, 0xA0, 0x6C, 0xFF],
  [0xB8, 0xA0, 0x7C, 0xFF], [0xC0, 0xA0, 0x64, 0xFF], [0xB0, 0xA0, 0x90, 0xFF], [0xB8, 0xA0, 0x74, 0xFF],
  [0xB0, 0xA0, 0x88, 0xFF], [0xB8, 0xA0, 0x6C, 0xFF], [0xB0, 0xA0, 0x7C, 0xFF], [0xB8, 0xA0, 0x64, 0xFF],
  [0xB0, 0xA0, 0x74, 0xFF], [0xA8, 0xA0, 0x88, 0xFF], [0xB0, 0xA0, 0x6C, 0xFF], [0xB8, 0x98, 0x6C, 0xFF],
  [0xB8, 0x98, 0x64, 0xFF], [0xB0, 0x98, 0x74, 0xFF], [0xB0, 0x98, 0x6C, 0xFF], [0xA8, 0x98, 0x7C, 0xFF],
  [0xB0, 0x98, 0x64, 0xFF], [0xA8, 0x98, 0x74, 0xFF], [0xA8, 0x98, 0x6C, 0xFF], [0xA8, 0x98, 0x64, 0xFF],
  [0xA0, 0x98, 0x7C, 0xFF], [0xB0, 0x90, 0x64, 0xFF], [0xB0, 0x90, 0x5C, 0xFF], [0xA8, 0x90, 0x6C, 0xFF],
  [0xA8, 0x90, 0x64, 0xFF], [0xA0, 0x90, 0x74, 0xFF], [0xA8, 0x90, 0x5C, 0xFF], [0xA0, 0x90, 0x6C, 0xFF],
  [0xA8, 0x90, 0x50, 0xFF], [0xA0, 0x90, 0x64, 0xFF], [0xA0, 0x90, 0x5C, 0xFF], [0xA8, 0x88, 0x5C, 0xFF],
  [0xA8, 0x88, 0x50, 0xFF], [0xA0, 0x88, 0x64, 0xFF], [0x98, 0x88, 0x74, 0xFF], [0xA0, 0x88, 0x5C, 0xFF],
  [0x98, 0x88, 0x6C, 0xFF], [0xA0, 0x88, 0x54, 0xFF], [0x98, 0x88, 0x64, 0xFF], [0x98, 0x88, 0x5C, 0xFF],
  [0x90, 0x88, 0x6C, 0xFF], [0x98, 0x88, 0x54, 0xFF], [0x90, 0x88, 0x64, 0xFF], [0xA0, 0x7C, 0x54, 0xFF],
  [0x98, 0x7C, 0x64, 0xFF], [0x98, 0x7C, 0x5C, 0xFF], [0x98, 0x7C, 0x54, 0xFF], [0x90, 0x7C, 0x64, 0xFF],
  [0x98, 0x7C, 0x48, 0xFF], [0x90, 0x7C, 0x5C, 0xFF], [0x90, 0x7C, 0x54, 0xFF], [0x90, 0x7C, 0x4C, 0xFF],
  [0x88, 0x7C, 0x5C, 0xFF], [0x98, 0x74, 0x48, 0xFF], [0x90, 0x74, 0x5C, 0xFF], [0x90, 0x74, 0x54, 0xFF],
  [0x90, 0x74, 0x4C, 0xFF], [0x88, 0x74, 0x5C, 0xFF], [0x88, 0x74, 0x54, 0xFF], [0x7C, 0x74, 0x64, 0xFF],
  [0x88, 0x74, 0x4C, 0xFF], [0x7C, 0x74, 0x54, 0xFF], [0x88, 0x6C, 0x54, 0xFF], [0x88, 0x6C, 0x4C, 0xFF],
  [0x88, 0x6C, 0x40, 0xFF], [0x7C, 0x6C, 0x5C, 0xFF], [0x7C, 0x6C, 0x54, 0xFF], [0x7C, 0x6C, 0x4C, 0xFF],
  [0x7C, 0x6C, 0x44, 0xFF], [0x74, 0x6C, 0x54, 0xFF], [0x74, 0x6C, 0x4C, 0xFF], [0x7C, 0x64, 0x4C, 0xFF],
  [0x7C, 0x64, 0x44, 0xFF], [0x74, 0x64, 0x4C, 0xFF], [0x74, 0x64, 0x44, 0xFF], [0x6C, 0x64, 0x54, 0xFF],
  [0x74, 0x64, 0x3C, 0xFF], [0x6C, 0x64, 0x4C, 0xFF], [0x6C, 0x64, 0x44, 0xFF], [0x74, 0x5C, 0x44, 0xFF],
  [0x74, 0x5C, 0x3C, 0xFF], [0x6C, 0x5C, 0x4C, 0xFF], [0x6C, 0x5C, 0x44, 0xFF], [0x6C, 0x5C, 0x3C, 0xFF],
  [0x64, 0x5C, 0x44, 0xFF], [0x64, 0x5C, 0x3C, 0xFF], [0x6C, 0x54, 0x3C, 0xFF], [0x6C, 0x54, 0x30, 0xFF],
  [0x64, 0x54, 0x44, 0xFF], [0x64, 0x54, 0x3C, 0xFF], [0x5C, 0x54, 0x4C, 0xFF], [0x64, 0x54, 0x34, 0xFF],
  [0x5C, 0x54, 0x44, 0xFF], [0x5C, 0x54, 0x3C, 0xFF], [0x5C, 0x54, 0x34, 0xFF], [0x64, 0x4C, 0x34, 0xFF],
  [0x5C, 0x4C, 0x3C, 0xFF], [0x5C, 0x4C, 0x34, 0xFF], [0x54, 0x4C, 0x44, 0xFF], [0x5C, 0x4C, 0x28, 0xFF],
  [0x54, 0x4C, 0x3C, 0xFF], [0x54, 0x4C, 0x34, 0xFF], [0x54, 0x4C, 0x2C, 0xFF], [0x4C, 0x4C, 0x3C, 0xFF],
  [0x54, 0x44, 0x34, 0xFF], [0x54, 0x44, 0x2C, 0xFF], [0x4C, 0x44, 0x3C, 0xFF], [0x4C, 0x44, 0x34, 0xFF],
  [0x4C, 0x44, 0x2C, 0xFF], [0x44, 0x44, 0x3C, 0xFF], [0x44, 0x44, 0x2C, 0xFF], [0x4C, 0x3C, 0x34, 0xFF],
  [0x4C, 0x3C, 0x2C, 0xFF], [0x4C, 0x3C, 0x20, 0xFF], [0x44, 0x3C, 0x34, 0xFF], [0x44, 0x3C, 0x2C, 0xFF],
  [0x44, 0x3C, 0x24, 0xFF], [0x40, 0x40, 0x38, 0xFF], [0x40, 0x40, 0x2C, 0xFF], [0x40, 0x40, 0x24, 0xFF],
  [0x44, 0x34, 0x2C, 0xFF], [0x44, 0x34, 0x24, 0xFF], [0x40, 0x38, 0x2C, 0xFF], [0x40, 0x38, 0x24, 0xFF],
  [0x40, 0x38, 0x1C, 0xFF], [0x38, 0x38, 0x30, 0xFF], [0x38, 0x38, 0x24, 0xFF], [0x38, 0x38, 0x1C, 0xFF],
  [0x40, 0x2C, 0x24, 0xFF], [0x40, 0x2C, 0x1C, 0xFF], [0x38, 0x30, 0x30, 0xFF], [0x38, 0x30, 0x24, 0xFF],
  [0x38, 0x30, 0x1C, 0xFF], [0x30, 0x30, 0x28, 0xFF], [0x30, 0x30, 0x1C, 0xFF], [0x38, 0x24, 0x1C, 0xFF],
  [0x30, 0x28, 0x28, 0xFF], [0x30, 0x28, 0x1C, 0xFF], [0x30, 0x28, 0x14, 0xFF], [0x28, 0x28, 0x28, 0xFF],
  [0x28, 0x28, 0x20, 0xFF], [0x28, 0x28, 0x14, 0xFF], [0x28, 0x20, 0x20, 0xFF], [0x28, 0x20, 0x14, 0xFF],
  [0x20, 0x20, 0x20, 0xFF], [0x20, 0x20, 0x14, 0xFF], [0x20, 0x20, 0x0C, 0xFF], [0x20, 0x14, 0x14, 0xFF],
  [0x20, 0x14, 0x0C, 0xFF], [0x18, 0x18, 0x18, 0xFF], [0x18, 0x18, 0x0C, 0xFF], [0x18, 0x00, 0x0C, 0xFF],
  [0xFC, 0xFC, 0xFC, 0xFF], [0x10, 0x10, 0x10, 0xFF], [0x10, 0x10, 0x00, 0xFF], [0x10, 0x00, 0x00, 0xFF],
  [0x00, 0x00, 0x00, 0xFF], [0x00, 0x00, 0x00, 0xFF], [0x00, 0x00, 0x00, 0xFF], [0x00, 0x00, 0x00, 0xFF],
  [0x00, 0x00, 0x00, 0xFF], [0x00, 0x00, 0x00, 0xFF], [0x00, 0x00, 0x00, 0xFF], [0x00, 0x00, 0x00, 0xFF],
  [0x00, 0x00, 0x00, 0xFF], [0x00, 0x00, 0x00, 0xFF], [0x00, 0x00, 0x00, 0xFF], [0x00, 0x00, 0x00, 0xFF],
  [0x00, 0x00, 0x00, 0xFF], [0x00, 0x00, 0x00, 0xFF], [0x00, 0x00, 0x00, 0xFF], [0x00, 0x00, 0x00, 0xFF],
  [0x00, 0x00, 0x00, 0xFF], [0x00, 0x00, 0x00, 0xFF], [0x00, 0x00, 0x00, 0xFF], [0x00, 0x00, 0x00, 0xFF],
  [0x00, 0x00, 0x00, 0xFF], [0x00, 0x00, 0x00, 0xFF], [0x00, 0x00, 0x00, 0xFF], [0x00, 0x00, 0x00, 0xFF],
  [0x00, 0x00, 0x00, 0xFF], [0x00, 0x00, 0x00, 0xFF], [0x00, 0x00, 0x00, 0xFF], [0x00, 0x00, 0xFC, 0xFF]]

/-- The function `generateSanitariumPalette(paletteData)`: a vector of `256 * 3` zero bytes,
in which the loop `for (int i = 0; i < 256; i++)` stores red, green and blue of
the row `i` at `i * 3`, `i * 3 + 1`, `i * 3 + 2`. -/
def generateSanitariumPalette (paletteData : List (List Byte)) : List Byte :=
  (List.range 256).foldl (fun palette i =>
    ((palette.set (i * 3) ((paletteData.getD i []).getD 0 0)).set (i * 3 + 1)
      ((paletteData.getD i []).getD 1 0)).set (i * 3 + 2) ((paletteData.getD i []).getD 2 0))
    (List.replicate (256 * 3) 0)

/-- The global map `filenameToPalette`, as its four entries. -/
def filenameToPalette : List (String × List Byte) :=
  [("RES.006", generateSanitariumPalette paletteDataRes006),
   ("RES.007", generateSanitariumPalette paletteDataRes007),
   ("RES.008", generateSanitariumPalette paletteDataRes006),
   ("RES.009", generateSanitariumPalette paletteDataRes006)]

/-- The argument `palette` of the call `extractFiles(filename, selectedFormat, ..., palette)`
in one pass of the loop of `main`, for the line `filename` read at the start of
the pass; `none` when the line is `EXIT` and the loop is left without a call.

The variables named `palette` that are in scope are kept as a list, innermost
first. `main` declares one before the loop. The first branch of the `if`
statement is a block whose first statement,
`std::vector<uint8_t> palette = it->second;`, declares another one; at the end
of the block the variables declared in it leave the scope. No statement of `main`
assigns to a variable `palette`, so every pass starts with the same scope. -/
def mainPalette (filename : String) : Option (List Byte) :=
  let scope : List (List Byte) := [generateSanitariumPalette paletteDataRes007]
  if filename = "EXIT" then none
  else
    let blockScope :=
      match filenameToPalette.lookup filename with
      | some found => found :: scope
      | none => scope
    let scope := blockScope.drop (blockScope.length - scope.length)
    scope.head?

/-! ## The format table (`headers/FileFormats.h`) -/

/-- The field `header_bytes` of the entry `WAV` of `kFileFormats`, the text
`52 49 46 46 xx xx xx xx 57 41 56 45 66 6D 74 20`: one item per byte, `none` for `xx`. -/
def kFileFormatsWavHeaderBytes : List (Option Byte) :=
  [some 0x52, some 0x49, some 0x46, some 0x46, none, none, none, none,
   some 0x57, some 0x41, some 0x56, some 0x45, some 0x66, some 0x6D, some 0x74, some 0x20]

/-! ## The loop body of `extractFiles` with frame decoding -/

/-- What the `D3GR` branch of the loop body writes for one resource: the result of each
call of `extractFrameToBMP`, in index order, and the result of the call of
`extractFramesToSpritesheet` when it is made. -/
structure Decoded where
  frames : List (Option (List Byte))
  spritesheet : Option (Option (List Byte))
  deriving DecidableEq, Repr

/-- The loop `for (uint16_t i = ...; i < d3grFrameCount; ++i)` around
`extractFrameToBMP(&fileBuffer[fileStart], i, framePath, palette)`; the first argument
is the number of frames still to be decoded, `d3grFrameCount - i`. -/
def extractEachFrame (resourceData palette : List Byte) :
    Nat → Nat → Dec (List (Option (List Byte)))
  | 0, _ => .ok []
  | k + 1, i =>
    (extractFrameToBMP resourceData i palette).bind fun written =>
    (extractEachFrame resourceData palette k (i + 1)).bind fun rest =>
    .ok (written :: rest)

/-- The `D3GR` branch of the loop body of `extractFiles`, `if (format == FileFormat::D3GR)
{ ... }`, for the resource at `resourceData = &fileBuffer[fileStart]`: the frame count
is read, then the frames are decoded one by one if `extractIndividualFrames`, then
the sheet is made if `extractSpritesheet`. The decoders receive the pointer only:
they may read every byte of the file buffer from `fileStart` on. -/
def decodeResource (resourceData palette : List Byte)
    (extractIndividualFrames extractSpritesheet : Bool) : Dec Decoded :=
  (readFrameCount resourceData).toDec.bind fun d3grFrameCount =>
  (if extractIndividualFrames then extractEachFrame resourceData palette d3grFrameCount 0
    else .ok []).bind fun frames =>
  (if extractSpritesheet then
      (extractFramesToSpritesheet resourceData palette).bind fun written => .ok (some written)
    else .ok none).bind fun spritesheet =>
  .ok ⟨frames, spritesheet⟩

/-- What one pass through the whole body of the `while` loop of `extractFiles` does. -/
inductive Pass where
  | stop
  | fault (i : Nat)
  | resourceFault (s : Span) (i : Int)
  | paletteFault (s : Span) (i : Nat)
  | complete (s : Span) (decoded : Decoded) (next : Nat)
  deriving DecidableEq, Repr

/-- One evaluation of the loop condition and of the whole body of the `while` loop of
`extractFiles`, from the scan position `position`: the part modelled by `carveStep`,
then, for the format `D3GR`, the frame decoding of the resource just written, then
`position = fileStart + fileSize`. `resourceFault s i` and `paletteFault s i` stand for
a pass that has written the resource `s` and then reads `fileBuffer[i]` outside the
buffer, or `palette[i]` outside the palette, while decoding it; `complete s decoded
next` is a pass that reaches the assignment of `position`. -/
def loopPass (format : FileFormat) (fileBuffer palette : List Byte)
    (extractIndividualFrames extractSpritesheet : Bool) (position : Nat) : Pass :=
  match carveStep format fileBuffer position with
  | .stop => .stop
  | .fault i => .fault i
  | .emit s next =>
    match format with
    | .WAV => .complete s ⟨[], none⟩ next
    | .D3GR =>
      match decodeResource (fileBuffer.drop s.offset) palette extractIndividualFrames
          extractSpritesheet with
      | .ok decoded => .complete s decoded next
      | .badResourceRead i => .resourceFault s (s.offset + i)
      | .badPaletteRead i => .paletteFault s i

/-- How a run of the whole loop ends. -/
inductive Ending where
  | finished
  | fault (i : Nat)
  | resourceFault (i : Int)
  | paletteFault (i : Nat)
  | outOfFuel
  deriving DecidableEq, Repr

/-- The resources written by a run of the whole loop, in the order written, what was
decoded from the resources whose pass was completed, and the way the run ended. -/
structure Extraction where
  spans : List Span
  decoded : List Decoded
  ending : Ending
  deriving DecidableEq, Repr

/-- The `while` loop of `extractFiles` with the whole body, run for at most `fuel` passes
from the scan position `position`. -/
def passLoop (format : FileFormat) (fileBuffer palette : List Byte)
    (extractIndividualFrames extractSpritesheet : Bool) : Nat → Nat → Extraction
  | 0, _ => ⟨[], [], .outOfFuel⟩
  | fuel + 1, position =>
    match loopPass format fileBuffer palette extractIndividualFrames extractSpritesheet
        position with
    | .stop => ⟨[], [], .finished⟩
    | .fault i => ⟨[], [], .fault i⟩
    | .resourceFault s i => ⟨[s], [], .resourceFault i⟩
    | .paletteFault s i => ⟨[s], [], .paletteFault i⟩
    | .complete s decoded next =>
      let r := passLoop format fileBuffer palette extractIndividualFrames extractSpritesheet
        fuel next
      ⟨s :: r.spans, decoded :: r.decoded, r.ending⟩

/-- The function `extractFiles(filename, format, extractIndividualFrames, extractSpritesheet,
palette)` on the contents `fileBuffer` of the file, with the whole loop body: the
early `return false` for an empty file, then the loop from `position = 0`. -/
def extractFilesDecoding (fuel : Nat) (format : FileFormat) (fileBuffer palette : List Byte)
    (extractIndividualFrames extractSpritesheet : Bool) : Extraction :=
  if fileBuffer.isEmpty then ⟨[], [], .finished⟩
  else passLoop format fileBuffer palette extractIndividualFrames extractSpritesheet fuel 0

/-! ## Claim-side vocabulary -/

/-- The bytes of `pattern` stand in `buffer` at the offsets it names, counted from `i`. -/
def PatAt (pattern : List (Nat × Byte)) (buffer : List Byte) (i : Nat) : Prop :=
  ∀ p ∈ pattern, buffer[i + p.1]? = some p.2

/-- The audio signature matches at `i`: `RIFF` at `i .. i+3`, `WAVE` at `i+8 .. i+11`,
bytes `i+4 .. i+7` free, the twelve bytes inside the buffer. -/
def WavAt (buffer : List Byte) (i : Nat) : Prop :=
  i + 12 ≤ buffer.length ∧
  buffer[i]? = some 0x52 ∧ buffer[i + 1]? = some 0x49 ∧
  buffer[i + 2]? = some 0x46 ∧ buffer[i + 3]? = some 0x46 ∧
  buffer[i + 8]? = some 0x57 ∧ buffer[i + 9]? = some 0x41 ∧
  buffer[i + 10]? = some 0x56 ∧ buffer[i + 11]? = some 0x45

/-- The graphic signature matches at `i`: `D3GR` at `i .. i+3`, inside the buffer. -/
def GrAt (buffer : List Byte) (i : Nat) : Prop :=
  i + 4 ≤ buffer.length ∧
  buffer[i]? = some 0x44 ∧ buffer[i + 1]? = some 0x33 ∧
  buffer[i + 2]? = some 0x47 ∧ buffer[i + 3]? = some 0x52

/-- The conjuncts tested by the scanner of a format. -/
def patternOf : FileFormat → List (Nat × Byte)
  | .WAV => wavPattern
  | .D3GR => d3grPattern

/-- The number of bytes spanned by the signature of a format. -/
def patternLength : FileFormat → Nat
  | .WAV => 12
  | .D3GR => 4

/-- The signature of `format` matches at `i`. -/
def SigAt (format : FileFormat) (buffer : List Byte) (i : Nat) : Prop :=
  match format with
  | .WAV => WavAt buffer i
  | .D3GR => GrAt buffer i

/-- The index `r` is the first match of the signature at or after `lo`. -/
def FirstMatchFrom (format : FileFormat) (buffer : List Byte) (lo r : Nat) : Prop :=
  lo ≤ r ∧ SigAt format buffer r ∧ ∀ j, lo ≤ j → j < r → ¬ SigAt format buffer j

instance (buffer : List Byte) (i : Nat) : Decidable (WavAt buffer i) := by
  unfold WavAt; infer_instance

instance (buffer : List Byte) (i : Nat) : Decidable (GrAt buffer i) := by
  unfold GrAt; infer_instance

/-- The little-endian 32-bit integer stored in the four bytes of `data` from `off` on. -/
def le32At (data : List Byte) (off : Nat) : Nat :=
  (data.getD off 0).val + 256 * (data.getD (off + 1) 0).val +
    65536 * (data.getD (off + 2) 0).val + 16777216 * (data.getD (off + 3) 0).val

/-- The little-endian 16-bit integer stored in the two bytes of `data` from `off` on. -/
def le16At (data : List Byte) (off : Nat) : Nat :=
  (data.getD off 0).val + 256 * (data.getD (off + 1) 0).val

/-- The frame count of a graphic resource: the 16-bit field at `0x18`. -/
def frameCountOf (data : List Byte) : Nat := le16At data 0x18

/-- The position of the frame `i` of a graphic resource: the end of the offset table,
`0x1C + 4n`, plus the 32-bit table entry at `0x1C + 4i`. -/
def framePositionOf (data : List Byte) (i : Nat) : Nat :=
  0x1C + 4 * frameCountOf data + le32At data (0x1C + 4 * i)

/-- The width of the frame `i`: the 16-bit field at `position + 0x0E`. -/
def frameWidthOf (data : List Byte) (i : Nat) : Nat :=
  le16At data (framePositionOf data i + 0x0E)

/-- The height of the frame `i`: the 16-bit field at `position + 0x0C`. -/
def frameHeightOf (data : List Byte) (i : Nat) : Nat :=
  le16At data (framePositionOf data i + 0x0C)

/-- The descriptor of the frame `i` of a graphic resource, as the format defines it. -/
def frameOf (data : List Byte) (i : Nat) : Frame :=
  ⟨framePositionOf data i, frameWidthOf data i, frameHeightOf data i⟩

/-- Every faulting read of the computation `r` is at an index that is not inside `data`. -/
def FaultsOutside {α : Type} (data : List Byte) (r : Run α) : Prop :=
  ∀ k, r = .outOfBounds k → data.length ≤ k

/-- A frame placed on the canvas: top-left corner `(x, y)`, width `w`, height `h`. -/
structure Placed where
  x : Nat
  y : Nat
  w : Nat
  h : Nat
  deriving DecidableEq, Repr

/-- The frames with the placements computed for them, in index order. -/
def placedFrames (frames : List Frame) (placements : List (Nat × Nat)) : List Placed :=
  List.zipWith (fun f p => ⟨p.1, p.2, f.width, f.height⟩) frames placements

/-- The rectangles `[x, x + w) × [y, y + h)` of two placed frames share no pixel. -/
def Placed.Disjoint (a b : Placed) : Prop :=
  ∀ px py, ¬ ((a.x ≤ px ∧ px < a.x + a.w ∧ a.y ≤ py ∧ py < a.y + a.h) ∧
    (b.x ≤ px ∧ px < b.x + b.w ∧ b.y ≤ py ∧ py < b.y + b.h))

/-- The rectangle of `a` ends at or before the left edge of `b`, or at or above its
top edge. -/
def Placed.Before (a b : Placed) : Prop :=
  a.x + a.w ≤ b.x ∨ a.y + a.h ≤ b.y

/-- The placed frame `q` lies in the current row at or right of the cursor, or in a
row below the current one. -/
def Placed.Beyond (c : Cursor) (q : Placed) : Prop :=
  (q.y = c.currentY ∧ c.currentX ≤ q.x) ∨ c.currentY + c.rowHeight ≤ q.y

/-- The palette index stored for the pixel in column `x` of row `y` of the frame `f`: the
byte at `position + 0x10 + y * width + x`. -/
def pixelIndexAt (data : List Byte) (f : Frame) (y x : Nat) : Nat :=
  (data.getD (f.position + 0x10 + y * f.width + x) 0).val

/-- The least multiple of 4 that is at least `3 * w`. -/
def paddedRowBytes (w : Nat) : Nat := (3 * w + 3) / 4 * 4

/-- The 54 header bytes at the start of `bytes` decode, in little-endian, to the
fields of a bitmap of `width` by `height` pixels: `'B'`, `'M'`, a 32-bit file
size, two 16-bit zeros, the pixel-data offset 54, the header size 40, `width`,
`height`, 1 plane, 24 bits per pixel, compression 0, image size 0, both
resolutions 0, 256 colours used, 0 important colours. -/
def HeaderFields (bytes : List Byte) (width height : Nat) : Prop :=
  54 ≤ bytes.length ∧
  bytes[0]? = some 0x42 ∧ bytes[1]? = some 0x4D ∧
  le16At bytes 6 = 0 ∧ le16At bytes 8 = 0 ∧ le32At bytes 10 = 54 ∧
  le32At bytes 14 = 40 ∧ le32At bytes 18 = width ∧ le32At bytes 22 = height ∧
  le16At bytes 26 = 1 ∧ le16At bytes 28 = 24 ∧ le32At bytes 30 = 0 ∧
  le32At bytes 34 = 0 ∧ le32At bytes 38 = 0 ∧ le32At bytes 42 = 0 ∧
  le32At bytes 46 = 256 ∧ le32At bytes 50 = 0

/-- The computation `r` does not end with a read outside the palette. -/
def NoPaletteFault {α : Type} (r : Dec α) : Prop := ∀ j, r ≠ .badPaletteRead j

/-- The sum of the widths of the frames. -/
def sumWidths (frames : List Frame) : Nat := (frames.map Frame.width).sum

/-- The sum of the widths of the frames before the frame `i`. -/
def widthsBefore (frames : List Frame) (i : Nat) : Nat := sumWidths (frames.take i)

/-- The greatest height of the frames, 0 for no frame. -/
def maxHeights (frames : List Frame) : Nat := (frames.map Frame.height).foldr max 0

/-- The byte of the canvas `pixelData` in the row `r` at the byte column `j`. -/
def cellAt (pixelData : List (List Byte)) (r j : Nat) : Byte :=
  (pixelData.getD r []).getD j 0

/-- The canvas `pixelData` has `rows` rows of `cols` bytes each. -/
def IsCanvas (pixelData : List (List Byte)) (rows cols : Nat) : Prop :=
  pixelData.length = rows ∧ ∀ row ∈ pixelData, row.length = cols

/-- The byte column `j` of the canvas row `r` belongs to a pixel of the frame `f` placed
at `(frameX, frameY)`: the pixel `((j - 3 frameX) / 3, r - frameY)` of the frame. -/
def Covers (f : Frame) (frameX frameY r j : Nat) : Prop :=
  frameY ≤ r ∧ r < frameY + f.height ∧ 3 * frameX ≤ j ∧ j < 3 * (frameX + f.width)

/-- The byte that the frame `f` placed at `(frameX, frameY)` shows in the byte column `j`
of the canvas row `r`: for the palette index `k` of its pixel there, `palette[3k+2]`
(blue) in the first byte of the pixel, `palette[3k+1]` in the second, `palette[3k]`
in the third. -/
def frameByte (data palette : List Byte) (f : Frame) (frameX frameY r j : Nat) : Byte :=
  palette.getD (3 * pixelIndexAt data f (r - frameY) ((j - 3 * frameX) / 3)
    + (2 - (j - 3 * frameX) % 3)) 0

/-- Two placed frames share no pixel. -/
def Apart (a b : Frame × (Nat × Nat)) : Prop :=
  Placed.Disjoint ⟨a.2.1, a.2.2, a.1.width, a.1.height⟩ ⟨b.2.1, b.2.2, b.1.width, b.1.height⟩

/-- The pattern named in the comment of `findWavHeader`, `RIFF____WAVEfmt`, stands at `i`:
the audio signature, and `fmt` at `i+12 .. i+14`. -/
def WavFmtAt (buffer : List Byte) (i : Nat) : Prop :=
  WavAt buffer i ∧ buffer[i + 12]? = some 0x66 ∧ buffer[i + 13]? = some 0x6D ∧
  buffer[i + 14]? = some 0x74

/-- The bytes of a `header_bytes` entry stand in `buffer` from `i` on, `xx` matching any byte. -/
def HeaderBytesAt (headerBytes : List (Option Byte)) (buffer : List Byte) (i : Nat) : Prop :=
  ∀ k b, headerBytes[k]? = some (some b) → buffer[i + k]? = some b

/-- The greatest width of the frames, 0 for no frame. -/
def maxWidths (frames : List Frame) : Nat := (frames.map Frame.width).foldr max 0

/-- The placed frame `b` follows the placed frame `a` in the layout: it continues the
row of `a` at its right edge, or it starts a row at `x = 0`. -/
def Placed.Follows (a b : Placed) : Prop :=
  (b.x = a.x + a.w ∧ b.y = a.y) ∨ b.x = 0

/-! ## Sample inputs -/

/-- A 16-byte audio resource whose size field holds the bytes `s0 s1 s2 s3`:
`RIFF`, the size field, `WAVE`, four zero bytes. -/
def riff (s0 s1 s2 s3 : Byte) : List Byte :=
  [0x52, 0x49, 0x46, 0x46, s0, s1, s2, s3, 0x57, 0x41, 0x56, 0x45, 0, 0, 0, 0]

/-- One zero byte, then an audio resource of declared size 16. -/
def riffAfterOne : List Byte := 0 :: riff 8 0 0 0

/-- Two zero bytes, then the graphic signature. -/
def d3grAfterTwo : List Byte := [0, 0, 0x44, 0x33, 0x47, 0x52]

/-- An audio resource whose size field is `0xFFFFFFF8`. -/
def riffWrapped : List Byte := riff 0xF8 0xFF 0xFF 0xFF

/-- An audio resource whose size field is 0, followed by twelve zero bytes. -/
def riffTiny : List Byte := riff 0 0 0 0 ++ List.replicate 12 0

/-- An audio resource of declared size 16, followed by twelve zero bytes. -/
def riffSixteen : List Byte := riff 8 0 0 0 ++ List.replicate 12 0

/-- Two audio resources of declared size 16, one after the other. -/
def riffPair : List Byte := riff 8 0 0 0 ++ riff 8 0 0 0

/-- An audio resource of declared size 108 of which only 16 bytes are present. -/
def riffTruncated : List Byte := riff 100 0 0 0

/-- An audio resource whose size field is `0xFFFFFFFF`. -/
def riffMaxField : List Byte := riff 0xFF 0xFF 0xFF 0xFF

/-- The 24 bytes that precede the frame count of a graphic resource: `D3GR` and
twenty zero bytes. -/
def d3grPrefix : List Byte := [0x44, 0x33, 0x47, 0x52] ++ List.replicate 20 0

/-- A 16-byte frame header declaring the width `w` and the height `h`. -/
def frameHeaderBytes (w h : Nat) : List Byte := List.replicate 12 0 ++ le16 h ++ le16 w

/-- A graphic resource of 52 bytes with one frame of 2 by 2 pixels, rows `0 1` and `1 0`. -/
def d3grOne : List Byte :=
  d3grPrefix ++ le16 1 ++ [0, 0] ++ le32 0 ++ frameHeaderBytes 2 2 ++ [0, 1, 1, 0]

/-- A graphic resource of 97 bytes with three frames: 2 by 2 at position 40, 1 wide and
2 high at position 60, 3 wide and 1 high at position 78. -/
def d3grThree : List Byte :=
  d3grPrefix ++ le16 3 ++ [0, 0] ++ le32 0 ++ le32 20 ++ le32 38 ++
  frameHeaderBytes 2 2 ++ [0, 1, 1, 0] ++ frameHeaderBytes 1 2 ++ [1, 0] ++
  frameHeaderBytes 3 1 ++ [1, 1, 1]

/-- A palette of 256 entries: entry 0 is black, entry 1 is white, the others grey. -/
def paletteBW : List Byte := [0, 0, 0, 255, 255, 255] ++ List.replicate 762 7

/-- A graphic resource of 28 bytes whose frame count is 0. -/
def d3grEmpty : List Byte := d3grPrefix ++ le16 0 ++ [0, 0]

/-- A graphic resource cut after its offset table: one frame, whose header would
start at byte 32, the end of the data. -/
def d3grCut : List Byte := d3grPrefix ++ le16 1 ++ [0, 0] ++ le32 0

/-- The descriptors of the three frames of `d3grThree`. -/
def threeFrames : List Frame := [⟨40, 2, 2⟩, ⟨60, 1, 2⟩, ⟨78, 3, 1⟩]

/-- The 70 bytes written by `extractFrameToBMP` for the frame of `d3grOne` with the palette
`paletteBW`: 54 header bytes, then the rows `1 0` and `0 1`, each padded to 8 bytes. -/
def d3grOneBitmap : List Byte :=
  [0x42, 0x4D, 70, 0, 0, 0, 0, 0, 0, 0, 54, 0, 0, 0,
   40, 0, 0, 0, 2, 0, 0, 0, 2, 0, 0, 0, 1, 0, 24, 0, 0, 0, 0, 0, 0, 0, 0, 0,
   0, 0, 0, 0, 0, 0, 0, 0, 0, 1, 0, 0, 0, 0, 0, 0,
   255, 255, 255, 0, 0, 0, 0, 0,
   0, 0, 0, 255, 255, 255, 0, 0]

/-- A graphic resource with one frame of 32768 by 50000 pixels, all of index 0. -/
def d3grBig : List Byte :=
  d3grPrefix ++ le16 1 ++ [0, 0] ++ le32 0 ++ frameHeaderBytes 32768 50000 ++
  List.replicate (32768 * 50000) 0

/-- A graphic resource with one frame of 65535 by 65535 pixels, all of index 0. -/
def d3grHuge : List Byte :=
  d3grPrefix ++ le16 1 ++ [0, 0] ++ le32 0 ++ frameHeaderBytes 65535 65535 ++
  List.replicate (65535 * 65535) 0

/-- A graphic resource with one frame of 1 by 1 pixel, whose palette index is 200. -/
def d3grPixel200 : List Byte :=
  d3grPrefix ++ le16 1 ++ [0, 0] ++ le32 0 ++ frameHeaderBytes 1 1 ++ [200]

/-- A palette of 200 entries (600 bytes). -/
def paletteShort : List Byte := List.replicate 600 7

/-- The twelve bytes of an audio signature with nothing after them. -/
def riffNoRoom : List Byte := (riff 8 0 0 0).take 12

/-- The graphic signature followed by twelve zero bytes: 16 bytes. -/
def d3grBare : List Byte := [0x44, 0x33, 0x47, 0x52] ++ List.replicate 12 0

/-- The headers of a graphic resource with one frame of 8193 by 1 pixels. -/
def d3grWide : List Byte :=
  d3grPrefix ++ le16 1 ++ [0, 0] ++ le32 0 ++ frameHeaderBytes 8193 1

/-- Two frames of 4 by 4 pixels. -/
def twoSquares : List Frame := [⟨36, 4, 4⟩, ⟨68, 4, 4⟩]

/-- Two frames of 2 by 4 pixels. -/
def twoSlim : List Frame := [⟨36, 2, 4⟩, ⟨60, 2, 4⟩]

/-- The headers of a graphic resource whose two table entries name the same frame
header, of 65535 by 32769 pixels. -/
def d3grTwoWide : List Byte :=
  d3grPrefix ++ le16 2 ++ [0, 0] ++ le32 0 ++ le32 0 ++ frameHeaderBytes 65535 32769

/-- The descriptors of the two frames of `d3grTwoWide`. -/
def twoWide : List Frame := [⟨36, 65535, 32769⟩, ⟨36, 65535, 32769⟩]

/-- A graphic resource of 73 bytes with two frames: 2 by 2 at position 36, rows `0 1` and
`1 0`, and 1 by 1 at position 56, index 0. -/
def d3grHole : List Byte :=
  d3grPrefix ++ le16 2 ++ [0, 0] ++ le32 0 ++ le32 20 ++
  frameHeaderBytes 2 2 ++ [0, 1, 1, 0] ++ frameHeaderBytes 1 1 ++ [0]

/-- The descriptors of the two frames of `d3grHole`. -/
def holeFrames : List Frame := [⟨36, 2, 2⟩, ⟨56, 1, 1⟩]

/-- A file of 76 bytes that starts with a graphic resource of two frames. The table
entry of the frame 1, the last one, is 0: its header is at 36, its single pixel at
52, and the size rule gives the resource 53 bytes. The table entry of the frame 0
is 20: its header is at 56 and its four pixels, rows `0 1` and `1 0`, at 72 to 75,
after the end of the resource. -/
def d3grStray : List Byte :=
  d3grPrefix ++ le16 2 ++ [0, 0] ++ le32 20 ++ le32 0 ++
  frameHeaderBytes 1 1 ++ [1] ++ [0, 0, 0] ++ frameHeaderBytes 2 2 ++ [0, 1, 1, 0]

theorem add64_small {a b : Nat} (h : a + b < 2 ^ 64) : add64 a b = a + b := by
  unfold add64; exact Nat.mod_eq_of_lt h

theorem sub64_small {a b : Nat} (hb : b ≤ a) (ha : a < 2 ^ 64) : sub64 a b = a - b := by
  unfold sub64
  have hb2 : b % 2 ^ 64 = b := Nat.mod_eq_of_lt (by omega)
  rw [hb2]
  have : a + 2 ^ 64 - b = (a - b) + 2 ^ 64 := by omega
  rw [this, Nat.add_mod_right]
  exact Nat.mod_eq_of_lt (by omega)

theorem matchBytes_true {buffer : List Byte} {i : Nat} :
    ∀ {pattern : List (Nat × Byte)}, matchBytes buffer i pattern = .ret true →
      ∀ p ∈ pattern, buffer[add64 i p.1]? = some p.2 := by
  intro pattern
  induction pattern with
  | nil => intro _ p hp; simp at hp
  | cons q rest ih =>
    obtain ⟨k, c⟩ := q
    intro h p hp
    unfold matchBytes at h
    cases hb : buffer[add64 i k]? with
    | none => rw [hb] at h; simp at h
    | some b =>
      rw [hb] at h
      by_cases hbc : b = c
      · simp only [hbc, if_true] at h
        rcases List.mem_cons.1 hp with rfl | hp
        · simpa [hbc] using hb
        · exact ih h p hp
      · simp [hbc] at h

theorem matchBytes_false {buffer : List Byte} {i : Nat} :
    ∀ {pattern : List (Nat × Byte)}, matchBytes buffer i pattern = .ret false →
      ∃ p ∈ pattern, ∃ b, buffer[add64 i p.1]? = some b ∧ b ≠ p.2 := by
  intro pattern
  induction pattern with
  | nil => intro h; simp [matchBytes] at h
  | cons q rest ih =>
    obtain ⟨k, c⟩ := q
    intro h
    unfold matchBytes at h
    cases hb : buffer[add64 i k]? with
    | none => rw [hb] at h; simp at h
    | some b =>
      rw [hb] at h
      by_cases hbc : b = c
      · simp only [hbc, if_true] at h
        obtain ⟨p, hp, b', h1, h2⟩ := ih h
        exact ⟨p, List.mem_cons_of_mem _ hp, b', h1, h2⟩
      · exact ⟨(k, c), List.mem_cons_self _ _, b, hb, hbc⟩

theorem matchBytes_inBounds {buffer : List Byte} {i : Nat} :
    ∀ {pattern : List (Nat × Byte)}, (∀ p ∈ pattern, add64 i p.1 < buffer.length) →
      ∃ b, matchBytes buffer i pattern = .ret b := by
  intro pattern
  induction pattern with
  | nil => intro _; exact ⟨true, rfl⟩
  | cons q rest ih =>
    obtain ⟨k, c⟩ := q
    intro h
    have hk : add64 i k < buffer.length := h (k, c) (List.mem_cons_self _ _)
    unfold matchBytes
    rw [List.getElem?_eq_getElem hk]
    by_cases hbc : buffer[add64 i k] = c
    · simp only [hbc, if_true]
      exact ih (fun p hp => h p (List.mem_cons_of_mem _ hp))
    · simp only [hbc, if_false]; exact ⟨false, rfl⟩

/-- A chain whose first conjunct reads `buffer[i]` returns only when `i` is inside. -/
theorem matchBytes_head {buffer : List Byte} {i : Nat} {c : Byte} {rest : List (Nat × Byte)}
    {b : Bool} (h : matchBytes buffer i ((0, c) :: rest) = .ret b) :
    add64 i 0 < buffer.length := by
  unfold matchBytes at h
  cases hb : buffer[add64 i 0]? with
  | none => rw [hb] at h; simp at h
  | some x =>
    by_contra hlt
    rw [List.getElem?_eq_none (by omega)] at hb
    simp at hb

/-- What a returning scan has seen: no match before the index returned, a match at
it, or no match at any index visited. -/
theorem scanLoop_ret {pattern : List (Nat × Byte)} {buffer : List Byte} :
    ∀ (n i : Nat) {r : Nat}, scanLoop pattern buffer n i = .ret r →
      ((∀ j, i ≤ j → j < i + n → matchBytes buffer j pattern = .ret false) ∧ r = SIZE_MAX) ∨
      (i ≤ r ∧ r < i + n ∧ matchBytes buffer r pattern = .ret true ∧
        ∀ j, i ≤ j → j < r → matchBytes buffer j pattern = .ret false) := by
  intro n
  induction n with
  | zero =>
    intro i r h
    left
    simp only [scanLoop, Run.ret.injEq] at h
    exact ⟨fun j h1 h2 => by omega, h.symm⟩
  | succ n ih =>
    intro i r h
    unfold scanLoop at h
    cases hm : matchBytes buffer i pattern with
    | outOfBounds j => rw [hm] at h; simp at h
    | ret b =>
      rw [hm] at h
      cases b with
      | true =>
        simp only [Run.ret.injEq] at h
        right
        subst h
        exact ⟨le_refl _, by omega, hm, fun j h1 h2 => by omega⟩
      | false =>
        simp only at h
        rcases ih (i + 1) h with ⟨h1, h2⟩ | ⟨h1, h2, h3, h4⟩
        · left
          refine ⟨fun j hj1 hj2 => ?_, h2⟩
          rcases Nat.eq_or_lt_of_le hj1 with rfl | hlt
          · exact hm
          · exact h1 j hlt (by omega)
        · right
          refine ⟨by omega, by omega, h3, fun j hj1 hj2 => ?_⟩
          rcases Nat.eq_or_lt_of_le hj1 with rfl | hlt
          · exact hm
          · exact h4 j hlt hj2

/-- A scan all of whose reads are inside the buffer returns. -/
theorem scanLoop_total {pattern : List (Nat × Byte)} {buffer : List Byte} :
    ∀ (n i : Nat), (∀ j, i ≤ j → j < i + n → ∃ b, matchBytes buffer j pattern = .ret b) →
      ∃ r, scanLoop pattern buffer n i = .ret r := by
  intro n
  induction n with
  | zero => intro i _; exact ⟨SIZE_MAX, rfl⟩
  | succ n ih =>
    intro i h
    obtain ⟨b, hb⟩ := h i (le_refl _) (by omega)
    unfold scanLoop
    rw [hb]
    cases b with
    | true => exact ⟨i, rfl⟩
    | false => exact ih (i + 1) (fun j h1 h2 => h j (by omega) (by omega))

theorem findHeader_eq (format : FileFormat) (buffer : List Byte) (bufferSize : Nat) :
    findHeader format buffer bufferSize =
      scanLoop (patternOf format) buffer (sub64 bufferSize (patternLength format) + 1) 0 := by
  cases format <;> rfl

theorem sigAt_iff_patAt (format : FileFormat) (buffer : List Byte) (i : Nat) :
    SigAt format buffer i ↔ PatAt (patternOf format) buffer i := by
  cases format
  · simp only [SigAt, WavAt, PatAt, patternOf, wavPattern, List.forall_mem_cons,
      List.not_mem_nil, false_implies, implies_true, and_true, Nat.add_zero]
    constructor
    · rintro ⟨_, h⟩; exact h
    · intro h
      refine ⟨?_, h⟩
      have h11 := h.2.2.2.2.2.2.2
      by_contra hlt
      rw [List.getElem?_eq_none (by omega)] at h11
      simp at h11
  · simp only [SigAt, GrAt, PatAt, patternOf, d3grPattern, List.forall_mem_cons,
      List.not_mem_nil, false_implies, implies_true, and_true, Nat.add_zero]
    constructor
    · rintro ⟨_, h⟩; exact h
    · intro h
      refine ⟨?_, h⟩
      have h3 := h.2.2.2
      by_contra hlt
      rw [List.getElem?_eq_none (by omega)] at h3
      simp at h3

theorem patternOf_offset_lt (format : FileFormat) :
    ∀ p ∈ patternOf format, p.1 < patternLength format := by
  cases format <;> simp [patternOf, patternLength, wavPattern, d3grPattern]

theorem patternOf_head (format : FileFormat) :
    ∃ c rest, patternOf format = (0, c) :: rest := by
  cases format
  · exact ⟨_, _, rfl⟩
  · exact ⟨_, _, rfl⟩

theorem patternOf_last (format : FileFormat) :
    ∃ c, (patternLength format - 1, c) ∈ patternOf format := by
  cases format
  · exact ⟨0x45, by simp [patternOf, patternLength, wavPattern]⟩
  · exact ⟨0x52, by simp [patternOf, patternLength, d3grPattern]⟩

theorem patternLength_le (format : FileFormat) :
    1 ≤ patternLength format ∧ patternLength format ≤ 12 := by
  cases format <;> simp [patternLength]

theorem sigAt_inside {format : FileFormat} {buffer : List Byte} {i : Nat}
    (h : SigAt format buffer i) : i + patternLength format ≤ buffer.length := by
  cases format
  · exact h.1
  · exact h.1

/-- A returning chain at an index inside a buffer of realistic size decides the match. -/
theorem matchBytes_true_iff {format : FileFormat} {buffer : List Byte} {i : Nat}
    (hi : i < 2 ^ 63) {b : Bool} (h : matchBytes buffer i (patternOf format) = .ret b) :
    b = true ↔ SigAt format buffer i := by
  have hk := patternOf_offset_lt format
  have hl := patternLength_le format
  have hadd : ∀ p ∈ patternOf format, add64 i p.1 = i + p.1 := fun p hp =>
    add64_small (by have := hk p hp; omega)
  rw [sigAt_iff_patAt]
  cases b with
  | true =>
    simp only [true_iff]
    intro p hp
    have := matchBytes_true h p hp
    rwa [hadd p hp] at this
  | false =>
    simp only [Bool.false_eq_true, false_iff]
    intro hp
    obtain ⟨p, hpm, b, h1, h2⟩ := matchBytes_false h
    rw [hadd p hpm, hp p hpm] at h1
    exact h2 (Option.some.inj h1).symm

theorem sub64_add_one_le (a b : Nat) : sub64 a b + 1 ≤ 2 ^ 64 := by
  unfold sub64
  have := Nat.mod_lt (a + 2 ^ 64 - b % 2 ^ 64) (show 0 < 2 ^ 64 by norm_num)
  omega

/-- A returned index other than `SIZE_MAX` is the first match of the signature. -/
theorem findHeader_sound {format : FileFormat} {buffer : List Byte} {bufferSize r : Nat}
    (hlen : buffer.length < 2 ^ 63)
    (h : findHeader format buffer bufferSize = .ret r) (hr : r ≠ SIZE_MAX) :
    FirstMatchFrom format buffer 0 r := by
  rw [findHeader_eq] at h
  have hn := sub64_add_one_le bufferSize (patternLength format)
  rcases scanLoop_ret _ _ h with ⟨_, h2⟩ | ⟨_, h2, h3, h4⟩
  · exact absurd h2 hr
  · obtain ⟨c, rest, hpat⟩ := patternOf_head format
    have hrl : r < buffer.length := by
      have := matchBytes_head (hpat ▸ h3)
      rwa [add64_small (by omega)] at this
    refine ⟨Nat.zero_le _, (matchBytes_true_iff (by omega) h3).1 rfl, fun j _ hj hs => ?_⟩
    have := (matchBytes_true_iff (by omega) (h4 j (Nat.zero_le _) hj)).2 hs
    simp at this

/-- The return value `SIZE_MAX` means that the signature matches nowhere. -/
theorem findHeader_notFound {format : FileFormat} {buffer : List Byte}
    (hlen : buffer.length < 2 ^ 63)
    (h : findHeader format buffer buffer.length = .ret SIZE_MAX) :
    ∀ j, ¬ SigAt format buffer j := by
  intro j hs
  have hin := sigAt_inside hs
  rw [findHeader_eq] at h
  have hl := patternLength_le format
  rw [sub64_small (by omega) (by omega)] at h
  rcases scanLoop_ret _ _ h with ⟨h1, _⟩ | ⟨_, h2, h3, _⟩
  · have := (matchBytes_true_iff (by omega) (h1 j (Nat.zero_le _) (by omega))).2 hs
    simp at this
  · obtain ⟨c, rest, hpat⟩ := patternOf_head format
    have := matchBytes_head (hpat ▸ h3)
    unfold add64 SIZE_MAX at this
    norm_num at this
    omega

/-- On a buffer at least as long as the signature the scanner returns. -/
theorem findHeader_returns {format : FileFormat} {buffer : List Byte}
    (hlen : buffer.length < 2 ^ 63) (hlong : patternLength format ≤ buffer.length) :
    ∃ r, findHeader format buffer buffer.length = .ret r := by
  rw [findHeader_eq, sub64_small hlong (by omega)]
  apply scanLoop_total
  intro j _ hj
  apply matchBytes_inBounds
  intro p hp
  have := patternOf_offset_lt format p hp
  rw [add64_small (by omega)]
  omega

/-- On a buffer at least as long as the signature the scanner returns the first
match, and `SIZE_MAX` exactly when there is no match. -/
theorem findHeader_spec {format : FileFormat} {buffer : List Byte}
    (hlen : buffer.length < 2 ^ 63) (hlong : patternLength format ≤ buffer.length) :
    (∀ i, FirstMatchFrom format buffer 0 i →
        findHeader format buffer buffer.length = .ret i) ∧
    (findHeader format buffer buffer.length = .ret SIZE_MAX ↔
        ∀ i, ¬ SigAt format buffer i) := by
  obtain ⟨r, hr⟩ := findHeader_returns hlen hlong
  constructor
  · rintro i ⟨_, hi, hmin⟩
    by_cases hmax : r = SIZE_MAX
    · exact absurd hi (findHeader_notFound hlen (hmax ▸ hr) i)
    · obtain ⟨_, hs, hrmin⟩ := findHeader_sound hlen hr hmax
      rcases Nat.lt_trichotomy i r with hlt | heq | hgt
      · exact absurd hi (hrmin i (Nat.zero_le _) hlt)
      · rw [heq]; exact hr
      · exact absurd hs (hmin r (Nat.zero_le _) hgt)
  · constructor
    · exact findHeader_notFound hlen
    · intro hno
      by_cases hmax : r = SIZE_MAX
      · rw [← hmax]; exact hr
      · exact absurd (findHeader_sound hlen hr hmax).2.1 (hno r)

/-! ## The size rules -/

theorem Run.bind_eq_ret {α β : Type} {r : Run α} {f : α → Run β} {b : β}
    (h : r.bind f = .ret b) : ∃ a, r = .ret a ∧ f a = .ret b := by
  cases r with
  | ret a => exact ⟨a, rfl, h⟩
  | outOfBounds i => simp [Run.bind] at h

theorem readU8_eq_ret {data : List Byte} {i v : Nat} (h : readU8 data i = .ret v) :
    ∃ b : Byte, data[i]? = some b ∧ v = b.val := by
  unfold readU8 at h
  cases hb : data[i]? with
  | none => rw [hb] at h; simp at h
  | some b =>
    rw [hb] at h
    simp only [Run.ret.injEq] at h
    exact ⟨b, rfl, h.symm⟩

theorem u32_lt (a : Nat) : u32 a < 2 ^ 32 := Nat.mod_lt _ (by norm_num)

/-- Both size rules return a `uint32_t`. -/
theorem getSize_lt {format : FileFormat} {data : List Byte} {d : Nat}
    (h : getSize format data = .ret d) : d < 2 ^ 32 := by
  cases format
  · simp only [getSize, getWavSize] at h
    obtain ⟨_, _, h⟩ := Run.bind_eq_ret h
    obtain ⟨_, _, h⟩ := Run.bind_eq_ret h
    obtain ⟨_, _, h⟩ := Run.bind_eq_ret h
    obtain ⟨_, _, h⟩ := Run.bind_eq_ret h
    simp only [Run.ret.injEq] at h
    rw [← h]; exact u32_lt _
  · simp only [getSize, getGraphicsResourceSize] at h
    obtain ⟨_, _, h⟩ := Run.bind_eq_ret h
    obtain ⟨_, _, h⟩ := Run.bind_eq_ret h
    obtain ⟨_, _, h⟩ := Run.bind_eq_ret h
    obtain ⟨_, _, h⟩ := Run.bind_eq_ret h
    obtain ⟨_, _, h⟩ := Run.bind_eq_ret h
    obtain ⟨_, _, h⟩ := Run.bind_eq_ret h
    obtain ⟨_, _, h⟩ := Run.bind_eq_ret h
    obtain ⟨_, _, h⟩ := Run.bind_eq_ret h
    obtain ⟨_, _, h⟩ := Run.bind_eq_ret h
    obtain ⟨_, _, h⟩ := Run.bind_eq_ret h
    simp only [Run.ret.injEq] at h
    rw [← h]; exact u32_lt _

/-! ## The carving loop -/

theorem sigAt_drop (format : FileFormat) (buffer : List Byte) (p j : Nat) :
    SigAt format (buffer.drop p) j ↔ SigAt format buffer (p + j) := by
  cases format
  · simp only [SigAt, WavAt, List.getElem?_drop, List.length_drop, Nat.add_assoc]
    constructor
    · rintro ⟨h, hr⟩
      have := hr.1
      have hj : p + j < buffer.length := by
        by_contra hc
        rw [List.getElem?_eq_none (by omega)] at this
        simp at this
      exact ⟨by omega, hr⟩
    · rintro ⟨h, hr⟩; exact ⟨by omega, hr⟩
  · simp only [SigAt, GrAt, List.getElem?_drop, List.length_drop, Nat.add_assoc]
    constructor
    · rintro ⟨h, hr⟩
      have := hr.1
      have hj : p + j < buffer.length := by
        by_contra hc
        rw [List.getElem?_eq_none (by omega)] at this
        simp at this
      exact ⟨by omega, hr⟩
    · rintro ⟨h, hr⟩; exact ⟨by omega, hr⟩

theorem firstMatchFrom_drop {format : FileFormat} {buffer : List Byte} {p r : Nat}
    (h : FirstMatchFrom format (buffer.drop p) 0 r) :
    FirstMatchFrom format buffer p (p + r) := by
  obtain ⟨_, hs, hmin⟩ := h
  refine ⟨by omega, (sigAt_drop _ _ _ _).1 hs, fun j hj1 hj2 hsj => ?_⟩
  apply hmin (j - p) (Nat.zero_le _) (by omega)
  rw [sigAt_drop]
  have : p + (j - p) = j := by omega
  rwa [this]

/-- What a pass of the loop body that writes a resource has computed. -/
theorem carveStep_emit {format : FileFormat} {fileBuffer : List Byte} {position : Nat}
    {s : Span} {next : Nat} (hlen : fileBuffer.length < 2 ^ 63)
    (h : carveStep format fileBuffer position = .emit s next) :
    ∃ headerPos declared,
      position < fileBuffer.length ∧
      findHeader format (fileBuffer.drop position) (fileBuffer.length - position)
        = .ret headerPos ∧
      headerPos ≠ SIZE_MAX ∧
      FirstMatchFrom format fileBuffer position s.offset ∧
      s.offset = position + headerPos ∧
      s.offset + 16 ≤ fileBuffer.length ∧
      getSize format (fileBuffer.drop s.offset) = .ret declared ∧
      s.length = (if fileBuffer.length < s.offset + declared
                  then fileBuffer.length - s.offset else declared) ∧
      next = s.offset + s.length := by
  unfold carveStep at h
  by_cases hpos : position < fileBuffer.length
  · rw [if_pos hpos, sub64_small (le_of_lt hpos) (by omega)] at h
    cases hfind : findHeader format (fileBuffer.drop position)
        (fileBuffer.length - position) with
    | outOfBounds i => rw [hfind] at h; simp at h
    | ret headerPos =>
      rw [hfind] at h
      simp only at h
      by_cases hmax : headerPos = SIZE_MAX
      · rw [if_pos hmax] at h; simp at h
      · rw [if_neg hmax] at h
        have hdl : (fileBuffer.drop position).length < 2 ^ 63 := by
          rw [List.length_drop]; omega
        have hfirst := findHeader_sound hdl hfind hmax
        have hin := sigAt_inside hfirst.2.1
        rw [List.length_drop] at hin
        have hpl := patternLength_le format
        have hstart : add64 position headerPos = position + headerPos :=
          add64_small (by omega)
        rw [hstart, add64_small (by omega)] at h
        by_cases hmin : position + headerPos + 16 > fileBuffer.length
        · rw [if_pos hmin] at h; simp at h
        · rw [if_neg hmin] at h
          cases hsize : getSize format (fileBuffer.drop (position + headerPos)) with
          | outOfBounds i => rw [hsize] at h; simp at h
          | ret declared =>
            rw [hsize] at h
            have hd := getSize_lt hsize
            have hlenEq : (if position + headerPos + declared > fileBuffer.length
                  then u32 (fileBuffer.length - (position + headerPos)) else declared)
                = (if fileBuffer.length < position + headerPos + declared
                  then fileBuffer.length - (position + headerPos) else declared) := by
              by_cases hc : position + headerPos + declared > fileBuffer.length
              · rw [if_pos hc, if_pos hc]
                exact Nat.mod_eq_of_lt (by omega)
              · rw [if_neg hc, if_neg hc]
            have hsum : add64 (position + headerPos)
                (if fileBuffer.length < position + headerPos + declared
                  then fileBuffer.length - (position + headerPos) else declared)
                = position + headerPos +
                (if fileBuffer.length < position + headerPos + declared
                  then fileBuffer.length - (position + headerPos) else declared) := by
              apply add64_small
              split <;> omega
            simp only [Step.emit.injEq] at h
            rw [add64_small (show position + headerPos + declared < 2 ^ 64 by omega),
              sub64_small (show position + headerPos ≤ fileBuffer.length by omega)
                (by omega), hlenEq, hsum] at h
            obtain ⟨hs, hnext⟩ := h
            subst hs
            exact ⟨headerPos, declared, hpos, rfl, hmax,
              firstMatchFrom_drop hfirst, rfl, by simp only; omega,
              hsize, rfl, hnext.symm⟩
  · rw [if_neg hpos] at h; simp at h

/-- Every resource written by the loop was written by some pass of its body. -/
theorem carveLoop_spans (format : FileFormat) (fileBuffer : List Byte) :
    ∀ (fuel position : Nat), ∀ s ∈ (carveLoop format fileBuffer fuel position).spans,
      ∃ p next, carveStep format fileBuffer p = .emit s next := by
  intro fuel
  induction fuel with
  | zero => intro position s hs; simp [carveLoop] at hs
  | succ fuel ih =>
    intro position s hs
    unfold carveLoop at hs
    cases hstep : carveStep format fileBuffer position with
    | stop => rw [hstep] at hs; simp at hs
    | fault i => rw [hstep] at hs; simp at hs
    | emit t next =>
      rw [hstep] at hs
      simp only [List.mem_cons] at hs
      rcases hs with rfl | hs
      · exact ⟨position, next, hstep⟩
      · exact ih next s hs

theorem extractFiles_spans (fuel : Nat) (format : FileFormat) (fileBuffer : List Byte) :
    ∀ s ∈ (extractFiles fuel format fileBuffer).spans,
      ∃ p next, carveStep format fileBuffer p = .emit s next := by
  intro s hs
  unfold extractFiles at hs
  split at hs
  · simp at hs
  · exact carveLoop_spans format fileBuffer fuel 0 s hs

theorem carveLoop_offset_ge {format : FileFormat} {fileBuffer : List Byte}
    (hlen : fileBuffer.length < 2 ^ 63) :
    ∀ (fuel position : Nat), ∀ s ∈ (carveLoop format fileBuffer fuel position).spans,
      position ≤ s.offset := by
  intro fuel
  induction fuel with
  | zero => intro position s hs; simp [carveLoop] at hs
  | succ fuel ih =>
    intro position s hs
    unfold carveLoop at hs
    cases hstep : carveStep format fileBuffer position with
    | stop => rw [hstep] at hs; simp at hs
    | fault i => rw [hstep] at hs; simp at hs
    | emit t next =>
      rw [hstep] at hs
      obtain ⟨headerPos, declared, _, _, _, _, hoff, _, _, _, hnext⟩ :=
        carveStep_emit hlen hstep
      simp only [List.mem_cons] at hs
      rcases hs with rfl | hs
      · omega
      · have := ih next s hs
        omega

/-- The greedy structure of the resources written from a scan position on. -/
theorem carveLoop_greedy {format : FileFormat} {fileBuffer : List Byte}
    (hlen : fileBuffer.length < 2 ^ 63) :
    ∀ (fuel position : Nat),
      (∀ s, (carveLoop format fileBuffer fuel position).spans.head? = some s →
        FirstMatchFrom format fileBuffer position s.offset) ∧
      List.Chain' (fun s t => FirstMatchFrom format fileBuffer (s.offset + s.length) t.offset)
        (carveLoop format fileBuffer fuel position).spans ∧
      List.Pairwise (fun s t => s.offset ≤ t.offset ∧ s.offset + s.length ≤ t.offset)
        (carveLoop format fileBuffer fuel position).spans := by
  intro fuel
  induction fuel with
  | zero => intro position; simp [carveLoop]
  | succ fuel ih =>
    intro position
    unfold carveLoop
    cases hstep : carveStep format fileBuffer position with
    | stop => simp
    | fault i => simp
    | emit t next =>
      obtain ⟨headerPos, declared, _, _, _, hfirst, hoff, _, _, _, hnext⟩ :=
        carveStep_emit hlen hstep
      obtain ⟨ih1, ih2, ih3⟩ := ih next
      refine ⟨?_, ?_, ?_⟩
      · intro s hs
        simp only [List.head?_cons, Option.some.injEq] at hs
        rw [← hs]; exact hfirst
      · simp only
        rw [List.chain'_cons']
        refine ⟨fun u hu => ?_, ih2⟩
        have := ih1 u (by simpa using hu)
        rwa [hnext] at this
      · simp only
        rw [List.pairwise_cons]
        refine ⟨fun u hu => ?_, ih3⟩
        have := carveLoop_offset_ge hlen fuel next u hu
        omega

/-- The pass of the loop body at a position where a header is found with 16 bytes
left and the size rule returns. -/
theorem carveStep_eq {format : FileFormat} {fileBuffer : List Byte}
    {position headerPos declared : Nat} (hlen : fileBuffer.length < 2 ^ 63)
    (hpos : position < fileBuffer.length)
    (hfind : findHeader format (fileBuffer.drop position) (fileBuffer.length - position)
      = .ret headerPos)
    (hmax : headerPos ≠ SIZE_MAX)
    (hmin : position + headerPos + 16 ≤ fileBuffer.length)
    (hsize : getSize format (fileBuffer.drop (position + headerPos)) = .ret declared) :
    carveStep format fileBuffer position =
      .emit ⟨position + headerPos,
          if fileBuffer.length < position + headerPos + declared
          then fileBuffer.length - (position + headerPos) else declared⟩
        (position + headerPos +
          if fileBuffer.length < position + headerPos + declared
          then fileBuffer.length - (position + headerPos) else declared) := by
  have hd := getSize_lt hsize
  unfold carveStep
  rw [if_pos hpos, sub64_small (le_of_lt hpos) (by omega), hfind]
  simp only
  rw [if_neg hmax, add64_small (show position + headerPos < 2 ^ 64 by omega),
    add64_small (show position + headerPos + 16 < 2 ^ 64 by omega),
    if_neg (by omega), hsize]
  simp only
  rw [add64_small (show position + headerPos + declared < 2 ^ 64 by omega),
    sub64_small (show position + headerPos ≤ fileBuffer.length by omega) (by omega)]
  by_cases hc : fileBuffer.length < position + headerPos + declared
  · have hu : u32 (fileBuffer.length - (position + headerPos))
        = fileBuffer.length - (position + headerPos) := Nat.mod_eq_of_lt (by omega)
    rw [if_pos hc, if_pos hc, hu, add64_small (by omega)]
  · rw [if_neg hc, if_neg hc, add64_small (by omega)]

theorem matchBytes_outOfBounds {buffer : List Byte} {i k : Nat} :
    ∀ {pattern : List (Nat × Byte)}, matchBytes buffer i pattern = .outOfBounds k →
      buffer.length ≤ k := by
  intro pattern
  induction pattern with
  | nil => intro h; simp [matchBytes] at h
  | cons q rest ih =>
    obtain ⟨o, c⟩ := q
    intro h
    unfold matchBytes at h
    cases hb : buffer[add64 i o]? with
    | none =>
      rw [hb] at h
      simp only [Run.outOfBounds.injEq] at h
      rw [← h]
      exact List.getElem?_eq_none_iff.1 hb
    | some b =>
      rw [hb] at h
      by_cases hbc : b = c
      · simp only [hbc, if_true] at h; exact ih h
      · simp [hbc] at h

theorem scanLoop_outOfBounds {pattern : List (Nat × Byte)} {buffer : List Byte} {k : Nat} :
    ∀ (n i : Nat), scanLoop pattern buffer n i = .outOfBounds k → buffer.length ≤ k := by
  intro n
  induction n with
  | zero => intro i h; simp [scanLoop] at h
  | succ n ih =>
    intro i h
    unfold scanLoop at h
    cases hm : matchBytes buffer i pattern with
    | outOfBounds j =>
      rw [hm] at h
      simp only [Run.outOfBounds.injEq] at h
      rw [← h]; exact matchBytes_outOfBounds hm
    | ret b =>
      rw [hm] at h
      cases b with
      | true => simp at h
      | false => exact ih (i + 1) h

/-- On a buffer shorter than the signature the scanner never returns: it reads a
byte at an index that is not below the buffer size. -/
theorem findHeader_short {format : FileFormat} {buffer : List Byte}
    (hshort : buffer.length < patternLength format) :
    ∃ k, buffer.length ≤ k ∧ findHeader format buffer buffer.length = .outOfBounds k := by
  have hl := patternLength_le format
  cases hres : findHeader format buffer buffer.length with
  | outOfBounds k =>
    rw [findHeader_eq] at hres
    exact ⟨k, scanLoop_outOfBounds _ _ hres, rfl⟩
  | ret r =>
    exfalso
    rw [findHeader_eq] at hres
    have hn : sub64 buffer.length (patternLength format)
        = buffer.length + 2 ^ 64 - patternLength format := by
      unfold sub64
      rw [Nat.mod_eq_of_lt (show patternLength format < 2 ^ 64 by omega)]
      exact Nat.mod_eq_of_lt (by omega)
    rw [hn] at hres
    obtain ⟨c, rest, hpat⟩ := patternOf_head format
    rcases scanLoop_ret _ _ hres with ⟨h1, _⟩ | ⟨_, h2, h3, _⟩
    · have := matchBytes_head (hpat ▸ h1 buffer.length (Nat.zero_le _) (by omega))
      rw [add64_small (by omega)] at this
      omega
    · have hr := matchBytes_head (hpat ▸ h3)
      rw [add64_small (by omega)] at hr
      obtain ⟨c', hc'⟩ := patternOf_last format
      have hlast := matchBytes_true h3 _ hc'
      simp only at hlast
      rw [add64_small (by omega)] at hlast
      have : r + (patternLength format - 1) < buffer.length := by
        by_contra hc
        rw [List.getElem?_eq_none (by omega)] at hlast
        simp at hlast
      omega

theorem sub64_zero {a : Nat} (ha : a < 2 ^ 64) : sub64 a 0 = a := by
  rw [sub64_small (Nat.zero_le _) ha]; rfl

/-- Without a match of the signature the carving loop writes nothing. -/
theorem extractFiles_no_match_spans {format : FileFormat} {fileBuffer : List Byte}
    (fuel : Nat) (hlen : fileBuffer.length < 2 ^ 63)
    (hno : ∀ i, ¬ SigAt format fileBuffer i) :
    (extractFiles fuel format fileBuffer).spans = [] := by
  apply List.eq_nil_iff_forall_not_mem.2
  intro s hs
  obtain ⟨p, next, hstep⟩ := extractFiles_spans fuel format fileBuffer s hs
  obtain ⟨_, _, _, _, _, hfirst, _⟩ := carveStep_emit hlen hstep
  exact hno _ hfirst.2.1

/-- Without a match of the signature, on an empty buffer or on one at least as long
as the signature, the run ends normally, having written nothing, and
`extractFiles` returns `false`. -/
theorem extractFiles_no_match_finished {format : FileFormat} {fileBuffer : List Byte}
    (fuel : Nat) (hlen : fileBuffer.length < 2 ^ 63)
    (hlong : fileBuffer.length = 0 ∨ patternLength format ≤ fileBuffer.length)
    (hno : ∀ i, ¬ SigAt format fileBuffer i) :
    extractFiles (fuel + 1) format fileBuffer = ⟨[], .finished⟩ ∧
    extractFilesResult (extractFiles (fuel + 1) format fileBuffer) = some false := by
  have hmain : extractFiles (fuel + 1) format fileBuffer = ⟨[], .finished⟩ := by
    unfold extractFiles
    by_cases hempty : fileBuffer.isEmpty
    · rw [if_pos hempty]
    · rw [if_neg hempty]
      have hne : fileBuffer ≠ [] := by simpa using hempty
      have hpos : 0 < fileBuffer.length := List.length_pos.2 hne
      have hlong2 : patternLength format ≤ fileBuffer.length := by
        rcases hlong with h0 | h1
        · omega
        · exact h1
      have hfind := (findHeader_spec hlen hlong2).2.2 hno
      unfold carveLoop carveStep
      rw [if_pos hpos, sub64_zero (by omega), List.drop_zero, hfind]
      simp
  rw [hmain]
  exact ⟨rfl, rfl⟩

theorem lor_shift_bytes {a b c : Nat} (d : Nat) (ha : a < 256) (hb : b < 256)
    (hc : c < 256) :
    a ||| (b <<< 8) ||| (c <<< 16) ||| (d <<< 24)
      = a + 256 * b + 65536 * c + 16777216 * d := by
  have step : ∀ {x y k : Nat}, x < 2 ^ k → x ||| (y <<< k) = x + y * 2 ^ k := by
    intro x y k h
    rw [Nat.shiftLeft_eq, Nat.lor_comm, Nat.mul_comm y, ← Nat.mul_add_lt_is_or h]
    omega
  rw [step (show a < 2 ^ 8 by omega), step (show a + b * 2 ^ 8 < 2 ^ 16 by omega),
    step (show a + b * 2 ^ 8 + c * 2 ^ 16 < 2 ^ 24 by omega)]
  omega

theorem readU8_inBounds {data : List Byte} {i : Nat} (h : i < data.length) :
    readU8 data i = .ret (data.getD i 0).val := by
  unfold readU8
  rw [List.getD_eq_getElem?_getD, List.getElem?_eq_getElem h]
  rfl

/-- The value computed by `getWavSize` on a resource of at least 8 bytes. -/
theorem getWavSize_eq {data : List Byte} (h : 8 ≤ data.length) :
    getWavSize data = .ret ((le32At data 4 + 8) % 2 ^ 32) := by
  unfold getWavSize
  rw [readU8_inBounds (show 4 < data.length by omega),
    readU8_inBounds (show 5 < data.length by omega),
    readU8_inBounds (show 6 < data.length by omega),
    readU8_inBounds (show 7 < data.length by omega)]
  simp only [Run.bind]
  rw [lor_shift_bytes (data.getD 7 0).val (data.getD 4 0).isLt (data.getD 5 0).isLt
    (data.getD 6 0).isLt]
  have h4 := (data.getD 4 0).isLt
  have h5 := (data.getD 5 0).isLt
  have h6 := (data.getD 6 0).isLt
  have h7 := (data.getD 7 0).isLt
  have hu : u32 ((data.getD 4 0).val + 256 * (data.getD 5 0).val +
      65536 * (data.getD 6 0).val + 16777216 * (data.getD 7 0).val)
      = le32At data 4 := by
    unfold u32 le32At
    exact Nat.mod_eq_of_lt (by omega)
  rw [hu]
  rfl

/-! ## Claims about the scanners -/

/-- C1: on a buffer at least as long as the pattern (12 bytes for `findWavHeader`,
4 bytes for `findGraphicsResourceHeader`) the scanner returns the least index at
which the signature matches inside the buffer, and it returns `SIZE_MAX` exactly
when the signature matches at no index. -/
theorem scanner_returns_first_match (buffer : List Byte) (hlen : buffer.length < 2 ^ 63) :
    (12 ≤ buffer.length →
      (∀ i, WavAt buffer i → (∀ j, j < i → ¬ WavAt buffer j) →
          findWavHeader buffer buffer.length = .ret i) ∧
      (findWavHeader buffer buffer.length = .ret SIZE_MAX ↔ ∀ i, ¬ WavAt buffer i)) ∧
    (4 ≤ buffer.length →
      (∀ i, GrAt buffer i → (∀ j, j < i → ¬ GrAt buffer j) →
          findGraphicsResourceHeader buffer buffer.length = .ret i) ∧
      (findGraphicsResourceHeader buffer buffer.length = .ret SIZE_MAX ↔
          ∀ i, ¬ GrAt buffer i)) := by
  constructor
  · intro hlong
    have h := @findHeader_spec .WAV buffer hlen hlong
    exact ⟨fun i hi hmin => h.1 i ⟨Nat.zero_le _, hi, fun j _ hj => hmin j hj⟩, h.2⟩
  · intro hlong
    have h := @findHeader_spec .D3GR buffer hlen hlong
    exact ⟨fun i hi hmin => h.1 i ⟨Nat.zero_le _, hi, fun j _ hj => hmin j hj⟩, h.2⟩

/-- C1, instance: the audio signature one byte into a 17-byte buffer is found at
index 1, the graphic signature two bytes into a 6-byte buffer at index 2. -/
theorem scanner_returns_first_match_witness :
    (12 ≤ riffAfterOne.length ∧ WavAt riffAfterOne 1 ∧
      findWavHeader riffAfterOne riffAfterOne.length = .ret 1) ∧
    (4 ≤ d3grAfterTwo.length ∧ GrAt d3grAfterTwo 2 ∧
      findGraphicsResourceHeader d3grAfterTwo d3grAfterTwo.length = .ret 2) :=
  ⟨⟨by decide, by decide,
      ((scanner_returns_first_match riffAfterOne (by decide)).1 (by decide)).1 1
        (by decide) (by decide)⟩,
    ⟨by decide, by decide,
      ((scanner_returns_first_match d3grAfterTwo (by decide)).2 (by decide)).1 2
        (by decide) (by decide)⟩⟩

/-- C2, the defect: on a one-byte buffer both scanners read `buffer[1]`, outside the
buffer, instead of returning `SIZE_MAX`; on the empty buffer they read `buffer[0]`;
on eleven bytes that begin with `RIFF` the audio scanner reads `buffer[11]`. -/
theorem scanner_reads_past_short_buffer :
    findWavHeader [0] 1 = .outOfBounds 1 ∧
    findGraphicsResourceHeader [0] 1 = .outOfBounds 1 ∧
    findWavHeader [] 0 = .outOfBounds 0 ∧
    findGraphicsResourceHeader [] 0 = .outOfBounds 0 ∧
    findWavHeader [0x52, 0x49, 0x46, 0x46, 0, 0, 0, 0, 0x57, 0x41, 0x56] 11
      = .outOfBounds 11 := by
  decide

/-! ## Claims about the carving loop -/

/-- C3, the defect: on the 16-byte audio resource whose size field is `0xFFFFFFF8`
the declared size wraps to 0, the loop writes the empty resource at offset 0
and stays at position 0: whatever the number of passes allowed, the run has not
ended and every resource written has length 0. -/
theorem carve_loops_forever_on_wrapped_size (fuel : Nat) :
    getWavSize riffWrapped = .ret 0 ∧
    carveStep .WAV riffWrapped 0 = .emit ⟨0, 0⟩ 0 ∧
    extractFiles fuel .WAV riffWrapped = ⟨List.replicate fuel ⟨0, 0⟩, .outOfFuel⟩ := by
  have hstep : carveStep .WAV riffWrapped 0 = .emit ⟨0, 0⟩ 0 := by decide
  refine ⟨by decide, hstep, ?_⟩
  have hloop : carveLoop .WAV riffWrapped fuel 0
      = ⟨List.replicate fuel ⟨0, 0⟩, .outOfFuel⟩ := by
    induction fuel with
    | zero => rfl
    | succ fuel ih =>
      unfold carveLoop
      rw [hstep]
      simp only [ih, List.replicate_succ]
  unfold extractFiles
  rw [if_neg (by decide), hloop]

/-- C4: every resource written by the carving loop lies inside the buffer,
`offset + length ≤ fileBuffer.size()`. -/
theorem carve_span_inside_buffer (fuel : Nat) (format : FileFormat) (fileBuffer : List Byte)
    (hlen : fileBuffer.length < 2 ^ 63) :
    ∀ s ∈ (extractFiles fuel format fileBuffer).spans,
      s.offset + s.length ≤ fileBuffer.length := by
  intro s hs
  obtain ⟨p, next, hstep⟩ := extractFiles_spans fuel format fileBuffer s hs
  obtain ⟨headerPos, declared, _, _, _, _, _, hmin, _, hl, _⟩ := carveStep_emit hlen hstep
  rw [hl]
  split <;> omega

/-- C4, instance: the resource written for `riffSixteen` ends at byte 16 of 28. -/
theorem carve_span_inside_buffer_witness :
    riffSixteen.length < 2 ^ 63 ∧ (⟨0, 16⟩ : Span) ∈ (extractFiles 2 .WAV riffSixteen).spans ∧
      (⟨0, 16⟩ : Span).offset + (⟨0, 16⟩ : Span).length ≤ riffSixteen.length :=
  ⟨by decide, by decide,
    carve_span_inside_buffer 2 .WAV riffSixteen (by decide) ⟨0, 16⟩ (by decide)⟩

/-- C5, refuted as stated: for the audio resource whose size field is 0 the loop
writes a resource of length 8, less than the 16 bytes of the minimum header. -/
theorem carve_span_shorter_than_header :
    extractFiles 2 .WAV riffTiny = ⟨[⟨0, 8⟩], .finished⟩ ∧
    ¬ ∀ s ∈ (extractFiles 2 .WAV riffTiny).spans, 16 ≤ s.length := by
  decide

/-- C5, amended: a resource written by the carving loop has length at least 16
whenever the size declared at its start by the size rule of the format is at
least 16. -/
theorem carve_span_length_ge_header (fuel : Nat) (format : FileFormat)
    (fileBuffer : List Byte) (hlen : fileBuffer.length < 2 ^ 63) :
    ∀ s ∈ (extractFiles fuel format fileBuffer).spans, ∀ declared,
      getSize format (fileBuffer.drop s.offset) = .ret declared → 16 ≤ declared →
      16 ≤ s.length := by
  intro s hs declared hsize hge
  obtain ⟨p, next, hstep⟩ := extractFiles_spans fuel format fileBuffer s hs
  obtain ⟨headerPos, d, _, _, _, _, _, hmin, hd, hl, _⟩ := carveStep_emit hlen hstep
  rw [hsize] at hd
  simp only [Run.ret.injEq] at hd
  subst hd
  rw [hl]
  split <;> omega

/-- C5 amended, instance: the resource of declared size 16 in `riffSixteen`. -/
theorem carve_span_length_ge_header_witness :
    (⟨0, 16⟩ : Span) ∈ (extractFiles 2 .WAV riffSixteen).spans ∧
    getSize .WAV (riffSixteen.drop 0) = .ret 16 ∧ 16 ≤ (⟨0, 16⟩ : Span).length :=
  ⟨by decide, by decide,
    carve_span_length_ge_header 2 .WAV riffSixteen (by decide) ⟨0, 16⟩ (by decide) 16
      (by decide) (by decide)⟩

/-- Carving is greedy and left to right. The offset of the first resource
written is the first match of the signature in the buffer; the offset of each
later resource is the first match at or after the end (offset + length) of the
resource written before it; hence offsets never decrease along the sequence,
they increase after every resource of positive length, and each resource ends
where or before every later one begins, so that no byte belongs to two
resources. -/
theorem carve_greedy_partition (fuel : Nat) (format : FileFormat) (fileBuffer : List Byte)
    (hlen : fileBuffer.length < 2 ^ 63) :
    (∀ s, (extractFiles fuel format fileBuffer).spans.head? = some s →
      FirstMatchFrom format fileBuffer 0 s.offset) ∧
    List.Chain' (fun s t => FirstMatchFrom format fileBuffer (s.offset + s.length) t.offset)
      (extractFiles fuel format fileBuffer).spans ∧
    List.Pairwise (fun s t => s.offset ≤ t.offset ∧ s.offset + s.length ≤ t.offset)
      (extractFiles fuel format fileBuffer).spans := by
  unfold extractFiles
  split
  · simp
  · exact carveLoop_greedy hlen fuel 0

/-- Two adjoining audio resources are carved as `(0, 16)`, `(16, 16)`. -/
theorem carve_greedy_partition_witness :
    riffPair.length < 2 ^ 63 ∧
    (extractFiles 3 .WAV riffPair).spans = [⟨0, 16⟩, ⟨16, 16⟩] ∧
    List.Chain' (fun s t => FirstMatchFrom .WAV riffPair (s.offset + s.length) t.offset)
      (extractFiles 3 .WAV riffPair).spans :=
  ⟨by decide, by decide, (carve_greedy_partition 3 .WAV riffPair (by decide)).2.1⟩

/-- C7: when a header is matched with at least 16 bytes left and the size declared
by the size rule at that start fits in the buffer, the loop writes the resource
with exactly the declared length; and every resource written whose declared
size fits has the declared length. -/
theorem carve_length_is_declared (fuel : Nat) (format : FileFormat) (fileBuffer : List Byte)
    (hlen : fileBuffer.length < 2 ^ 63) :
    (∀ position headerPos declared, position < fileBuffer.length →
      findHeader format (fileBuffer.drop position) (fileBuffer.length - position)
        = .ret headerPos →
      headerPos ≠ SIZE_MAX →
      position + headerPos + 16 ≤ fileBuffer.length →
      getSize format (fileBuffer.drop (position + headerPos)) = .ret declared →
      position + headerPos + declared ≤ fileBuffer.length →
      carveStep format fileBuffer position =
        .emit ⟨position + headerPos, declared⟩ (position + headerPos + declared)) ∧
    (∀ s ∈ (extractFiles fuel format fileBuffer).spans, ∀ declared,
      getSize format (fileBuffer.drop s.offset) = .ret declared →
      s.offset + declared ≤ fileBuffer.length → s.length = declared) := by
  constructor
  · intro position headerPos declared hpos hfind hmax hmin hsize hfit
    rw [carveStep_eq hlen hpos hfind hmax hmin hsize, if_neg (by omega)]
  · intro s hs declared hsize hfit
    obtain ⟨p, next, hstep⟩ := extractFiles_spans fuel format fileBuffer s hs
    obtain ⟨headerPos, d, _, _, _, _, _, hmin, hd, hl, _⟩ := carveStep_emit hlen hstep
    rw [hsize] at hd
    simp only [Run.ret.injEq] at hd
    subst hd
    rw [hl, if_neg (by omega)]

/-- C7, instance: the resource of declared size 16 in the 28-byte `riffSixteen`. -/
theorem carve_length_is_declared_witness :
    (⟨0, 16⟩ : Span) ∈ (extractFiles 2 .WAV riffSixteen).spans ∧
    getSize .WAV (riffSixteen.drop 0) = .ret 16 ∧ 0 + 16 ≤ riffSixteen.length ∧
      (⟨0, 16⟩ : Span).length = 16 :=
  ⟨by decide, by decide, by decide,
    (carve_length_is_declared 2 .WAV riffSixteen (by decide)).2 ⟨0, 16⟩ (by decide) 16
      (by decide) (by decide)⟩

/-- C8: when a header is matched with at least 16 bytes left and the size declared
at that start runs past the end of the buffer, the loop writes the resource
with length `fileBuffer.size() - start`; and every resource written whose
declared size runs past the end has that length. -/
theorem carve_length_is_clamped (fuel : Nat) (format : FileFormat) (fileBuffer : List Byte)
    (hlen : fileBuffer.length < 2 ^ 63) :
    (∀ position headerPos declared, position < fileBuffer.length →
      findHeader format (fileBuffer.drop position) (fileBuffer.length - position)
        = .ret headerPos →
      headerPos ≠ SIZE_MAX →
      position + headerPos + 16 ≤ fileBuffer.length →
      getSize format (fileBuffer.drop (position + headerPos)) = .ret declared →
      fileBuffer.length < position + headerPos + declared →
      carveStep format fileBuffer position =
        .emit ⟨position + headerPos, fileBuffer.length - (position + headerPos)⟩
          (position + headerPos + (fileBuffer.length - (position + headerPos)))) ∧
    (∀ s ∈ (extractFiles fuel format fileBuffer).spans, ∀ declared,
      getSize format (fileBuffer.drop s.offset) = .ret declared →
      fileBuffer.length < s.offset + declared →
      s.length = fileBuffer.length - s.offset) := by
  constructor
  · intro position headerPos declared hpos hfind hmax hmin hsize hover
    rw [carveStep_eq hlen hpos hfind hmax hmin hsize, if_pos hover]
  · intro s hs declared hsize hover
    obtain ⟨p, next, hstep⟩ := extractFiles_spans fuel format fileBuffer s hs
    obtain ⟨headerPos, d, _, _, _, _, _, hmin, hd, hl, _⟩ := carveStep_emit hlen hstep
    rw [hsize] at hd
    simp only [Run.ret.injEq] at hd
    subst hd
    rw [hl, if_pos hover]

/-- C8, instance: declared size 108 with 16 bytes present gives length 16. -/
theorem carve_length_is_clamped_witness :
    (⟨0, 16⟩ : Span) ∈ (extractFiles 2 .WAV riffTruncated).spans ∧
    getSize .WAV (riffTruncated.drop 0) = .ret 108 ∧ riffTruncated.length < 0 + 108 ∧
      (⟨0, 16⟩ : Span).length = riffTruncated.length - (⟨0, 16⟩ : Span).offset :=
  ⟨by decide, by decide, by decide,
    (carve_length_is_clamped 2 .WAV riffTruncated (by decide)).2 ⟨0, 16⟩ (by decide) 108
      (by decide) (by decide)⟩

/-- C9, the defect: the one-byte file `00` holds no audio signature, yet the run of
`extractFiles` on it does not end with an empty result and the value `false`:
the scanner is called with `bufferSize = 1` and reads `fileBuffer[1]`. -/
theorem carve_faults_on_short_file_without_match :
    (∀ i, ¬ SigAt .WAV [0] i) ∧
    (∀ fuel, extractFiles (fuel + 1) .WAV [0] = ⟨[], .fault 1⟩) ∧
    (∀ fuel, extractFilesResult (extractFiles (fuel + 1) .WAV [0]) = none) := by
  have hrun : ∀ fuel, extractFiles (fuel + 1) .WAV [0] = ⟨[], .fault 1⟩ := by
    intro fuel
    have hstep : carveStep .WAV [0] 0 = .fault 1 := by decide
    unfold extractFiles carveLoop
    rw [if_neg (by decide), hstep]
  refine ⟨fun i h => ?_, hrun, fun fuel => ?_⟩
  · have := sigAt_inside h
    simp [patternLength] at this
  · rw [hrun]; rfl

/-! ## Claims about the size rules -/

/-- C10, refuted as stated: with the size field `0xFFFFFFFF` the sum of the field and
8 is 4294967303, and `getWavSize` returns 7. -/
theorem getWavSize_wraps :
    le32At riffMaxField 4 + 8 = 4294967303 ∧
    getWavSize riffMaxField = .ret 7 ∧
    getWavSize riffMaxField ≠ .ret (le32At riffMaxField 4 + 8) := by
  decide

/-- C10, amended: on a resource of at least 8 bytes `getWavSize` returns the
little-endian 32-bit integer stored at byte offsets 4..7 plus 8, reduced modulo
2^32; this is the exact sum whenever the sum is below 2^32. -/
theorem getWavSize_value (data : List Byte) (h : 8 ≤ data.length) :
    getWavSize data = .ret ((le32At data 4 + 8) % 2 ^ 32) ∧
    (le32At data 4 + 8 < 2 ^ 32 → getWavSize data = .ret (le32At data 4 + 8)) := by
  refine ⟨getWavSize_eq h, fun hfit => ?_⟩
  rw [getWavSize_eq h, Nat.mod_eq_of_lt hfit]

/-- C10 amended, instance: the size field 100 gives the declared size 108. -/
theorem getWavSize_value_witness :
    8 ≤ riffTruncated.length ∧ le32At riffTruncated 4 + 8 < 2 ^ 32 ∧
      getWavSize riffTruncated = .ret (le32At riffTruncated 4 + 8) :=
  ⟨by decide, by decide, (getWavSize_value riffTruncated (by decide)).2 (by decide)⟩

/-! ## The size rule of graphic resources -/

theorem u32_small {a : Nat} (h : a < 2 ^ 32) : u32 a = a := Nat.mod_eq_of_lt h

theorem u16_small {a : Nat} (h : a < 2 ^ 16) : u16 a = a := Nat.mod_eq_of_lt h

theorem lor_shift_two {a : Nat} (b : Nat) (ha : a < 256) : a ||| (b <<< 8) = a + 256 * b := by
  rw [Nat.shiftLeft_eq, Nat.lor_comm, Nat.mul_comm b,
    ← Nat.mul_add_lt_is_or (show a < 2 ^ 8 by omega)]
  omega

theorem le16At_lt (data : List Byte) (off : Nat) : le16At data off < 2 ^ 16 := by
  unfold le16At
  have h0 := (data.getD off 0).isLt
  have h1 := (data.getD (off + 1) 0).isLt
  omega

theorem le32At_lt (data : List Byte) (off : Nat) : le32At data off < 2 ^ 32 := by
  unfold le32At
  have h0 := (data.getD off 0).isLt
  have h1 := (data.getD (off + 1) 0).isLt
  have h2 := (data.getD (off + 2) 0).isLt
  have h3 := (data.getD (off + 3) 0).isLt
  omega

/-- The two reads of a 16-bit field inside the data, combined as the source does. -/
theorem u16_bytes_eq (data : List Byte) (off : Nat) :
    u16 ((data.getD off 0).val ||| ((data.getD (off + 1) 0).val <<< 8)) = le16At data off := by
  rw [lor_shift_two _ (data.getD off 0).isLt]
  exact u16_small (le16At_lt data off)

/-- The four reads of a 32-bit field inside the data, combined as the source does. -/
theorem u32_bytes_eq (data : List Byte) (off : Nat) :
    u32 ((data.getD off 0).val ||| ((data.getD (off + 1) 0).val <<< 8) |||
      ((data.getD (off + 2) 0).val <<< 16) ||| ((data.getD (off + 3) 0).val <<< 24))
      = le32At data off := by
  rw [lor_shift_bytes _ (data.getD off 0).isLt (data.getD (off + 1) 0).isLt
    (data.getD (off + 2) 0).isLt]
  exact u32_small (le32At_lt data off)

/-- The value computed by `getGraphicsResourceSize` when the frame count is at least 1,
the header of the last frame lies inside the data and the total fits in 32 bits. -/
theorem getGraphicsResourceSize_eq {data : List Byte} (hn : 1 ≤ frameCountOf data)
    (hin : framePositionOf data (frameCountOf data - 1) + 0x10 ≤ data.length)
    (hfit : framePositionOf data (frameCountOf data - 1) + 0x10 +
      frameWidthOf data (frameCountOf data - 1) * frameHeightOf data (frameCountOf data - 1)
        < 2 ^ 32) :
    getGraphicsResourceSize data =
      .ret (framePositionOf data (frameCountOf data - 1) + 0x10 +
        frameWidthOf data (frameCountOf data - 1) *
          frameHeightOf data (frameCountOf data - 1)) := by
  have hn16 : frameCountOf data < 2 ^ 16 := le16At_lt data 0x18
  have he := le32At_lt data (0x1C + 4 * (frameCountOf data - 1))
  have hw := le16At_lt data (framePositionOf data (frameCountOf data - 1) + 0x0E)
  have hh := le16At_lt data (framePositionOf data (frameCountOf data - 1) + 0x0C)
  have hP : framePositionOf data (frameCountOf data - 1)
      = 0x1C + 4 * frameCountOf data + le32At data (0x1C + 4 * (frameCountOf data - 1)) := rfl
  have hwh : frameWidthOf data (frameCountOf data - 1) *
      frameHeightOf data (frameCountOf data - 1) < 2 ^ 32 := by omega
  have hpos : ((0x1C + (((le16At data 0x18 : Nat) : Int) - 1) * 4) % 2 ^ 64).toNat
      = 0x1C + 4 * (frameCountOf data - 1) := by
    unfold frameCountOf at hn hn16 ⊢
    omega
  have hend : u32 (0x1C + le16At data 0x18 * 4) = 0x1C + 4 * frameCountOf data := by
    unfold frameCountOf at hn16 ⊢
    rw [u32_small (by omega)]; omega
  have hlast : u32 (0x1C + 4 * frameCountOf data +
      le32At data (0x1C + 4 * (frameCountOf data - 1)))
      = framePositionOf data (frameCountOf data - 1) := by
    rw [u32_small (by omega), hP]
  unfold getGraphicsResourceSize
  rw [readU8_inBounds (show 0x18 < data.length by omega),
    readU8_inBounds (show 0x19 < data.length by omega)]
  simp only [Run.bind]
  rw [u16_bytes_eq data 0x18, hpos,
    add64_small (show 0x1C + 4 * (frameCountOf data - 1) + 1 < 2 ^ 64 by omega),
    add64_small (show 0x1C + 4 * (frameCountOf data - 1) + 2 < 2 ^ 64 by omega),
    add64_small (show 0x1C + 4 * (frameCountOf data - 1) + 3 < 2 ^ 64 by omega),
    readU8_inBounds (show 0x1C + 4 * (frameCountOf data - 1) < data.length by omega),
    readU8_inBounds (show 0x1C + 4 * (frameCountOf data - 1) + 1 < data.length by omega),
    readU8_inBounds (show 0x1C + 4 * (frameCountOf data - 1) + 2 < data.length by omega),
    readU8_inBounds (show 0x1C + 4 * (frameCountOf data - 1) + 3 < data.length by omega)]
  simp only []
  rw [u32_bytes_eq data (0x1C + 4 * (frameCountOf data - 1)), hend, hlast,
    u32_small (show framePositionOf data (frameCountOf data - 1) + 0x0E < 2 ^ 32 by omega),
    u32_small (show framePositionOf data (frameCountOf data - 1) + 0x0E + 1 < 2 ^ 32 by omega),
    u32_small (show framePositionOf data (frameCountOf data - 1) + 0x0C < 2 ^ 32 by omega),
    u32_small (show framePositionOf data (frameCountOf data - 1) + 0x0C + 1 < 2 ^ 32 by omega),
    readU8_inBounds
      (show framePositionOf data (frameCountOf data - 1) + 0x0E < data.length by omega),
    readU8_inBounds
      (show framePositionOf data (frameCountOf data - 1) + 0x0E + 1 < data.length by omega),
    readU8_inBounds
      (show framePositionOf data (frameCountOf data - 1) + 0x0C < data.length by omega),
    readU8_inBounds
      (show framePositionOf data (frameCountOf data - 1) + 0x0C + 1 < data.length by omega)]
  simp only []
  rw [u16_bytes_eq data (framePositionOf data (frameCountOf data - 1) + 0x0E),
    u16_bytes_eq data (framePositionOf data (frameCountOf data - 1) + 0x0C)]
  have hwh2 : le16At data (framePositionOf data (frameCountOf data - 1) + 14) *
      le16At data (framePositionOf data (frameCountOf data - 1) + 12) < 2 ^ 32 := hwh
  rw [u32_small hwh2, u32_small (show framePositionOf data (frameCountOf data - 1) + 16
    < 2 ^ 32 by omega)]
  exact congrArg Run.ret (u32_small hfit)

/-! ## Reading the frame table -/

theorem readFrameCount_eq {data : List Byte} (h : 0x1A ≤ data.length) :
    readFrameCount data = .ret (frameCountOf data) := by
  unfold readFrameCount
  rw [readU8_inBounds (show 0x18 < data.length by omega),
    readU8_inBounds (show 0x19 < data.length by omega)]
  simp only [Run.bind]
  rw [u16_bytes_eq data 0x18]
  rfl

/-- The header reads of `extractFrameToBMP` for a frame whose table entry and header
lie inside the data, below 2^32. -/
theorem bmpFrameHeader_eq {data : List Byte} {i : Nat} (hi : i < frameCountOf data)
    (hin : framePositionOf data i + 0x10 ≤ data.length)
    (h32 : framePositionOf data i + 0x10 ≤ 2 ^ 32) :
    bmpFrameHeader data (frameCountOf data) i = .ret (frameOf data i) := by
  have hn16 : frameCountOf data < 2 ^ 16 := le16At_lt data 0x18
  have he := le32At_lt data (0x1C + 4 * i)
  have hP : framePositionOf data i
      = 0x1C + 4 * frameCountOf data + le32At data (0x1C + 4 * i) := rfl
  have hoff : u32 (0x1C + u32 (i * 4)) = 0x1C + 4 * i := by
    rw [u32_small (show i * 4 < 2 ^ 32 by omega), u32_small (by omega)]; omega
  have hend : u32 (0x1C + frameCountOf data * 4) = 0x1C + 4 * frameCountOf data := by
    rw [u32_small (by omega)]; omega
  have hlast : u32 (0x1C + 4 * frameCountOf data + le32At data (0x1C + 4 * i))
      = framePositionOf data i := by
    rw [u32_small (by omega), hP]
  unfold bmpFrameHeader
  simp only []
  rw [hoff, u32_small (show 0x1C + 4 * i + 1 < 2 ^ 32 by omega),
    u32_small (show 0x1C + 4 * i + 2 < 2 ^ 32 by omega),
    u32_small (show 0x1C + 4 * i + 3 < 2 ^ 32 by omega),
    readU8_inBounds (show 0x1C + 4 * i < data.length by omega),
    readU8_inBounds (show 0x1C + 4 * i + 1 < data.length by omega),
    readU8_inBounds (show 0x1C + 4 * i + 2 < data.length by omega),
    readU8_inBounds (show 0x1C + 4 * i + 3 < data.length by omega)]
  simp only [Run.bind]
  rw [u32_bytes_eq data (0x1C + 4 * i), hend, hlast,
    u32_small (show framePositionOf data i + 0x0C < 2 ^ 32 by omega),
    u32_small (show framePositionOf data i + 0x0C + 1 < 2 ^ 32 by omega),
    u32_small (show framePositionOf data i + 0x0E < 2 ^ 32 by omega),
    u32_small (show framePositionOf data i + 0x0E + 1 < 2 ^ 32 by omega),
    readU8_inBounds (show framePositionOf data i + 0x0C < data.length by omega),
    readU8_inBounds (show framePositionOf data i + 0x0C + 1 < data.length by omega),
    readU8_inBounds (show framePositionOf data i + 0x0E < data.length by omega),
    readU8_inBounds (show framePositionOf data i + 0x0E + 1 < data.length by omega)]
  simp only []
  rw [u16_bytes_eq data (framePositionOf data i + 0x0C),
    u16_bytes_eq data (framePositionOf data i + 0x0E)]
  rfl

/-- The header reads of the first loop of `extractFramesToSpritesheet` for a frame
whose table entry and header lie inside the data, below 2^32. -/
theorem sheetFrameHeader_eq {data : List Byte} {i : Nat} (hi : i < frameCountOf data)
    (hin : framePositionOf data i + 0x10 ≤ data.length)
    (h32 : framePositionOf data i + 0x10 ≤ 2 ^ 32) :
    sheetFrameHeader data (u32 (0x1C + frameCountOf data * 4)) i = .ret (frameOf data i) := by
  have hn16 : frameCountOf data < 2 ^ 16 := le16At_lt data 0x18
  have he := le32At_lt data (0x1C + 4 * i)
  have hP : framePositionOf data i
      = 0x1C + 4 * frameCountOf data + le32At data (0x1C + 4 * i) := rfl
  have hoff : u32 (0x1C + i * 4) = 0x1C + 4 * i := by
    rw [u32_small (by omega)]; omega
  have hend : u32 (0x1C + frameCountOf data * 4) = 0x1C + 4 * frameCountOf data := by
    rw [u32_small (by omega)]; omega
  have hlast : u32 (0x1C + 4 * frameCountOf data + le32At data (0x1C + 4 * i))
      = framePositionOf data i := by
    rw [u32_small (by omega), hP]
  unfold sheetFrameHeader
  simp only []
  rw [hoff, u32_small (show 0x1C + 4 * i + 1 < 2 ^ 32 by omega),
    u32_small (show 0x1C + 4 * i + 2 < 2 ^ 32 by omega),
    u32_small (show 0x1C + 4 * i + 3 < 2 ^ 32 by omega),
    readU8_inBounds (show 0x1C + 4 * i < data.length by omega),
    readU8_inBounds (show 0x1C + 4 * i + 1 < data.length by omega),
    readU8_inBounds (show 0x1C + 4 * i + 2 < data.length by omega),
    readU8_inBounds (show 0x1C + 4 * i + 3 < data.length by omega)]
  simp only [Run.bind]
  rw [u32_bytes_eq data (0x1C + 4 * i), hend, hlast,
    u32_small (show framePositionOf data i + 0x0C < 2 ^ 32 by omega),
    u32_small (show framePositionOf data i + 0x0C + 1 < 2 ^ 32 by omega),
    u32_small (show framePositionOf data i + 0x0E < 2 ^ 32 by omega),
    u32_small (show framePositionOf data i + 0x0E + 1 < 2 ^ 32 by omega),
    readU8_inBounds (show framePositionOf data i + 0x0C < data.length by omega),
    readU8_inBounds (show framePositionOf data i + 0x0C + 1 < data.length by omega),
    readU8_inBounds (show framePositionOf data i + 0x0E < data.length by omega),
    readU8_inBounds (show framePositionOf data i + 0x0E + 1 < data.length by omega)]
  simp only []
  rw [u16_bytes_eq data (framePositionOf data i + 0x0C),
    u16_bytes_eq data (framePositionOf data i + 0x0E)]
  rfl

/-- The first loop of `extractFramesToSpritesheet` from the frame `i` on, when the
frames it visits lie inside the data. -/
theorem sheetFrames_eq {data : List Byte} :
    ∀ (k i : Nat), i + k ≤ frameCountOf data →
      (∀ j, i ≤ j → j < i + k → framePositionOf data j + 0x10 ≤ data.length ∧
        framePositionOf data j + 0x10 ≤ 2 ^ 32) →
      sheetFrames data (u32 (0x1C + frameCountOf data * 4)) k i
        = .ret ((List.range' i k).map (frameOf data)) := by
  intro k
  induction k with
  | zero => intro i _ _; rfl
  | succ k ih =>
    intro i hik hin
    unfold sheetFrames
    obtain ⟨h1, h2⟩ := hin i (le_refl _) (by omega)
    rw [sheetFrameHeader_eq (by omega) h1 h2, ih (i + 1) (by omega)
      (fun j hj1 hj2 => hin j (by omega) (by omega))]
    simp [Run.bind, List.range'_succ]

/-! ## Claims about the frame table -/

/-- C11: for a graphic resource with frame count `n ≥ 1` whose reads are inside the
data (the header of the last frame ends inside it, which covers the frame count
and the table entry) and whose result fits in 32 bits, `getGraphicsResourceSize`
returns `P + 0x10 + width * height`, where `P = 0x1C + 4n +` the 32-bit table entry
at `0x1C + 4(n-1)`, `width` is the 16-bit field at `P + 0x0E` and `height` the one at
`P + 0x0C`. -/
theorem getGraphicsResourceSize_value (data : List Byte) (hn : 1 ≤ frameCountOf data)
    (hin : framePositionOf data (frameCountOf data - 1) + 0x10 ≤ data.length)
    (hfit : framePositionOf data (frameCountOf data - 1) + 0x10 +
      frameWidthOf data (frameCountOf data - 1) * frameHeightOf data (frameCountOf data - 1)
        < 2 ^ 32) :
    getGraphicsResourceSize data =
      .ret ((0x1C + 4 * le16At data 0x18 + le32At data (0x1C + 4 * (le16At data 0x18 - 1)))
        + 0x10 +
        le16At data ((0x1C + 4 * le16At data 0x18 +
            le32At data (0x1C + 4 * (le16At data 0x18 - 1))) + 0x0E) *
          le16At data ((0x1C + 4 * le16At data 0x18 +
            le32At data (0x1C + 4 * (le16At data 0x18 - 1))) + 0x0C)) :=
  getGraphicsResourceSize_eq hn hin hfit

/-- C11, instance: the three-frame resource, whose last frame is 3 by 1 at position
78, has the declared size 78 + 16 + 3 = 97. -/
theorem getGraphicsResourceSize_value_witness :
    1 ≤ frameCountOf d3grThree ∧
    framePositionOf d3grThree (frameCountOf d3grThree - 1) + 0x10 ≤ d3grThree.length ∧
    getGraphicsResourceSize d3grThree = .ret 97 :=
  ⟨by decide, by decide,
    getGraphicsResourceSize_value d3grThree (by decide) (by decide) (by decide)⟩

/-- C12: for a graphic resource with frame count `n ≥ 1` all of whose frame headers lie
inside the data (within its first 2^32 bytes, positions being 32-bit), the first
loop of
`extractFramesToSpritesheet` yields exactly `n` descriptors in index order, the
descriptor of the frame `i` having the position `0x1C + 4n +` (32-bit entry at
`0x1C + 4i`), the height stored at `position + 0x0C` and the width stored at
`position + 0x0E`; `extractFrameToBMP` reads the same descriptor for the frame
`i`, and both decoders go on with these descriptors. -/
theorem frame_table_parsed (data palette : List Byte) (hn : 1 ≤ frameCountOf data)
    (hin : ∀ i, i < frameCountOf data → framePositionOf data i + 0x10 ≤ data.length)
    (h32 : ∀ i, i < frameCountOf data → framePositionOf data i + 0x10 ≤ 2 ^ 32) :
    sheetFrames data (u32 (0x1C + frameCountOf data * 4)) (frameCountOf data) 0
      = .ret ((List.range (frameCountOf data)).map (frameOf data)) ∧
    ((List.range (frameCountOf data)).map (frameOf data)).length = frameCountOf data ∧
    (∀ i, i < frameCountOf data →
      ((List.range (frameCountOf data)).map (frameOf data))[i]? = some (frameOf data i) ∧
      (frameOf data i).position
        = 0x1C + 4 * le16At data 0x18 + le32At data (0x1C + 4 * i) ∧
      (frameOf data i).height = le16At data ((frameOf data i).position + 0x0C) ∧
      (frameOf data i).width = le16At data ((frameOf data i).position + 0x0E) ∧
      bmpFrameHeader data (frameCountOf data) i = .ret (frameOf data i) ∧
      extractFrameToBMP data i palette = bmpEncode data palette (frameOf data i)) ∧
    extractFramesToSpritesheet data palette
      = sheetEncode data palette ((List.range (frameCountOf data)).map (frameOf data)) := by
  have h0 := hin 0 (by omega)
  have hcount : readFrameCount data = .ret (frameCountOf data) :=
    readFrameCount_eq (by unfold framePositionOf at h0; omega)
  have hframes : sheetFrames data (u32 (0x1C + frameCountOf data * 4)) (frameCountOf data) 0
      = .ret ((List.range (frameCountOf data)).map (frameOf data)) := by
    rw [sheetFrames_eq (frameCountOf data) 0 (by omega)
      (fun j _ hj => ⟨hin j (by omega), h32 j (by omega)⟩),
      List.range_eq_range']
  refine ⟨hframes, by simp, fun i hi => ?_, ?_⟩
  · have hb := bmpFrameHeader_eq hi (hin i hi) (h32 i hi)
    refine ⟨by simp [hi], rfl, rfl, rfl, hb, ?_⟩
    unfold extractFrameToBMP
    rw [hcount]
    simp only [Run.toDec, Dec.bind]
    rw [if_neg (by omega), hb]
  · unfold extractFramesToSpritesheet
    rw [hcount]
    simp only [Run.toDec, Dec.bind]
    rw [if_neg (by omega), hframes]

/-- C12, instance: the resource with the frame count 3 yields the three descriptors
`(40, 2 × 2)`, `(60, 1 × 2)`, `(78, 3 × 1)` in this order. -/
theorem frame_table_parsed_witness :
    1 ≤ frameCountOf d3grThree ∧
    (List.range (frameCountOf d3grThree)).map (frameOf d3grThree)
      = [⟨40, 2, 2⟩, ⟨60, 1, 2⟩, ⟨78, 3, 1⟩] ∧
    sheetFrames d3grThree (u32 (0x1C + frameCountOf d3grThree * 4)) (frameCountOf d3grThree) 0
      = .ret ((List.range (frameCountOf d3grThree)).map (frameOf d3grThree)) :=
  ⟨by decide, by decide,
    (frame_table_parsed d3grThree paletteBW (by decide) (by decide) (by decide)).1⟩

/-- C13: a graphic resource whose frame count field is 0 is rejected by both decoders:
`extractFramesToSpritesheet` returns `false` and writes nothing, and
`extractFrameToBMP` returns `false` for every frame index that is not below the
frame count, hence for every index when the count is 0. -/
theorem zero_frames_rejected (data palette : List Byte) (hlen : 0x1A ≤ data.length) :
    (frameCountOf data = 0 → extractFramesToSpritesheet data palette = .ok none) ∧
    (frameCountOf data = 0 → ∀ frameIndex, extractFrameToBMP data frameIndex palette = .ok none) ∧
    (∀ frameIndex, frameCountOf data ≤ frameIndex →
      extractFrameToBMP data frameIndex palette = .ok none) := by
  have hcount : readFrameCount data = .ret (frameCountOf data) := readFrameCount_eq hlen
  have hge : ∀ frameIndex, frameCountOf data ≤ frameIndex →
      extractFrameToBMP data frameIndex palette = .ok none := by
    intro frameIndex hge
    unfold extractFrameToBMP
    rw [hcount]
    simp only [Run.toDec, Dec.bind]
    rw [if_pos hge]
  refine ⟨fun h0 => ?_, fun h0 frameIndex => hge frameIndex (by omega), hge⟩
  unfold extractFramesToSpritesheet
  rw [hcount]
  simp only [Run.toDec, Dec.bind]
  rw [if_pos h0]

/-- C13, instance: the resource with the frame count 0. -/
theorem zero_frames_rejected_witness :
    0x1A ≤ d3grEmpty.length ∧ frameCountOf d3grEmpty = 0 ∧
    extractFramesToSpritesheet d3grEmpty paletteBW = .ok none ∧
    extractFrameToBMP d3grEmpty 0 paletteBW = .ok none :=
  ⟨by decide, by decide,
    (zero_frames_rejected d3grEmpty paletteBW (by decide)).1 (by decide),
    (zero_frames_rejected d3grEmpty paletteBW (by decide)).2.2 0 (by decide)⟩

/-! ## Frame headers outside the data -/

theorem readU8_ret {data : List Byte} {i v : Nat} (h : readU8 data i = .ret v) :
    i < data.length ∧ v = (data.getD i 0).val := by
  obtain ⟨b, hb, hv⟩ := readU8_eq_ret h
  have hi : i < data.length := by
    by_contra hc
    rw [List.getElem?_eq_none (by omega)] at hb
    simp at hb
  refine ⟨hi, ?_⟩
  rw [hv, List.getD_eq_getElem?_getD, hb]
  rfl

/-- When the header reads of `extractFrameToBMP` return, the frame header lies inside
the data. -/
theorem bmpFrameHeader_inBounds {data : List Byte} {i : Nat} {f : Frame}
    (h : bmpFrameHeader data (frameCountOf data) i = .ret f) (hi : i < frameCountOf data)
    (h32 : framePositionOf data i + 0x10 ≤ 2 ^ 32) :
    framePositionOf data i + 0x10 ≤ data.length := by
  have hn16 : frameCountOf data < 2 ^ 16 := le16At_lt data 0x18
  have he := le32At_lt data (0x1C + 4 * i)
  have hP : framePositionOf data i
      = 0x1C + 4 * frameCountOf data + le32At data (0x1C + 4 * i) := rfl
  have hoff : u32 (0x1C + u32 (i * 4)) = 0x1C + 4 * i := by
    rw [u32_small (show i * 4 < 2 ^ 32 by omega), u32_small (by omega)]; omega
  have hend : u32 (0x1C + frameCountOf data * 4) = 0x1C + 4 * frameCountOf data := by
    rw [u32_small (by omega)]; omega
  have hlast : u32 (0x1C + 4 * frameCountOf data + le32At data (0x1C + 4 * i))
      = framePositionOf data i := by
    rw [u32_small (by omega), hP]
  unfold bmpFrameHeader at h
  simp only [] at h
  rw [hoff, u32_small (show 0x1C + 4 * i + 1 < 2 ^ 32 by omega),
    u32_small (show 0x1C + 4 * i + 2 < 2 ^ 32 by omega),
    u32_small (show 0x1C + 4 * i + 3 < 2 ^ 32 by omega)] at h
  obtain ⟨o0, h0, h⟩ := Run.bind_eq_ret h
  obtain ⟨o1, h1, h⟩ := Run.bind_eq_ret h
  obtain ⟨o2, h2, h⟩ := Run.bind_eq_ret h
  obtain ⟨o3, h3, h⟩ := Run.bind_eq_ret h
  rw [(readU8_ret h0).2, (readU8_ret h1).2, (readU8_ret h2).2, (readU8_ret h3).2,
    u32_bytes_eq data (0x1C + 4 * i), hend, hlast,
    u32_small (show framePositionOf data i + 0x0C < 2 ^ 32 by omega),
    u32_small (show framePositionOf data i + 0x0C + 1 < 2 ^ 32 by omega),
    u32_small (show framePositionOf data i + 0x0E < 2 ^ 32 by omega),
    u32_small (show framePositionOf data i + 0x0E + 1 < 2 ^ 32 by omega)] at h
  obtain ⟨_, _, h⟩ := Run.bind_eq_ret h
  obtain ⟨_, _, h⟩ := Run.bind_eq_ret h
  obtain ⟨_, _, h⟩ := Run.bind_eq_ret h
  obtain ⟨_, hw1, _⟩ := Run.bind_eq_ret h
  have := (readU8_ret hw1).1
  omega

/-- When the header reads of the first loop of `extractFramesToSpritesheet` return for
a frame, its header lies inside the data. -/
theorem sheetFrameHeader_inBounds {data : List Byte} {i : Nat} {f : Frame}
    (h : sheetFrameHeader data (u32 (0x1C + frameCountOf data * 4)) i = .ret f)
    (hi : i < frameCountOf data) (h32 : framePositionOf data i + 0x10 ≤ 2 ^ 32) :
    framePositionOf data i + 0x10 ≤ data.length := by
  have hn16 : frameCountOf data < 2 ^ 16 := le16At_lt data 0x18
  have he := le32At_lt data (0x1C + 4 * i)
  have hP : framePositionOf data i
      = 0x1C + 4 * frameCountOf data + le32At data (0x1C + 4 * i) := rfl
  have hoff : u32 (0x1C + i * 4) = 0x1C + 4 * i := by
    rw [u32_small (by omega)]; omega
  have hend : u32 (0x1C + frameCountOf data * 4) = 0x1C + 4 * frameCountOf data := by
    rw [u32_small (by omega)]; omega
  have hlast : u32 (0x1C + 4 * frameCountOf data + le32At data (0x1C + 4 * i))
      = framePositionOf data i := by
    rw [u32_small (by omega), hP]
  unfold sheetFrameHeader at h
  simp only [] at h
  rw [hoff, u32_small (show 0x1C + 4 * i + 1 < 2 ^ 32 by omega),
    u32_small (show 0x1C + 4 * i + 2 < 2 ^ 32 by omega),
    u32_small (show 0x1C + 4 * i + 3 < 2 ^ 32 by omega)] at h
  obtain ⟨o0, h0, h⟩ := Run.bind_eq_ret h
  obtain ⟨o1, h1, h⟩ := Run.bind_eq_ret h
  obtain ⟨o2, h2, h⟩ := Run.bind_eq_ret h
  obtain ⟨o3, h3, h⟩ := Run.bind_eq_ret h
  rw [(readU8_ret h0).2, (readU8_ret h1).2, (readU8_ret h2).2, (readU8_ret h3).2,
    u32_bytes_eq data (0x1C + 4 * i), hend, hlast,
    u32_small (show framePositionOf data i + 0x0C < 2 ^ 32 by omega),
    u32_small (show framePositionOf data i + 0x0C + 1 < 2 ^ 32 by omega),
    u32_small (show framePositionOf data i + 0x0E < 2 ^ 32 by omega),
    u32_small (show framePositionOf data i + 0x0E + 1 < 2 ^ 32 by omega)] at h
  obtain ⟨_, _, h⟩ := Run.bind_eq_ret h
  obtain ⟨_, _, h⟩ := Run.bind_eq_ret h
  obtain ⟨_, _, h⟩ := Run.bind_eq_ret h
  obtain ⟨_, hw1, _⟩ := Run.bind_eq_ret h
  have := (readU8_ret hw1).1
  omega

/-- When the first loop of `extractFramesToSpritesheet` returns, the header of every
frame it has visited lies inside the data. -/
theorem sheetFrames_inBounds {data : List Byte} :
    ∀ (k i : Nat) {frames : List Frame},
      sheetFrames data (u32 (0x1C + frameCountOf data * 4)) k i = .ret frames →
      i + k ≤ frameCountOf data →
      ∀ j, i ≤ j → j < i + k → framePositionOf data j + 0x10 ≤ 2 ^ 32 →
        framePositionOf data j + 0x10 ≤ data.length := by
  intro k
  induction k with
  | zero => intro i frames _ _ j h1 h2; omega
  | succ k ih =>
    intro i frames h hik j hj1 hj2 h32
    unfold sheetFrames at h
    obtain ⟨f, hf, h⟩ := Run.bind_eq_ret h
    obtain ⟨rest, hrest, _⟩ := Run.bind_eq_ret h
    rcases Nat.eq_or_lt_of_le hj1 with rfl | hlt
    · exact sheetFrameHeader_inBounds hf (by omega) h32
    · exact ih (i + 1) hrest (by omega) j hlt (by omega) h32

theorem readFrameCount_ret {data : List Byte} {n : Nat} (h : readFrameCount data = .ret n) :
    n = frameCountOf data := by
  unfold readFrameCount at h
  obtain ⟨c0, h0, h⟩ := Run.bind_eq_ret h
  obtain ⟨c1, h1, h⟩ := Run.bind_eq_ret h
  obtain ⟨_, e0⟩ := readU8_ret h0
  obtain ⟨_, e1⟩ := readU8_ret h1
  simp only [Run.ret.injEq] at h
  rw [← h, e0, e1]
  exact u16_bytes_eq data 0x18

theorem faultsOutside_ret {α : Type} (data : List Byte) (a : α) :
    FaultsOutside data (Run.ret a) := by
  intro k h; simp at h

theorem faultsOutside_readU8 (data : List Byte) (i : Nat) : FaultsOutside data (readU8 data i) := by
  intro k h
  unfold readU8 at h
  cases hb : data[i]? with
  | none =>
    rw [hb] at h
    simp only [Run.outOfBounds.injEq] at h
    rw [← h]
    exact List.getElem?_eq_none_iff.1 hb
  | some b => rw [hb] at h; simp at h

theorem faultsOutside_bind {α β : Type} {data : List Byte} {r : Run α} {f : α → Run β}
    (hr : FaultsOutside data r) (hf : ∀ a, FaultsOutside data (f a)) :
    FaultsOutside data (r.bind f) := by
  intro k h
  cases r with
  | ret a => exact hf a k h
  | outOfBounds j =>
    simp only [Run.bind, Run.outOfBounds.injEq] at h
    exact hr k (by rw [h])

theorem faultsOutside_readFrameCount (data : List Byte) :
    FaultsOutside data (readFrameCount data) := by
  unfold readFrameCount
  exact faultsOutside_bind (faultsOutside_readU8 _ _) fun _ =>
    faultsOutside_bind (faultsOutside_readU8 _ _) fun _ => faultsOutside_ret _ _

theorem faultsOutside_bmpFrameHeader (data : List Byte) (n i : Nat) :
    FaultsOutside data (bmpFrameHeader data n i) := by
  unfold bmpFrameHeader
  exact faultsOutside_bind (faultsOutside_readU8 _ _) fun _ =>
    faultsOutside_bind (faultsOutside_readU8 _ _) fun _ =>
    faultsOutside_bind (faultsOutside_readU8 _ _) fun _ =>
    faultsOutside_bind (faultsOutside_readU8 _ _) fun _ =>
    faultsOutside_bind (faultsOutside_readU8 _ _) fun _ =>
    faultsOutside_bind (faultsOutside_readU8 _ _) fun _ =>
    faultsOutside_bind (faultsOutside_readU8 _ _) fun _ =>
    faultsOutside_bind (faultsOutside_readU8 _ _) fun _ => faultsOutside_ret _ _

theorem faultsOutside_sheetFrameHeader (data : List Byte) (e i : Nat) :
    FaultsOutside data (sheetFrameHeader data e i) := by
  unfold sheetFrameHeader
  exact faultsOutside_bind (faultsOutside_readU8 _ _) fun _ =>
    faultsOutside_bind (faultsOutside_readU8 _ _) fun _ =>
    faultsOutside_bind (faultsOutside_readU8 _ _) fun _ =>
    faultsOutside_bind (faultsOutside_readU8 _ _) fun _ =>
    faultsOutside_bind (faultsOutside_readU8 _ _) fun _ =>
    faultsOutside_bind (faultsOutside_readU8 _ _) fun _ =>
    faultsOutside_bind (faultsOutside_readU8 _ _) fun _ =>
    faultsOutside_bind (faultsOutside_readU8 _ _) fun _ => faultsOutside_ret _ _

theorem faultsOutside_sheetFrames (data : List Byte) (e : Nat) :
    ∀ (k i : Nat), FaultsOutside data (sheetFrames data e k i) := by
  intro k
  induction k with
  | zero => intro i; exact faultsOutside_ret _ _
  | succ k ih =>
    intro i
    unfold sheetFrames
    exact faultsOutside_bind (faultsOutside_sheetFrameHeader _ _ _) fun _ =>
      faultsOutside_bind (ih _) fun _ => faultsOutside_ret _ _

/-- In the 32 bytes of `d3grCut` the header of the only frame would occupy bytes 32 to
47, after the last byte that can be read; neither decoder returns `false`: both
read `resourceData[44]`. -/
theorem decoders_read_past_cut :
    frameCountOf d3grCut = 1 ∧ d3grCut.length < framePositionOf d3grCut 0 + 0x10 ∧
    extractFrameToBMP d3grCut 0 paletteBW = .badResourceRead 44 ∧
    extractFramesToSpritesheet d3grCut paletteBW = .badResourceRead 44 ∧
    extractFrameToBMP d3grCut 0 paletteBW ≠ .ok none ∧
    extractFramesToSpritesheet d3grCut paletteBW ≠ .ok none := by
  decide

/-- Here `data` holds all the bytes that can be read from the pointer `resourceData`,
to the end of the file. When the 16-byte header of a frame `i` below the frame
count does not lie inside these bytes (its position being at most 2^32 - 16),
`extractFrameToBMP` for that frame and `extractFramesToSpritesheet` each read a
byte of `resourceData` at an index that is not inside them. -/
theorem decoders_read_past_data (data palette : List Byte) (i : Nat)
    (hi : i < frameCountOf data) (hout : data.length < framePositionOf data i + 0x10)
    (h32 : framePositionOf data i + 0x10 ≤ 2 ^ 32) :
    (∃ k : Nat, data.length ≤ k ∧ extractFrameToBMP data i palette = .badResourceRead k) ∧
    (∃ k : Nat, data.length ≤ k ∧
      extractFramesToSpritesheet data palette = .badResourceRead k) := by
  constructor
  · unfold extractFrameToBMP
    cases hc : readFrameCount data with
    | outOfBounds k => exact ⟨k, faultsOutside_readFrameCount data k hc, rfl⟩
    | ret n =>
      have hn := readFrameCount_ret hc
      subst hn
      simp only [Run.toDec, Dec.bind]
      rw [if_neg (by omega)]
      cases hf : bmpFrameHeader data (frameCountOf data) i with
      | outOfBounds k => exact ⟨k, faultsOutside_bmpFrameHeader data _ _ k hf, rfl⟩
      | ret f =>
        have := bmpFrameHeader_inBounds hf hi h32
        omega
  · unfold extractFramesToSpritesheet
    cases hc : readFrameCount data with
    | outOfBounds k => exact ⟨k, faultsOutside_readFrameCount data k hc, rfl⟩
    | ret n =>
      have hn := readFrameCount_ret hc
      subst hn
      simp only [Run.toDec, Dec.bind]
      rw [if_neg (by omega)]
      cases hf : sheetFrames data (u32 (0x1C + frameCountOf data * 4)) (frameCountOf data) 0 with
      | outOfBounds k => exact ⟨k, faultsOutside_sheetFrames data _ _ _ k hf, rfl⟩
      | ret frames =>
        have := sheetFrames_inBounds (frameCountOf data) 0 hf (by omega) i (by omega)
          (by omega) h32
        omega

/-- The bytes cut after the offset table. -/
theorem decoders_read_past_data_witness :
    0 < frameCountOf d3grCut ∧ d3grCut.length < framePositionOf d3grCut 0 + 0x10 ∧
    (∃ k : Nat, d3grCut.length ≤ k ∧
      extractFrameToBMP d3grCut 0 paletteBW = .badResourceRead k) :=
  ⟨by decide, by decide,
    (decoders_read_past_data d3grCut paletteBW 0 (by decide) (by decide) (by decide)).1⟩

/-! ## The layout loop -/

theorem Placed.Before.disjoint {a b : Placed} (h : a.Before b) : a.Disjoint b := by
  intro px py hp
  unfold Placed.Before at h
  omega

theorem Placed.Disjoint.symm {a b : Placed} (h : a.Disjoint b) : b.Disjoint a := by
  intro px py hp
  exact h px py ⟨hp.2, hp.1⟩

/-- One pass of the layout loop, when the sums stay below 2^32: where the frame is
put and how the variables change. -/
theorem placeFrame_spec (targetWidth : Nat) (c : Cursor) (f : Frame)
    (hx : c.currentX + f.width < 2 ^ 32)
    (hy : c.currentY + c.rowHeight + f.height < 2 ^ 32) :
    let r := placeFrame targetWidth c f
    Placed.Beyond c ⟨r.1.1, r.1.2, f.width, f.height⟩ ∧
    r.1.1 + f.width = r.2.currentX ∧ r.1.2 = r.2.currentY ∧ f.height ≤ r.2.rowHeight ∧
    r.2.currentX ≤ c.currentX + f.width ∧
    r.2.currentY + r.2.rowHeight ≤ c.currentY + c.rowHeight + f.height ∧
    r.2.currentX ≤ r.2.spritesheetWidth ∧
    r.2.currentY + r.2.rowHeight ≤ r.2.spritesheetHeight ∧
    c.spritesheetWidth ≤ r.2.spritesheetWidth ∧
    c.spritesheetHeight ≤ r.2.spritesheetHeight ∧
    (∀ q, Placed.Beyond r.2 q → Placed.Beyond c q) := by
  intro r
  by_cases hwrap : u32 (c.currentX + f.width) > targetWidth ∧ c.currentX > 0
  · have hr : r = ((0, c.currentY + c.rowHeight),
        { currentX := f.width
          currentY := c.currentY + c.rowHeight
          rowHeight := f.height
          spritesheetWidth := max c.spritesheetWidth f.width
          spritesheetHeight := max c.spritesheetHeight (c.currentY + c.rowHeight + f.height) }) := by
      show placeFrame targetWidth c f = _
      unfold placeFrame wrapRow
      rw [if_pos hwrap]
      simp only [Nat.zero_add, Nat.zero_max]
      rw [u32_small (show c.currentY + c.rowHeight < 2 ^ 32 by omega),
        u32_small (show f.width < 2 ^ 32 by omega),
        u32_small (show c.currentY + c.rowHeight + f.height < 2 ^ 32 by omega)]
    rw [hr]
    refine ⟨Or.inr (le_refl _), by simp, rfl, le_refl _, by simp, by simp, ?_, ?_, ?_, ?_, ?_⟩
    · exact le_max_right _ _
    · exact le_max_right _ _
    · exact le_max_left _ _
    · exact le_max_left _ _
    · intro q hq
      unfold Placed.Beyond at hq ⊢
      simp only at hq
      omega
  · have hr : r = ((c.currentX, c.currentY),
        { currentX := c.currentX + f.width
          currentY := c.currentY
          rowHeight := max c.rowHeight f.height
          spritesheetWidth := max c.spritesheetWidth (c.currentX + f.width)
          spritesheetHeight :=
            max c.spritesheetHeight (c.currentY + max c.rowHeight f.height) }) := by
      show placeFrame targetWidth c f = _
      unfold placeFrame wrapRow
      rw [if_neg hwrap]
      simp only
      have hm : max c.rowHeight f.height ≤ c.rowHeight + f.height := by
        rcases Nat.le_total c.rowHeight f.height with h | h
        · rw [max_eq_right h]; omega
        · rw [max_eq_left h]; omega
      rw [u32_small hx, u32_small (show c.currentY + max c.rowHeight f.height < 2 ^ 32 by omega)]
    rw [hr]
    have hm : max c.rowHeight f.height ≤ c.rowHeight + f.height := by
      rcases Nat.le_total c.rowHeight f.height with h | h
      · rw [max_eq_right h]; omega
      · rw [max_eq_left h]; omega
    have hm1 : c.rowHeight ≤ max c.rowHeight f.height := le_max_left _ _
    have hm2 : f.height ≤ max c.rowHeight f.height := le_max_right _ _
    refine ⟨Or.inl ⟨rfl, le_refl _⟩, rfl, rfl, hm2, le_refl _, by simp only; omega,
      ?_, ?_, ?_, ?_, ?_⟩
    · exact le_max_right _ _
    · exact le_max_right _ _
    · exact le_max_left _ _
    · exact le_max_left _ _
    · intro q hq
      unfold Placed.Beyond at hq ⊢
      simp only at hq
      omega

/-- The layout loop from any state of its variables, for frames whose sizes keep the
sums below 2^32: every frame is put beyond the cursor and inside the final
canvas bounds, and each frame lies before every later one. -/
theorem layoutLoop_spec (targetWidth : Nat) :
    ∀ (frames : List Frame) (c : Cursor),
      (∀ f ∈ frames, f.width ≤ 65535 ∧ f.height ≤ 65535) →
      c.currentX + 65535 * frames.length < 2 ^ 32 →
      c.currentY + c.rowHeight + 65535 * frames.length < 2 ^ 32 →
      c.currentX ≤ c.spritesheetWidth →
      c.currentY + c.rowHeight ≤ c.spritesheetHeight →
      (layoutLoop targetWidth c frames).1.length = frames.length ∧
      (∀ q ∈ placedFrames frames (layoutLoop targetWidth c frames).1,
        Placed.Beyond c q ∧
        q.x + q.w ≤ (layoutLoop targetWidth c frames).2.spritesheetWidth ∧
        q.y + q.h ≤ (layoutLoop targetWidth c frames).2.spritesheetHeight) ∧
      List.Pairwise Placed.Before (placedFrames frames (layoutLoop targetWidth c frames).1) ∧
      c.spritesheetWidth ≤ (layoutLoop targetWidth c frames).2.spritesheetWidth ∧
      c.spritesheetHeight ≤ (layoutLoop targetWidth c frames).2.spritesheetHeight := by
  intro frames
  induction frames with
  | nil =>
    intro c _ _ _ _ _
    simp [layoutLoop, placedFrames]
  | cons f rest ih =>
    intro c hsz hx hy hsw hsh
    have hf := hsz f (List.mem_cons_self _ _)
    simp only [List.length_cons] at hx hy
    obtain ⟨hb, hpx, hpy, hph, hcx, hcy, hsw1, hsh1, hmw, hmh, hbey⟩ :=
      placeFrame_spec targetWidth c f (by omega) (by omega)
    obtain ⟨hlen, hall, hpair, hw2, hh2⟩ := ih (placeFrame targetWidth c f).2
      (fun g hg => hsz g (List.mem_cons_of_mem _ hg)) (by omega) (by omega) hsw1 hsh1
    have hdef : layoutLoop targetWidth c (f :: rest) =
        ((placeFrame targetWidth c f).1 ::
          (layoutLoop targetWidth (placeFrame targetWidth c f).2 rest).1,
          (layoutLoop targetWidth (placeFrame targetWidth c f).2 rest).2) := rfl
    rw [hdef]
    simp only [placedFrames, List.zipWith_cons_cons, List.length_cons, List.mem_cons,
      List.pairwise_cons]
    refine ⟨by rw [hlen], ?_, ⟨?_, hpair⟩, le_trans hmw hw2, le_trans hmh hh2⟩
    · intro q hq
      rcases hq with rfl | hq
      · refine ⟨hb, ?_, ?_⟩
        · simp only; omega
        · simp only; omega
      · obtain ⟨h1, h2, h3⟩ := hall q hq
        exact ⟨hbey q h1, h2, h3⟩
    · intro q hq
      obtain ⟨h1, _, _⟩ := hall q hq
      unfold Placed.Beyond at h1
      unfold Placed.Before
      simp only
      omega

/-- The layout computed by `extractFramesToSpritesheet` for at most 65535 frames with
16-bit sizes. -/
theorem sheetLayout_spec (frames : List Frame)
    (hsz : ∀ f ∈ frames, f.width ≤ 65535 ∧ f.height ≤ 65535) (hlen : frames.length ≤ 65535) :
    (placedFrames frames (sheetLayout frames).1).length = frames.length ∧
    (∀ q ∈ placedFrames frames (sheetLayout frames).1,
      q.x + q.w ≤ (sheetLayout frames).2.spritesheetWidth ∧
      q.y + q.h ≤ (sheetLayout frames).2.spritesheetHeight) ∧
    List.Pairwise Placed.Before (placedFrames frames (sheetLayout frames).1) := by
  have hmul : 65535 * frames.length ≤ 65535 * 65535 := Nat.mul_le_mul_left _ hlen
  obtain ⟨h1, h2, h3, _, _⟩ := layoutLoop_spec (targetWidthOf frames) frames ⟨0, 0, 0, 0, 0⟩ hsz
    (by simp only; omega) (by simp only; omega) (le_refl _) (le_refl _)
  refine ⟨?_, fun q hq => (h2 q hq).2, h3⟩
  unfold placedFrames sheetLayout
  rw [List.length_zipWith, h1, Nat.min_self]

/-- The frames read by the first loop of `extractFramesToSpritesheet` have 16-bit sizes,
and there are as many as the loop has passes. -/
theorem sheetFrames_sizes {data : List Byte} {e : Nat} :
    ∀ (k i : Nat) {frames : List Frame}, sheetFrames data e k i = .ret frames →
      frames.length = k ∧ ∀ f ∈ frames, f.width ≤ 65535 ∧ f.height ≤ 65535 := by
  intro k
  induction k with
  | zero =>
    intro i frames h
    simp only [sheetFrames, Run.ret.injEq] at h
    subst h
    simp
  | succ k ih =>
    intro i frames h
    unfold sheetFrames at h
    obtain ⟨f, hf, h⟩ := Run.bind_eq_ret h
    obtain ⟨rest, hrest, h⟩ := Run.bind_eq_ret h
    simp only [Run.ret.injEq] at h
    subst h
    obtain ⟨hl, hs⟩ := ih (i + 1) hrest
    refine ⟨by simp [hl], ?_⟩
    intro g hg
    rcases List.mem_cons.1 hg with rfl | hg
    · unfold sheetFrameHeader at hf
      simp only [] at hf
      obtain ⟨_, _, hf⟩ := Run.bind_eq_ret hf
      obtain ⟨_, _, hf⟩ := Run.bind_eq_ret hf
      obtain ⟨_, _, hf⟩ := Run.bind_eq_ret hf
      obtain ⟨_, _, hf⟩ := Run.bind_eq_ret hf
      obtain ⟨_, _, hf⟩ := Run.bind_eq_ret hf
      obtain ⟨_, _, hf⟩ := Run.bind_eq_ret hf
      obtain ⟨_, _, hf⟩ := Run.bind_eq_ret hf
      obtain ⟨_, _, hf⟩ := Run.bind_eq_ret hf
      simp only [Run.ret.injEq] at hf
      rw [← hf]
      simp only [u16]
      constructor <;> omega
    · exact hs g hg

/-- The wrap threshold and the layout of the three sample frames: the threshold is
`floor (sqrt (6 * 2)) = 3`. -/
theorem sheetLayout_threeFrames :
    placedFrames threeFrames (sheetLayout threeFrames).1
      = [⟨0, 0, 2, 2⟩, ⟨2, 0, 1, 2⟩, ⟨0, 2, 3, 1⟩] ∧
    (sheetLayout threeFrames).2.spritesheetWidth = 3 ∧
    (sheetLayout threeFrames).2.spritesheetHeight = 3 := by
  have ht : targetWidthOf threeFrames = 3 := by
    unfold targetWidthOf
    rw [show u32 (totalWidthOf threeFrames * maxHeightOf threeFrames) = 12 by decide]
    exact (Nat.eq_sqrt.2 ⟨by norm_num, by norm_num⟩).symm
  unfold sheetLayout
  rw [ht]
  decide

/-! ## Claims about the layout -/

/-- C19: the placements computed by the layout loop of `extractFramesToSpritesheet` for a
list of frames (at most 65535 of them, with 16-bit sizes, as the loop receives
them) give pairwise disjoint rectangles: for all `i ≠ j` the rectangles
`[x_i, x_i + w_i) × [y_i, y_i + h_i)` and `[x_j, x_j + w_j) × [y_j, y_j + h_j)` share no
pixel; every frame has a placement. -/
theorem layout_no_overlap (frames : List Frame)
    (hsz : ∀ f ∈ frames, f.width ≤ 65535 ∧ f.height ≤ 65535) (hlen : frames.length ≤ 65535) :
    (placedFrames frames (sheetLayout frames).1).length = frames.length ∧
    ∀ (i j : Nat) (a b : Placed), i ≠ j →
      (placedFrames frames (sheetLayout frames).1)[i]? = some a →
      (placedFrames frames (sheetLayout frames).1)[j]? = some b →
      a.Disjoint b := by
  obtain ⟨h1, _, h3⟩ := sheetLayout_spec frames hsz hlen
  refine ⟨h1, ?_⟩
  intro i j a b hij ha hb
  obtain ⟨hi, rfl⟩ := List.getElem?_eq_some.1 ha
  obtain ⟨hj, rfl⟩ := List.getElem?_eq_some.1 hb
  rcases Nat.lt_or_gt_of_ne hij with hlt | hgt
  · exact (List.pairwise_iff_getElem.1 h3 i j hi hj hlt).disjoint
  · exact (List.pairwise_iff_getElem.1 h3 j i hj hi hgt).disjoint.symm

/-- C19, instance: the three frames 2 × 2, 1 × 2 and 3 × 1 are put at `(0, 0)`, `(2, 0)` and
`(0, 2)`; the first two share no pixel. -/
theorem layout_no_overlap_witness :
    placedFrames threeFrames (sheetLayout threeFrames).1
      = [⟨0, 0, 2, 2⟩, ⟨2, 0, 1, 2⟩, ⟨0, 2, 3, 1⟩] ∧
    Placed.Disjoint ⟨0, 0, 2, 2⟩ ⟨2, 0, 1, 2⟩ :=
  ⟨sheetLayout_threeFrames.1,
    (layout_no_overlap threeFrames (by decide) (by decide)).2 0 1
      ⟨0, 0, 2, 2⟩ ⟨2, 0, 1, 2⟩ (by decide)
      (by rw [sheetLayout_threeFrames.1]; rfl) (by rw [sheetLayout_threeFrames.1]; rfl)⟩

/-- C20: for a list of frames (at most 65535 of them, with 16-bit sizes) and every
frame `i`, the placement computed by the layout loop of
`extractFramesToSpritesheet` satisfies `x_i + w_i ≤ spritesheetWidth` and
`y_i + h_i ≤ spritesheetHeight`. -/
theorem layout_inside_canvas (frames : List Frame)
    (hsz : ∀ f ∈ frames, f.width ≤ 65535 ∧ f.height ≤ 65535) (hlen : frames.length ≤ 65535) :
    ∀ (i : Nat) (q : Placed), (placedFrames frames (sheetLayout frames).1)[i]? = some q →
      q.x + q.w ≤ (sheetLayout frames).2.spritesheetWidth ∧
      q.y + q.h ≤ (sheetLayout frames).2.spritesheetHeight := by
  obtain ⟨_, h2, _⟩ := sheetLayout_spec frames hsz hlen
  intro i q hq
  obtain ⟨hi, rfl⟩ := List.getElem?_eq_some.1 hq
  exact h2 _ (List.getElem_mem _)

/-- C20, instance: the frame 3 × 1 put at `(0, 2)` lies inside the canvas 3 × 3. -/
theorem layout_inside_canvas_witness :
    (sheetLayout threeFrames).2.spritesheetWidth = 3 ∧
    (sheetLayout threeFrames).2.spritesheetHeight = 3 ∧
    (⟨0, 2, 3, 1⟩ : Placed).x + (⟨0, 2, 3, 1⟩ : Placed).w
      ≤ (sheetLayout threeFrames).2.spritesheetWidth ∧
    (⟨0, 2, 3, 1⟩ : Placed).y + (⟨0, 2, 3, 1⟩ : Placed).h
      ≤ (sheetLayout threeFrames).2.spritesheetHeight :=
  ⟨sheetLayout_threeFrames.2.1, sheetLayout_threeFrames.2.2,
    layout_inside_canvas threeFrames (by decide) (by decide) 2
      ⟨0, 2, 3, 1⟩ (by rw [sheetLayout_threeFrames.1]; rfl)⟩

/-! ## Encoding one frame -/

/-- The operation `x & ~3` on 32 bits clears the two low bits. -/
theorem land_mask (x : Nat) (hx : x < 2 ^ 32) : x &&& 0xFFFFFFFC = x / 4 * 4 := by
  apply Nat.eq_of_testBit_eq
  intro i
  have hm : (0xFFFFFFFC : Nat) = (2 ^ 30 - 1) <<< 2 := by decide
  have hr : x / 4 * 4 = 2 ^ 2 * (x >>> 2) := by
    rw [Nat.shiftRight_eq_div_pow]; omega
  rw [Nat.testBit_and, hm, hr, Nat.testBit_shiftLeft, Nat.testBit_two_pow_sub_one,
    Nat.testBit_mul_pow_two, Nat.testBit_shiftRight]
  by_cases h2 : i ≥ 2
  · have e : 2 + (i - 2) = i := by omega
    rw [e]
    by_cases h30 : i - 2 < 30
    · simp [h2, h30]
    · have hx2 : x < 2 ^ i :=
        lt_of_lt_of_le hx (Nat.pow_le_pow_right (by norm_num) (by omega))
      simp [h2, h30, Nat.testBit_lt_two_pow hx2]
  · simp [h2]

theorem paddedWidth_eq {w : Nat} (hw : w < 2 ^ 16) :
    (w * 3 + 3) &&& 0xFFFFFFFC = paddedRowBytes w := by
  rw [land_mask _ (by omega)]
  unfold paddedRowBytes
  rw [Nat.mul_comm w 3]

/-- The padded row length is the least multiple of 4 that is at least `3 * w`. -/
theorem paddedRowBytes_least (w : Nat) :
    4 ∣ paddedRowBytes w ∧ 3 * w ≤ paddedRowBytes w ∧
    ∀ m, 4 ∣ m → 3 * w ≤ m → paddedRowBytes w ≤ m := by
  unfold paddedRowBytes
  refine ⟨Nat.dvd_mul_left _ _, by omega, ?_⟩
  rintro m ⟨c, rfl⟩ hm
  omega

theorem i32_small {z : Int} (h0 : 0 ≤ z) (h1 : z < 2 ^ 31) : i32 z = z := by
  unfold i32; omega

theorem readAt_inBounds {data : List Byte} {k : Nat} (h : k < data.length) :
    readAt data (k : Int) = .ok (data.getD k 0).val := by
  unfold readAt
  rw [if_neg (by omega), Int.toNat_ofNat, List.getD_eq_getElem?_getD,
    List.getElem?_eq_getElem h]
  rfl

theorem readPalette_inBounds {palette : List Byte} {i : Nat} (h : i < palette.length) :
    readPalette palette i = .ok (palette.getD i 0) := by
  unfold readPalette
  rw [List.getD_eq_getElem?_getD, List.getElem?_eq_getElem h]
  rfl

theorem readPalette_outside {palette : List Byte} {i : Nat} (h : palette.length ≤ i) :
    readPalette palette i = .badPaletteRead i := by
  unfold readPalette
  rw [List.getElem?_eq_none h]

/-- The read of the palette index of a pixel whose index `y * width + x` fits in an
`int` and whose byte lies inside the data. -/
theorem readPixel_eq {data : List Byte} {f : Frame} {y x : Nat}
    (hov : y * f.width + x < 2 ^ 31)
    (hin : f.position + 0x10 + y * f.width + x < data.length) :
    readAt data ((f.position + 0x10 : Nat) + i32 (y * f.width + x))
      = .ok (pixelIndexAt data f y x) := by
  have hcast : ((y : Int) * (f.width : Int) + (x : Int)) = ((y * f.width + x : Nat) : Int) := by
    push_cast; rfl
  rw [hcast, i32_small (by omega) (by omega), ← Int.ofNat_add,
    show f.position + 0x10 + (y * f.width + x) = f.position + 0x10 + y * f.width + x by omega]
  exact readAt_inBounds hin

/-- Three consecutive stores into a row buffer. -/
theorem set3_spec {rb : List Byte} {i : Nat} (b g r : Byte) (h : i + 2 < rb.length) :
    (((rb.set i b).set (i + 1) g).set (i + 2) r).length = rb.length ∧
    (((rb.set i b).set (i + 1) g).set (i + 2) r)[i]? = some b ∧
    (((rb.set i b).set (i + 1) g).set (i + 2) r)[i + 1]? = some g ∧
    (((rb.set i b).set (i + 1) g).set (i + 2) r)[i + 2]? = some r ∧
    ∀ j, j < i ∨ i + 3 ≤ j → (((rb.set i b).set (i + 1) g).set (i + 2) r)[j]? = rb[j]? := by
  refine ⟨by simp, ?_, ?_, ?_, ?_⟩
  · rw [List.getElem?_set_ne (by omega), List.getElem?_set_ne (by omega),
      List.getElem?_set_self (by omega)]
  · rw [List.getElem?_set_ne (by omega), List.getElem?_set_self (by simp; omega)]
  · rw [List.getElem?_set_self (by simp; omega)]
  · intro j hj
    rw [List.getElem?_set_ne (by omega), List.getElem?_set_ne (by omega),
      List.getElem?_set_ne (by omega)]

/-- The body of the inner loop for a pixel that can be read and has a palette entry. -/
theorem bmpPixel_ok {data palette : List Byte} {f : Frame} {y x : Nat} (rb : List Byte)
    (hov : y * f.width + x < 2 ^ 31)
    (hin : f.position + 0x10 + y * f.width + x < data.length)
    (hpal : pixelIndexAt data f y x * 3 + 2 < palette.length) :
    bmpPixel data palette f y x rb =
      .ok (((rb.set (x * 3) (palette.getD (pixelIndexAt data f y x * 3 + 2) 0)).set (x * 3 + 1)
        (palette.getD (pixelIndexAt data f y x * 3 + 1) 0)).set (x * 3 + 2)
        (palette.getD (pixelIndexAt data f y x * 3) 0)) := by
  unfold bmpPixel
  rw [readPixel_eq hov hin]
  simp only [Dec.bind]
  rw [readPalette_inBounds hpal, readPalette_inBounds (show _ * 3 + 1 < _ by omega),
    readPalette_inBounds (show _ * 3 < _ by omega)]

/-- The body of the inner loop for a pixel that can be read and has no palette entry. -/
theorem bmpPixel_bad {data palette : List Byte} {f : Frame} {y x : Nat} (rb : List Byte)
    (hov : y * f.width + x < 2 ^ 31)
    (hin : f.position + 0x10 + y * f.width + x < data.length)
    (hpal : palette.length ≤ pixelIndexAt data f y x * 3 + 2) :
    bmpPixel data palette f y x rb = .badPaletteRead (pixelIndexAt data f y x * 3 + 2) := by
  unfold bmpPixel
  rw [readPixel_eq hov hin]
  simp only [Dec.bind]
  rw [readPalette_outside hpal]

/-- The inner loop over pixels that can be read and have palette entries: the pixels
visited are stored as blue, green, red at `3x, 3x+1, 3x+2`, the other bytes of the
row buffer are kept. -/
theorem bmpRowLoop_ok {data palette : List Byte} {f : Frame} {y : Nat} :
    ∀ (k x : Nat) (rb : List Byte), (x + k) * 3 ≤ rb.length →
      (∀ x', x ≤ x' → x' < x + k → y * f.width + x' < 2 ^ 31 ∧
        f.position + 0x10 + y * f.width + x' < data.length ∧
        pixelIndexAt data f y x' * 3 + 2 < palette.length) →
      ∃ rb', bmpRowLoop data palette f y k x rb = .ok rb' ∧ rb'.length = rb.length ∧
        (∀ x', x ≤ x' → x' < x + k →
          rb'[x' * 3]? = some (palette.getD (pixelIndexAt data f y x' * 3 + 2) 0) ∧
          rb'[x' * 3 + 1]? = some (palette.getD (pixelIndexAt data f y x' * 3 + 1) 0) ∧
          rb'[x' * 3 + 2]? = some (palette.getD (pixelIndexAt data f y x' * 3) 0)) ∧
        (∀ j, j < x * 3 ∨ (x + k) * 3 ≤ j → rb'[j]? = rb[j]?) := by
  intro k
  induction k with
  | zero =>
    intro x rb _ _
    exact ⟨rb, rfl, rfl, fun x' h1 h2 => by omega, fun _ _ => rfl⟩
  | succ k ih =>
    intro x rb hlen hpix
    obtain ⟨hov, hin, hpal⟩ := hpix x (le_refl _) (by omega)
    obtain ⟨hsl, hs0, hs1, hs2, hsk⟩ := @set3_spec rb (x * 3)
      (palette.getD (pixelIndexAt data f y x * 3 + 2) 0)
      (palette.getD (pixelIndexAt data f y x * 3 + 1) 0)
      (palette.getD (pixelIndexAt data f y x * 3) 0) (by omega)
    obtain ⟨rb', hrun, hl, hpx, hkeep⟩ := ih (x + 1) _ (by rw [hsl]; omega)
      (fun x' h1 h2 => hpix x' (by omega) (by omega))
    refine ⟨rb', ?_, by rw [hl, hsl], ?_, ?_⟩
    · rw [bmpRowLoop, bmpPixel_ok rb hov hin hpal]
      exact hrun
    · intro x' h1 h2
      rcases Nat.eq_or_lt_of_le h1 with rfl | hlt
      · rw [hkeep _ (Or.inl (by omega)), hkeep _ (Or.inl (by omega)),
          hkeep _ (Or.inl (by omega))]
        exact ⟨hs0, hs1, hs2⟩
      · exact hpx x' (by omega) (by omega)
    · intro j hj
      rw [hkeep j (by omega), hsk j (by omega)]

theorem Dec.bind_eq_ok {α β : Type} {r : Dec α} {f : α → Dec β} {b : β}
    (h : r.bind f = .ok b) : ∃ a, r = .ok a ∧ f a = .ok b := by
  cases r with
  | ok a => exact ⟨a, rfl, h⟩
  | badResourceRead i => simp [Dec.bind] at h
  | badPaletteRead i => simp [Dec.bind] at h

theorem bmpPixel_length {data palette : List Byte} {f : Frame} {y x : Nat} {rb rb' : List Byte}
    (h : bmpPixel data palette f y x rb = .ok rb') : rb'.length = rb.length := by
  unfold bmpPixel at h
  obtain ⟨_, _, h⟩ := Dec.bind_eq_ok h
  obtain ⟨_, _, h⟩ := Dec.bind_eq_ok h
  obtain ⟨_, _, h⟩ := Dec.bind_eq_ok h
  obtain ⟨_, _, h⟩ := Dec.bind_eq_ok h
  simp only [Dec.ok.injEq] at h
  rw [← h]
  simp

theorem bmpRowLoop_length {data palette : List Byte} {f : Frame} {y : Nat} :
    ∀ (k x : Nat) {rb rb' : List Byte}, bmpRowLoop data palette f y k x rb = .ok rb' →
      rb'.length = rb.length := by
  intro k
  induction k with
  | zero =>
    intro x rb rb' h
    simp only [bmpRowLoop, Dec.ok.injEq] at h
    rw [h]
  | succ k ih =>
    intro x rb rb' h
    rw [bmpRowLoop] at h
    obtain ⟨rb1, h1, h⟩ := Dec.bind_eq_ok h
    rw [ih (x + 1) h, bmpPixel_length h1]

/-- Whenever the row loop of `extractFrameToBMP` ends normally, it has written one
row buffer per row. -/
theorem bmpRows_length {data palette : List Byte} {f : Frame} :
    ∀ (n : Nat) {rb rows : List Byte}, bmpRows data palette f n rb = .ok rows →
      rows.length = n * rb.length := by
  intro n
  induction n with
  | zero =>
    intro rb rows h
    simp only [bmpRows, Dec.ok.injEq] at h
    rw [← h]; simp
  | succ y ih =>
    intro rb rows h
    rw [bmpRows] at h
    obtain ⟨rb1, h1, h⟩ := Dec.bind_eq_ok h
    obtain ⟨rest, h2, h⟩ := Dec.bind_eq_ok h
    simp only [Dec.ok.injEq] at h
    rw [← h, List.length_append, ih h2, bmpRowLoop_length _ _ h1, Nat.succ_mul]
    omega

/-- The inner loop over pixels that can be read, one of which has no palette entry:
the loop reads the palette outside its bytes. -/
theorem bmpRowLoop_bad {data palette : List Byte} {f : Frame} {y : Nat} :
    ∀ (k x : Nat) (rb : List Byte),
      (∀ x', x ≤ x' → x' < x + k → y * f.width + x' < 2 ^ 31 ∧
        f.position + 0x10 + y * f.width + x' < data.length) →
      (∃ x', x ≤ x' ∧ x' < x + k ∧ palette.length ≤ pixelIndexAt data f y x' * 3 + 2) →
      ∃ j, palette.length ≤ j ∧ bmpRowLoop data palette f y k x rb = .badPaletteRead j := by
  intro k
  induction k with
  | zero =>
    intro x rb _ hbad
    obtain ⟨x', h1, h2, _⟩ := hbad
    omega
  | succ k ih =>
    intro x rb hpix hbad
    obtain ⟨hov, hin⟩ := hpix x (le_refl _) (by omega)
    by_cases hx : palette.length ≤ pixelIndexAt data f y x * 3 + 2
    · refine ⟨_, hx, ?_⟩
      rw [bmpRowLoop, bmpPixel_bad rb hov hin hx]
      rfl
    · rw [bmpRowLoop, bmpPixel_ok rb hov hin (by omega)]
      simp only [Dec.bind]
      apply ih (x + 1) _ (fun x' h1 h2 => hpix x' (by omega) (by omega))
      obtain ⟨x', h1, h2, h3⟩ := hbad
      refine ⟨x', ?_, by omega, h3⟩
      rcases Nat.eq_or_lt_of_le h1 with rfl | hlt
      · exact absurd h3 hx
      · omega

theorem pixel_lt {w h y x : Nat} (hy : y < h) (hx : x < w) : y * w + x < w * h := by
  have h1 : (y + 1) * w ≤ h * w := Nat.mul_le_mul_right w hy
  rw [Nat.succ_mul, Nat.mul_comm h w] at h1
  omega

/-- The row loop of `extractFrameToBMP` over rows whose pixels can be read and have
palette entries, started with a row buffer whose padding bytes are 0: row `k` of
the output is the source row `n - 1 - k`, three bytes blue, green, red per pixel,
then zero bytes. -/
theorem bmpRows_ok {data palette : List Byte} {f : Frame} :
    ∀ (n : Nat) (rb : List Byte), f.width * 3 ≤ rb.length →
      (∀ j, f.width * 3 ≤ j → j < rb.length → rb[j]? = some 0) →
      (∀ y x, y < n → x < f.width → y * f.width + x < 2 ^ 31 ∧
        f.position + 0x10 + y * f.width + x < data.length ∧
        pixelIndexAt data f y x * 3 + 2 < palette.length) →
      ∃ rows, bmpRows data palette f n rb = .ok rows ∧ rows.length = n * rb.length ∧
        ∀ k, k < n →
          (∀ x, x < f.width →
            rows[k * rb.length + x * 3]? =
              some (palette.getD (pixelIndexAt data f (n - 1 - k) x * 3 + 2) 0) ∧
            rows[k * rb.length + x * 3 + 1]? =
              some (palette.getD (pixelIndexAt data f (n - 1 - k) x * 3 + 1) 0) ∧
            rows[k * rb.length + x * 3 + 2]? =
              some (palette.getD (pixelIndexAt data f (n - 1 - k) x * 3) 0)) ∧
          (∀ j, f.width * 3 ≤ j → j < rb.length → rows[k * rb.length + j]? = some 0) := by
  intro n
  induction n with
  | zero =>
    intro rb _ _ _
    exact ⟨[], rfl, by simp, fun k hk => by omega⟩
  | succ y ih =>
    intro rb hlen hpad hpix
    obtain ⟨rb', hrun, hl, hpx, hkeep⟩ := @bmpRowLoop_ok data palette f y f.width 0 rb (by omega)
      (fun x' _ h2 => hpix y x' (by omega) (by omega))
    have hpad' : ∀ j, f.width * 3 ≤ j → j < rb'.length → rb'[j]? = some 0 := by
      intro j h1 h2
      rw [hkeep j (Or.inr (by omega))]
      exact hpad j h1 (by omega)
    obtain ⟨rest, hrest, hrl, hspec⟩ := ih rb' (by omega) hpad'
      (fun y' x' h1 h2 => hpix y' x' (by omega) h2)
    refine ⟨rb' ++ rest, ?_, ?_, ?_⟩
    · rw [bmpRows, hrun]
      simp only [Dec.bind]
      rw [hrest]
    · rw [List.length_append, hrl, hl, Nat.succ_mul]; omega
    · intro k hk
      cases k with
      | zero =>
        simp only [Nat.zero_mul, Nat.zero_add, Nat.sub_zero, Nat.add_sub_cancel]
        refine ⟨fun x hx => ?_, fun j h1 h2 => ?_⟩
        · obtain ⟨p0, p1, p2⟩ := hpx x (Nat.zero_le _) (by omega)
          rw [List.getElem?_append_left (by omega), List.getElem?_append_left (by omega),
            List.getElem?_append_left (by omega)]
          exact ⟨p0, p1, p2⟩
        · rw [List.getElem?_append_left (by omega)]
          exact hpad' j h1 (by omega)
      | succ k =>
        obtain ⟨hp, hz⟩ := hspec k (by omega)
        have hrow : y + 1 - 1 - (k + 1) = y - 1 - k := by omega
        rw [hrow]
        have hidx : ∀ i, (k + 1) * rb.length + i - rb'.length = k * rb'.length + i := by
          intro i
          rw [Nat.succ_mul, hl]
          omega
        have hge : ∀ i, rb'.length ≤ (k + 1) * rb.length + i := by
          intro i
          rw [Nat.succ_mul, hl]
          omega
        refine ⟨fun x hx => ?_, fun j h1 h2 => ?_⟩
        · obtain ⟨p0, p1, p2⟩ := hp x hx
          refine ⟨?_, ?_, ?_⟩
          · rw [List.getElem?_append_right (hge _), hidx]; exact p0
          · rw [Nat.add_assoc, List.getElem?_append_right (hge _), hidx, ← Nat.add_assoc]
            exact p1
          · rw [Nat.add_assoc, List.getElem?_append_right (hge _), hidx, ← Nat.add_assoc]
            exact p2
        · rw [List.getElem?_append_right (hge _), hidx]
          exact hz j h1 (by omega)

/-- The row loop of `extractFrameToBMP` over rows whose pixels can be read, one of which
has no palette entry: the loop reads the palette outside its bytes. -/
theorem bmpRows_bad {data palette : List Byte} {f : Frame} :
    ∀ (n : Nat) (rb : List Byte), f.width * 3 ≤ rb.length →
      (∀ y x, y < n → x < f.width → y * f.width + x < 2 ^ 31 ∧
        f.position + 0x10 + y * f.width + x < data.length) →
      (∃ y x, y < n ∧ x < f.width ∧ palette.length ≤ pixelIndexAt data f y x * 3 + 2) →
      ∃ j, palette.length ≤ j ∧ bmpRows data palette f n rb = .badPaletteRead j := by
  intro n
  induction n with
  | zero =>
    intro rb _ _ hbad
    obtain ⟨y, x, h1, _⟩ := hbad
    omega
  | succ y ih =>
    intro rb hlen hpix hbad
    by_cases hrow : ∃ x, x < f.width ∧ palette.length ≤ pixelIndexAt data f y x * 3 + 2
    · obtain ⟨x, hx, hp⟩ := hrow
      obtain ⟨j, hj, hrun⟩ := @bmpRowLoop_bad data palette f y f.width 0 rb (fun x' _ h2 => hpix y x' (by omega) (by omega))
        ⟨x, Nat.zero_le _, by omega, hp⟩
      refine ⟨j, hj, ?_⟩
      rw [bmpRows, hrun]
      rfl
    · have hall : ∀ x, x < f.width → pixelIndexAt data f y x * 3 + 2 < palette.length := by
        intro x hx
        by_contra hc
        exact hrow ⟨x, hx, by omega⟩
      obtain ⟨rb', hrun, hl, _, _⟩ := @bmpRowLoop_ok data palette f y f.width 0 rb (by omega)
        (fun x' _ h2 => ⟨(hpix y x' (by omega) (by omega)).1,
          (hpix y x' (by omega) (by omega)).2, hall x' (by omega)⟩)
      obtain ⟨y', x', h1, h2, h3⟩ := hbad
      have hy' : y' < y := by
        rcases Nat.lt_or_ge y' y with h | h
        · exact h
        · have : y' = y := by omega
          subst this
          exact absurd ⟨x', h2, h3⟩ hrow
      obtain ⟨j, hj, hrest⟩ := ih rb' (by omega)
        (fun y'' x'' h1 h2 => hpix y'' x'' (by omega) h2) ⟨y', x', hy', h2, h3⟩
      refine ⟨j, hj, ?_⟩
      rw [bmpRows, hrun]
      simp only [Dec.bind]
      rw [hrest]

theorem toByte_val (v : Nat) : (toByte v).val = v % 256 := rfl

/-- The fields of the two headers, decoded from the bytes written. -/
theorem bmpHeaders_fields {fileSize width height : Nat} (rows : List Byte)
    (hfs : fileSize < 2 ^ 32) (hw : width < 2 ^ 32) (hh : height < 2 ^ 32) :
    (bmpHeaders fileSize width height).length = 54 ∧
    (bmpHeaders fileSize width height ++ rows)[0]? = some 0x42 ∧
    (bmpHeaders fileSize width height ++ rows)[1]? = some 0x4D ∧
    le32At (bmpHeaders fileSize width height ++ rows) 2 = fileSize ∧
    le16At (bmpHeaders fileSize width height ++ rows) 6 = 0 ∧
    le16At (bmpHeaders fileSize width height ++ rows) 8 = 0 ∧
    le32At (bmpHeaders fileSize width height ++ rows) 10 = 54 ∧
    le32At (bmpHeaders fileSize width height ++ rows) 14 = 40 ∧
    le32At (bmpHeaders fileSize width height ++ rows) 18 = width ∧
    le32At (bmpHeaders fileSize width height ++ rows) 22 = height ∧
    le16At (bmpHeaders fileSize width height ++ rows) 26 = 1 ∧
    le16At (bmpHeaders fileSize width height ++ rows) 28 = 24 ∧
    le32At (bmpHeaders fileSize width height ++ rows) 30 = 0 ∧
    le32At (bmpHeaders fileSize width height ++ rows) 34 = 0 ∧
    le32At (bmpHeaders fileSize width height ++ rows) 38 = 0 ∧
    le32At (bmpHeaders fileSize width height ++ rows) 42 = 0 ∧
    le32At (bmpHeaders fileSize width height ++ rows) 46 = 256 ∧
    le32At (bmpHeaders fileSize width height ++ rows) 50 = 0 := by
  have e : bmpHeaders fileSize width height ++ rows =
      toByte 0x4D42 :: toByte (0x4D42 / 256) ::
      toByte fileSize :: toByte (fileSize / 256) :: toByte (fileSize / 65536) ::
      toByte (fileSize / 16777216) ::
      toByte 0 :: toByte (0 / 256) :: toByte 0 :: toByte (0 / 256) ::
      toByte (14 + 40) :: toByte ((14 + 40) / 256) :: toByte ((14 + 40) / 65536) ::
      toByte ((14 + 40) / 16777216) ::
      toByte 40 :: toByte (40 / 256) :: toByte (40 / 65536) :: toByte (40 / 16777216) ::
      toByte width :: toByte (width / 256) :: toByte (width / 65536) ::
      toByte (width / 16777216) ::
      toByte height :: toByte (height / 256) :: toByte (height / 65536) ::
      toByte (height / 16777216) ::
      toByte 1 :: toByte (1 / 256) :: toByte 24 :: toByte (24 / 256) ::
      toByte 0 :: toByte (0 / 256) :: toByte (0 / 65536) :: toByte (0 / 16777216) ::
      toByte 0 :: toByte (0 / 256) :: toByte (0 / 65536) :: toByte (0 / 16777216) ::
      toByte 0 :: toByte (0 / 256) :: toByte (0 / 65536) :: toByte (0 / 16777216) ::
      toByte 0 :: toByte (0 / 256) :: toByte (0 / 65536) :: toByte (0 / 16777216) ::
      toByte 256 :: toByte (256 / 256) :: toByte (256 / 65536) :: toByte (256 / 16777216) ::
      toByte 0 :: toByte (0 / 256) :: toByte (0 / 65536) :: toByte (0 / 16777216) :: rows := by
    simp only [bmpHeaders, le16, le32, List.cons_append, List.nil_append, List.append_assoc]
  refine ⟨by simp [bmpHeaders, le16, le32], ?_⟩
  rw [e]
  refine ⟨rfl, rfl, ?_, rfl, rfl, rfl, rfl, ?_, ?_, rfl, rfl, rfl, rfl, rfl, rfl, rfl, rfl⟩
  · show (toByte fileSize).val + 256 * (toByte (fileSize / 256)).val +
      65536 * (toByte (fileSize / 65536)).val + 16777216 * (toByte (fileSize / 16777216)).val
        = fileSize
    simp only [toByte_val]
    omega
  · show (toByte width).val + 256 * (toByte (width / 256)).val +
      65536 * (toByte (width / 65536)).val + 16777216 * (toByte (width / 16777216)).val
        = width
    simp only [toByte_val]
    omega
  · show (toByte height).val + 256 * (toByte (height / 256)).val +
      65536 * (toByte (height / 65536)).val + 16777216 * (toByte (height / 16777216)).val
        = height
    simp only [toByte_val]
    omega

/-- Whenever the encoding part of `extractFrameToBMP` ends normally, it has written the
two headers and `height` row buffers. -/
theorem bmpEncode_written {data palette : List Byte} {f : Frame} {r : Option (List Byte)}
    (h : bmpEncode data palette f = .ok r) (hw : f.width < 2 ^ 16) :
    ∃ rows, r = some (bmpHeaders (u32 (14 + 40 + paddedRowBytes f.width * f.height))
        f.width f.height ++ rows) ∧
      rows.length = f.height * paddedRowBytes f.width := by
  unfold bmpEncode at h
  simp only [] at h
  rw [paddedWidth_eq hw] at h
  obtain ⟨rows, hrows, h⟩ := Dec.bind_eq_ok h
  simp only [Dec.ok.injEq] at h
  refine ⟨rows, h.symm, ?_⟩
  rw [bmpRows_length _ hrows, List.length_replicate]

/-- The encoding part of `extractFrameToBMP` for a frame whose pixels can be read and
have palette entries. -/
theorem bmpEncode_ok {data palette : List Byte} {f : Frame} (hw : f.width < 2 ^ 16)
    (hov : f.width * f.height ≤ 2 ^ 31)
    (hin : f.position + 0x10 + f.width * f.height ≤ data.length)
    (hpal : ∀ y x, y < f.height → x < f.width →
      pixelIndexAt data f y x * 3 + 2 < palette.length) :
    ∃ rows, bmpEncode data palette f =
        .ok (some (bmpHeaders (u32 (14 + 40 + paddedRowBytes f.width * f.height))
          f.width f.height ++ rows)) ∧
      rows.length = f.height * paddedRowBytes f.width ∧
      ∀ k, k < f.height →
        (∀ x, x < f.width →
          rows[k * paddedRowBytes f.width + x * 3]? =
            some (palette.getD (pixelIndexAt data f (f.height - 1 - k) x * 3 + 2) 0) ∧
          rows[k * paddedRowBytes f.width + x * 3 + 1]? =
            some (palette.getD (pixelIndexAt data f (f.height - 1 - k) x * 3 + 1) 0) ∧
          rows[k * paddedRowBytes f.width + x * 3 + 2]? =
            some (palette.getD (pixelIndexAt data f (f.height - 1 - k) x * 3) 0)) ∧
        (∀ j, f.width * 3 ≤ j → j < paddedRowBytes f.width →
          rows[k * paddedRowBytes f.width + j]? = some 0) := by
  have hP := (paddedRowBytes_least f.width).2.1
  obtain ⟨rows, hrun, hl, hspec⟩ := @bmpRows_ok data palette f
    f.height (List.replicate (paddedRowBytes f.width) 0)
    (by rw [List.length_replicate]; omega)
    (fun j _ h2 => by
      rw [List.length_replicate] at h2
      rw [List.getElem?_replicate, if_pos h2])
    (fun y x hy hx => by
      have := pixel_lt hy hx
      exact ⟨by omega, by omega, hpal y x hy hx⟩)
  rw [List.length_replicate] at hl hspec
  refine ⟨rows, ?_, hl, hspec⟩
  unfold bmpEncode
  simp only []
  rw [paddedWidth_eq hw, hrun]
  rfl

/-- The encoding part of `extractFrameToBMP` for a frame whose pixels can be read, one of
which has no palette entry. -/
theorem bmpEncode_bad {data palette : List Byte} {f : Frame} (hw : f.width < 2 ^ 16)
    (hov : f.width * f.height ≤ 2 ^ 31)
    (hin : f.position + 0x10 + f.width * f.height ≤ data.length)
    (hbad : ∃ y x, y < f.height ∧ x < f.width ∧
      palette.length ≤ pixelIndexAt data f y x * 3 + 2) :
    ∃ j, palette.length ≤ j ∧ bmpEncode data palette f = .badPaletteRead j := by
  have hP := (paddedRowBytes_least f.width).2.1
  obtain ⟨j, hj, hrun⟩ := @bmpRows_bad data palette f
    f.height (List.replicate (paddedRowBytes f.width) 0)
    (by rw [List.length_replicate]; omega)
    (fun y x hy hx => by
      have := pixel_lt hy hx
      exact ⟨by omega, by omega⟩) hbad
  refine ⟨j, hj, ?_⟩
  unfold bmpEncode
  simp only []
  rw [paddedWidth_eq hw, hrun]
  rfl

theorem bmpFrameHeader_sizes {data : List Byte} {n i : Nat} {f : Frame}
    (h : bmpFrameHeader data n i = .ret f) : f.width < 2 ^ 16 ∧ f.height < 2 ^ 16 := by
  unfold bmpFrameHeader at h
  simp only [] at h
  obtain ⟨_, _, h⟩ := Run.bind_eq_ret h
  obtain ⟨_, _, h⟩ := Run.bind_eq_ret h
  obtain ⟨_, _, h⟩ := Run.bind_eq_ret h
  obtain ⟨_, _, h⟩ := Run.bind_eq_ret h
  obtain ⟨_, _, h⟩ := Run.bind_eq_ret h
  obtain ⟨_, _, h⟩ := Run.bind_eq_ret h
  obtain ⟨_, _, h⟩ := Run.bind_eq_ret h
  obtain ⟨_, _, h⟩ := Run.bind_eq_ret h
  simp only [Run.ret.injEq] at h
  rw [← h]
  simp only [u16]
  constructor <;> omega

/-- Whenever `extractFrameToBMP` returns, it has returned `false` for an index that is
not below the frame count, or has read the header of the frame and encoded it. -/
theorem extractFrameToBMP_ok {data palette : List Byte} {i : Nat} {r : Option (List Byte)}
    (h : extractFrameToBMP data i palette = .ok r) :
    (frameCountOf data ≤ i ∧ r = none) ∨
    (i < frameCountOf data ∧ ∃ f, bmpFrameHeader data (frameCountOf data) i = .ret f ∧
      bmpEncode data palette f = .ok r) := by
  unfold extractFrameToBMP at h
  cases hc : readFrameCount data with
  | outOfBounds k => rw [hc] at h; simp [Run.toDec, Dec.bind] at h
  | ret n =>
    have hn := readFrameCount_ret hc
    subst hn
    rw [hc] at h
    simp only [Run.toDec, Dec.bind] at h
    by_cases hi : i ≥ frameCountOf data
    · rw [if_pos hi] at h
      simp only [Dec.ok.injEq] at h
      exact Or.inl ⟨hi, h.symm⟩
    · rw [if_neg hi] at h
      cases hf : bmpFrameHeader data (frameCountOf data) i with
      | outOfBounds k => rw [hf] at h; simp at h
      | ret f =>
        rw [hf] at h
        exact Or.inr ⟨by omega, f, rfl, h⟩

theorem headerFields_of_bmpHeaders {fileSize width height : Nat} (rows : List Byte)
    (hfs : fileSize < 2 ^ 32) (hw : width < 2 ^ 32) (hh : height < 2 ^ 32) :
    HeaderFields (bmpHeaders fileSize width height ++ rows) width height := by
  obtain ⟨h0, h1, h2, _, h4, h5, h6, h7, h8, h9, h10, h11, h12, h13, h14, h15, h16, h17⟩ :=
    bmpHeaders_fields rows hfs hw hh
  refine ⟨?_, h1, h2, h4, h5, h6, h7, h8, h9, h10, h11, h12, h13, h14, h15, h16, h17⟩
  rw [List.length_append, h0]
  omega

/-- Whenever the part of `extractFramesToSpritesheet` after the first loop returns
`true`, the canvas is at most 8192 by 8192 and the bytes written begin with the
two headers for the canvas size. -/
theorem sheetEncode_written {data palette : List Byte} {frames : List Frame} {bytes : List Byte}
    (h : sheetEncode data palette frames = .ok (some bytes)) :
    (sheetLayout frames).2.spritesheetWidth ≤ 8192 ∧
    (sheetLayout frames).2.spritesheetHeight ≤ 8192 ∧
    ∃ fileSize rows, fileSize < 2 ^ 32 ∧
      bytes = bmpHeaders fileSize (sheetLayout frames).2.spritesheetWidth
        (sheetLayout frames).2.spritesheetHeight ++ rows := by
  unfold sheetEncode at h
  simp only [] at h
  by_cases hbig : (sheetLayout frames).2.spritesheetWidth > 8192 ∨
      (sheetLayout frames).2.spritesheetHeight > 8192
  · rw [if_pos hbig] at h
    simp at h
  · rw [if_neg hbig] at h
    obtain ⟨pixelData, _, h⟩ := Dec.bind_eq_ok h
    simp only [Dec.ok.injEq, Option.some.injEq] at h
    exact ⟨by omega, by omega, _, _, u32_lt _, h.symm⟩

/-- Whenever `extractFramesToSpritesheet` returns, it has returned `false` for the frame
count 0, or has read the frames and gone on with them. -/
theorem extractFramesToSpritesheet_ok {data palette : List Byte} {r : Option (List Byte)}
    (h : extractFramesToSpritesheet data palette = .ok r) :
    (frameCountOf data = 0 ∧ r = none) ∨
    (0 < frameCountOf data ∧ ∃ frames,
      sheetFrames data (u32 (0x1C + frameCountOf data * 4)) (frameCountOf data) 0 = .ret frames ∧
      sheetEncode data palette frames = .ok r) := by
  unfold extractFramesToSpritesheet at h
  cases hc : readFrameCount data with
  | outOfBounds k => rw [hc] at h; simp [Run.toDec, Dec.bind] at h
  | ret n =>
    have hn := readFrameCount_ret hc
    subst hn
    rw [hc] at h
    simp only [Run.toDec, Dec.bind] at h
    by_cases h0 : frameCountOf data = 0
    · rw [if_pos h0] at h
      simp only [Dec.ok.injEq] at h
      exact Or.inl ⟨h0, h.symm⟩
    · rw [if_neg h0] at h
      cases hf : sheetFrames data (u32 (0x1C + frameCountOf data * 4)) (frameCountOf data) 0 with
      | outOfBounds k => rw [hf] at h; simp at h
      | ret frames =>
        rw [hf] at h
        exact Or.inr ⟨by omega, frames, rfl, h⟩

/-! ## Claims about the bitmap of one frame -/

theorem pixelIndexAt_lt (data : List Byte) (f : Frame) (y x : Nat) :
    pixelIndexAt data f y x < 256 := (data.getD _ 0).isLt

/-- For a frame below the frame count whose header lies inside the data,
`extractFrameToBMP` encodes the frame described by the table. -/
theorem extractFrameToBMP_eq_encode {data : List Byte} (palette : List Byte) {i : Nat}
    (hi : i < frameCountOf data) (hin : framePositionOf data i + 0x10 ≤ data.length)
    (h32 : framePositionOf data i + 0x10 ≤ 2 ^ 32) :
    extractFrameToBMP data i palette = bmpEncode data palette (frameOf data i) := by
  have hcount : readFrameCount data = .ret (frameCountOf data) :=
    readFrameCount_eq (by unfold framePositionOf at hin; omega)
  unfold extractFrameToBMP
  rw [hcount]
  simp only [Run.toDec, Dec.bind]
  rw [if_neg (by omega), bmpFrameHeader_eq hi hin h32]

/-- The bitmap written by `extractFrameToBMP` for a frame that lies inside the data, has
at most 2^31 pixels and is decoded with a palette of 256 entries. -/
theorem extractFrameToBMP_frame {data palette : List Byte} {i : Nat}
    (hi : i < frameCountOf data)
    (hin : framePositionOf data i + 0x10 + frameWidthOf data i * frameHeightOf data i
      ≤ data.length)
    (h32 : framePositionOf data i + 0x10 ≤ 2 ^ 32)
    (hov : frameWidthOf data i * frameHeightOf data i ≤ 2 ^ 31)
    (hpal : 768 ≤ palette.length) :
    ∃ rows, extractFrameToBMP data i palette =
        .ok (some (bmpHeaders (u32 (14 + 40 +
          paddedRowBytes (frameWidthOf data i) * frameHeightOf data i))
          (frameWidthOf data i) (frameHeightOf data i) ++ rows)) ∧
      rows.length = frameHeightOf data i * paddedRowBytes (frameWidthOf data i) ∧
      ∀ k, k < frameHeightOf data i →
        (∀ x, x < frameWidthOf data i →
          rows[k * paddedRowBytes (frameWidthOf data i) + x * 3]? = some (palette.getD
            (pixelIndexAt data (frameOf data i) (frameHeightOf data i - 1 - k) x * 3 + 2) 0) ∧
          rows[k * paddedRowBytes (frameWidthOf data i) + x * 3 + 1]? = some (palette.getD
            (pixelIndexAt data (frameOf data i) (frameHeightOf data i - 1 - k) x * 3 + 1) 0) ∧
          rows[k * paddedRowBytes (frameWidthOf data i) + x * 3 + 2]? = some (palette.getD
            (pixelIndexAt data (frameOf data i) (frameHeightOf data i - 1 - k) x * 3) 0)) ∧
        (∀ j, frameWidthOf data i * 3 ≤ j → j < paddedRowBytes (frameWidthOf data i) →
          rows[k * paddedRowBytes (frameWidthOf data i) + j]? = some 0) := by
  rw [extractFrameToBMP_eq_encode palette hi (by omega) h32]
  exact bmpEncode_ok (f := frameOf data i) (le16At_lt _ _) hov hin
    (fun y x _ _ => by
      have := pixelIndexAt_lt data (frameOf data i) y x
      omega)

/-- C15: whenever `extractFrameToBMP` writes the bitmap of a frame of width `w` and
height `h`, the first 54 bytes written are, in little-endian, `'B'`, `'M'`, a
32-bit file size, two 16-bit zeros, the 32-bit pixel-data offset 54, the header
size 40, width `w`, height `h`, planes 1, bits per pixel 24, compression 0, image
size 0, both resolution fields 0, colours used 256, important colours 0; the
same holds for `extractFramesToSpritesheet` with the canvas width and height.
A frame of at most 2^31 pixels that lies inside the resource is written, with
these header fields, when the palette has 256 entries. -/
theorem bmp_header_fields (data palette : List Byte) :
    (∀ (i : Nat) (bytes : List Byte), extractFrameToBMP data i palette = .ok (some bytes) →
      ∃ f, bmpFrameHeader data (frameCountOf data) i = .ret f ∧
        HeaderFields bytes f.width f.height ∧ le32At bytes 2 < 2 ^ 32) ∧
    (∀ bytes : List Byte, extractFramesToSpritesheet data palette = .ok (some bytes) →
      ∃ frames,
        sheetFrames data (u32 (0x1C + frameCountOf data * 4)) (frameCountOf data) 0
          = .ret frames ∧
        HeaderFields bytes (sheetLayout frames).2.spritesheetWidth
          (sheetLayout frames).2.spritesheetHeight ∧ le32At bytes 2 < 2 ^ 32) ∧
    (∀ i, i < frameCountOf data →
      framePositionOf data i + 0x10 + frameWidthOf data i * frameHeightOf data i
        ≤ data.length →
      framePositionOf data i + 0x10 ≤ 2 ^ 32 →
      frameWidthOf data i * frameHeightOf data i ≤ 2 ^ 31 →
      768 ≤ palette.length →
      ∃ bytes, extractFrameToBMP data i palette = .ok (some bytes) ∧
        HeaderFields bytes (frameWidthOf data i) (frameHeightOf data i)) := by
  refine ⟨?_, ?_, ?_⟩
  · intro i bytes h
    rcases extractFrameToBMP_ok h with ⟨_, hnone⟩ | ⟨_, f, hf, henc⟩
    · simp at hnone
    · obtain ⟨hw, hh⟩ := bmpFrameHeader_sizes hf
      obtain ⟨rows, hr, _⟩ := bmpEncode_written henc hw
      simp only [Option.some.injEq] at hr
      subst hr
      exact ⟨f, hf, headerFields_of_bmpHeaders rows (u32_lt _) (by omega) (by omega),
        le32At_lt _ _⟩
  · intro bytes h
    rcases extractFramesToSpritesheet_ok h with ⟨_, hnone⟩ | ⟨_, frames, hf, henc⟩
    · simp at hnone
    · obtain ⟨hw, hh, fileSize, rows, hfs, hb⟩ := sheetEncode_written henc
      subst hb
      exact ⟨frames, hf, headerFields_of_bmpHeaders rows hfs (by omega) (by omega),
        le32At_lt _ _⟩
  · intro i hi hin h32 hov hpal
    obtain ⟨rows, hrun, _⟩ := extractFrameToBMP_frame hi hin h32 hov hpal
    exact ⟨_, hrun, headerFields_of_bmpHeaders rows (u32_lt _)
      (lt_trans (le16At_lt _ _) (by norm_num)) (lt_trans (le16At_lt _ _) (by norm_num))⟩

/-- C15, instance: the 54 header bytes of the bitmap written for the 2 by 2 frame of
`d3grOne`. -/
theorem bmp_header_fields_witness :
    extractFrameToBMP d3grOne 0 paletteBW = .ok (some d3grOneBitmap) ∧
    ∃ f, bmpFrameHeader d3grOne (frameCountOf d3grOne) 0 = .ret f ∧
      HeaderFields d3grOneBitmap f.width f.height ∧ le32At d3grOneBitmap 2 < 2 ^ 32 :=
  ⟨by decide, (bmp_header_fields d3grOne paletteBW).1 0 d3grOneBitmap (by decide)⟩

/-- C16, refuted as stated: for the frame of 32768 by 50000 pixels of `d3grBig`,
`extractFrameToBMP` writes 54 + 98304 * 50000 = 4915200054 bytes, and the
`fileSize` field holds 620232758. -/
theorem bmp_file_size_wraps :
    frameOf d3grBig 0 = ⟨32, 32768, 50000⟩ ∧
    ∃ bytes, extractFrameToBMP d3grBig 0 paletteBW = .ok (some bytes) ∧
      bytes.length = 4915200054 ∧ le32At bytes 2 = 620232758 ∧
      le32At bytes 2 ≠ 54 + paddedRowBytes 32768 * 50000 := by
  have hf : frameOf d3grBig 0 = ⟨32, 32768, 50000⟩ := by decide
  have hlen : d3grBig.length = 48 + 32768 * 50000 := by
    have h48 : (d3grPrefix ++ le16 1 ++ [0, 0] ++ le32 0 ++
        frameHeaderBytes 32768 50000).length = 48 := by decide
    unfold d3grBig
    rw [List.length_append, List.length_replicate, h48]
  have hw : frameWidthOf d3grBig 0 = 32768 := congrArg Frame.width hf
  have hh : frameHeightOf d3grBig 0 = 50000 := congrArg Frame.height hf
  have hp : framePositionOf d3grBig 0 = 32 := congrArg Frame.position hf
  obtain ⟨rows, hrun, hl, _⟩ := @extractFrameToBMP_frame d3grBig paletteBW 0 (by decide) (by rw [hp, hw, hh, hlen])
    (by rw [hp]; norm_num) (by rw [hw, hh]; norm_num) (by decide)
  rw [hw, hh] at hrun hl
  have hP : paddedRowBytes 32768 = 98304 := by decide
  rw [hP] at hrun hl
  refine ⟨hf, _, hrun, ?_, ?_, ?_⟩
  · rw [List.length_append, hl, (bmpHeaders_fields rows (u32_lt _) (by norm_num)
      (by norm_num)).1]
  · rw [(bmpHeaders_fields rows (u32_lt _) (by norm_num) (by norm_num)).2.2.2.1]
    decide
  · rw [(bmpHeaders_fields rows (u32_lt _) (by norm_num) (by norm_num)).2.2.2.1, hP]
    decide

/-- C16, amended: whenever `extractFrameToBMP` writes the bitmap of a frame of width `w`
and height `h` (both in 0..65535), the stream has `54 + paddedRowBytes * h` bytes,
where `paddedRowBytes = (3w + 3) & ~3` is the least multiple of 4 that is at least
`3w`, and the `fileSize` field holds that number modulo 2^32; the field equals the
number of bytes whenever the latter is below 2^32. A frame of at most 2^31
pixels that lies inside the resource is written when the palette has 256
entries. -/
theorem bmp_file_size (data palette : List Byte) :
    (∀ (i : Nat) (bytes : List Byte), extractFrameToBMP data i palette = .ok (some bytes) →
      ∃ f, bmpFrameHeader data (frameCountOf data) i = .ret f ∧
        f.width ≤ 65535 ∧ f.height ≤ 65535 ∧
        (f.width * 3 + 3) &&& 0xFFFFFFFC = paddedRowBytes f.width ∧
        bytes.length = 54 + paddedRowBytes f.width * f.height ∧
        le32At bytes 2 = (54 + paddedRowBytes f.width * f.height) % 2 ^ 32 ∧
        (54 + paddedRowBytes f.width * f.height < 2 ^ 32 → le32At bytes 2 = bytes.length)) ∧
    (∀ w, 4 ∣ paddedRowBytes w ∧ 3 * w ≤ paddedRowBytes w ∧
      ∀ m, 4 ∣ m → 3 * w ≤ m → paddedRowBytes w ≤ m) ∧
    (∀ i, i < frameCountOf data →
      framePositionOf data i + 0x10 + frameWidthOf data i * frameHeightOf data i
        ≤ data.length →
      framePositionOf data i + 0x10 ≤ 2 ^ 32 →
      frameWidthOf data i * frameHeightOf data i ≤ 2 ^ 31 →
      768 ≤ palette.length →
      ∃ bytes, extractFrameToBMP data i palette = .ok (some bytes)) := by
  refine ⟨?_, paddedRowBytes_least, ?_⟩
  swap
  · intro i hi hin h32 hov hpal
    obtain ⟨rows, hrun, _⟩ := extractFrameToBMP_frame hi hin h32 hov hpal
    exact ⟨_, hrun⟩
  intro i bytes h
  rcases extractFrameToBMP_ok h with ⟨_, hnone⟩ | ⟨_, f, hf, henc⟩
  · simp at hnone
  · obtain ⟨hw, hh⟩ := bmpFrameHeader_sizes hf
    obtain ⟨rows, hr, hl⟩ := bmpEncode_written henc hw
    simp only [Option.some.injEq] at hr
    subst hr
    have hfield := (@bmpHeaders_fields (u32 (14 + 40 +
      paddedRowBytes f.width * f.height)) f.width f.height rows
      (u32_lt _) (by omega) (by omega))
    have hlen : (bmpHeaders (u32 (14 + 40 + paddedRowBytes f.width * f.height)) f.width
        f.height ++ rows).length = 54 + paddedRowBytes f.width * f.height := by
      rw [List.length_append, hfield.1, hl, Nat.mul_comm]
    refine ⟨f, hf, by omega, by omega, paddedWidth_eq hw, hlen, ?_, ?_⟩
    · rw [hfield.2.2.2.1]
      rfl
    · intro hfit
      rw [hfield.2.2.2.1, hlen]
      exact u32_small hfit

/-- C16 amended, instance: the bitmap of the 2 by 2 frame of `d3grOne` has 54 + 8 * 2 = 70
bytes and the `fileSize` field 70. -/
theorem bmp_file_size_witness :
    extractFrameToBMP d3grOne 0 paletteBW = .ok (some d3grOneBitmap) ∧
    d3grOneBitmap.length = 70 ∧ le32At d3grOneBitmap 2 = 70 ∧
    ∃ f, bmpFrameHeader d3grOne (frameCountOf d3grOne) 0 = .ret f ∧
      f.width ≤ 65535 ∧ f.height ≤ 65535 ∧
      (f.width * 3 + 3) &&& 0xFFFFFFFC = paddedRowBytes f.width ∧
      d3grOneBitmap.length = 54 + paddedRowBytes f.width * f.height ∧
      le32At d3grOneBitmap 2 = (54 + paddedRowBytes f.width * f.height) % 2 ^ 32 ∧
      (54 + paddedRowBytes f.width * f.height < 2 ^ 32 →
        le32At d3grOneBitmap 2 = d3grOneBitmap.length) :=
  ⟨by decide, by decide, by decide,
    (bmp_file_size d3grOne paletteBW).1 0 d3grOneBitmap (by decide)⟩

/-- The first pixel visited by `extractFrameToBMP` is the pixel 0 of the last row; when
its index `(height - 1) * width`, reduced to an `int`, points before
`resourceData`, the read faults. -/
theorem bmpEncode_first_pixel_before {data palette : List Byte} {f : Frame}
    (hw : 0 < f.width) (hh : 0 < f.height)
    (hneg : ((f.position + 0x10 : Nat) : Int) +
      i32 (((f.height - 1 : Nat) : Int) * (f.width : Int) + ((0 : Nat) : Int)) < 0) :
    bmpEncode data palette f = .badResourceRead (((f.position + 0x10 : Nat) : Int) +
      i32 (((f.height - 1 : Nat) : Int) * (f.width : Int) + ((0 : Nat) : Int))) := by
  obtain ⟨h', hh'⟩ : ∃ h', f.height = h' + 1 := ⟨f.height - 1, by omega⟩
  obtain ⟨w', hw'⟩ : ∃ w', f.width = w' + 1 := ⟨f.width - 1, by omega⟩
  have hsub : f.height - 1 = h' := by omega
  rw [hsub] at hneg ⊢
  unfold bmpEncode
  simp only []
  rw [hh', bmpRows]
  conv => lhs; arg 1; arg 1; rw [hw', bmpRowLoop]
  unfold bmpPixel readAt
  rw [if_pos hneg]
  rfl

/-- C17, refuted as stated: the frame of 65535 by 65535 pixels of `d3grHuge` has its pixel
data inside the resource, and the palette has 256 entries, yet `extractFrameToBMP`
writes no pixel section: the index `65534 * 65535` of the first pixel it visits
does not fit in an `int` and the read falls 196558 bytes before the resource. -/
theorem bmp_rows_huge_frame :
    frameOf d3grHuge 0 = ⟨32, 65535, 65535⟩ ∧
    framePositionOf d3grHuge 0 + 0x10 + frameWidthOf d3grHuge 0 * frameHeightOf d3grHuge 0
      ≤ d3grHuge.length ∧
    d3grHuge.length ≤ 2 ^ 32 ∧ paletteBW.length = 768 ∧
    extractFrameToBMP d3grHuge 0 paletteBW = .badResourceRead (-196558) := by
  have hf : frameOf d3grHuge 0 = ⟨32, 65535, 65535⟩ := by decide
  have h48 : (d3grPrefix ++ le16 1 ++ [0, 0] ++ le32 0 ++
      frameHeaderBytes 65535 65535).length = 48 := by decide
  have hlen : d3grHuge.length = 48 + 65535 * 65535 := by
    unfold d3grHuge
    rw [List.length_append, List.length_replicate, h48]
  have hw : frameWidthOf d3grHuge 0 = 65535 := congrArg Frame.width hf
  have hh : frameHeightOf d3grHuge 0 = 65535 := congrArg Frame.height hf
  have hp : framePositionOf d3grHuge 0 = 32 := congrArg Frame.position hf
  refine ⟨hf, by rw [hp, hw, hh, hlen], by rw [hlen]; norm_num, by decide, ?_⟩
  rw [extractFrameToBMP_eq_encode paletteBW (by decide) (by rw [hp, hlen]; norm_num)
    (by rw [hp]; norm_num), hf,
    bmpEncode_first_pixel_before (by norm_num) (by norm_num) (by decide)]
  decide

/-- C17, amended: for a frame of width `w` and height `h` with at most 2^31 pixels, whose
header (ending at or before byte 2^32, positions being 32-bit) and pixel data
lie inside the resource, and a palette of 256 entries, the pixel section written
by `extractFrameToBMP` after the 54 header bytes consists of `h` rows of
`paddedRowBytes` bytes; output row `k` (`k = 0` first) encodes the
source row `h - 1 - k`; in a row, the pixel `x` occupies the bytes `3x .. 3x+2`, which
hold `palette[3i+2]`, `palette[3i+1]`, `palette[3i]` for the palette index `i` stored
for the pixel `(x, h-1-k)`; the bytes from `3w` to `paddedRowBytes - 1` are 0. -/
theorem bmp_pixel_rows (data palette : List Byte) (i : Nat) (hi : i < frameCountOf data)
    (hin : framePositionOf data i + 0x10 + frameWidthOf data i * frameHeightOf data i
      ≤ data.length)
    (h32 : framePositionOf data i + 0x10 ≤ 2 ^ 32)
    (hov : frameWidthOf data i * frameHeightOf data i ≤ 2 ^ 31)
    (hpal : 768 ≤ palette.length) :
    ∃ header rows, header.length = 54 ∧
      extractFrameToBMP data i palette = .ok (some (header ++ rows)) ∧
      rows.length = frameHeightOf data i * paddedRowBytes (frameWidthOf data i) ∧
      ∀ k, k < frameHeightOf data i →
        (∀ x, x < frameWidthOf data i →
          rows[k * paddedRowBytes (frameWidthOf data i) + 3 * x]? = some (palette.getD
            (3 * pixelIndexAt data (frameOf data i) (frameHeightOf data i - 1 - k) x + 2) 0) ∧
          rows[k * paddedRowBytes (frameWidthOf data i) + 3 * x + 1]? = some (palette.getD
            (3 * pixelIndexAt data (frameOf data i) (frameHeightOf data i - 1 - k) x + 1) 0) ∧
          rows[k * paddedRowBytes (frameWidthOf data i) + 3 * x + 2]? = some (palette.getD
            (3 * pixelIndexAt data (frameOf data i) (frameHeightOf data i - 1 - k) x) 0)) ∧
        (∀ j, 3 * frameWidthOf data i ≤ j → j < paddedRowBytes (frameWidthOf data i) →
          rows[k * paddedRowBytes (frameWidthOf data i) + j]? = some 0) := by
  obtain ⟨rows, hrun, hl, hspec⟩ := extractFrameToBMP_frame hi hin h32 hov hpal
  refine ⟨_, rows, (bmpHeaders_fields rows (u32_lt _)
    (lt_trans (le16At_lt _ _) (by norm_num)) (lt_trans (le16At_lt _ _) (by norm_num))).1,
    hrun, hl, ?_⟩
  intro k hk
  obtain ⟨hp, hz⟩ := hspec k hk
  refine ⟨fun x hx => ?_, fun j h1 h2 => hz j (by omega) h2⟩
  have := hp x hx
  simpa only [Nat.mul_comm 3] using this

/-- C17 amended, instance: the 2 by 2 frame with the rows `0 1` and `1 0`, index 0 being
black and index 1 white, gives the pixel section `FF FF FF 00 00 00 00 00`,
`00 00 00 FF FF FF 00 00`. -/
theorem bmp_pixel_rows_witness :
    extractFrameToBMP d3grOne 0 paletteBW = .ok (some d3grOneBitmap) ∧
    d3grOneBitmap.drop 54
      = [255, 255, 255, 0, 0, 0, 0, 0, 0, 0, 0, 255, 255, 255, 0, 0] ∧
    ∃ header rows, header.length = 54 ∧
      extractFrameToBMP d3grOne 0 paletteBW = .ok (some (header ++ rows)) ∧
      rows.length = frameHeightOf d3grOne 0 * paddedRowBytes (frameWidthOf d3grOne 0) :=
  ⟨by decide, by decide, by
    obtain ⟨header, rows, h1, h2, h3, _⟩ := bmp_pixel_rows d3grOne paletteBW 0 (by decide)
      (by decide) (by decide) (by decide) (by decide)
    exact ⟨header, rows, h1, h2, h3⟩⟩

/-! ## Palette reads -/

theorem noPaletteFault_ok {α : Type} (a : α) : NoPaletteFault (Dec.ok a) := by
  intro j h; simp at h

theorem noPaletteFault_bind {α β : Type} {r : Dec α} {f : α → Dec β}
    (hr : NoPaletteFault r) (hf : ∀ a, r = .ok a → NoPaletteFault (f a)) :
    NoPaletteFault (r.bind f) := by
  intro j h
  cases r with
  | ok a => exact hf a rfl j h
  | badResourceRead i => simp [Dec.bind] at h
  | badPaletteRead i => exact hr i rfl

theorem noPaletteFault_toDec {α : Type} (r : Run α) : NoPaletteFault r.toDec := by
  intro j h
  cases r <;> simp [Run.toDec] at h

theorem readAt_noPaletteFault (data : List Byte) (z : Int) : NoPaletteFault (readAt data z) := by
  intro j h
  unfold readAt at h
  split at h
  · simp at h
  · split at h <;> simp at h

theorem readAt_val_lt {data : List Byte} {z : Int} {v : Nat} (h : readAt data z = .ok v) :
    v < 256 := by
  unfold readAt at h
  split at h
  · simp at h
  · split at h
    · simp only [Dec.ok.injEq] at h
      rw [← h]
      exact Fin.isLt _
    · simp at h

theorem readPalette_noPaletteFault {palette : List Byte} {i : Nat} (h : i < palette.length) :
    NoPaletteFault (readPalette palette i) := by
  rw [readPalette_inBounds h]
  exact noPaletteFault_ok _

theorem bmpPixel_noPaletteFault {data palette : List Byte} (hpal : 768 ≤ palette.length)
    (f : Frame) (y x : Nat) (rb : List Byte) :
    NoPaletteFault (bmpPixel data palette f y x rb) := by
  unfold bmpPixel
  refine noPaletteFault_bind (readAt_noPaletteFault _ _) fun v hv => ?_
  have hv' := readAt_val_lt hv
  exact noPaletteFault_bind (readPalette_noPaletteFault (by omega)) fun _ _ =>
    noPaletteFault_bind (readPalette_noPaletteFault (by omega)) fun _ _ =>
    noPaletteFault_bind (readPalette_noPaletteFault (by omega)) fun _ _ =>
    noPaletteFault_ok _

theorem bmpRowLoop_noPaletteFault {data palette : List Byte} (hpal : 768 ≤ palette.length)
    (f : Frame) (y : Nat) :
    ∀ (k x : Nat) (rb : List Byte), NoPaletteFault (bmpRowLoop data palette f y k x rb) := by
  intro k
  induction k with
  | zero => intro x rb; exact noPaletteFault_ok _
  | succ k ih =>
    intro x rb
    rw [bmpRowLoop]
    exact noPaletteFault_bind (bmpPixel_noPaletteFault hpal f y x rb) fun _ _ => ih _ _

theorem bmpRows_noPaletteFault {data palette : List Byte} (hpal : 768 ≤ palette.length)
    (f : Frame) :
    ∀ (n : Nat) (rb : List Byte), NoPaletteFault (bmpRows data palette f n rb) := by
  intro n
  induction n with
  | zero => intro rb; exact noPaletteFault_ok _
  | succ y ih =>
    intro rb
    rw [bmpRows]
    exact noPaletteFault_bind (bmpRowLoop_noPaletteFault hpal f y _ _ _) fun _ _ =>
      noPaletteFault_bind (ih _) fun _ _ => noPaletteFault_ok _

/-- With a palette of 256 entries `extractFrameToBMP` never reads outside the palette. -/
theorem extractFrameToBMP_noPaletteFault {data palette : List Byte}
    (hpal : 768 ≤ palette.length) (i : Nat) :
    NoPaletteFault (extractFrameToBMP data i palette) := by
  unfold extractFrameToBMP
  refine noPaletteFault_bind (noPaletteFault_toDec _) fun n _ => ?_
  split
  · exact noPaletteFault_ok _
  · refine noPaletteFault_bind (noPaletteFault_toDec _) fun f _ => ?_
    unfold bmpEncode
    exact noPaletteFault_bind (bmpRows_noPaletteFault hpal f _ _) fun _ _ =>
      noPaletteFault_ok _

theorem composePixel_noPaletteFault {data palette : List Byte} (hpal : 768 ≤ palette.length)
    (w h : Nat) (f : Frame) (frameX frameY y x : Nat) (pd : List (List Byte)) :
    NoPaletteFault (composePixel data palette w h f frameX frameY y x pd) := by
  unfold composePixel
  refine noPaletteFault_bind (readAt_noPaletteFault _ _) fun v hv => ?_
  have hv' := readAt_val_lt hv
  split
  · exact noPaletteFault_bind (readPalette_noPaletteFault (by omega)) fun _ _ =>
      noPaletteFault_bind (readPalette_noPaletteFault (by omega)) fun _ _ =>
      noPaletteFault_bind (readPalette_noPaletteFault (by omega)) fun _ _ =>
      noPaletteFault_ok _
  · exact noPaletteFault_ok _

theorem composeRow_noPaletteFault {data palette : List Byte} (hpal : 768 ≤ palette.length)
    (w h : Nat) (f : Frame) (frameX frameY y : Nat) :
    ∀ (k x : Nat) (pd : List (List Byte)),
      NoPaletteFault (composeRow data palette w h f frameX frameY y k x pd) := by
  intro k
  induction k with
  | zero => intro x pd; exact noPaletteFault_ok _
  | succ k ih =>
    intro x pd
    rw [composeRow]
    exact noPaletteFault_bind (composePixel_noPaletteFault hpal _ _ _ _ _ _ _ _) fun _ _ =>
      ih _ _

theorem composeFrame_noPaletteFault {data palette : List Byte} (hpal : 768 ≤ palette.length)
    (w h : Nat) (f : Frame) (frameX frameY : Nat) :
    ∀ (k y : Nat) (pd : List (List Byte)),
      NoPaletteFault (composeFrame data palette w h f frameX frameY k y pd) := by
  intro k
  induction k with
  | zero => intro y pd; exact noPaletteFault_ok _
  | succ k ih =>
    intro y pd
    rw [composeFrame]
    exact noPaletteFault_bind (composeRow_noPaletteFault hpal _ _ _ _ _ _ _ _ _) fun _ _ =>
      ih _ _

theorem composeFrames_noPaletteFault {data palette : List Byte} (hpal : 768 ≤ palette.length)
    (w h : Nat) :
    ∀ (placed : List (Frame × (Nat × Nat))) (pd : List (List Byte)),
      NoPaletteFault (composeFrames data palette w h placed pd) := by
  intro placed
  induction placed with
  | nil => intro pd; exact noPaletteFault_ok _
  | cons p rest ih =>
    intro pd
    obtain ⟨f, frameX, frameY⟩ := p
    rw [composeFrames]
    exact noPaletteFault_bind (composeFrame_noPaletteFault hpal _ _ _ _ _ _ _ _) fun _ _ =>
      ih _

/-- With a palette of 256 entries `extractFramesToSpritesheet` never reads outside the
palette. -/
theorem extractFramesToSpritesheet_noPaletteFault {data palette : List Byte}
    (hpal : 768 ≤ palette.length) :
    NoPaletteFault (extractFramesToSpritesheet data palette) := by
  unfold extractFramesToSpritesheet
  refine noPaletteFault_bind (noPaletteFault_toDec _) fun n _ => ?_
  split
  · exact noPaletteFault_ok _
  · refine noPaletteFault_bind (noPaletteFault_toDec _) fun frames _ => ?_
    unfold sheetEncode
    simp only []
    split
    · exact noPaletteFault_ok _
    · exact noPaletteFault_bind (composeFrames_noPaletteFault hpal _ _ _ _) fun _ _ =>
        noPaletteFault_ok _

/-! ## Composition: which reads are made -/

/-- The body of the innermost composition loop for a pixel that can be read, lies on
the canvas and has a palette entry. -/
theorem composePixel_ok {data palette : List Byte} {w h : Nat} {f : Frame}
    {frameX frameY y x : Nat} (pd : List (List Byte))
    (hov : y * f.width + x < 2 ^ 31)
    (hin : f.position + 0x10 + y * f.width + x < data.length)
    (hpal : pixelIndexAt data f y x * 3 + 2 < palette.length) :
    ∃ pd', composePixel data palette w h f frameX frameY y x pd = .ok pd' := by
  unfold composePixel
  rw [readPixel_eq hov hin]
  simp only [Dec.bind]
  split
  · rw [readPalette_inBounds hpal, readPalette_inBounds (show _ * 3 + 1 < _ by omega),
      readPalette_inBounds (show _ * 3 + 0 < _ by omega)]
    exact ⟨_, rfl⟩
  · exact ⟨_, rfl⟩

/-- The body of the innermost composition loop for a pixel that can be read, lies on
the canvas and has no palette entry. -/
theorem composePixel_bad {data palette : List Byte} {w h : Nat} {f : Frame}
    {frameX frameY y x : Nat} (pd : List (List Byte))
    (hov : y * f.width + x < 2 ^ 31)
    (hin : f.position + 0x10 + y * f.width + x < data.length)
    (hx : frameX + x < w) (hy : frameY + y < h) (hw : w < 2 ^ 32) (hh : h < 2 ^ 32)
    (hpal : palette.length ≤ pixelIndexAt data f y x * 3 + 2) :
    composePixel data palette w h f frameX frameY y x pd
      = .badPaletteRead (pixelIndexAt data f y x * 3 + 2) := by
  unfold composePixel
  rw [readPixel_eq hov hin]
  simp only [Dec.bind]
  rw [if_pos ⟨by rw [u32_small (by omega)]; exact hy, by rw [u32_small (by omega)]; exact hx⟩,
    readPalette_outside hpal]

theorem composeRow_ok {data palette : List Byte} {w h : Nat} {f : Frame}
    {frameX frameY y : Nat} :
    ∀ (k x : Nat) (pd : List (List Byte)),
      (∀ x', x ≤ x' → x' < x + k → y * f.width + x' < 2 ^ 31 ∧
        f.position + 0x10 + y * f.width + x' < data.length ∧
        pixelIndexAt data f y x' * 3 + 2 < palette.length) →
      ∃ pd', composeRow data palette w h f frameX frameY y k x pd = .ok pd' := by
  intro k
  induction k with
  | zero => intro x pd _; exact ⟨pd, rfl⟩
  | succ k ih =>
    intro x pd hpix
    obtain ⟨hov, hin, hpal⟩ := hpix x (le_refl _) (by omega)
    obtain ⟨pd1, h1⟩ := @composePixel_ok _ _ w h _ frameX frameY _ _ pd hov hin hpal
    obtain ⟨pd', h'⟩ := ih (x + 1) pd1 (fun x' a b => hpix x' (by omega) (by omega))
    refine ⟨pd', ?_⟩
    rw [composeRow, h1]
    exact h'

theorem composeRow_bad {data palette : List Byte} {w h : Nat} {f : Frame}
    {frameX frameY y : Nat} (hw : w < 2 ^ 32) (hh : h < 2 ^ 32) (hy : frameY + y < h) :
    ∀ (k x : Nat) (pd : List (List Byte)),
      (∀ x', x ≤ x' → x' < x + k → y * f.width + x' < 2 ^ 31 ∧
        f.position + 0x10 + y * f.width + x' < data.length ∧ frameX + x' < w) →
      (∃ x', x ≤ x' ∧ x' < x + k ∧ palette.length ≤ pixelIndexAt data f y x' * 3 + 2) →
      ∃ j, palette.length ≤ j ∧
        composeRow data palette w h f frameX frameY y k x pd = .badPaletteRead j := by
  intro k
  induction k with
  | zero =>
    intro x pd _ hbad
    obtain ⟨x', h1, h2, _⟩ := hbad
    omega
  | succ k ih =>
    intro x pd hpix hbad
    obtain ⟨hov, hin, hxw⟩ := hpix x (le_refl _) (by omega)
    by_cases hx : palette.length ≤ pixelIndexAt data f y x * 3 + 2
    · refine ⟨_, hx, ?_⟩
      rw [composeRow, composePixel_bad pd hov hin hxw hy hw hh hx]
      rfl
    · obtain ⟨pd1, h1⟩ := @composePixel_ok _ palette w h _ frameX frameY _ _ pd hov hin (by omega)
      rw [composeRow, h1]
      simp only [Dec.bind]
      apply ih (x + 1) pd1 (fun x' a b => hpix x' (by omega) (by omega))
      obtain ⟨x', h1, h2, h3⟩ := hbad
      refine ⟨x', ?_, by omega, h3⟩
      rcases Nat.eq_or_lt_of_le h1 with rfl | hlt
      · exact absurd h3 hx
      · omega

theorem composeFrame_ok {data palette : List Byte} {w h : Nat} {f : Frame}
    {frameX frameY : Nat} :
    ∀ (k y : Nat) (pd : List (List Byte)),
      (∀ y' x', y ≤ y' → y' < y + k → x' < f.width → y' * f.width + x' < 2 ^ 31 ∧
        f.position + 0x10 + y' * f.width + x' < data.length ∧
        pixelIndexAt data f y' x' * 3 + 2 < palette.length) →
      ∃ pd', composeFrame data palette w h f frameX frameY k y pd = .ok pd' := by
  intro k
  induction k with
  | zero => intro y pd _; exact ⟨pd, rfl⟩
  | succ k ih =>
    intro y pd hpix
    obtain ⟨pd1, h1⟩ := @composeRow_ok data palette w h f frameX frameY y f.width 0 pd
      (fun x' _ hx' => hpix y x' (le_refl _) (by omega) (by omega))
    obtain ⟨pd', h'⟩ := ih (y + 1) pd1 (fun y' x' a b c => hpix y' x' (by omega) (by omega) c)
    refine ⟨pd', ?_⟩
    rw [composeFrame, h1]
    exact h'

theorem composeFrame_bad {data palette : List Byte} {w h : Nat} {f : Frame}
    {frameX frameY : Nat} (hw : w < 2 ^ 32) (hh : h < 2 ^ 32) :
    ∀ (k y : Nat) (pd : List (List Byte)),
      (∀ y' x', y ≤ y' → y' < y + k → x' < f.width → y' * f.width + x' < 2 ^ 31 ∧
        f.position + 0x10 + y' * f.width + x' < data.length ∧
        frameX + x' < w ∧ frameY + y' < h) →
      (∃ y' x', y ≤ y' ∧ y' < y + k ∧ x' < f.width ∧
        palette.length ≤ pixelIndexAt data f y' x' * 3 + 2) →
      ∃ j, palette.length ≤ j ∧
        composeFrame data palette w h f frameX frameY k y pd = .badPaletteRead j := by
  intro k
  induction k with
  | zero =>
    intro y pd _ hbad
    obtain ⟨y', x', h1, h2, _⟩ := hbad
    omega
  | succ k ih =>
    intro y pd hpix hbad
    by_cases hrow : ∃ x, x < f.width ∧ palette.length ≤ pixelIndexAt data f y x * 3 + 2
    · obtain ⟨x, hx, hp⟩ := hrow
      have hy := (hpix y x (le_refl _) (by omega) hx).2.2.2
      obtain ⟨j, hj, hrun⟩ := @composeRow_bad data palette _ _ f frameX frameY y hw hh hy f.width 0 pd
        (fun x' _ hx' => by
          obtain ⟨a, b, c, _⟩ := hpix y x' (le_refl _) (by omega) (by omega)
          exact ⟨a, b, c⟩) ⟨x, Nat.zero_le _, by omega, hp⟩
      refine ⟨j, hj, ?_⟩
      rw [composeFrame, hrun]
      rfl
    · have hall : ∀ x, x < f.width → pixelIndexAt data f y x * 3 + 2 < palette.length := by
        intro x hx
        by_contra hc
        exact hrow ⟨x, hx, by omega⟩
      obtain ⟨pd1, h1⟩ := @composeRow_ok data palette w h f frameX frameY y f.width 0 pd
        (fun x' _ hx' => by
          obtain ⟨a, b, _, _⟩ := hpix y x' (le_refl _) (by omega) (by omega)
          exact ⟨a, b, hall x' (by omega)⟩)
      rw [composeFrame, h1]
      simp only [Dec.bind]
      apply ih (y + 1) pd1 (fun y' x' a b c => hpix y' x' (by omega) (by omega) c)
      obtain ⟨y', x', a, b, c, d⟩ := hbad
      refine ⟨y', x', ?_, by omega, c, d⟩
      rcases Nat.eq_or_lt_of_le a with rfl | hlt
      · exact absurd ⟨x', c, d⟩ hrow
      · omega

/-- The conditions under which every pixel of a placed frame is read from inside the
data and lies on the canvas. -/
theorem placed_pixel_conditions {data : List Byte} {w h : Nat} {f : Frame} {frameX frameY : Nat}
    (hw : w ≤ 8192) (hh : h ≤ 8192)
    (hin : f.position + 0x10 + f.width * f.height ≤ data.length)
    (hx : frameX + f.width ≤ w) (hy : frameY + f.height ≤ h) :
    ∀ y' x', y' < f.height → x' < f.width → y' * f.width + x' < 2 ^ 31 ∧
      f.position + 0x10 + y' * f.width + x' < data.length ∧
      frameX + x' < w ∧ frameY + y' < h := by
  intro y' x' hy' hx'
  have h1 := pixel_lt hy' hx'
  have h2 : f.width * f.height ≤ 8192 * 8192 := Nat.mul_le_mul (by omega) (by omega)
  exact ⟨by omega, by omega, by omega, by omega⟩

/-- The composition loop over placed frames that lie inside the data and on the
canvas, one of which has a pixel without palette entry: the loop reads the
palette outside its bytes. -/
theorem composeFrames_bad {data palette : List Byte} {w h : Nat} (hw : w ≤ 8192) (hh : h ≤ 8192) :
    ∀ (placed : List (Frame × (Nat × Nat))) (pd : List (List Byte)),
      (∀ e ∈ placed, e.1.position + 0x10 + e.1.width * e.1.height ≤ data.length ∧
        e.2.1 + e.1.width ≤ w ∧ e.2.2 + e.1.height ≤ h) →
      (∃ e ∈ placed, ∃ y x, y < e.1.height ∧ x < e.1.width ∧
        palette.length ≤ pixelIndexAt data e.1 y x * 3 + 2) →
      ∃ j, palette.length ≤ j ∧ composeFrames data palette w h placed pd = .badPaletteRead j := by
  intro placed
  induction placed with
  | nil =>
    intro pd _ hbad
    obtain ⟨e, he, _⟩ := hbad
    simp at he
  | cons p rest ih =>
    intro pd hall hbad
    obtain ⟨f, frameX, frameY⟩ := p
    obtain ⟨hin, hx, hy⟩ := hall (f, frameX, frameY) (List.mem_cons_self _ _)
    simp only at hin hx hy
    have hcond := placed_pixel_conditions hw hh hin hx hy
    by_cases hhead : ∃ y x, y < f.height ∧ x < f.width ∧
        palette.length ≤ pixelIndexAt data f y x * 3 + 2
    · obtain ⟨y, x, h1, h2, h3⟩ := hhead
      obtain ⟨j, hj, hrun⟩ := @composeFrame_bad data palette _ _ f frameX frameY (show w < 2 ^ 32 by omega)
        (show h < 2 ^ 32 by omega) f.height 0 pd
        (fun y' x' _ b c => hcond y' x' (by omega) c)
        ⟨y, x, Nat.zero_le _, by omega, h2, h3⟩
      refine ⟨j, hj, ?_⟩
      rw [composeFrames, hrun]
      rfl
    · have hok : ∀ y' x', y' < f.height → x' < f.width →
          pixelIndexAt data f y' x' * 3 + 2 < palette.length := by
        intro y' x' a b
        by_contra hc
        exact hhead ⟨y', x', a, b, by omega⟩
      obtain ⟨pd1, h1⟩ := @composeFrame_ok data palette w h f frameX frameY f.height 0 pd
        (fun y' x' _ b c => ⟨(hcond y' x' (by omega) c).1, (hcond y' x' (by omega) c).2.1,
          hok y' x' (by omega) c⟩)
      rw [composeFrames, h1]
      simp only [Dec.bind]
      apply ih pd1 (fun e he => hall e (List.mem_cons_of_mem _ he))
      obtain ⟨e, he, hb⟩ := hbad
      rcases List.mem_cons.1 he with rfl | he'
      · exact absurd hb hhead
      · exact ⟨e, he', hb⟩

theorem mem_zip_placedFrames :
    ∀ (frames : List Frame) (ps : List (Nat × Nat)), ∀ e ∈ frames.zip ps,
      (⟨e.2.1, e.2.2, e.1.width, e.1.height⟩ : Placed) ∈ placedFrames frames ps := by
  intro frames
  induction frames with
  | nil => intro ps e he; simp at he
  | cons f rest ih =>
    intro ps e he
    cases ps with
    | nil => simp at he
    | cons p ps =>
      simp only [List.zip_cons_cons, List.mem_cons] at he
      simp only [placedFrames, List.zipWith_cons_cons, List.mem_cons]
      rcases he with rfl | he
      · exact Or.inl rfl
      · exact Or.inr (ih ps e he)

/-- For a resource with at least one frame, all of whose frame headers lie inside the
data, `extractFramesToSpritesheet` goes on with the frames described by the table. -/
theorem extractFramesToSpritesheet_eq_encode {data : List Byte} (palette : List Byte)
    (hn : 1 ≤ frameCountOf data)
    (hin : ∀ i, i < frameCountOf data → framePositionOf data i + 0x10 ≤ data.length)
    (h32 : ∀ i, i < frameCountOf data → framePositionOf data i + 0x10 ≤ 2 ^ 32) :
    extractFramesToSpritesheet data palette
      = sheetEncode data palette ((List.range (frameCountOf data)).map (frameOf data)) := by
  have h0 := hin 0 (by omega)
  have hcount : readFrameCount data = .ret (frameCountOf data) :=
    readFrameCount_eq (by unfold framePositionOf at h0; omega)
  unfold extractFramesToSpritesheet
  rw [hcount]
  simp only [Run.toDec, Dec.bind]
  rw [if_neg (by omega), sheetFrames_eq (frameCountOf data) 0 (by omega)
    (fun j _ hj => ⟨hin j (by omega), h32 j (by omega)⟩),
    List.range_eq_range']

theorem frameOf_sizes (data : List Byte) (i : Nat) :
    (frameOf data i).width ≤ 65535 ∧ (frameOf data i).height ≤ 65535 := by
  have h1 := le16At_lt data (framePositionOf data i + 0x0E)
  have h2 := le16At_lt data (framePositionOf data i + 0x0C)
  exact ⟨by show frameWidthOf data i ≤ 65535; unfold frameWidthOf; omega,
    by show frameHeightOf data i ≤ 65535; unfold frameHeightOf; omega⟩

/-- The composition of `extractFramesToSpritesheet` for frames that lie inside the data,
on a canvas that passes the size check, when a pixel of some frame has no
palette entry. -/
theorem extractFramesToSpritesheet_bad {data palette : List Byte}
    (hin : ∀ i, i < frameCountOf data →
      framePositionOf data i + 0x10 + frameWidthOf data i * frameHeightOf data i
        ≤ data.length)
    (h32 : ∀ i, i < frameCountOf data → framePositionOf data i + 0x10 ≤ 2 ^ 32)
    (hw : (sheetLayout ((List.range (frameCountOf data)).map (frameOf data))).2.spritesheetWidth
      ≤ 8192)
    (hh : (sheetLayout ((List.range (frameCountOf data)).map (frameOf data))).2.spritesheetHeight
      ≤ 8192)
    (hbad : ∃ i y x, i < frameCountOf data ∧ y < frameHeightOf data i ∧
      x < frameWidthOf data i ∧
      palette.length ≤ pixelIndexAt data (frameOf data i) y x * 3 + 2) :
    ∃ j, palette.length ≤ j ∧ extractFramesToSpritesheet data palette = .badPaletteRead j := by
  obtain ⟨i, y, x, hi, hy, hx, hp⟩ := hbad
  have hn16 : frameCountOf data < 2 ^ 16 := le16At_lt data 0x18
  have hsz : ∀ f ∈ (List.range (frameCountOf data)).map (frameOf data),
      f.width ≤ 65535 ∧ f.height ≤ 65535 := by
    intro f hf
    obtain ⟨j, _, rfl⟩ := List.mem_map.1 hf
    exact frameOf_sizes data j
  obtain ⟨hlen, hcont, _⟩ := sheetLayout_spec _ hsz (by simp; omega)
  have hpl : (sheetLayout ((List.range (frameCountOf data)).map (frameOf data))).1.length
      = frameCountOf data := by
    have := hlen
    unfold placedFrames at this
    rw [List.length_zipWith, List.length_map, List.length_range] at this
    have h2 := (layoutLoop_spec (targetWidthOf ((List.range (frameCountOf data)).map
      (frameOf data))) ((List.range (frameCountOf data)).map (frameOf data)) ⟨0, 0, 0, 0, 0⟩
      hsz (by simp; omega) (by simp; omega) (le_refl _) (le_refl _)).1
    rw [List.length_map, List.length_range] at h2
    exact h2
  obtain ⟨j, hj, hrun⟩ := @composeFrames_bad data palette _ _ hw hh
    (((List.range (frameCountOf data)).map (frameOf data)).zip
      (sheetLayout ((List.range (frameCountOf data)).map (frameOf data))).1)
    (List.replicate
      (sheetLayout ((List.range (frameCountOf data)).map (frameOf data))).2.spritesheetHeight
      (List.replicate (u32
        ((sheetLayout ((List.range (frameCountOf data)).map
          (frameOf data))).2.spritesheetWidth * 3)) (255 : Byte)))
    (by
      intro e he
      have hq := hcont _ (mem_zip_placedFrames _ _ e he)
      obtain ⟨f, p⟩ := e
      obtain ⟨k, hk, hfk⟩ := List.mem_map.1 (List.of_mem_zip he).1
      rw [List.mem_range] at hk
      simp only at hfk hq ⊢
      subst hfk
      exact ⟨hin k hk, hq.1, hq.2⟩)
    (by
      have hiz : i < (((List.range (frameCountOf data)).map (frameOf data)).zip
          (sheetLayout ((List.range (frameCountOf data)).map (frameOf data))).1).length := by
        rw [List.length_zip, List.length_map, List.length_range, hpl]
        omega
      refine ⟨_, List.getElem_mem hiz, y, x, ?_⟩
      rw [List.getElem_zip]
      simp only [List.getElem_map, List.getElem_range]
      exact ⟨hy, hx, hp⟩)
  refine ⟨j, hj, ?_⟩
  rw [extractFramesToSpritesheet_eq_encode palette (by omega)
    (fun k hk => by have := hin k hk; omega) h32]
  unfold sheetEncode
  simp only []
  rw [if_neg (by omega), hrun]
  rfl

/-! ## Claims about the palette -/

/-- C18, refuted as stated: the frame of `d3grPixel200` holds the pixel byte 200 and the
palette `paletteShort` has 200 entries; neither decoder fails with an error:
both read `palette[602]`, outside the 600 bytes of the palette. -/
theorem palette_index_not_checked :
    pixelIndexAt d3grPixel200 (frameOf d3grPixel200 0) 0 0 = 200 ∧
    paletteShort.length = 600 ∧
    extractFrameToBMP d3grPixel200 0 paletteShort = .badPaletteRead 602 ∧
    extractFramesToSpritesheet d3grPixel200 paletteShort = .badPaletteRead 602 := by
  refine ⟨by decide, by decide, by decide, ?_⟩
  have ht : targetWidthOf [⟨32, 1, 1⟩] = 1 := by
    unfold targetWidthOf
    rw [show u32 (totalWidthOf [⟨32, 1, 1⟩] * maxHeightOf [⟨32, 1, 1⟩]) = 1 by decide]
    exact (Nat.eq_sqrt.2 ⟨by norm_num, by norm_num⟩).symm
  rw [extractFramesToSpritesheet_eq_encode paletteShort (by decide) (by decide) (by decide),
    show (List.range (frameCountOf d3grPixel200)).map (frameOf d3grPixel200) = [⟨32, 1, 1⟩]
      by decide]
  unfold sheetEncode sheetLayout
  rw [ht]
  decide

/-- C18, amended: the decoders do not compare a pixel byte with the length of the
palette. With a palette of 256 entries (768 bytes or more) no palette read is
out of range in either decoder. With a palette that lacks the entry of some
pixel byte of a frame (an index `i` with `3i + 2` not below the palette length),
the frame lying inside the resource and its header ending at or before byte
2^32, `extractFrameToBMP` for that frame (of at most 2^31 pixels) and `extractFramesToSpritesheet` (all frames inside the resource, the
canvas within 8192 by 8192) do not fail with an error: each reads the palette
at an index that is not inside it. -/
theorem palette_not_checked (data palette : List Byte) :
    (768 ≤ palette.length →
      (∀ i j, extractFrameToBMP data i palette ≠ .badPaletteRead j) ∧
      (∀ j, extractFramesToSpritesheet data palette ≠ .badPaletteRead j)) ∧
    (∀ i, i < frameCountOf data →
      framePositionOf data i + 0x10 + frameWidthOf data i * frameHeightOf data i
        ≤ data.length →
      framePositionOf data i + 0x10 ≤ 2 ^ 32 →
      frameWidthOf data i * frameHeightOf data i ≤ 2 ^ 31 →
      (∃ y x, y < frameHeightOf data i ∧ x < frameWidthOf data i ∧
        palette.length ≤ 3 * pixelIndexAt data (frameOf data i) y x + 2) →
      ∃ j, palette.length ≤ j ∧ extractFrameToBMP data i palette = .badPaletteRead j) ∧
    ((∀ i, i < frameCountOf data →
        framePositionOf data i + 0x10 + frameWidthOf data i * frameHeightOf data i
          ≤ data.length) →
      (∀ i, i < frameCountOf data → framePositionOf data i + 0x10 ≤ 2 ^ 32) →
      (sheetLayout ((List.range (frameCountOf data)).map (frameOf data))).2.spritesheetWidth
        ≤ 8192 →
      (sheetLayout ((List.range (frameCountOf data)).map (frameOf data))).2.spritesheetHeight
        ≤ 8192 →
      (∃ i y x, i < frameCountOf data ∧ y < frameHeightOf data i ∧ x < frameWidthOf data i ∧
        palette.length ≤ 3 * pixelIndexAt data (frameOf data i) y x + 2) →
      ∃ j, palette.length ≤ j ∧
        extractFramesToSpritesheet data palette = .badPaletteRead j) := by
  refine ⟨fun hpal => ⟨fun i => extractFrameToBMP_noPaletteFault hpal i,
    extractFramesToSpritesheet_noPaletteFault hpal⟩, ?_, ?_⟩
  · intro i hi hin h32 hov hbad
    rw [extractFrameToBMP_eq_encode palette hi (by omega) h32]
    obtain ⟨y, x, hy, hx, hp⟩ := hbad
    exact bmpEncode_bad (f := frameOf data i) (lt_of_le_of_lt (frameOf_sizes data i).1
      (by norm_num)) hov hin ⟨y, x, hy, hx, by omega⟩
  · intro hin h32 hw hh hbad
    obtain ⟨i, y, x, hi, hy, hx, hp⟩ := hbad
    exact extractFramesToSpritesheet_bad hin h32 hw hh ⟨i, y, x, hi, hy, hx, by omega⟩

/-- C18 amended, instance: with the 256 entries of `paletteBW` the frame of `d3grPixel200` is
decoded without a read outside the palette; with the 200 entries of `paletteShort`
the palette is read outside. -/
theorem palette_not_checked_witness :
    768 ≤ paletteBW.length ∧
    extractFrameToBMP d3grPixel200 0 paletteBW ≠ .badPaletteRead 602 ∧
    (∃ j, paletteShort.length ≤ j ∧
      extractFrameToBMP d3grPixel200 0 paletteShort = .badPaletteRead j) :=
  ⟨by decide, ((palette_not_checked d3grPixel200 paletteBW).1 (by decide)).1 0 602,
    (palette_not_checked d3grPixel200 paletteShort).2.1 0 (by decide) (by decide)
      (by decide) (by decide) ⟨0, 0, by decide, by decide, by decide⟩⟩

/-! ## Claims about the end of the carving loop -/

/-- The loop condition fails at the end of the buffer. -/
theorem carveStep_at_end (format : FileFormat) (fileBuffer : List Byte) :
    carveStep format fileBuffer fileBuffer.length = .stop := by
  unfold carveStep
  rw [if_neg (lt_irrefl _)]

/-- The scanner called by the loop at `position` returns the distance to the first
match at or after `position`. -/
theorem findHeader_at_first_match {format : FileFormat} {fileBuffer : List Byte}
    {position r : Nat} (hlen : fileBuffer.length < 2 ^ 63)
    (hfirst : FirstMatchFrom format fileBuffer position r) :
    findHeader format (fileBuffer.drop position) (fileBuffer.length - position)
      = .ret (r - position) := by
  obtain ⟨hle, hs, hmin⟩ := hfirst
  have hin := sigAt_inside hs
  have hd : FirstMatchFrom format (fileBuffer.drop position) 0 (r - position) := by
    refine ⟨Nat.zero_le _, ?_, fun j _ hj hsj => ?_⟩
    · rw [sigAt_drop, show position + (r - position) = r by omega]
      exact hs
    · rw [sigAt_drop] at hsj
      exact hmin (position + j) (by omega) (by omega) hsj
  have hspec := (@findHeader_spec format (fileBuffer.drop position)
    (by rw [List.length_drop]; omega) (by rw [List.length_drop]; omega)).1 _ hd
  rw [List.length_drop] at hspec
  exact hspec

/-- The pass of the loop body at a position whose next match leaves fewer than 16
bytes: the `break` of the `minHeaderSize` test. -/
theorem carveStep_short_tail {format : FileFormat} {fileBuffer : List Byte}
    {position r : Nat} (hlen : fileBuffer.length < 2 ^ 63)
    (hfirst : FirstMatchFrom format fileBuffer position r)
    (hshort : fileBuffer.length < r + 16) :
    carveStep format fileBuffer position = .stop := by
  have hfind := findHeader_at_first_match hlen hfirst
  obtain ⟨hle, hs, _⟩ := hfirst
  have hin := sigAt_inside hs
  have hpl := patternLength_le format
  unfold carveStep
  rw [if_pos (by omega), sub64_small (by omega) (by omega), hfind]
  simp only
  rw [if_neg (by unfold SIZE_MAX; omega),
    add64_small (show position + (r - position) < 2 ^ 64 by omega),
    show position + (r - position) = r by omega,
    add64_small (show r + 16 < 2 ^ 64 by omega), if_pos (by omega)]

/-- C27: every resource written by the carving loop of `extractFiles` starts at least 16
bytes before the end of the buffer (`offset + 16 <= fileBuffer.size()`); when the
first signature match at or after the scan position leaves fewer than 16 bytes
to the end of the buffer, the pass of the loop is a `break`: the loop ends
there, writing nothing, and no resource of the run starts at that match or
later. -/
theorem carve_stops_at_short_tail (fuel : Nat) (format : FileFormat) (fileBuffer : List Byte)
    (hlen : fileBuffer.length < 2 ^ 63) :
    (∀ s ∈ (extractFiles fuel format fileBuffer).spans, s.offset + 16 ≤ fileBuffer.length) ∧
    (∀ position r, FirstMatchFrom format fileBuffer position r →
      fileBuffer.length < r + 16 →
      carveStep format fileBuffer position = .stop ∧
      carveLoop format fileBuffer (fuel + 1) position = ⟨[], .finished⟩ ∧
      ∀ s ∈ (extractFiles fuel format fileBuffer).spans, s.offset < r) := by
  have hall : ∀ s ∈ (extractFiles fuel format fileBuffer).spans,
      s.offset + 16 ≤ fileBuffer.length := by
    intro s hs
    obtain ⟨p, next, hstep⟩ := extractFiles_spans fuel format fileBuffer s hs
    obtain ⟨_, _, _, _, _, _, _, hmin, _⟩ := carveStep_emit hlen hstep
    exact hmin
  refine ⟨hall, fun position r hfirst hshort => ?_⟩
  have hstop := carveStep_short_tail hlen hfirst hshort
  refine ⟨hstop, ?_, fun s hs => ?_⟩
  · rw [carveLoop, hstop]
  · have := hall s hs
    omega

/-- C27, instance: the audio signature in a file of 12 bytes matches at 0 with 12 bytes
left; the run writes nothing and ends. -/
theorem carve_stops_at_short_tail_witness :
    FirstMatchFrom .WAV riffNoRoom 0 0 ∧ riffNoRoom.length < 0 + 16 ∧
    carveStep .WAV riffNoRoom 0 = .stop ∧
    extractFiles 1 .WAV riffNoRoom = ⟨[], .finished⟩ :=
  ⟨⟨le_refl _, by show WavAt riffNoRoom 0; decide,
    fun j _ hj => absurd hj (Nat.not_lt_zero j)⟩, by decide,
    ((carve_stops_at_short_tail 1 .WAV riffNoRoom (by decide)).2 0 0
      ⟨le_refl _, by show WavAt riffNoRoom 0; decide,
        fun j _ hj => absurd hj (Nat.not_lt_zero j)⟩ (by decide)).1,
    by decide⟩

/-! ## Claims about the reads of the size rule -/

/-- C28, the defect: in the 16-byte file `d3grBare` the graphic signature matches at 0 and
the test `fileStart + minHeaderSize > fileBuffer.size()` lets the resource through
(16 bytes are there); `getGraphicsResourceSize` then reads the frame count at
`data[0x18]`, which is 8 bytes past the end of the buffer, and the run of
`extractFiles` makes that read. -/
theorem sizer_reads_past_buffer :
    d3grBare.length = 16 ∧ FirstMatchFrom .D3GR d3grBare 0 0 ∧
    0 + 16 ≤ d3grBare.length ∧
    getGraphicsResourceSize (d3grBare.drop 0) = .outOfBounds 0x18 ∧
    carveStep .D3GR d3grBare 0 = .fault 0x18 ∧
    ∀ fuel, extractFiles (fuel + 1) .D3GR d3grBare = ⟨[], .fault 0x18⟩ := by
  have hstep : carveStep .D3GR d3grBare 0 = .fault 0x18 := by decide
  refine ⟨by decide, ⟨le_refl _, by show GrAt d3grBare 0; decide,
      fun j _ hj => absurd hj (Nat.not_lt_zero j)⟩,
    by decide, by decide, hstep, fun fuel => ?_⟩
  unfold extractFiles
  rw [if_neg (by decide), carveLoop, hstep]

theorem faultsOutside_getGraphicsResourceSize (data : List Byte) :
    FaultsOutside data (getGraphicsResourceSize data) := by
  unfold getGraphicsResourceSize
  exact faultsOutside_bind (faultsOutside_readU8 _ _) fun _ =>
    faultsOutside_bind (faultsOutside_readU8 _ _) fun _ =>
    faultsOutside_bind (faultsOutside_readU8 _ _) fun _ =>
    faultsOutside_bind (faultsOutside_readU8 _ _) fun _ =>
    faultsOutside_bind (faultsOutside_readU8 _ _) fun _ =>
    faultsOutside_bind (faultsOutside_readU8 _ _) fun _ =>
    faultsOutside_bind (faultsOutside_readU8 _ _) fun _ =>
    faultsOutside_bind (faultsOutside_readU8 _ _) fun _ =>
    faultsOutside_bind (faultsOutside_readU8 _ _) fun _ =>
    faultsOutside_bind (faultsOutside_readU8 _ _) fun _ => faultsOutside_ret _ _

/-- The reads of `getGraphicsResourceSize` are not kept inside the buffer by the loop:
whenever a graphic signature is matched with between 16 and 25 bytes left, the
pass reads the frame count outside the buffer. -/
theorem carveStep_sizer_fault {fileBuffer : List Byte} {position r : Nat}
    (hlen : fileBuffer.length < 2 ^ 63)
    (hfirst : FirstMatchFrom .D3GR fileBuffer position r)
    (hmin : r + 16 ≤ fileBuffer.length) (hshort : fileBuffer.length < r + 0x1A) :
    ∃ k, fileBuffer.length ≤ k ∧ carveStep .D3GR fileBuffer position = .fault k := by
  have hfind := findHeader_at_first_match hlen hfirst
  obtain ⟨hle, hs, _⟩ := hfirst
  unfold carveStep
  rw [if_pos (by omega), sub64_small (by omega) (by omega), hfind]
  simp only
  rw [if_neg (by unfold SIZE_MAX; omega),
    add64_small (show position + (r - position) < 2 ^ 64 by omega),
    show position + (r - position) = r by omega,
    add64_small (show r + 16 < 2 ^ 64 by omega), if_neg (by omega)]
  cases hsz : getSize .D3GR (fileBuffer.drop r) with
  | outOfBounds i =>
    simp only
    refine ⟨r + i, ?_, rfl⟩
    have := faultsOutside_getGraphicsResourceSize (fileBuffer.drop r) i hsz
    rw [List.length_drop] at this
    omega
  | ret d =>
    exfalso
    simp only [getSize, getGraphicsResourceSize] at hsz
    obtain ⟨c0, h0, hsz⟩ := Run.bind_eq_ret hsz
    obtain ⟨c1, h1, _⟩ := Run.bind_eq_ret hsz
    have := (readU8_ret h1).1
    rw [List.length_drop] at this
    omega

/-! ## Claims about the palette selection -/

/-- The block-local declaration does not reach the call: whatever line is read, the
call of `extractFiles` receives the palette that `main` builds before the loop. -/
theorem mainPalette_eq (filename : String) (h : filename ≠ "EXIT") :
    mainPalette filename = some (generateSanitariumPalette paletteDataRes007) := by
  unfold mainPalette
  rw [if_neg h]
  cases filenameToPalette.lookup filename <;> rfl

/-- The palette built by `generateSanitariumPalette`: 768 bytes, the byte `3i + c` being
the component `c` of the row `i` of the table. -/
theorem generateSanitariumPalette_entry (paletteData : List (List Byte)) :
    (generateSanitariumPalette paletteData).length = 768 ∧
    ∀ i c, i < 256 → c < 3 →
      (generateSanitariumPalette paletteData)[i * 3 + c]?
        = some ((paletteData.getD i []).getD c 0) := by
  have key : ∀ n, n ≤ 256 →
      ((List.range n).foldl (fun palette i =>
        ((palette.set (i * 3) ((paletteData.getD i []).getD 0 0)).set (i * 3 + 1)
          ((paletteData.getD i []).getD 1 0)).set (i * 3 + 2)
          ((paletteData.getD i []).getD 2 0)) (List.replicate (256 * 3) 0)).length = 768 ∧
      ∀ i c, i < n → c < 3 →
        ((List.range n).foldl (fun palette i =>
          ((palette.set (i * 3) ((paletteData.getD i []).getD 0 0)).set (i * 3 + 1)
            ((paletteData.getD i []).getD 1 0)).set (i * 3 + 2)
            ((paletteData.getD i []).getD 2 0)) (List.replicate (256 * 3) 0))[i * 3 + c]?
          = some ((paletteData.getD i []).getD c 0) := by
    intro n
    induction n with
    | zero =>
      intro _
      exact ⟨by simp, fun i c hi _ => absurd hi (Nat.not_lt_zero i)⟩
    | succ n ih =>
      intro hn
      obtain ⟨hl, hent⟩ := ih (by omega)
      rw [List.range_succ, List.foldl_append, List.foldl_cons, List.foldl_nil]
      obtain ⟨h0, h1, h2, h3, hk⟩ := @set3_spec _ (n * 3)
        ((paletteData.getD n []).getD 0 0) ((paletteData.getD n []).getD 1 0)
        ((paletteData.getD n []).getD 2 0) (show n * 3 + 2 < _ by rw [hl]; omega)
      refine ⟨by rw [h0, hl], fun i c hi hc => ?_⟩
      by_cases hin : i < n
      · rw [hk (i * 3 + c) (Or.inl (by omega))]
        exact hent i c hin hc
      · have hi' : i = n := by omega
        subst hi'
        have hc3 : c = 0 ∨ c = 1 ∨ c = 2 := by omega
        rcases hc3 with rfl | rfl | rfl
        · exact h1
        · exact h2
        · exact h3
  exact key 256 (le_refl _)

/-- C30, the defect: `RES.006` is a key of `filenameToPalette`, mapped to the palette built
from `paletteDataRes006`, yet the palette that `main` passes to `extractFiles` for
the line `RES.006` is the one built from `paletteDataRes007`; the two differ (the
blue byte of entry 1 is `0xFC` in the first and `0xF4` in the second). The same
holds for `RES.008` and `RES.009`. -/
theorem main_passes_default_palette :
    filenameToPalette.lookup "RES.006" = some (generateSanitariumPalette paletteDataRes006) ∧
    filenameToPalette.lookup "RES.008" = some (generateSanitariumPalette paletteDataRes006) ∧
    filenameToPalette.lookup "RES.009" = some (generateSanitariumPalette paletteDataRes006) ∧
    mainPalette "RES.006" = some (generateSanitariumPalette paletteDataRes007) ∧
    mainPalette "RES.008" = some (generateSanitariumPalette paletteDataRes007) ∧
    mainPalette "RES.009" = some (generateSanitariumPalette paletteDataRes007) ∧
    (generateSanitariumPalette paletteDataRes006)[5]? = some 0xFC ∧
    (generateSanitariumPalette paletteDataRes007)[5]? = some 0xF4 ∧
    mainPalette "RES.006" ≠ filenameToPalette.lookup "RES.006" := by
  have h6 : (generateSanitariumPalette paletteDataRes006)[5]? = some 0xFC :=
    (generateSanitariumPalette_entry paletteDataRes006).2 1 2 (by decide) (by decide)
  have h7 : (generateSanitariumPalette paletteDataRes007)[5]? = some 0xF4 :=
    (generateSanitariumPalette_entry paletteDataRes007).2 1 2 (by decide) (by decide)
  have hl : filenameToPalette.lookup "RES.006"
      = some (generateSanitariumPalette paletteDataRes006) := by
    simp [filenameToPalette, List.lookup]
  have hm := mainPalette_eq "RES.006" (by decide)
  refine ⟨hl, by simp [filenameToPalette, List.lookup],
    by simp [filenameToPalette, List.lookup], hm,
    mainPalette_eq "RES.008" (by decide), mainPalette_eq "RES.009" (by decide), h6, h7, ?_⟩
  rw [hm, hl]
  intro h
  simp only [Option.some.injEq] at h
  rw [h, h6] at h7
  simp at h7

/-! ## The wrap threshold and single-row layouts -/

theorem sumWidths_cons (f : Frame) (rest : List Frame) :
    sumWidths (f :: rest) = f.width + sumWidths rest := by
  simp [sumWidths]

theorem maxHeights_cons (f : Frame) (rest : List Frame) :
    maxHeights (f :: rest) = max f.height (maxHeights rest) := by
  simp [maxHeights]

theorem sumWidths_le (frames : List Frame) (hsz : ∀ f ∈ frames, f.width ≤ 65535) :
    sumWidths frames ≤ 65535 * frames.length := by
  induction frames with
  | nil => simp [sumWidths]
  | cons f rest ih =>
    rw [sumWidths_cons, List.length_cons]
    have := hsz f (List.mem_cons_self _ _)
    have := ih (fun g hg => hsz g (List.mem_cons_of_mem _ hg))
    omega

theorem maxHeights_le (frames : List Frame) (hsz : ∀ f ∈ frames, f.height ≤ 65535) :
    maxHeights frames ≤ 65535 := by
  induction frames with
  | nil => simp [maxHeights]
  | cons f rest ih =>
    rw [maxHeights_cons]
    have := hsz f (List.mem_cons_self _ _)
    have := ih (fun g hg => hsz g (List.mem_cons_of_mem _ hg))
    omega

/-- The accumulator `totalWidth` does not wrap for at most 65535 frames of 16-bit
widths: it is the sum of the widths. -/
theorem totalWidthOf_eq (frames : List Frame) (hsz : ∀ f ∈ frames, f.width ≤ 65535)
    (hlen : frames.length ≤ 65535) : totalWidthOf frames = sumWidths frames := by
  have key : ∀ (l : List Frame) (t : Nat), (∀ f ∈ l, f.width ≤ 65535) →
      t + 65535 * l.length < 2 ^ 32 →
      l.foldl (fun t f => u32 (t + f.width)) t = t + sumWidths l := by
    intro l
    induction l with
    | nil => intro t _ _; simp [sumWidths]
    | cons f rest ih =>
      intro t hs ht
      have hf := hs f (List.mem_cons_self _ _)
      rw [List.length_cons] at ht
      rw [List.foldl_cons, u32_small (by omega),
        ih _ (fun g hg => hs g (List.mem_cons_of_mem _ hg)) (by omega), sumWidths_cons]
      omega
  have hmul : 65535 * frames.length ≤ 65535 * 65535 := Nat.mul_le_mul_left _ hlen
  unfold totalWidthOf
  rw [key frames 0 hsz (by omega), Nat.zero_add]

/-- The accumulator `maxHeight` is the greatest height. -/
theorem maxHeightOf_eq (frames : List Frame) : maxHeightOf frames = maxHeights frames := by
  have key : ∀ (l : List Frame) (m : Nat),
      l.foldl (fun m f => max m f.height) m = max m (maxHeights l) := by
    intro l
    induction l with
    | nil => intro m; simp [maxHeights]
    | cons f rest ih =>
      intro m
      rw [List.foldl_cons, ih, maxHeights_cons, Nat.max_assoc]
  unfold maxHeightOf
  rw [key, Nat.zero_max]

theorem targetWidthOf_lt (frames : List Frame) : targetWidthOf frames < 2 ^ 32 := by
  unfold targetWidthOf
  exact lt_of_le_of_lt (Nat.sqrt_le_self _) (u32_lt _)

theorem widthsBefore_zero (frames : List Frame) : widthsBefore frames 0 = 0 := by
  simp [widthsBefore, sumWidths]

theorem widthsBefore_succ (f : Frame) (rest : List Frame) (i : Nat) :
    widthsBefore (f :: rest) (i + 1) = f.width + widthsBefore rest i := by
  simp [widthsBefore, sumWidths]

/-- The layout loop from a cursor in the first row, when the frames still to be
placed fit between the cursor and the wrap threshold: no pass wraps. -/
theorem layoutLoop_single_row (targetWidth : Nat) (ht : targetWidth < 2 ^ 32) :
    ∀ (frames : List Frame) (c : Cursor),
      (∀ f ∈ frames, f.height ≤ 65535) →
      c.currentX + sumWidths frames ≤ targetWidth →
      c.currentY = 0 → c.rowHeight ≤ 65535 →
      c.currentX ≤ c.spritesheetWidth → c.rowHeight ≤ c.spritesheetHeight →
      (layoutLoop targetWidth c frames).1
        = (List.range frames.length).map (fun i => (c.currentX + widthsBefore frames i, 0)) ∧
      (layoutLoop targetWidth c frames).2.spritesheetWidth
        = max c.spritesheetWidth (c.currentX + sumWidths frames) ∧
      (layoutLoop targetWidth c frames).2.spritesheetHeight
        = max c.spritesheetHeight (max c.rowHeight (maxHeights frames)) := by
  intro frames
  induction frames with
  | nil =>
    intro c _ _ _ _ hw hh
    simp only [layoutLoop, List.length_nil, List.range_zero, List.map_nil, sumWidths,
      maxHeights, List.sum_nil, List.foldr_nil, true_and]
    omega
  | cons f rest ih =>
    intro c hsz hfit hy hr hw hh
    have hf := hsz f (List.mem_cons_self _ _)
    rw [sumWidths_cons] at hfit
    have hstep : placeFrame targetWidth c f = ((c.currentX, 0),
        { currentX := c.currentX + f.width
          currentY := 0
          rowHeight := max c.rowHeight f.height
          spritesheetWidth := max c.spritesheetWidth (c.currentX + f.width)
          spritesheetHeight := max c.spritesheetHeight (max c.rowHeight f.height) }) := by
      unfold placeFrame wrapRow
      rw [if_neg (by rw [u32_small (by omega)]; omega)]
      simp only [hy, Nat.zero_add]
      rw [u32_small (show c.currentX + f.width < 2 ^ 32 by omega),
        u32_small (show max c.rowHeight f.height < 2 ^ 32 by omega)]
    obtain ⟨h1, h2, h3⟩ := ih
      { currentX := c.currentX + f.width
        currentY := 0
        rowHeight := max c.rowHeight f.height
        spritesheetWidth := max c.spritesheetWidth (c.currentX + f.width)
        spritesheetHeight := max c.spritesheetHeight (max c.rowHeight f.height) }
      (fun g hg => hsz g (List.mem_cons_of_mem _ hg)) (by simp only; omega) rfl
      (by simp only; omega) (by simp only; omega) (by simp only; omega)
    simp only at h1 h2 h3
    rw [layoutLoop, hstep]
    simp only
    refine ⟨?_, ?_, ?_⟩
    · rw [h1, List.length_cons, List.range_succ_eq_map, List.map_cons, List.map_map,
        widthsBefore_zero]
      refine congrArg₂ _ rfl (List.map_congr_left fun i _ => ?_)
      simp only [Function.comp, widthsBefore_succ]
      rw [Nat.add_assoc]
    · rw [h2, sumWidths_cons]
      omega
    · rw [h3, maxHeights_cons]
      omega

/-- The wrap threshold and the layout that `extractFramesToSpritesheet` computes for two
frames of 4 by 4 pixels: the threshold is `floor (sqrt (8 * 4)) = 5`, the second
frame wraps, and the canvas is 4 wide and 8 high. -/
theorem sheetLayout_twoSquares :
    targetWidthOf twoSquares = 5 ∧
    (sheetLayout twoSquares).1 = [(0, 0), (0, 4)] ∧
    (sheetLayout twoSquares).2.spritesheetWidth = 4 ∧
    (sheetLayout twoSquares).2.spritesheetHeight = 8 := by
  have ht : targetWidthOf twoSquares = 5 := by
    unfold targetWidthOf
    have h : u32 (totalWidthOf twoSquares * maxHeightOf twoSquares) = 32 := by decide
    rw [h]
    exact (Nat.eq_sqrt.2 ⟨by norm_num, by norm_num⟩).symm
  refine ⟨ht, ?_⟩
  unfold sheetLayout
  rw [ht]
  decide

theorem targetWidthOf_twoSlim : targetWidthOf twoSlim = 4 := by
  unfold targetWidthOf
  have h : u32 (totalWidthOf twoSlim * maxHeightOf twoSlim) = 16 := by decide
  rw [h]
  exact (Nat.eq_sqrt.2 ⟨by norm_num, by norm_num⟩).symm

/-! ## Claims about the wrap threshold -/

/-- C22: when the sum of the widths of the frames is at most the wrap threshold
`targetWidth` of the layout loop of `extractFramesToSpritesheet`, no pass of the loop
wraps: the frame `i` is put at `(sum of the widths of the frames before i, 0)`, and
the canvas is `(sum of the widths)` wide and `(greatest height)` high. This holds
for every value of the threshold, in particular for the one that the function
computes (`sheetLayout`). -/
theorem single_row_packing (targetWidth : Nat) (frames : List Frame)
    (ht : targetWidth < 2 ^ 32) (hsz : ∀ f ∈ frames, f.height ≤ 65535)
    (hfit : sumWidths frames ≤ targetWidth) :
    (layoutLoop targetWidth ⟨0, 0, 0, 0, 0⟩ frames).1
      = (List.range frames.length).map (fun i => (widthsBefore frames i, 0)) ∧
    (layoutLoop targetWidth ⟨0, 0, 0, 0, 0⟩ frames).2.spritesheetWidth = sumWidths frames ∧
    (layoutLoop targetWidth ⟨0, 0, 0, 0, 0⟩ frames).2.spritesheetHeight = maxHeights frames ∧
    (targetWidth = targetWidthOf frames →
      sheetLayout frames = layoutLoop targetWidth ⟨0, 0, 0, 0, 0⟩ frames) := by
  obtain ⟨h1, h2, h3⟩ := layoutLoop_single_row targetWidth ht frames ⟨0, 0, 0, 0, 0⟩ hsz
    (by simp only; omega) rfl (by simp only; omega) (le_refl _) (le_refl _)
  simp only [Nat.zero_add, Nat.zero_max] at h1 h2 h3
  refine ⟨h1, h2, h3, fun h => ?_⟩
  rw [h]
  rfl

/-- C22, instance: with the threshold 8, two frames of 4 by 4 pixels are put at `(0, 0)` and
`(4, 0)` on a canvas 8 wide and 4 high; with the threshold 4 that
`extractFramesToSpritesheet` computes for two frames of 2 by 4 pixels, these are put
at `(0, 0)` and `(2, 0)` on a canvas of 4 by 4. -/
theorem single_row_packing_witness :
    (sumWidths twoSquares ≤ 8 ∧
      (layoutLoop 8 ⟨0, 0, 0, 0, 0⟩ twoSquares).1 = [(0, 0), (4, 0)] ∧
      (layoutLoop 8 ⟨0, 0, 0, 0, 0⟩ twoSquares).2.spritesheetWidth = 8 ∧
      (layoutLoop 8 ⟨0, 0, 0, 0, 0⟩ twoSquares).2.spritesheetHeight = 4) ∧
    (sumWidths twoSlim ≤ targetWidthOf twoSlim ∧
      (sheetLayout twoSlim).1 = [(0, 0), (2, 0)] ∧
      (sheetLayout twoSlim).2.spritesheetWidth = 4 ∧
      (sheetLayout twoSlim).2.spritesheetHeight = 4) := by
  have h8 := single_row_packing 8 twoSquares (by decide) (by decide) (by decide)
  have h4 := single_row_packing (targetWidthOf twoSlim) twoSlim (targetWidthOf_lt _)
    (by decide) (by rw [targetWidthOf_twoSlim]; decide)
  refine ⟨⟨by decide, ?_, ?_, ?_⟩, ⟨by rw [targetWidthOf_twoSlim]; decide, ?_, ?_, ?_⟩⟩
  · rw [h8.1]; decide
  · rw [h8.2.1]; decide
  · rw [h8.2.2.1]; decide
  · rw [h4.2.2.2 rfl, h4.1]; decide
  · rw [h4.2.2.2 rfl, h4.2.1]; decide
  · rw [h4.2.2.2 rfl, h4.2.2.1]; decide

/-- C23, refuted as stated: for the two frames of 65535 by 32769 pixels read from
`d3grTwoWide` the product of the sum of the widths and the greatest height is
4295032830, whose integer square root is 65536; `extractFramesToSpritesheet` forms
the product in 32 bits, where it is 65534, and its threshold is 255. -/
theorem wrap_threshold_wraps :
    sheetFrames d3grTwoWide (u32 (0x1C + frameCountOf d3grTwoWide * 4))
      (frameCountOf d3grTwoWide) 0 = .ret twoWide ∧
    sumWidths twoWide * maxHeights twoWide = 4295032830 ∧
    65536 ^ 2 ≤ sumWidths twoWide * maxHeights twoWide ∧
    sumWidths twoWide * maxHeights twoWide < (65536 + 1) ^ 2 ∧
    targetWidthOf twoWide = 255 ∧
    ¬ (targetWidthOf twoWide ^ 2 ≤ sumWidths twoWide * maxHeights twoWide ∧
      sumWidths twoWide * maxHeights twoWide < (targetWidthOf twoWide + 1) ^ 2) := by
  have hp : sumWidths twoWide * maxHeights twoWide = 4295032830 := by decide
  have ht : targetWidthOf twoWide = 255 := by
    unfold targetWidthOf
    have h : u32 (totalWidthOf twoWide * maxHeightOf twoWide) = 65534 := by decide
    rw [h]
    exact (Nat.eq_sqrt.2 ⟨by norm_num, by norm_num⟩).symm
  refine ⟨by decide, hp, by rw [hp]; norm_num, by rw [hp]; norm_num, ht, ?_⟩
  rw [ht, hp]
  norm_num

/-- C23, amended: for every list of at most 65535 frames with widths and heights in
0..65535, the accumulators of `extractFramesToSpritesheet` hold the sum `S` of the
widths and the greatest height `H`, and the wrap threshold is the integer square
root of `(S * H) mod 2^32`, the product being formed in 32 bits: it is the
greatest `t` with `t * t <= (S * H) mod 2^32`. It is `floor (sqrt (S * H))` whenever
`S * H < 2^32`. -/
theorem wrap_threshold_value (frames : List Frame)
    (hsz : ∀ f ∈ frames, f.width ≤ 65535 ∧ f.height ≤ 65535) (hlen : frames.length ≤ 65535) :
    totalWidthOf frames = sumWidths frames ∧ maxHeightOf frames = maxHeights frames ∧
    targetWidthOf frames ^ 2 ≤ (sumWidths frames * maxHeights frames) % 2 ^ 32 ∧
    (sumWidths frames * maxHeights frames) % 2 ^ 32 < (targetWidthOf frames + 1) ^ 2 ∧
    (sumWidths frames * maxHeights frames < 2 ^ 32 →
      targetWidthOf frames ^ 2 ≤ sumWidths frames * maxHeights frames ∧
      sumWidths frames * maxHeights frames < (targetWidthOf frames + 1) ^ 2) := by
  have hS := totalWidthOf_eq frames (fun f hf => (hsz f hf).1) hlen
  have hH := maxHeightOf_eq frames
  have ht : targetWidthOf frames
      = Nat.sqrt ((sumWidths frames * maxHeights frames) % 2 ^ 32) := by
    unfold targetWidthOf u32
    rw [hS, hH]
  have hlo := Nat.sqrt_le' ((sumWidths frames * maxHeights frames) % 2 ^ 32)
  have hhi := Nat.lt_succ_sqrt' ((sumWidths frames * maxHeights frames) % 2 ^ 32)
  rw [← ht] at hlo hhi
  refine ⟨hS, hH, hlo, hhi, fun hfit => ?_⟩
  rw [Nat.mod_eq_of_lt hfit] at hlo hhi
  exact ⟨hlo, hhi⟩

/-- C23 amended, instance: for the three frames 2 by 2, 1 by 2 and 3 by 1 the threshold is
`floor (sqrt (6 * 2)) = 3`. -/
theorem wrap_threshold_value_witness :
    sumWidths threeFrames * maxHeights threeFrames = 12 ∧
    targetWidthOf threeFrames ^ 2 ≤ 12 ∧ 12 < (targetWidthOf threeFrames + 1) ^ 2 := by
  have h := wrap_threshold_value threeFrames (by decide) (by decide)
  have hp : sumWidths threeFrames * maxHeights threeFrames = 12 := by decide
  have h2 := h.2.2.2.2 (by rw [hp]; norm_num)
  rw [hp] at h2
  exact ⟨hp, h2⟩

/-! ## Composition: what the canvas holds -/

theorem isCanvas_row {pd : List (List Byte)} {H n r : Nat} (hc : IsCanvas pd H n) (hr : r < H) :
    (pd.getD r []).length = n := by
  obtain ⟨hl, hrows⟩ := hc
  rw [List.getD_eq_getElem?_getD, List.getElem?_eq_getElem (by omega)]
  exact hrows _ (List.getElem_mem _)

/-- The assignment `pixelData[R][c] = v` inside the canvas changes that byte only. -/
theorem setCell_spec {pd : List (List Byte)} {H n R c : Nat} (v : Byte)
    (hc : IsCanvas pd H n) (hR : R < H) (hcol : c < n) :
    IsCanvas (setCell pd R c v) H n ∧
    ∀ r j, cellAt (setCell pd R c v) r j = if r = R ∧ j = c then v else cellAt pd r j := by
  have hrow := isCanvas_row hc hR
  obtain ⟨hl, hrows⟩ := hc
  refine ⟨⟨by simp [setCell, hl], ?_⟩, ?_⟩
  · intro row hmem
    rcases List.mem_or_eq_of_mem_set hmem with h | h
    · exact hrows row h
    · rw [h, List.length_set, hrow]
  · intro r j
    unfold cellAt setCell
    by_cases hr : r = R
    · subst hr
      rw [List.getD_eq_getElem?_getD (pd.set r _), List.getElem?_set_self (by omega),
        Option.getD_some]
      by_cases hj : j = c
      · subst hj
        rw [if_pos ⟨rfl, rfl⟩, List.getD_eq_getElem?_getD,
          List.getElem?_set_self (by omega)]
        rfl
      · rw [if_neg (fun h => hj h.2), List.getD_eq_getElem?_getD,
          List.getElem?_set_ne (fun h => hj h.symm), ← List.getD_eq_getElem?_getD]
    · rw [if_neg (fun h => hr h.1), List.getD_eq_getElem?_getD (pd.set R _),
        List.getElem?_set_ne (fun h => hr h.symm), ← List.getD_eq_getElem?_getD]

/-- The body of the innermost composition loop for a pixel that can be read, lies on
the canvas and has a palette entry: the three bytes of the canvas pixel receive
blue, green and red, the other bytes are kept. -/
theorem composePixel_spec {data palette : List Byte} {W H : Nat} {f : Frame}
    {frameX frameY y x : Nat} {pd : List (List Byte)}
    (hcan : IsCanvas pd H (3 * W)) (hW : W ≤ 8192) (hH : H ≤ 8192)
    (hov : y * f.width + x < 2 ^ 31)
    (hin : f.position + 0x10 + y * f.width + x < data.length)
    (hpal : pixelIndexAt data f y x * 3 + 2 < palette.length)
    (hx : frameX + x < W) (hy : frameY + y < H) :
    ∃ pd', composePixel data palette W H f frameX frameY y x pd = .ok pd' ∧
      IsCanvas pd' H (3 * W) ∧
      ∀ r j, cellAt pd' r j =
        if r = frameY + y ∧ 3 * (frameX + x) ≤ j ∧ j < 3 * (frameX + x) + 3 then
          palette.getD (3 * pixelIndexAt data f y x + (2 - (j - 3 * (frameX + x)))) 0
        else cellAt pd r j := by
  have e1 : u32 (frameY + y) = frameY + y := u32_small (by omega)
  have e2 : u32 (frameX + x) = frameX + x := u32_small (by omega)
  have e3 : u32 ((frameX + x) * 3 + 0) = (frameX + x) * 3 := u32_small (by omega)
  have e4 : u32 ((frameX + x) * 3 + 1) = (frameX + x) * 3 + 1 := u32_small (by omega)
  have e5 : u32 ((frameX + x) * 3 + 2) = (frameX + x) * 3 + 2 := u32_small (by omega)
  unfold composePixel
  rw [readPixel_eq hov hin]
  simp only [Dec.bind]
  rw [e1, e2, e3, e4, e5, if_pos ⟨hy, hx⟩, readPalette_inBounds hpal,
    readPalette_inBounds (show _ * 3 + 1 < _ by omega),
    readPalette_inBounds (show _ * 3 + 0 < _ by omega)]
  simp only
  obtain ⟨c1, s1⟩ := setCell_spec (palette.getD (pixelIndexAt data f y x * 3 + 2) 0) hcan hy
    (show (frameX + x) * 3 < 3 * W by omega)
  obtain ⟨c2, s2⟩ := setCell_spec (palette.getD (pixelIndexAt data f y x * 3 + 1) 0) c1 hy
    (show (frameX + x) * 3 + 1 < 3 * W by omega)
  obtain ⟨c3, s3⟩ := setCell_spec (palette.getD (pixelIndexAt data f y x * 3 + 0) 0) c2 hy
    (show (frameX + x) * 3 + 2 < 3 * W by omega)
  refine ⟨_, rfl, c3, fun r j => ?_⟩
  rw [s3, s2, s1]
  by_cases h3 : r = frameY + y ∧ j = (frameX + x) * 3 + 2
  · rw [if_pos h3, if_pos (by omega)]
    congr 1
    omega
  · rw [if_neg h3]
    by_cases h2 : r = frameY + y ∧ j = (frameX + x) * 3 + 1
    · rw [if_pos h2, if_pos (by omega)]
      congr 1
      omega
    · rw [if_neg h2]
      by_cases h1 : r = frameY + y ∧ j = (frameX + x) * 3
      · rw [if_pos h1, if_pos (by omega)]
        congr 1
        omega
      · rw [if_neg h1, if_neg (by omega)]

/-- The composition loop over the pixels `x .. x + k - 1` of the row `y` of a frame. -/
theorem composeRow_spec {data palette : List Byte} {W H : Nat} {f : Frame}
    {frameX frameY y : Nat} (hW : W ≤ 8192) (hH : H ≤ 8192) (hy : frameY + y < H) :
    ∀ (k x : Nat) (pd : List (List Byte)), IsCanvas pd H (3 * W) →
      frameX + x + k ≤ W →
      (∀ x', x ≤ x' → x' < x + k → y * f.width + x' < 2 ^ 31 ∧
        f.position + 0x10 + y * f.width + x' < data.length ∧
        pixelIndexAt data f y x' * 3 + 2 < palette.length) →
      ∃ pd', composeRow data palette W H f frameX frameY y k x pd = .ok pd' ∧
        IsCanvas pd' H (3 * W) ∧
        ∀ r j, cellAt pd' r j =
          if r = frameY + y ∧ 3 * (frameX + x) ≤ j ∧ j < 3 * (frameX + x + k) then
            frameByte data palette f frameX frameY r j
          else cellAt pd r j := by
  intro k
  induction k with
  | zero =>
    intro x pd hcan _ _
    refine ⟨pd, rfl, hcan, fun r j => ?_⟩
    rw [if_neg (by omega)]
  | succ k ih =>
    intro x pd hcan hfit hpix
    obtain ⟨hov, hin, hpal⟩ := hpix x (le_refl _) (by omega)
    obtain ⟨pd1, h1, c1, s1⟩ := composePixel_spec hcan hW hH hov hin hpal
      (show frameX + x < W by omega) hy
    obtain ⟨pd', h', c', s'⟩ := ih (x + 1) pd1 c1 (by omega)
      (fun x' a b => hpix x' (by omega) (by omega))
    refine ⟨pd', ?_, c', fun r j => ?_⟩
    · rw [composeRow, h1]
      exact h'
    · rw [s', s1]
      by_cases hnew : r = frameY + y ∧ 3 * (frameX + (x + 1)) ≤ j ∧
          j < 3 * (frameX + (x + 1) + k)
      · rw [if_pos hnew, if_pos (by omega)]
      · rw [if_neg hnew]
        by_cases hold : r = frameY + y ∧ 3 * (frameX + x) ≤ j ∧ j < 3 * (frameX + x) + 3
        · rw [if_pos hold, if_pos (by omega)]
          have hr : r - frameY = y := by omega
          have hq : (j - 3 * frameX) / 3 = x := by omega
          have hm : 2 - (j - 3 * frameX) % 3 = 2 - (j - 3 * (frameX + x)) := by omega
          unfold frameByte
          rw [hr, hq, hm]
        · rw [if_neg hold, if_neg (by omega)]

/-- The composition loop over the rows `y .. y + k - 1` of a frame. -/
theorem composeFrame_spec {data palette : List Byte} {W H : Nat} {f : Frame}
    {frameX frameY : Nat} (hW : W ≤ 8192) (hH : H ≤ 8192) (hx : frameX + f.width ≤ W) :
    ∀ (k y : Nat) (pd : List (List Byte)), IsCanvas pd H (3 * W) →
      frameY + y + k ≤ H →
      (∀ y' x', y ≤ y' → y' < y + k → x' < f.width → y' * f.width + x' < 2 ^ 31 ∧
        f.position + 0x10 + y' * f.width + x' < data.length ∧
        pixelIndexAt data f y' x' * 3 + 2 < palette.length) →
      ∃ pd', composeFrame data palette W H f frameX frameY k y pd = .ok pd' ∧
        IsCanvas pd' H (3 * W) ∧
        ∀ r j, cellAt pd' r j =
          if frameY + y ≤ r ∧ r < frameY + y + k ∧ 3 * frameX ≤ j ∧
              j < 3 * (frameX + f.width) then
            frameByte data palette f frameX frameY r j
          else cellAt pd r j := by
  intro k
  induction k with
  | zero =>
    intro y pd hcan _ _
    refine ⟨pd, rfl, hcan, fun r j => ?_⟩
    rw [if_neg (by omega)]
  | succ k ih =>
    intro y pd hcan hfit hpix
    obtain ⟨pd1, h1, c1, s1⟩ := @composeRow_spec data palette W H f frameX frameY y hW hH
      (by omega) f.width 0 pd hcan (by omega)
      (fun x' _ hx' => hpix y x' (le_refl _) (by omega) (by omega))
    obtain ⟨pd', h', c', s'⟩ := ih (y + 1) pd1 c1 (by omega)
      (fun y' x' a b c => hpix y' x' (by omega) (by omega) c)
    refine ⟨pd', ?_, c', fun r j => ?_⟩
    · rw [composeFrame, h1]
      exact h'
    · rw [s', s1]
      by_cases hnew : frameY + (y + 1) ≤ r ∧ r < frameY + (y + 1) + k ∧ 3 * frameX ≤ j ∧
          j < 3 * (frameX + f.width)
      · rw [if_pos hnew, if_pos (by omega)]
      · rw [if_neg hnew]
        by_cases hold : r = frameY + y ∧ 3 * (frameX + 0) ≤ j ∧ j < 3 * (frameX + 0 + f.width)
        · rw [if_pos hold, if_pos (by omega)]
        · rw [if_neg hold, if_neg (by omega)]

/-- Two placed frames that share no pixel do not cover the same byte of the canvas. -/
theorem apart_not_both {a b : Frame × (Nat × Nat)} (h : Apart a b) {r j : Nat}
    (ha : Covers a.1 a.2.1 a.2.2 r j) : ¬ Covers b.1 b.2.1 b.2.2 r j := by
  intro hb
  unfold Covers at ha hb
  exact h (j / 3) r ⟨⟨by simp only; omega, by simp only; omega, ha.1, ha.2.1⟩,
    ⟨by simp only; omega, by simp only; omega, hb.1, hb.2.1⟩⟩

theorem apart_symm {a b : Frame × (Nat × Nat)} (h : Apart a b) : Apart b a :=
  Placed.Disjoint.symm h

/-- Frames placed one before the other, taken with their placements, share no pixel. -/
theorem pairwise_apart_of_before :
    ∀ (frames : List Frame) (ps : List (Nat × Nat)),
      List.Pairwise Placed.Before (placedFrames frames ps) →
      List.Pairwise Apart (frames.zip ps) := by
  intro frames
  induction frames with
  | nil => intro ps _; simp
  | cons f rest ih =>
    intro ps h
    cases ps with
    | nil => simp
    | cons p ps =>
      simp only [placedFrames, List.zipWith_cons_cons, List.pairwise_cons] at h
      rw [List.zip_cons_cons, List.pairwise_cons]
      refine ⟨fun e he => ?_, ih ps h.2⟩
      exact (h.1 _ (mem_zip_placedFrames rest ps e he)).disjoint

/-- The composition loop over placed frames that lie inside the data and on the
canvas and share no pixel, with a palette of 256 entries: every byte covered
by a frame shows that frame, every other byte of the canvas is kept. -/
theorem composeFrames_spec {data palette : List Byte} {W H : Nat}
    (hW : W ≤ 8192) (hH : H ≤ 8192) (hpal : 768 ≤ palette.length) :
    ∀ (placed : List (Frame × (Nat × Nat))) (pd : List (List Byte)),
      IsCanvas pd H (3 * W) →
      (∀ e ∈ placed, e.1.position + 0x10 + e.1.width * e.1.height ≤ data.length ∧
        e.2.1 + e.1.width ≤ W ∧ e.2.2 + e.1.height ≤ H) →
      List.Pairwise Apart placed →
      ∃ pd', composeFrames data palette W H placed pd = .ok pd' ∧
        IsCanvas pd' H (3 * W) ∧
        (∀ e ∈ placed, ∀ r j, Covers e.1 e.2.1 e.2.2 r j →
          cellAt pd' r j = frameByte data palette e.1 e.2.1 e.2.2 r j) ∧
        (∀ r j, (∀ e ∈ placed, ¬ Covers e.1 e.2.1 e.2.2 r j) →
          cellAt pd' r j = cellAt pd r j) := by
  intro placed
  induction placed with
  | nil =>
    intro pd hcan _ _
    exact ⟨pd, rfl, hcan, fun e he => by simp at he, fun _ _ _ => rfl⟩
  | cons p rest ih =>
    intro pd hcan hall hapart
    rw [List.pairwise_cons] at hapart
    obtain ⟨hhead, hrest⟩ := hapart
    have hp := hall p (List.mem_cons_self _ _)
    obtain ⟨f, frameX, frameY⟩ := p
    simp only at hp hhead
    obtain ⟨hin, hx, hy⟩ := hp
    have hcond := placed_pixel_conditions hW hH hin hx hy
    obtain ⟨pd1, h1, c1, s1⟩ := @composeFrame_spec data palette W H f frameX frameY hW hH hx
      f.height 0 pd hcan (by omega)
      (fun y' x' _ b c => ⟨(hcond y' x' (by omega) c).1, (hcond y' x' (by omega) c).2.1, by
        have := pixelIndexAt_lt data f y' x'
        omega⟩)
    obtain ⟨pd', h', c', hcov, hfree⟩ := ih pd1 c1
      (fun e he => hall e (List.mem_cons_of_mem _ he)) hrest
    refine ⟨pd', ?_, c', ?_, ?_⟩
    · rw [composeFrames, h1]
      exact h'
    · intro e he r j hc
      rcases List.mem_cons.1 he with rfl | he'
      · rw [hfree r j (fun e' he' => apart_not_both (hhead e' he') hc), s1]
        unfold Covers at hc
        simp only at hc ⊢
        rw [if_pos (by omega)]
      · exact hcov e he' r j hc
    · intro r j hnone
      rw [hfree r j (fun e he => hnone e (List.mem_cons_of_mem _ he)), s1]
      have := hnone (f, frameX, frameY) (List.mem_cons_self _ _)
      unfold Covers at this
      simp only at this
      rw [if_neg (by omega)]

/-- The white canvas allocated by `extractFramesToSpritesheet`. -/
theorem isCanvas_replicate (H n : Nat) (v : Byte) :
    IsCanvas (List.replicate H (List.replicate n v)) H n ∧
    ∀ r j, r < H → j < n → cellAt (List.replicate H (List.replicate n v)) r j = v := by
  refine ⟨⟨List.length_replicate _ _, fun row hrow => ?_⟩, fun r j hr hj => ?_⟩
  · rw [List.eq_of_mem_replicate hrow, List.length_replicate]
  · have h1 : (List.replicate H (List.replicate n v)).getD r [] = List.replicate n v := by
      rw [List.getD_eq_getElem?_getD, List.getElem?_replicate, if_pos hr, Option.getD_some]
    unfold cellAt
    rw [h1, List.getD_eq_getElem?_getD, List.getElem?_replicate, if_pos hj, Option.getD_some]

/-- The last loop of `extractFramesToSpritesheet`: the rows of the canvas are written from
the last to the first, each followed by zero bytes up to the padded width. -/
theorem sheetRows_spec {pd : List (List Byte)} {H n P : Nat} (hcan : IsCanvas pd H n)
    (hn : n ≤ P) :
    ∀ (k : Nat) (rb : List Byte), k ≤ H → rb.length = P →
      (∀ j, n ≤ j → j < P → rb[j]? = some 0) →
      (sheetRows pd k rb).length = k * P ∧
      ∀ i, i < k → ∀ j, j < P →
        (sheetRows pd k rb)[i * P + j]?
          = some (if j < n then cellAt pd (k - 1 - i) j else 0) := by
  intro k
  induction k with
  | zero =>
    intro rb _ _ _
    exact ⟨by simp [sheetRows], fun i hi => absurd hi (Nat.not_lt_zero i)⟩
  | succ y ih =>
    intro rb hk hlen hpad
    have hrow := isCanvas_row hcan (show y < H by omega)
    have hl' : (pd.getD y [] ++ rb.drop (pd.getD y []).length).length = P := by
      rw [List.length_append, List.length_drop, hrow, hlen]
      omega
    have hcell : ∀ j, j < P → (pd.getD y [] ++ rb.drop (pd.getD y []).length)[j]?
        = some (if j < n then cellAt pd y j else 0) := by
      intro j hj
      by_cases hjn : j < n
      · rw [if_pos hjn, List.getElem?_append_left (by omega),
          List.getElem?_eq_getElem (by omega)]
        unfold cellAt
        rw [List.getD_eq_getElem?_getD (pd.getD y []), List.getElem?_eq_getElem (by omega)]
        rfl
      · rw [if_neg hjn, List.getElem?_append_right (by omega), List.getElem?_drop, hrow,
          show n + (j - n) = j by omega]
        exact hpad j (by omega) hj
    obtain ⟨hrl, hspec⟩ := ih (pd.getD y [] ++ rb.drop (pd.getD y []).length) (by omega) hl'
      (fun j h1 h2 => by rw [hcell j h2, if_neg (by omega)])
    rw [sheetRows]
    refine ⟨?_, fun i hi j hj => ?_⟩
    · rw [List.length_append, hrl, hl', Nat.succ_mul]
      omega
    · cases i with
      | zero =>
        rw [Nat.zero_mul, Nat.zero_add, List.getElem?_append_left (by omega), hcell j hj]
        rfl
      | succ i =>
        have hge : (pd.getD y [] ++ rb.drop (pd.getD y []).length).length ≤ (i + 1) * P + j := by
          rw [hl', Nat.succ_mul]
          omega
        have hidx : (i + 1) * P + j - (pd.getD y [] ++ rb.drop (pd.getD y []).length).length
            = i * P + j := by
          rw [hl', Nat.succ_mul]
          omega
        rw [List.getElem?_append_right hge, hidx, hspec i (by omega) j hj,
          show y + 1 - 1 - (i + 1) = y - 1 - i by omega]

/-- The placements computed for frames with 16-bit sizes: one per frame, every placed
frame on the canvas, no two sharing a pixel. -/
theorem sheetLayout_placed (frames : List Frame)
    (hsz : ∀ f ∈ frames, f.width ≤ 65535 ∧ f.height ≤ 65535) (hlen : frames.length ≤ 65535) :
    (sheetLayout frames).1.length = frames.length ∧
    (∀ e ∈ frames.zip (sheetLayout frames).1,
      e.2.1 + e.1.width ≤ (sheetLayout frames).2.spritesheetWidth ∧
      e.2.2 + e.1.height ≤ (sheetLayout frames).2.spritesheetHeight) ∧
    List.Pairwise Apart (frames.zip (sheetLayout frames).1) := by
  have hmul : 65535 * frames.length ≤ 65535 * 65535 := Nat.mul_le_mul_left _ hlen
  obtain ⟨h1, _, _, _, _⟩ := layoutLoop_spec (targetWidthOf frames) frames ⟨0, 0, 0, 0, 0⟩ hsz
    (by simp only; omega) (by simp only; omega) (le_refl _) (le_refl _)
  obtain ⟨_, hcont, hbefore⟩ := sheetLayout_spec frames hsz hlen
  exact ⟨h1, fun e he => hcont _ (mem_zip_placedFrames _ _ e he),
    pairwise_apart_of_before _ _ hbefore⟩

/-- The part of `extractFramesToSpritesheet` after the first loop, for frames that lie
inside the data, a canvas that passes the size check and a palette of 256
entries: the function returns `true`; the bytes written are the two headers
and, bottom row first, the rows of the canvas, on which every byte covered by
a frame shows that frame, every other byte of a pixel is `255`, and the padding
of each row is zero. -/
theorem sheetEncode_spec {data palette : List Byte} {frames : List Frame}
    (hsz : ∀ f ∈ frames, f.width ≤ 65535 ∧ f.height ≤ 65535) (hlen : frames.length ≤ 65535)
    (hin : ∀ f ∈ frames, f.position + 0x10 + f.width * f.height ≤ data.length)
    (hpal : 768 ≤ palette.length)
    (hW : (sheetLayout frames).2.spritesheetWidth ≤ 8192)
    (hH : (sheetLayout frames).2.spritesheetHeight ≤ 8192) :
    ∃ rows, sheetEncode data palette frames =
        .ok (some (bmpHeaders
          (u32 (14 + 40 + paddedRowBytes (sheetLayout frames).2.spritesheetWidth *
            (sheetLayout frames).2.spritesheetHeight))
          (sheetLayout frames).2.spritesheetWidth (sheetLayout frames).2.spritesheetHeight
          ++ rows)) ∧
      rows.length = (sheetLayout frames).2.spritesheetHeight *
        paddedRowBytes (sheetLayout frames).2.spritesheetWidth ∧
      (∀ e ∈ frames.zip (sheetLayout frames).1, ∀ r j, Covers e.1 e.2.1 e.2.2 r j →
        rows[((sheetLayout frames).2.spritesheetHeight - 1 - r) *
          paddedRowBytes (sheetLayout frames).2.spritesheetWidth + j]?
          = some (frameByte data palette e.1 e.2.1 e.2.2 r j)) ∧
      (∀ r j, r < (sheetLayout frames).2.spritesheetHeight →
        j < 3 * (sheetLayout frames).2.spritesheetWidth →
        (∀ e ∈ frames.zip (sheetLayout frames).1, ¬ Covers e.1 e.2.1 e.2.2 r j) →
        rows[((sheetLayout frames).2.spritesheetHeight - 1 - r) *
          paddedRowBytes (sheetLayout frames).2.spritesheetWidth + j]? = some 255) ∧
      (∀ r j, r < (sheetLayout frames).2.spritesheetHeight →
        3 * (sheetLayout frames).2.spritesheetWidth ≤ j →
        j < paddedRowBytes (sheetLayout frames).2.spritesheetWidth →
        rows[((sheetLayout frames).2.spritesheetHeight - 1 - r) *
          paddedRowBytes (sheetLayout frames).2.spritesheetWidth + j]? = some 0) := by
  obtain ⟨_, hcont, hapart⟩ := sheetLayout_placed frames hsz hlen
  generalize hWd : (sheetLayout frames).2.spritesheetWidth = W at *
  generalize hHd : (sheetLayout frames).2.spritesheetHeight = H at *
  have hP := (paddedRowBytes_least W).2.1
  obtain ⟨hwhite, hwcell⟩ := isCanvas_replicate H (3 * W) (255 : Byte)
  obtain ⟨pd', hrun, hcan, hcov, hfree⟩ := composeFrames_spec hW hH hpal
    (frames.zip (sheetLayout frames).1) _ hwhite
    (fun e he => ⟨hin e.1 (List.of_mem_zip he).1, hcont e he⟩) hapart
  obtain ⟨hrl, hrows⟩ := sheetRows_spec hcan hP H (List.replicate (paddedRowBytes W) 0)
    (le_refl _) (List.length_replicate _ _)
    (fun j _ h2 => by rw [List.getElem?_replicate, if_pos h2])
  have hrow : ∀ r j, r < H → j < paddedRowBytes W →
      (sheetRows pd' H (List.replicate (paddedRowBytes W) 0))[(H - 1 - r) * paddedRowBytes W + j]?
        = some (if j < 3 * W then cellAt pd' r j else 0) := by
    intro r j hr hj
    rw [hrows (H - 1 - r) (by omega) j hj, show H - 1 - (H - 1 - r) = r by omega]
  refine ⟨sheetRows pd' H (List.replicate (paddedRowBytes W) 0), ?_, hrl, ?_, ?_, ?_⟩
  · unfold sheetEncode
    simp only []
    rw [hWd, hHd, if_neg (by omega), u32_small (show W * 3 < 2 ^ 32 by omega),
      u32_small (show W * 3 + 3 < 2 ^ 32 by omega), paddedWidth_eq (show W < 2 ^ 16 by omega),
      Nat.mul_comm W 3, hrun]
    simp only [Dec.bind, u32, Nat.add_mod_mod]
  · intro e he r j hc
    have hb := hcont e he
    have hc' := hc
    unfold Covers at hc'
    rw [hrow r j (by omega) (by omega), if_pos (by omega), hcov e he r j hc]
  · intro r j hr hj hnone
    rw [hrow r j hr (by omega), if_pos hj, hfree r j hnone, hwcell r j hr hj]
  · intro r j hr h1 h2
    rw [hrow r j hr h2, if_neg (by omega)]

/-- The layout of a single frame: it is put at `(0, 0)` and the canvas has its size,
whatever the wrap threshold. -/
theorem sheetLayout_single (f : Frame) (hw : f.width ≤ 65535) (hh : f.height ≤ 65535) :
    sheetLayout [f] = ([(0, 0)], ⟨f.width, 0, f.height, f.width, f.height⟩) := by
  have hstep : placeFrame (targetWidthOf [f]) ⟨0, 0, 0, 0, 0⟩ f
      = ((0, 0), ⟨f.width, 0, f.height, f.width, f.height⟩) := by
    unfold placeFrame wrapRow
    rw [if_neg (by simp)]
    simp only [Nat.zero_add, Nat.zero_max]
    rw [u32_small (show f.width < 2 ^ 32 by omega), u32_small (show f.height < 2 ^ 32 by omega)]
  unfold sheetLayout
  rw [layoutLoop, hstep]
  rfl

/-- Two canvases of the same shape that hold the same bytes are equal. -/
theorem canvas_ext {a b : List (List Byte)} {H n : Nat} (ha : IsCanvas a H n)
    (hb : IsCanvas b H n) (h : ∀ r j, r < H → j < n → cellAt a r j = cellAt b r j) : a = b := by
  apply List.ext_getElem (by rw [ha.1, hb.1])
  intro r h1 h2
  have hra := isCanvas_row ha (show r < H by rw [← ha.1]; exact h1)
  have hrb := isCanvas_row hb (show r < H by rw [← ha.1]; exact h1)
  rw [List.getD_eq_getElem?_getD, List.getElem?_eq_getElem h1, Option.getD_some] at hra
  rw [List.getD_eq_getElem?_getD, List.getElem?_eq_getElem h2, Option.getD_some] at hrb
  apply List.ext_getElem (by rw [hra, hrb])
  intro j h3 h4
  have := h r j (by rw [← ha.1]; exact h1) (by rw [← hra]; exact h3)
  unfold cellAt at this
  rw [List.getD_eq_getElem?_getD a, List.getElem?_eq_getElem h1, Option.getD_some,
    List.getD_eq_getElem?_getD b, List.getElem?_eq_getElem h2, Option.getD_some,
    List.getD_eq_getElem?_getD, List.getElem?_eq_getElem h3, Option.getD_some,
    List.getD_eq_getElem?_getD, List.getElem?_eq_getElem h4, Option.getD_some] at this
  exact this

theorem frames_of_resource (data : List Byte) :
    (∀ f ∈ (List.range (frameCountOf data)).map (frameOf data),
      f.width ≤ 65535 ∧ f.height ≤ 65535) ∧
    ((List.range (frameCountOf data)).map (frameOf data)).length ≤ 65535 := by
  have hn16 : frameCountOf data < 2 ^ 16 := le16At_lt data 0x18
  refine ⟨fun f hf => ?_, by rw [List.length_map, List.length_range]; omega⟩
  obtain ⟨j, _, rfl⟩ := List.mem_map.1 hf
  exact frameOf_sizes data j

/-! ## Claims about the spritesheet -/

/-- C21: for a resource whose frame headers can be read, `extractFramesToSpritesheet` returns
`false`, writing no bitmap, whenever the width or the height of the packed
canvas exceeds 8192; a canvas of at most 8192 by 8192 is not rejected: the
function does not return `false` for it, and when the frames lie inside the
resource and the palette has 256 entries it returns `true` with a bitmap written. -/
theorem sheet_size_check (data palette : List Byte) (hn : 1 ≤ frameCountOf data)
    (hin : ∀ i, i < frameCountOf data → framePositionOf data i + 0x10 ≤ data.length)
    (h32 : ∀ i, i < frameCountOf data → framePositionOf data i + 0x10 ≤ 2 ^ 32) :
    ((sheetLayout ((List.range (frameCountOf data)).map (frameOf data))).2.spritesheetWidth
        > 8192 ∨
      (sheetLayout ((List.range (frameCountOf data)).map (frameOf data))).2.spritesheetHeight
        > 8192 →
      extractFramesToSpritesheet data palette = .ok none) ∧
    ((sheetLayout ((List.range (frameCountOf data)).map (frameOf data))).2.spritesheetWidth
        ≤ 8192 →
      (sheetLayout ((List.range (frameCountOf data)).map (frameOf data))).2.spritesheetHeight
        ≤ 8192 →
      extractFramesToSpritesheet data palette ≠ .ok none ∧
      ((∀ i, i < frameCountOf data →
          framePositionOf data i + 0x10 + frameWidthOf data i * frameHeightOf data i
            ≤ data.length) →
        768 ≤ palette.length →
        ∃ bytes, extractFramesToSpritesheet data palette = .ok (some bytes))) := by
  rw [extractFramesToSpritesheet_eq_encode palette hn hin h32]
  refine ⟨fun hbig => ?_, fun hW hH => ⟨?_, fun hpix hpal => ?_⟩⟩
  · unfold sheetEncode
    simp only []
    rw [if_pos hbig]
  · unfold sheetEncode
    simp only []
    rw [if_neg (by omega)]
    cases composeFrames data palette _ _ _ _ with
    | ok pd => simp [Dec.bind]
    | badResourceRead i => simp [Dec.bind]
    | badPaletteRead i => simp [Dec.bind]
  · obtain ⟨hsz, hlen⟩ := frames_of_resource data
    obtain ⟨rows, hrun, _⟩ := @sheetEncode_spec data palette _ hsz hlen
      (fun f hf => by
        obtain ⟨j, hj, rfl⟩ := List.mem_map.1 hf
        exact hpix j (List.mem_range.1 hj)) hpal hW hH
    exact ⟨_, hrun⟩

/-- C21, instance: the resource with one frame of 8193 by 1 pixels has a canvas 8193 wide
and is rejected. -/
theorem sheet_size_check_witness :
    (sheetLayout ((List.range (frameCountOf d3grWide)).map
      (frameOf d3grWide))).2.spritesheetWidth = 8193 ∧
    extractFramesToSpritesheet d3grWide paletteBW = .ok none := by
  have hf : (List.range (frameCountOf d3grWide)).map (frameOf d3grWide) = [⟨32, 8193, 1⟩] := by
    decide
  have hl := sheetLayout_single ⟨32, 8193, 1⟩ (by decide) (by decide)
  have hw : (sheetLayout ((List.range (frameCountOf d3grWide)).map
      (frameOf d3grWide))).2.spritesheetWidth = 8193 := by
    rw [hf, hl]
  exact ⟨hw, (sheet_size_check d3grWide paletteBW (by decide) (by decide) (by decide)).1
    (Or.inl (by rw [hw]; decide))⟩

/-- C24: for a resource whose frames lie inside it (headers ending at or before byte
2^32), whose canvas passes the size check, and a palette of 256 entries,
`extractFramesToSpritesheet` writes 54 header bytes and then the canvas rows, the
canvas row `r` being the output row `canvasHeight - 1 - r`; every frame `i` has a
placement `(x_i, y_i)`, and for every pixel `(x, y)` of the frame the three bytes of
the canvas pixel `(x_i + x, y_i + y)` hold `palette[3k+2]`, `palette[3k+1]`, `palette[3k]`,
where `k` is the palette index stored for the pixel in row `y`, column `x` of the
frame. -/
theorem sheet_pixels (data palette : List Byte) (hn : 1 ≤ frameCountOf data)
    (hin : ∀ i, i < frameCountOf data →
      framePositionOf data i + 0x10 + frameWidthOf data i * frameHeightOf data i
        ≤ data.length)
    (h32 : ∀ i, i < frameCountOf data → framePositionOf data i + 0x10 ≤ 2 ^ 32)
    (hW : (sheetLayout ((List.range (frameCountOf data)).map (frameOf data))).2.spritesheetWidth
      ≤ 8192)
    (hH : (sheetLayout ((List.range (frameCountOf data)).map (frameOf data))).2.spritesheetHeight
      ≤ 8192)
    (hpal : 768 ≤ palette.length) :
    ∃ header rows, header.length = 54 ∧
      extractFramesToSpritesheet data palette = .ok (some (header ++ rows)) ∧
      rows.length
        = (sheetLayout ((List.range (frameCountOf data)).map
            (frameOf data))).2.spritesheetHeight *
          paddedRowBytes (sheetLayout ((List.range (frameCountOf data)).map
            (frameOf data))).2.spritesheetWidth ∧
      (sheetLayout ((List.range (frameCountOf data)).map (frameOf data))).1.length
        = frameCountOf data ∧
      ∀ i frameX frameY, i < frameCountOf data →
        (sheetLayout ((List.range (frameCountOf data)).map (frameOf data))).1[i]?
          = some (frameX, frameY) →
        ∀ y x c, y < frameHeightOf data i → x < frameWidthOf data i → c < 3 →
          rows[((sheetLayout ((List.range (frameCountOf data)).map
              (frameOf data))).2.spritesheetHeight - 1 - (frameY + y)) *
            paddedRowBytes (sheetLayout ((List.range (frameCountOf data)).map
              (frameOf data))).2.spritesheetWidth + 3 * (frameX + x) + c]?
            = some (palette.getD (3 * pixelIndexAt data (frameOf data i) y x + (2 - c)) 0) := by
  obtain ⟨hsz, hlen⟩ := frames_of_resource data
  obtain ⟨hpl, _, _⟩ := sheetLayout_placed _ hsz hlen
  obtain ⟨rows, hrun, hrl, hcov, _, _⟩ := @sheetEncode_spec data palette _ hsz hlen
    (fun f hf => by
      obtain ⟨j, hj, rfl⟩ := List.mem_map.1 hf
      exact hin j (List.mem_range.1 hj)) hpal hW hH
  rw [← extractFramesToSpritesheet_eq_encode palette hn
    (fun k hk => by have := hin k hk; omega) h32] at hrun
  refine ⟨_, rows, ?_, hrun, hrl, by rw [hpl, List.length_map, List.length_range], ?_⟩
  · exact (bmpHeaders_fields rows (u32_lt _) (by omega) (by omega)).1
  · intro i frameX frameY hi hp y x c hy hx hc
    have hmem : (frameOf data i, (frameX, frameY)) ∈
        ((List.range (frameCountOf data)).map (frameOf data)).zip
          (sheetLayout ((List.range (frameCountOf data)).map (frameOf data))).1 := by
      apply List.getElem?_mem (n := i)
      rw [List.getElem?_zip_eq_some]
      refine ⟨?_, hp⟩
      rw [List.getElem?_map, List.getElem?_range hi]
      rfl
    have hcv : Covers (frameOf data i) frameX frameY (frameY + y) (3 * (frameX + x) + c) :=
      ⟨by omega, by show frameY + y < frameY + frameHeightOf data i; omega, by omega,
        by show 3 * (frameX + x) + c < 3 * (frameX + frameWidthOf data i); omega⟩
    have hc' := hcov _ hmem _ _ hcv
    rw [Nat.add_assoc, hc']
    unfold frameByte
    simp only
    rw [show frameY + y - frameY = y by omega,
      show (3 * (frameX + x) + c - 3 * frameX) / 3 = x by omega,
      show (3 * (frameX + x) + c - 3 * frameX) % 3 = c by omega]

/-- The placements of the three sample frames. -/
theorem sheetLayout_threeFrames_placements :
    (sheetLayout threeFrames).1 = [(0, 0), (2, 0), (0, 2)] := by
  have ht : targetWidthOf threeFrames = 3 := by
    unfold targetWidthOf
    have h : u32 (totalWidthOf threeFrames * maxHeightOf threeFrames) = 12 := by decide
    rw [h]
    exact (Nat.eq_sqrt.2 ⟨by norm_num, by norm_num⟩).symm
  unfold sheetLayout
  rw [ht]
  decide

/-- C24, instance: in the sheet of the three-frame resource the frame 1, whose pixel
`(0, 0)` has the index 1 (white), is put at `(2, 0)`; the canvas is 3 by 3 with rows
of 12 bytes, and the blue byte of the canvas pixel `(2, 0)` is byte `2 * 12 + 6` of
the pixel section. -/
theorem sheet_pixels_witness :
    1 ≤ frameCountOf d3grThree ∧ 768 ≤ paletteBW.length ∧
    ∃ header rows, header.length = 54 ∧
      extractFramesToSpritesheet d3grThree paletteBW = .ok (some (header ++ rows)) ∧
      rows.length = 3 * 12 ∧ rows[2 * 12 + 6]? = some 255 := by
  have hf : (List.range (frameCountOf d3grThree)).map (frameOf d3grThree) = threeFrames := by
    decide
  have hW := sheetLayout_threeFrames.2.1
  have hH := sheetLayout_threeFrames.2.2
  obtain ⟨header, rows, h1, h2, h3, _, h5⟩ := sheet_pixels d3grThree paletteBW (by decide)
    (by decide) (by decide) (by rw [hf, hW]; decide) (by rw [hf, hH]; decide) (by decide)
  rw [hf, hW, hH] at h3
  have h6 := h5 1 2 0 (by decide) (by rw [hf, sheetLayout_threeFrames_placements]; rfl)
    0 0 0 (by decide) (by decide) (by decide)
  rw [hf, hW, hH] at h6
  exact ⟨by decide, by decide, header, rows, h1, h2, h3, h6⟩

/-- C25: once the placements are fixed, the composition loop of `extractFramesToSpritesheet`
gives the same canvas for every order of the frames: for frames that lie inside
the data, a canvas that passes the size check and a palette of 256 entries,
running the loop over any permutation of the placed frames, from any canvas of
the right shape, returns the canvas that the loop over the frames in index
order returns. -/
theorem composition_order_insensitive (data palette : List Byte) (frames : List Frame)
    (placed : List (Frame × (Nat × Nat))) (pixelData : List (List Byte))
    (hsz : ∀ f ∈ frames, f.width ≤ 65535 ∧ f.height ≤ 65535) (hlen : frames.length ≤ 65535)
    (hin : ∀ f ∈ frames, f.position + 0x10 + f.width * f.height ≤ data.length)
    (hpal : 768 ≤ palette.length)
    (hW : (sheetLayout frames).2.spritesheetWidth ≤ 8192)
    (hH : (sheetLayout frames).2.spritesheetHeight ≤ 8192)
    (hcan : IsCanvas pixelData (sheetLayout frames).2.spritesheetHeight
      (3 * (sheetLayout frames).2.spritesheetWidth))
    (hperm : List.Perm placed (frames.zip (sheetLayout frames).1)) :
    (∃ canvas, composeFrames data palette (sheetLayout frames).2.spritesheetWidth
      (sheetLayout frames).2.spritesheetHeight (frames.zip (sheetLayout frames).1) pixelData
        = .ok canvas) ∧
    composeFrames data palette (sheetLayout frames).2.spritesheetWidth
      (sheetLayout frames).2.spritesheetHeight placed pixelData
      = composeFrames data palette (sheetLayout frames).2.spritesheetWidth
        (sheetLayout frames).2.spritesheetHeight (frames.zip (sheetLayout frames).1)
        pixelData := by
  obtain ⟨_, hcont, hapart⟩ := sheetLayout_placed frames hsz hlen
  have hall : ∀ e ∈ frames.zip (sheetLayout frames).1,
      e.1.position + 0x10 + e.1.width * e.1.height ≤ data.length ∧
      e.2.1 + e.1.width ≤ (sheetLayout frames).2.spritesheetWidth ∧
      e.2.2 + e.1.height ≤ (sheetLayout frames).2.spritesheetHeight :=
    fun e he => ⟨hin e.1 (List.of_mem_zip he).1, hcont e he⟩
  obtain ⟨pd2, h2, c2, cov2, free2⟩ := composeFrames_spec hW hH hpal _ _ hcan hall hapart
  obtain ⟨pd1, h1, c1, cov1, free1⟩ := composeFrames_spec hW hH hpal placed _ hcan
    (fun e he => hall e (hperm.mem_iff.1 he))
    ((List.Perm.pairwise_iff (fun h => apart_symm h) hperm).2 hapart)
  refine ⟨⟨pd2, h2⟩, ?_⟩
  rw [h1, h2]
  refine congrArg Dec.ok (canvas_ext c1 c2 fun r j _ _ => ?_)
  by_cases hc : ∃ e ∈ frames.zip (sheetLayout frames).1, Covers e.1 e.2.1 e.2.2 r j
  · obtain ⟨e, he, hce⟩ := hc
    rw [cov1 e (hperm.mem_iff.2 he) r j hce, cov2 e he r j hce]
  · have hnone : ∀ e ∈ frames.zip (sheetLayout frames).1, ¬ Covers e.1 e.2.1 e.2.2 r j :=
      fun e he hce => hc ⟨e, he, hce⟩
    rw [free1 r j (fun e he => hnone e (hperm.mem_iff.1 he)), free2 r j hnone]

/-- C25, instance: on the canvas of the three-frame resource, composing the frames in the
order 2, 0, 1 gives the canvas obtained in the order 0, 1, 2. -/
theorem composition_order_insensitive_witness :
    List.Perm [((⟨78, 3, 1⟩ : Frame), (0, 2)), (⟨40, 2, 2⟩, (0, 0)), (⟨60, 1, 2⟩, (2, 0))]
      [((⟨40, 2, 2⟩ : Frame), (0, 0)), (⟨60, 1, 2⟩, (2, 0)), (⟨78, 3, 1⟩, (0, 2))] ∧
    composeFrames d3grThree paletteBW 3 3
      [(⟨78, 3, 1⟩, (0, 2)), (⟨40, 2, 2⟩, (0, 0)), (⟨60, 1, 2⟩, (2, 0))]
      (List.replicate 3 (List.replicate 9 255))
      = composeFrames d3grThree paletteBW 3 3
        [(⟨40, 2, 2⟩, (0, 0)), (⟨60, 1, 2⟩, (2, 0)), (⟨78, 3, 1⟩, (0, 2))]
        (List.replicate 3 (List.replicate 9 255)) := by
  have hW := sheetLayout_threeFrames.2.1
  have hH := sheetLayout_threeFrames.2.2
  have hP := sheetLayout_threeFrames_placements
  have hperm : List.Perm
      [((⟨78, 3, 1⟩ : Frame), (0, 2)), (⟨40, 2, 2⟩, (0, 0)), (⟨60, 1, 2⟩, (2, 0))]
      [((⟨40, 2, 2⟩ : Frame), (0, 0)), (⟨60, 1, 2⟩, (2, 0)), (⟨78, 3, 1⟩, (0, 2))] :=
    (List.Perm.swap _ _ _).trans (List.Perm.cons _ (List.Perm.swap _ _ _))
  have h := (composition_order_insensitive d3grThree paletteBW threeFrames
    [(⟨78, 3, 1⟩, (0, 2)), (⟨40, 2, 2⟩, (0, 0)), (⟨60, 1, 2⟩, (2, 0))]
    (List.replicate 3 (List.replicate 9 255)) (by decide) (by decide) (by decide) (by decide)
    (by rw [hW]; decide) (by rw [hH]; decide)
    (by rw [hW, hH]; exact (isCanvas_replicate 3 9 255).1)
    (by rw [hP]; exact hperm)).2
  rw [hW, hH, hP] at h
  exact ⟨hperm, h⟩

/-! ## Claims about the sheet of a single frame -/

/-- C29: for a graphic resource with exactly one frame, of width and height at most
8192, that lies inside the resource (its header ending at or before byte 2^32),
and a palette of 256 entries, `extractFramesToSpritesheet` writes the bytes that
`extractFrameToBMP` writes for the frame 0, and both return `true`. -/
theorem single_frame_sheet_is_bitmap (data palette : List Byte)
    (hone : frameCountOf data = 1)
    (hin : framePositionOf data 0 + 0x10 + frameWidthOf data 0 * frameHeightOf data 0
      ≤ data.length)
    (h32 : framePositionOf data 0 + 0x10 ≤ 2 ^ 32)
    (hw : frameWidthOf data 0 ≤ 8192) (hh : frameHeightOf data 0 ≤ 8192)
    (hpal : 768 ≤ palette.length) :
    extractFramesToSpritesheet data palette = extractFrameToBMP data 0 palette ∧
    ∃ bytes, extractFrameToBMP data 0 palette = .ok (some bytes) := by
  have hip : ∀ i, i < frameCountOf data →
      framePositionOf data i + 0x10 ≤ data.length := by
    intro i hi
    have : i = 0 := by omega
    subst this
    omega
  have h32' : ∀ i, i < frameCountOf data → framePositionOf data i + 0x10 ≤ 2 ^ 32 := by
    intro i hi
    have : i = 0 := by omega
    subst this
    exact h32
  have hov : frameWidthOf data 0 * frameHeightOf data 0 ≤ 2 ^ 31 :=
    le_trans (Nat.mul_le_mul hw hh) (by norm_num)
  have hf : (List.range (frameCountOf data)).map (frameOf data) = [frameOf data 0] := by
    rw [hone]; rfl
  have hlay := sheetLayout_single (frameOf data 0) (frameOf_sizes data 0).1
    (frameOf_sizes data 0).2
  have hfw : (frameOf data 0).width = frameWidthOf data 0 := rfl
  have hfh : (frameOf data 0).height = frameHeightOf data 0 := rfl
  obtain ⟨rowsB, hB, hBl, hBspec⟩ := extractFrameToBMP_frame (show 0 < frameCountOf data by omega)
    hin h32 hov hpal
  obtain ⟨rowsS, hS, hSl, hcov, _, hpad⟩ := @sheetEncode_spec data palette [frameOf data 0]
    (by intro f hf'; rw [List.mem_singleton.1 hf']; exact frameOf_sizes data 0) (by simp)
    (by intro f hf'; rw [List.mem_singleton.1 hf']; exact hin) hpal
    (by rw [hlay]; exact hw) (by rw [hlay]; exact hh)
  rw [hlay] at hS hSl hcov hpad
  simp only [hfw, hfh] at hS hSl hcov hpad
  refine ⟨?_, _, hB⟩
  rw [extractFramesToSpritesheet_eq_encode palette (by omega) hip h32', hf, hS, hB]
  have hrows : rowsS = rowsB := by
    apply List.ext_getElem?
    intro m
    by_cases hm : m < frameHeightOf data 0 * paddedRowBytes (frameWidthOf data 0)
    · have hP0 : 0 < paddedRowBytes (frameWidthOf data 0) := by
        rcases Nat.eq_zero_or_pos (paddedRowBytes (frameWidthOf data 0)) with h0 | h0
        · rw [h0] at hm; omega
        · exact h0
      have hk : m / paddedRowBytes (frameWidthOf data 0) < frameHeightOf data 0 :=
        (Nat.div_lt_iff_lt_mul hP0).2 hm
      have hj := Nat.mod_lt m hP0
      have hsplit : m = m / paddedRowBytes (frameWidthOf data 0) *
          paddedRowBytes (frameWidthOf data 0) + m % paddedRowBytes (frameWidthOf data 0) := by
        rw [Nat.mul_comm]; exact (Nat.div_add_mod m _).symm
      generalize m / paddedRowBytes (frameWidthOf data 0) = k at hk hsplit
      generalize m % paddedRowBytes (frameWidthOf data 0) = j at hj hsplit
      subst hsplit
      obtain ⟨hpx, hz⟩ := hBspec k hk
      have hrowS : frameHeightOf data 0 - 1 - (frameHeightOf data 0 - 1 - k) = k := by omega
      by_cases hjw : j < 3 * frameWidthOf data 0
      · have hcv : Covers (frameOf data 0) 0 0 (frameHeightOf data 0 - 1 - k) j := by
          unfold Covers
          rw [hfw, hfh]
          omega
        have hc := hcov (frameOf data 0, (0, 0)) (List.mem_singleton.2 rfl)
          (frameHeightOf data 0 - 1 - k) j hcv
        rw [hrowS] at hc
        rw [hc]
        unfold frameByte
        simp only [Nat.sub_zero, Nat.mul_zero]
        obtain ⟨p0, p1, p2⟩ := hpx (j / 3) (by omega)
        generalize pixelIndexAt data (frameOf data 0) (frameHeightOf data 0 - 1 - k) (j / 3)
          = q at p0 p1 p2 ⊢
        have h3 : j % 3 = 0 ∨ j % 3 = 1 ∨ j % 3 = 2 := by omega
        rcases h3 with h3 | h3 | h3
        · rw [show k * paddedRowBytes (frameWidthOf data 0) + j
              = k * paddedRowBytes (frameWidthOf data 0) + j / 3 * 3 by omega, p0,
            show 3 * q + (2 - j % 3) = q * 3 + 2 by omega]
        · rw [show k * paddedRowBytes (frameWidthOf data 0) + j
              = k * paddedRowBytes (frameWidthOf data 0) + j / 3 * 3 + 1 by omega, p1,
            show 3 * q + (2 - j % 3) = q * 3 + 1 by omega]
        · rw [show k * paddedRowBytes (frameWidthOf data 0) + j
              = k * paddedRowBytes (frameWidthOf data 0) + j / 3 * 3 + 2 by omega, p2,
            show 3 * q + (2 - j % 3) = q * 3 by omega]
      · rw [hz j (by omega) hj]
        have := hpad (frameHeightOf data 0 - 1 - k) j (by omega) (by omega) hj
        rw [hrowS] at this
        exact this
    · rw [List.getElem?_eq_none (by omega), List.getElem?_eq_none (by omega)]
  rw [hrows]

/-- C29, instance: for the resource with one frame of 2 by 2 pixels the sheet is the 70
bytes of the bitmap of the frame 0. -/
theorem single_frame_sheet_is_bitmap_witness :
    frameCountOf d3grOne = 1 ∧
    extractFrameToBMP d3grOne 0 paletteBW = .ok (some d3grOneBitmap) ∧
    extractFramesToSpritesheet d3grOne paletteBW = .ok (some d3grOneBitmap) := by
  have hB : extractFrameToBMP d3grOne 0 paletteBW = .ok (some d3grOneBitmap) := by decide
  refine ⟨by decide, hB, ?_⟩
  rw [(single_frame_sheet_is_bitmap d3grOne paletteBW (by decide) (by decide) (by decide)
    (by decide) (by decide) (by decide)).1, hB]

/-! ## Claims about the audio pattern -/

/-- C31, the defect: in the 28-byte buffer `riffSixteen` the bytes after `WAVE` are zero, so
neither the pattern `RIFF____WAVEfmt` named in the comment of `findWavHeader` nor the
`header_bytes` of the `WAV` entry of `kFileFormats` stands at 0, or anywhere in the
buffer; `findWavHeader` still reports a match at 0, and `extractFiles` writes a
resource from there. -/
theorem findWavHeader_ignores_fmt :
    riffSixteen[12]? = some 0 ∧ riffSixteen[13]? = some 0 ∧ riffSixteen[14]? = some 0 ∧
    (∀ i, ¬ WavFmtAt riffSixteen i) ∧
    (∀ i, ¬ HeaderBytesAt kFileFormatsWavHeaderBytes riffSixteen i) ∧
    findWavHeader riffSixteen riffSixteen.length = .ret 0 ∧
    (extractFiles 2 .WAV riffSixteen).spans = [⟨0, 16⟩] := by
  have hno : ∀ i, riffSixteen[i + 12]? ≠ some 0x66 := by
    intro i
    by_cases hi : i < 16
    · have h : ∀ j, j < 16 → riffSixteen[j + 12]? ≠ some 0x66 := by decide
      exact h i hi
    · rw [List.getElem?_eq_none (by
        have : riffSixteen.length = 28 := by decide
        omega)]
      simp
  refine ⟨by decide, by decide, by decide, fun i h => hno i h.2.1, fun i h => ?_,
    by decide, by decide⟩
  exact hno i (h 12 0x66 (by decide))

/-! ## The width of the rows -/

theorem maxWidths_cons (f : Frame) (rest : List Frame) :
    maxWidths (f :: rest) = max f.width (maxWidths rest) := by
  simp [maxWidths]

/-- One pass of the layout loop, when the sums stay below 2^32: the frame continues
the row at the cursor or starts a row at `x = 0`; its right edge is within the
threshold unless it is put at `x = 0`; the canvas width is raised to its right
edge. -/
theorem placeFrame_width (targetWidth : Nat) (c : Cursor) (f : Frame)
    (hx : c.currentX + f.width < 2 ^ 32) :
    (((placeFrame targetWidth c f).1.1 = c.currentX ∧
        (placeFrame targetWidth c f).1.2 = c.currentY) ∨
      (placeFrame targetWidth c f).1.1 = 0) ∧
    ((placeFrame targetWidth c f).1.1 + f.width ≤ targetWidth ∨
      (placeFrame targetWidth c f).1.1 = 0) ∧
    (placeFrame targetWidth c f).2.spritesheetWidth
      = max c.spritesheetWidth ((placeFrame targetWidth c f).1.1 + f.width) ∧
    (placeFrame targetWidth c f).2.currentX = (placeFrame targetWidth c f).1.1 + f.width ∧
    (placeFrame targetWidth c f).2.currentY = (placeFrame targetWidth c f).1.2 := by
  by_cases hwrap : u32 (c.currentX + f.width) > targetWidth ∧ c.currentX > 0
  · have hr : placeFrame targetWidth c f = ((0, u32 (c.currentY + c.rowHeight)),
        { currentX := u32 (0 + f.width)
          currentY := u32 (c.currentY + c.rowHeight)
          rowHeight := max 0 f.height
          spritesheetWidth := max c.spritesheetWidth (u32 (0 + f.width))
          spritesheetHeight := max c.spritesheetHeight
            (u32 (u32 (c.currentY + c.rowHeight) + max 0 f.height)) }) := by
      unfold placeFrame wrapRow
      rw [if_pos hwrap]
    have e : u32 (0 + f.width) = 0 + f.width := u32_small (by omega)
    rw [hr]
    exact ⟨Or.inr rfl, Or.inr rfl, by rw [e], e, rfl⟩
  · have hr : placeFrame targetWidth c f = ((c.currentX, c.currentY),
        { currentX := u32 (c.currentX + f.width)
          currentY := c.currentY
          rowHeight := max c.rowHeight f.height
          spritesheetWidth := max c.spritesheetWidth (u32 (c.currentX + f.width))
          spritesheetHeight := max c.spritesheetHeight
            (u32 (c.currentY + max c.rowHeight f.height)) }) := by
      unfold placeFrame wrapRow
      rw [if_neg hwrap]
    have e : u32 (c.currentX + f.width) = c.currentX + f.width := u32_small hx
    rw [e] at hwrap
    rw [hr]
    refine ⟨Or.inl ⟨rfl, rfl⟩, ?_, by rw [e], e, rfl⟩
    show c.currentX + f.width ≤ targetWidth ∨ c.currentX = 0
    by_cases h0 : c.currentX = 0
    · exact Or.inr h0
    · exact Or.inl (by
        by_contra hc
        exact hwrap ⟨by omega, by omega⟩)

/-- The layout loop from any state of its variables, for frames whose sizes keep the
sums below 2^32: every frame ends within the threshold or is put at `x = 0`, the
canvas is no wider than the threshold or the widest frame, and each frame
continues the row of the frame before it or starts a row, which it does when
the frame before it ends beyond the threshold. -/
theorem layoutLoop_width (targetWidth : Nat) :
    ∀ (frames : List Frame) (c : Cursor),
      (∀ f ∈ frames, f.width ≤ 65535 ∧ f.height ≤ 65535) →
      c.currentX + 65535 * frames.length < 2 ^ 32 →
      c.currentY + c.rowHeight + 65535 * frames.length < 2 ^ 32 →
      (∀ q ∈ placedFrames frames (layoutLoop targetWidth c frames).1,
        q.x + q.w ≤ targetWidth ∨ q.x = 0) ∧
      (layoutLoop targetWidth c frames).2.spritesheetWidth
        ≤ max c.spritesheetWidth (max targetWidth (maxWidths frames)) ∧
      List.Chain' (fun a b => Placed.Follows a b ∧ (targetWidth < a.x + a.w → b.x = 0))
        (placedFrames frames (layoutLoop targetWidth c frames).1) ∧
      (∀ q, (placedFrames frames (layoutLoop targetWidth c frames).1).head? = some q →
        (q.x = c.currentX ∧ q.y = c.currentY) ∨ q.x = 0) := by
  intro frames
  induction frames with
  | nil =>
    intro c _ _ _
    simp [layoutLoop, placedFrames]
  | cons f rest ih =>
    intro c hsz hx hy
    have hf := hsz f (List.mem_cons_self _ _)
    simp only [List.length_cons] at hx hy
    obtain ⟨_, _, _, _, _, hcy, _⟩ := placeFrame_spec targetWidth c f (by omega) (by omega)
    obtain ⟨hhead, hedge, hsw, hcx, hcy'⟩ :=
      placeFrame_width targetWidth c f (by omega)
    obtain ⟨hall, hw, hchain, hfirst⟩ := ih (placeFrame targetWidth c f).2
      (fun g hg => hsz g (List.mem_cons_of_mem _ hg)) (by rw [hcx]; rcases hhead with h | h <;> omega)
      (by omega)
    have hdef : layoutLoop targetWidth c (f :: rest) =
        ((placeFrame targetWidth c f).1 ::
          (layoutLoop targetWidth (placeFrame targetWidth c f).2 rest).1,
          (layoutLoop targetWidth (placeFrame targetWidth c f).2 rest).2) := rfl
    rw [hdef]
    simp only [placedFrames, List.zipWith_cons_cons, List.mem_cons, List.head?_cons,
      Option.some.injEq]
    refine ⟨?_, ?_, ?_, ?_⟩
    · intro q hq
      rcases hq with rfl | hq
      · exact hedge
      · exact hall q hq
    · rw [maxWidths_cons]
      rw [hsw] at hw
      have h1 : (placeFrame targetWidth c f).1.1 + f.width ≤ max targetWidth f.width := by
        rcases hedge with h | h
        · exact le_trans h (le_max_left _ _)
        · rw [h, Nat.zero_add]; exact le_max_right _ _
      omega
    · rw [List.chain'_cons']
      refine ⟨fun q hq => ?_, hchain⟩
      have hmem := hall q (List.mem_of_mem_head? hq)
      rcases hfirst q hq with ⟨h1, h2⟩ | h
      · refine ⟨Or.inl ⟨by rw [h1, hcx], by rw [h2, hcy']⟩, fun hbig => ?_⟩
        simp only at hbig
        omega
      · exact ⟨Or.inr h, fun _ => h⟩
    · intro q hq
      rw [← hq]
      exact hhead

/-- The wrap threshold and the layout of a single frame of 9 by 1 pixels: the threshold
is `floor (sqrt 9) = 3` and the frame, put at `(0, 0)`, ends beyond it. -/
theorem targetWidthOf_nineWide : targetWidthOf [⟨32, 9, 1⟩] = 3 := by
  unfold targetWidthOf
  have h : u32 (totalWidthOf [⟨32, 9, 1⟩] * maxHeightOf [⟨32, 9, 1⟩]) = 9 := by decide
  rw [h]
  exact (Nat.eq_sqrt.2 ⟨by norm_num, by norm_num⟩).symm

/-! ## Claims about the width of the canvas -/

/-- C32: for a list of frames (at most 65535 of them, with 16-bit sizes) the canvas width
computed by the layout loop of `extractFramesToSpritesheet` is at most the greater of
the wrap threshold and the greatest frame width. A frame whose right edge lies
beyond the threshold is put at `x = 0` and is alone wider than the threshold;
each frame continues the row of the frame before it at that frame's right
edge or is put at `x = 0`, and the frame that follows one ending beyond the
threshold is put at `x = 0`: a row that exceeds the threshold holds, from `x = 0`,
frames of width 0 and then one frame wider than the threshold. -/
theorem layout_width_bound (frames : List Frame)
    (hsz : ∀ f ∈ frames, f.width ≤ 65535 ∧ f.height ≤ 65535) (hlen : frames.length ≤ 65535) :
    (sheetLayout frames).2.spritesheetWidth ≤ max (targetWidthOf frames) (maxWidths frames) ∧
    (∀ q ∈ placedFrames frames (sheetLayout frames).1,
      targetWidthOf frames < q.x + q.w → q.x = 0 ∧ targetWidthOf frames < q.w) ∧
    List.Chain' (fun a b => Placed.Follows a b ∧ (targetWidthOf frames < a.x + a.w → b.x = 0))
      (placedFrames frames (sheetLayout frames).1) := by
  have hmul : 65535 * frames.length ≤ 65535 * 65535 := Nat.mul_le_mul_left _ hlen
  obtain ⟨hall, hw, hchain, _⟩ := layoutLoop_width (targetWidthOf frames) frames
    ⟨0, 0, 0, 0, 0⟩ hsz (by simp only; omega) (by simp only; omega)
  simp only [Nat.zero_max] at hw
  refine ⟨hw, fun q hq hbig => ?_, hchain⟩
  have := hall q hq
  omega

/-- C32, instance: the three frames 2 by 2, 1 by 2 and 3 by 1 have the threshold 3 and a
canvas 3 wide; the single frame of 9 by 1 pixels has the threshold 3 and a canvas
9 wide, the width of the frame. -/
theorem layout_width_bound_witness :
    ((sheetLayout threeFrames).2.spritesheetWidth = 3 ∧
      (sheetLayout threeFrames).2.spritesheetWidth
        ≤ max (targetWidthOf threeFrames) (maxWidths threeFrames)) ∧
    ((sheetLayout [⟨32, 9, 1⟩]).2.spritesheetWidth = 9 ∧ targetWidthOf [⟨32, 9, 1⟩] = 3 ∧
      maxWidths [⟨32, 9, 1⟩] = 9 ∧
      (sheetLayout [⟨32, 9, 1⟩]).2.spritesheetWidth
        ≤ max (targetWidthOf [⟨32, 9, 1⟩]) (maxWidths [⟨32, 9, 1⟩])) := by
  have h9 : (sheetLayout [⟨32, 9, 1⟩]).2.spritesheetWidth = 9 := by
    rw [sheetLayout_single ⟨32, 9, 1⟩ (by decide) (by decide)]
  exact ⟨⟨sheetLayout_threeFrames.2.1,
      (layout_width_bound threeFrames (by decide) (by decide)).1⟩,
    ⟨h9, targetWidthOf_nineWide, by decide,
      (layout_width_bound [⟨32, 9, 1⟩] (by decide) (by decide)).1⟩⟩

/-! ## Claims about the background of the sheet -/

/-- The wrap threshold and the layout of the two frames of `d3grHole`: the threshold is
`floor (sqrt (3 * 2)) = 2`, the second frame wraps, and the canvas is 2 wide and 3
high. -/
theorem sheetLayout_holeFrames :
    (sheetLayout holeFrames).1 = [(0, 0), (0, 2)] ∧
    (sheetLayout holeFrames).2.spritesheetWidth = 2 ∧
    (sheetLayout holeFrames).2.spritesheetHeight = 3 := by
  have ht : targetWidthOf holeFrames = 2 := by
    unfold targetWidthOf
    have h : u32 (totalWidthOf holeFrames * maxHeightOf holeFrames) = 6 := by decide
    rw [h]
    exact (Nat.eq_sqrt.2 ⟨by norm_num, by norm_num⟩).symm
  unfold sheetLayout
  rw [ht]
  decide

/-- C33: for a resource whose frames lie inside it (headers ending at or before byte
2^32), whose canvas passes the size check, and a palette of 256 entries, in the
bitmap that `extractFramesToSpritesheet` writes every canvas pixel `(px, py)` that
lies in the placed rectangle of no frame has the three bytes 255, 255, 255, and
in every row the padding bytes from `3 * canvasWidth` on are 0. -/
theorem sheet_background (data palette : List Byte) (hn : 1 ≤ frameCountOf data)
    (hin : ∀ i, i < frameCountOf data →
      framePositionOf data i + 0x10 + frameWidthOf data i * frameHeightOf data i
        ≤ data.length)
    (h32 : ∀ i, i < frameCountOf data → framePositionOf data i + 0x10 ≤ 2 ^ 32)
    (hW : (sheetLayout ((List.range (frameCountOf data)).map (frameOf data))).2.spritesheetWidth
      ≤ 8192)
    (hH : (sheetLayout ((List.range (frameCountOf data)).map (frameOf data))).2.spritesheetHeight
      ≤ 8192)
    (hpal : 768 ≤ palette.length) :
    ∃ header rows, header.length = 54 ∧
      extractFramesToSpritesheet data palette = .ok (some (header ++ rows)) ∧
      rows.length
        = (sheetLayout ((List.range (frameCountOf data)).map
            (frameOf data))).2.spritesheetHeight *
          paddedRowBytes (sheetLayout ((List.range (frameCountOf data)).map
            (frameOf data))).2.spritesheetWidth ∧
      (∀ px py,
        px < (sheetLayout ((List.range (frameCountOf data)).map
          (frameOf data))).2.spritesheetWidth →
        py < (sheetLayout ((List.range (frameCountOf data)).map
          (frameOf data))).2.spritesheetHeight →
        (∀ i frameX frameY, i < frameCountOf data →
          (sheetLayout ((List.range (frameCountOf data)).map (frameOf data))).1[i]?
            = some (frameX, frameY) →
          ¬ (frameX ≤ px ∧ px < frameX + frameWidthOf data i ∧
            frameY ≤ py ∧ py < frameY + frameHeightOf data i)) →
        ∀ c, c < 3 →
          rows[((sheetLayout ((List.range (frameCountOf data)).map
              (frameOf data))).2.spritesheetHeight - 1 - py) *
            paddedRowBytes (sheetLayout ((List.range (frameCountOf data)).map
              (frameOf data))).2.spritesheetWidth + 3 * px + c]? = some 255) ∧
      (∀ py j,
        py < (sheetLayout ((List.range (frameCountOf data)).map
          (frameOf data))).2.spritesheetHeight →
        3 * (sheetLayout ((List.range (frameCountOf data)).map
          (frameOf data))).2.spritesheetWidth ≤ j →
        j < paddedRowBytes (sheetLayout ((List.range (frameCountOf data)).map
          (frameOf data))).2.spritesheetWidth →
        rows[((sheetLayout ((List.range (frameCountOf data)).map
            (frameOf data))).2.spritesheetHeight - 1 - py) *
          paddedRowBytes (sheetLayout ((List.range (frameCountOf data)).map
            (frameOf data))).2.spritesheetWidth + j]? = some 0) := by
  obtain ⟨hsz, hlen⟩ := frames_of_resource data
  obtain ⟨rows, hrun, hrl, _, hfree, hpad⟩ := @sheetEncode_spec data palette _ hsz hlen
    (fun f hf => by
      obtain ⟨j, hj, rfl⟩ := List.mem_map.1 hf
      exact hin j (List.mem_range.1 hj)) hpal hW hH
  rw [← extractFramesToSpritesheet_eq_encode palette hn
    (fun k hk => by have := hin k hk; omega) h32] at hrun
  refine ⟨_, rows, ?_, hrun, hrl, ?_, hpad⟩
  · exact (bmpHeaders_fields rows (u32_lt _) (by omega) (by omega)).1
  · intro px py hpx hpy hnone c hc
    rw [Nat.add_assoc]
    apply hfree py (3 * px + c) hpy (by omega)
    intro e he hcov
    obtain ⟨i, hi⟩ := List.mem_iff_getElem?.1 he
    rw [List.getElem?_zip_eq_some] at hi
    obtain ⟨hf, hp⟩ := hi
    have hlt : i < frameCountOf data := by
      by_contra hc'
      rw [List.getElem?_eq_none (by rw [List.length_map, List.length_range]; omega)] at hf
      simp at hf
    rw [List.getElem?_map, List.getElem?_range hlt] at hf
    simp only [Option.map_some', Option.some.injEq] at hf
    unfold Covers at hcov
    rw [← hf] at hcov
    have hfw : (frameOf data i).width = frameWidthOf data i := rfl
    have hfh : (frameOf data i).height = frameHeightOf data i := rfl
    rw [hfw, hfh] at hcov
    exact hnone i e.2.1 e.2.2 hlt hp ⟨by omega, by omega, hcov.1, hcov.2.1⟩

/-- C33, instance: in the sheet of `d3grHole` the frames 2 by 2 and 1 by 1 are put at `(0, 0)`
and `(0, 2)` on a canvas 2 wide and 3 high with rows of 8 bytes; the canvas pixel
`(1, 2)` is covered by no frame, and its bytes, the bytes 3 to 5 of the first row
written, are 255. -/
theorem sheet_background_witness :
    1 ≤ frameCountOf d3grHole ∧ 768 ≤ paletteBW.length ∧
    ∃ header rows, header.length = 54 ∧
      extractFramesToSpritesheet d3grHole paletteBW = .ok (some (header ++ rows)) ∧
      rows.length = 3 * 8 ∧
      rows[3]? = some 255 ∧ rows[4]? = some 255 ∧ rows[5]? = some 255 ∧
      rows[6]? = some 0 ∧ rows[7]? = some 0 := by
  have hf : (List.range (frameCountOf d3grHole)).map (frameOf d3grHole) = holeFrames := by
    decide
  obtain ⟨hP, hW, hH⟩ := sheetLayout_holeFrames
  obtain ⟨header, rows, h1, h2, h3, h4, h5⟩ := sheet_background d3grHole paletteBW (by decide)
    (by decide) (by decide) (by rw [hf, hW]; decide) (by rw [hf, hH]; decide) (by decide)
  rw [hf, hW, hH] at h3 h4 h5
  rw [hP] at h4
  have hfree : ∀ (i frameX frameY : Nat), i < frameCountOf d3grHole →
      [(0, 0), (0, 2)][i]? = some (frameX, frameY) →
      ¬ (frameX ≤ 1 ∧ 1 < frameX + frameWidthOf d3grHole i ∧
        frameY ≤ 2 ∧ 2 < frameY + frameHeightOf d3grHole i) := by
    intro i frameX frameY hi hp
    have h2 : frameCountOf d3grHole = 2 := by decide
    have hi' : i = 0 ∨ i = 1 := by omega
    rcases hi' with rfl | rfl
    · simp only [List.getElem?_cons_zero, Option.some.injEq, Prod.mk.injEq] at hp
      obtain ⟨rfl, rfl⟩ := hp
      decide
    · simp only [List.getElem?_cons_succ, List.getElem?_cons_zero, Option.some.injEq,
        Prod.mk.injEq] at hp
      obtain ⟨rfl, rfl⟩ := hp
      decide
  have hpx := h4 1 2 (by decide) (by decide) hfree
  exact ⟨by decide, by decide, header, rows, h1, h2, h3, hpx 0 (by decide), hpx 1 (by decide),
    hpx 2 (by decide), h5 2 6 (by decide) (by decide) (by decide),
    h5 2 7 (by decide) (by decide) (by decide)⟩

/-! ## Claims about frames outside the resource -/

/-- The encoding part of `extractFrameToBMP` never returns `false`. -/
theorem bmpEncode_ne_false (data palette : List Byte) (f : Frame) :
    bmpEncode data palette f ≠ .ok none := by
  unfold bmpEncode
  simp only
  cases bmpRows data palette f f.height
      (List.replicate ((f.width * 3 + 3) &&& 0xFFFFFFFC) 0) with
  | ok rows => simp [Dec.bind]
  | badResourceRead i => simp [Dec.bind]
  | badPaletteRead i => simp [Dec.bind]

/-- The layout of the two frames of `d3grStray`, in table order: the threshold is
`floor (sqrt (3 * 2)) = 2`, the second frame wraps, and the canvas is 2 wide and 3
high. -/
theorem sheetLayout_strayFrames :
    (sheetLayout [⟨56, 2, 2⟩, ⟨36, 1, 1⟩]).2.spritesheetWidth = 2 ∧
    (sheetLayout [⟨56, 2, 2⟩, ⟨36, 1, 1⟩]).2.spritesheetHeight = 3 := by
  have ht : targetWidthOf [⟨56, 2, 2⟩, ⟨36, 1, 1⟩] = 2 := by
    unfold targetWidthOf
    have h : u32 (totalWidthOf [⟨56, 2, 2⟩, ⟨36, 1, 1⟩] * maxHeightOf [⟨56, 2, 2⟩, ⟨36, 1, 1⟩])
        = 6 := by decide
    rw [h]
    exact (Nat.eq_sqrt.2 ⟨by norm_num, by norm_num⟩).symm
  unfold sheetLayout
  rw [ht]
  decide

/-- C14, refuted as stated: the 76-byte file `d3grStray` starts with a graphic resource
that the size rule and the loop of `extractFiles` give the bytes 0 to 52. The
table of the resource puts the header of its frame 0 at bytes 56 to 71, outside
the resource and inside the file. Frame decoding does not fail: `extractFrameToBMP`
reads width 2 and height 2 at that position and writes the bitmap of the four
bytes that follow, and `extractFramesToSpritesheet` writes a sheet. -/
theorem frame_outside_resource_is_decoded :
    getGraphicsResourceSize d3grStray = .ret 53 ∧
    carveStep .D3GR d3grStray 0 = .emit ⟨0, 53⟩ 53 ∧
    frameCountOf d3grStray = 2 ∧ frameOf d3grStray 0 = ⟨56, 2, 2⟩ ∧
    53 < framePositionOf d3grStray 0 + 0x10 ∧
    extractFrameToBMP (d3grStray.drop 0) 0 paletteBW = .ok (some d3grOneBitmap) ∧
    (∃ bytes, extractFramesToSpritesheet (d3grStray.drop 0) paletteBW = .ok (some bytes)) ∧
    (extractFilesDecoding 2 .D3GR d3grStray paletteBW true false).spans = [⟨0, 53⟩] ∧
    (extractFilesDecoding 2 .D3GR d3grStray paletteBW true false).ending = .finished ∧
    (extractFilesDecoding 2 .D3GR d3grStray paletteBW true false).decoded.map
      (fun d => d.frames.head?) = [some (some d3grOneBitmap)] := by
  refine ⟨by decide, by decide, by decide, by decide, by decide, by decide, ?_, by decide,
    by decide, by decide⟩
  have hf : (List.range (frameCountOf d3grStray)).map (frameOf d3grStray)
      = [⟨56, 2, 2⟩, ⟨36, 1, 1⟩] := by decide
  obtain ⟨hW, hH⟩ := sheetLayout_strayFrames
  rw [List.drop_zero,
    extractFramesToSpritesheet_eq_encode paletteBW (by decide) (by decide) (by decide), hf]
  obtain ⟨rows, h, _⟩ := @sheetEncode_spec d3grStray paletteBW [⟨56, 2, 2⟩, ⟨36, 1, 1⟩]
    (by decide) (by decide) (by decide) (by decide) (by rw [hW]; decide) (by rw [hH]; decide)
  exact ⟨_, h⟩

/-- C14, amended: the decoders receive the start of the resource and no length, and
compare no frame position with the extent of the resource. Let the loop of
`extractFiles` write the graphic resource `s`, and let the 16-byte header of a frame
`i` below the frame count not lie inside the resource (its position being at most
2^32 - 16). Then `extractFrameToBMP` for that frame does not return `false`. If
the header lies inside the file, the width and height are read there and the
frame is encoded from there, giving a bitmap when the pixel bytes lie inside the
file too, are at most 2^31 and the palette has 256 entries. If the header does
not lie inside the file, `extractFrameToBMP` for that frame and
`extractFramesToSpritesheet` read a byte past the end of the file. When all the
headers lie inside the file, `extractFramesToSpritesheet` goes on to the layout
with the frames read from the table. -/
theorem frame_position_not_checked (fileBuffer palette : List Byte) (position next i : Nat)
    (s : Span) (hlen : fileBuffer.length < 2 ^ 63)
    (hstep : carveStep .D3GR fileBuffer position = .emit s next)
    (hi : i < frameCountOf (fileBuffer.drop s.offset))
    (h32 : framePositionOf (fileBuffer.drop s.offset) i + 0x10 ≤ 2 ^ 32) :
    s.length < framePositionOf (fileBuffer.drop s.offset) i + 0x10 →
    extractFrameToBMP (fileBuffer.drop s.offset) i palette ≠ .ok none ∧
    (s.offset + framePositionOf (fileBuffer.drop s.offset) i + 0x10 ≤ fileBuffer.length →
      bmpFrameHeader (fileBuffer.drop s.offset) (frameCountOf (fileBuffer.drop s.offset)) i
        = .ret (frameOf (fileBuffer.drop s.offset) i) ∧
      extractFrameToBMP (fileBuffer.drop s.offset) i palette
        = bmpEncode (fileBuffer.drop s.offset) palette (frameOf (fileBuffer.drop s.offset) i) ∧
      (s.offset + framePositionOf (fileBuffer.drop s.offset) i + 0x10 +
          frameWidthOf (fileBuffer.drop s.offset) i * frameHeightOf (fileBuffer.drop s.offset) i
          ≤ fileBuffer.length →
        frameWidthOf (fileBuffer.drop s.offset) i * frameHeightOf (fileBuffer.drop s.offset) i
          ≤ 2 ^ 31 →
        768 ≤ palette.length →
        ∃ rows, extractFrameToBMP (fileBuffer.drop s.offset) i palette =
          .ok (some (bmpHeaders (u32 (14 + 40 +
            paddedRowBytes (frameWidthOf (fileBuffer.drop s.offset) i) *
              frameHeightOf (fileBuffer.drop s.offset) i))
            (frameWidthOf (fileBuffer.drop s.offset) i)
            (frameHeightOf (fileBuffer.drop s.offset) i) ++ rows)))) ∧
    (fileBuffer.length < s.offset + framePositionOf (fileBuffer.drop s.offset) i + 0x10 →
      (∃ k : Nat, fileBuffer.length ≤ s.offset + k ∧
        extractFrameToBMP (fileBuffer.drop s.offset) i palette = .badResourceRead k) ∧
      (∃ k : Nat, fileBuffer.length ≤ s.offset + k ∧
        extractFramesToSpritesheet (fileBuffer.drop s.offset) palette = .badResourceRead k)) ∧
    ((∀ j, j < frameCountOf (fileBuffer.drop s.offset) →
        s.offset + framePositionOf (fileBuffer.drop s.offset) j + 0x10 ≤ fileBuffer.length ∧
        framePositionOf (fileBuffer.drop s.offset) j + 0x10 ≤ 2 ^ 32) →
      extractFramesToSpritesheet (fileBuffer.drop s.offset) palette
        = sheetEncode (fileBuffer.drop s.offset) palette
          ((List.range (frameCountOf (fileBuffer.drop s.offset))).map
            (frameOf (fileBuffer.drop s.offset)))) := by
  intro _
  obtain ⟨headerPos, d, _, _, _, _, hstart, hmin, _, _, _⟩ := carveStep_emit hlen hstep
  have hdl : (fileBuffer.drop s.offset).length = fileBuffer.length - s.offset :=
    List.length_drop _ _
  have hout : fileBuffer.length < s.offset + framePositionOf (fileBuffer.drop s.offset) i + 0x10 →
      (∃ k : Nat, fileBuffer.length ≤ s.offset + k ∧
        extractFrameToBMP (fileBuffer.drop s.offset) i palette = .badResourceRead k) ∧
      (∃ k : Nat, fileBuffer.length ≤ s.offset + k ∧
        extractFramesToSpritesheet (fileBuffer.drop s.offset) palette = .badResourceRead k) := by
    intro hlt
    have hlt2 : (fileBuffer.drop s.offset).length
        < framePositionOf (fileBuffer.drop s.offset) i + 0x10 := by omega
    obtain ⟨⟨k1, hk1, h1⟩, ⟨k2, hk2, h2⟩⟩ :=
      decoders_read_past_data (fileBuffer.drop s.offset) palette i hi hlt2 h32
    exact ⟨⟨k1, by omega, h1⟩, ⟨k2, by omega, h2⟩⟩
  refine ⟨?_, ?_, hout, ?_⟩
  · by_cases hin : s.offset + framePositionOf (fileBuffer.drop s.offset) i + 0x10
        ≤ fileBuffer.length
    · rw [extractFrameToBMP_eq_encode palette hi (by omega) h32]
      exact bmpEncode_ne_false _ _ _
    · obtain ⟨⟨k, _, h⟩, _⟩ := hout (by omega)
      rw [h]
      simp
  · intro hin
    refine ⟨bmpFrameHeader_eq hi (by omega) h32,
      extractFrameToBMP_eq_encode palette hi (by omega) h32, ?_⟩
    intro hpix hov hpal
    obtain ⟨rows, h, _⟩ := @extractFrameToBMP_frame (fileBuffer.drop s.offset) palette i hi
      (by omega) h32 hov hpal
    exact ⟨rows, h⟩
  · intro hall
    have hn : 1 ≤ frameCountOf (fileBuffer.drop s.offset) := by omega
    exact extractFramesToSpritesheet_eq_encode palette hn
      (fun j hj => by have := (hall j hj).1; omega) (fun j hj => (hall j hj).2)

/-- C14 amended, instance: frame 0 of the resource `(0, 53)` of `d3grStray`, whose header
is at bytes 56 to 71 of the 76-byte file, is written as a bitmap of 2 by 2
pixels. -/
theorem frame_position_not_checked_witness :
    d3grStray.length < 2 ^ 63 ∧ carveStep .D3GR d3grStray 0 = .emit ⟨0, 53⟩ 53 ∧
    0 < frameCountOf (d3grStray.drop 0) ∧
    (⟨0, 53⟩ : Span).length < framePositionOf (d3grStray.drop 0) 0 + 0x10 ∧
    0 + framePositionOf (d3grStray.drop 0) 0 + 0x10 ≤ d3grStray.length ∧
    extractFrameToBMP (d3grStray.drop 0) 0 paletteBW ≠ .ok none ∧
    extractFrameToBMP (d3grStray.drop 0) 0 paletteBW
      = bmpEncode (d3grStray.drop 0) paletteBW (frameOf (d3grStray.drop 0) 0) :=
  ⟨by decide, by decide, by decide, by decide, by decide,
    (frame_position_not_checked d3grStray paletteBW 0 53 0 ⟨0, 53⟩ (by decide) (by decide)
      (by decide) (by decide) (by decide)).1,
    ((frame_position_not_checked d3grStray paletteBW 0 53 0 ⟨0, 53⟩ (by decide) (by decide)
      (by decide) (by decide) (by decide)).2.1 (by decide)).2.1⟩

/-! ## The whole loop body -/

/-- A pass of the whole body is the pass of the carving part followed, for a graphic
resource, by its decoding. -/
theorem loopPass_cases (format : FileFormat) (fileBuffer palette : List Byte)
    (extractIndividualFrames extractSpritesheet : Bool) (position : Nat) :
    (carveStep format fileBuffer position = .stop ∧
      loopPass format fileBuffer palette extractIndividualFrames extractSpritesheet position
        = .stop) ∨
    (∃ i, carveStep format fileBuffer position = .fault i ∧
      loopPass format fileBuffer palette extractIndividualFrames extractSpritesheet position
        = .fault i) ∨
    (∃ s next, carveStep format fileBuffer position = .emit s next ∧
      ((format = .WAV ∧
        loopPass format fileBuffer palette extractIndividualFrames extractSpritesheet position
          = .complete s ⟨[], none⟩ next) ∨
      (format = .D3GR ∧
        ((∃ d, decodeResource (fileBuffer.drop s.offset) palette extractIndividualFrames
            extractSpritesheet = .ok d ∧
          loopPass format fileBuffer palette extractIndividualFrames extractSpritesheet
            position = .complete s d next) ∨
        (∃ i, decodeResource (fileBuffer.drop s.offset) palette extractIndividualFrames
            extractSpritesheet = .badResourceRead i ∧
          loopPass format fileBuffer palette extractIndividualFrames extractSpritesheet
            position = .resourceFault s (s.offset + i)) ∨
        (∃ i, decodeResource (fileBuffer.drop s.offset) palette extractIndividualFrames
            extractSpritesheet = .badPaletteRead i ∧
          loopPass format fileBuffer palette extractIndividualFrames extractSpritesheet
            position = .paletteFault s i))))) := by
  cases hstep : carveStep format fileBuffer position with
  | stop => exact Or.inl ⟨rfl, by rw [loopPass, hstep]⟩
  | fault i => exact Or.inr (Or.inl ⟨i, rfl, by rw [loopPass, hstep]⟩)
  | emit s next =>
    refine Or.inr (Or.inr ⟨s, next, rfl, ?_⟩)
    cases format with
    | WAV => exact Or.inl ⟨rfl, by rw [loopPass, hstep]⟩
    | D3GR =>
      refine Or.inr ⟨rfl, ?_⟩
      cases hd : decodeResource (fileBuffer.drop s.offset) palette extractIndividualFrames
          extractSpritesheet with
      | ok d => exact Or.inl ⟨d, rfl, by rw [loopPass, hstep]; simp only; rw [hd]⟩
      | badResourceRead i =>
        exact Or.inr (Or.inl ⟨i, rfl, by rw [loopPass, hstep]; simp only; rw [hd]⟩)
      | badPaletteRead i =>
        exact Or.inr (Or.inr ⟨i, rfl, by rw [loopPass, hstep]; simp only; rw [hd]⟩)

/-- The loop condition of the whole loop fails at the end of the buffer. -/
theorem loopPass_at_end (format : FileFormat) (fileBuffer palette : List Byte)
    (extractIndividualFrames extractSpritesheet : Bool) :
    loopPass format fileBuffer palette extractIndividualFrames extractSpritesheet
      fileBuffer.length = .stop := by
  unfold loopPass
  rw [carveStep_at_end]

/-- In a run of the whole loop, a resource whose declared size runs past the end of
the buffer is the last one written; when its pass is completed, the loop ends
after it if it has a pass left. -/
theorem passLoop_clamped_last {format : FileFormat} {fileBuffer : List Byte}
    (palette : List Byte) (extractIndividualFrames extractSpritesheet : Bool)
    (hlen : fileBuffer.length < 2 ^ 63) :
    ∀ (fuel position : Nat) (pre post : List Span) (s : Span) (declared : Nat),
      (passLoop format fileBuffer palette extractIndividualFrames extractSpritesheet fuel
        position).spans = pre ++ s :: post →
      getSize format (fileBuffer.drop s.offset) = .ret declared →
      fileBuffer.length < s.offset + declared →
      post = [] ∧
      ((format = .WAV ∨ ∃ d, decodeResource (fileBuffer.drop s.offset) palette
          extractIndividualFrames extractSpritesheet = .ok d) →
        pre.length + 1 < fuel →
        (passLoop format fileBuffer palette extractIndividualFrames extractSpritesheet fuel
          position).ending = .finished) := by
  intro fuel
  induction fuel with
  | zero => intro position pre post s declared h; simp [passLoop] at h
  | succ fuel ih =>
    intro position pre post s declared h hsize hover
    rw [passLoop] at h ⊢
    rcases loopPass_cases format fileBuffer palette extractIndividualFrames extractSpritesheet
      position with ⟨_, hp⟩ | ⟨i, _, hp⟩ | ⟨t, next, hstep, hrest⟩
    · rw [hp] at h; simp at h
    · rw [hp] at h; simp at h
    · have hcomplete : ∀ d, loopPass format fileBuffer palette extractIndividualFrames
          extractSpritesheet position = .complete t d next →
          post = [] ∧
          ((format = .WAV ∨ ∃ d, decodeResource (fileBuffer.drop s.offset) palette
              extractIndividualFrames extractSpritesheet = .ok d) →
            pre.length + 1 < fuel + 1 →
            (match loopPass format fileBuffer palette extractIndividualFrames
                extractSpritesheet position with
              | .stop => (⟨[], [], .finished⟩ : Extraction)
              | .fault i => ⟨[], [], .fault i⟩
              | .resourceFault s i => ⟨[s], [], .resourceFault i⟩
              | .paletteFault s i => ⟨[s], [], .paletteFault i⟩
              | .complete s decoded next =>
                ⟨s :: (passLoop format fileBuffer palette extractIndividualFrames
                    extractSpritesheet fuel next).spans,
                  decoded :: (passLoop format fileBuffer palette extractIndividualFrames
                    extractSpritesheet fuel next).decoded,
                  (passLoop format fileBuffer palette extractIndividualFrames
                    extractSpritesheet fuel next).ending⟩).ending = .finished) := by
        intro d hp
        rw [hp] at h ⊢
        simp only at h ⊢
        cases pre with
        | nil =>
          simp only [List.nil_append, List.cons.injEq] at h
          obtain ⟨rfl, hpost⟩ := h
          obtain ⟨headerPos, d', _, _, _, _, _, hmin, hd, hl, hnext⟩ := carveStep_emit hlen hstep
          rw [hsize] at hd
          simp only [Run.ret.injEq] at hd
          subst hd
          rw [if_pos hover] at hl
          have hn : next = fileBuffer.length := by omega
          subst hn
          cases fuel with
          | zero =>
            simp only [passLoop] at hpost
            exact ⟨hpost.symm, fun _ hf => by simp at hf⟩
          | succ fuel =>
            rw [passLoop, loopPass_at_end] at hpost ⊢
            exact ⟨hpost.symm, fun _ _ => rfl⟩
        | cons p pre =>
          simp only [List.cons_append, List.cons.injEq] at h
          obtain ⟨_, hrest'⟩ := h
          obtain ⟨h1, h2⟩ := ih next pre post s declared hrest' hsize hover
          exact ⟨h1, fun hok hf => h2 hok (by simp only [List.length_cons] at hf; omega)⟩
      have hfault : (format = .D3GR ∧ ∃ r : Dec Decoded,
          decodeResource (fileBuffer.drop t.offset) palette extractIndividualFrames
            extractSpritesheet = r ∧ ∀ d, r ≠ .ok d) →
          (([t] : List Span) = pre ++ s :: post) →
          post = [] ∧
          ((format = .WAV ∨ ∃ d, decodeResource (fileBuffer.drop s.offset) palette
              extractIndividualFrames extractSpritesheet = .ok d) → False) := by
        intro hbad hsp
        cases pre with
        | nil =>
          simp only [List.nil_append, List.cons.injEq] at hsp
          obtain ⟨rfl, hpost⟩ := hsp
          refine ⟨hpost.symm, fun hok => ?_⟩
          obtain ⟨hfmt, r, hr, hne⟩ := hbad
          rcases hok with hw | ⟨d, hd⟩
          · rw [hfmt] at hw; simp at hw
          · rw [hd] at hr
            exact hne d hr.symm
        | cons p pre =>
          simp only [List.cons_append, List.cons.injEq] at hsp
          obtain ⟨_, hnil⟩ := hsp
          cases pre <;> simp at hnil
      rcases hrest with ⟨_, hp⟩ | ⟨hfmt, ⟨d, _, hp⟩ | ⟨i, hd, hp⟩ | ⟨i, hd, hp⟩⟩
      · exact hcomplete _ hp
      · exact hcomplete _ hp
      · rw [hp] at h ⊢
        simp only at h ⊢
        obtain ⟨h1, h2⟩ := hfault ⟨hfmt, _, hd, fun d hd' => by simp at hd'⟩ h
        exact ⟨h1, fun hok _ => (h2 hok).elim⟩
      · rw [hp] at h ⊢
        simp only at h ⊢
        obtain ⟨h1, h2⟩ := hfault ⟨hfmt, _, hd, fun d hd' => by simp at hd'⟩ h
        exact ⟨h1, fun hok _ => (h2 hok).elim⟩

/-! ## Claims about order and about the clamped resource -/

/-- C6, the defect: on the 16-byte audio resource whose size field is `0xFFFFFFF8`
the declared size wraps to 0 and the loop stays at position 0, so the resources
written are `(0, 0)`, `(0, 0)`, ...: with two passes or more the offsets are not
in increasing order, the same offset being written again. -/
theorem carve_offsets_repeat_on_wrapped_size (fuel : Nat) :
    (extractFiles (fuel + 2) .WAV riffWrapped).spans = List.replicate (fuel + 2) ⟨0, 0⟩ ∧
    ¬ List.Pairwise (fun s t => s.offset < t.offset)
      (extractFiles (fuel + 2) .WAV riffWrapped).spans ∧
    (extractFilesDecoding (fuel + 2) .WAV riffWrapped [] true false).spans
      = List.replicate (fuel + 2) ⟨0, 0⟩ := by
  have hstep : carveStep .WAV riffWrapped 0 = .emit ⟨0, 0⟩ 0 := by decide
  have hloop : ∀ n, (carveLoop .WAV riffWrapped n 0).spans = List.replicate n ⟨0, 0⟩ := by
    intro n
    induction n with
    | zero => rfl
    | succ n ih =>
      unfold carveLoop
      rw [hstep]
      simp only [ih, List.replicate_succ]
  have hpass : loopPass .WAV riffWrapped [] true false 0 = .complete ⟨0, 0⟩ ⟨[], none⟩ 0 := by
    decide
  have hfull : ∀ n, (passLoop .WAV riffWrapped [] true false n 0).spans
      = List.replicate n ⟨0, 0⟩ := by
    intro n
    induction n with
    | zero => rfl
    | succ n ih =>
      rw [passLoop, hpass]
      simp only [ih, List.replicate_succ]
  have hspans : (extractFiles (fuel + 2) .WAV riffWrapped).spans
      = List.replicate (fuel + 2) ⟨0, 0⟩ := by
    unfold extractFiles
    rw [if_neg (by decide), hloop]
  refine ⟨hspans, ?_, ?_⟩
  · rw [hspans, List.replicate_succ, List.replicate_succ]
    intro h
    have h1 := (List.pairwise_cons.1 h).1 ⟨0, 0⟩ (List.mem_cons_self _ _)
    exact absurd h1 (by decide)
  · unfold extractFilesDecoding
    rw [if_neg (by decide), hfull]

/-- A resource written by the loop of `extractFiles` whose declared size runs past the
end of the buffer (`start + declaredSize > fileBuffer.size()`, so that its length
was clamped) is the last resource written, in every run. When the pass that
writes it is completed, it sets `position` to `fileBuffer.size()` and the loop
condition then fails; the pass is completed for every audio resource and for
every graphic resource whose decoding in the `D3GR` branch makes no read outside
the buffer or the palette, and the run then ends normally after it. -/
theorem clamped_span_ends_run (fuel : Nat) (format : FileFormat)
    (fileBuffer palette : List Byte) (extractIndividualFrames extractSpritesheet : Bool)
    (hlen : fileBuffer.length < 2 ^ 63) :
    (∀ pre post s declared,
      (extractFilesDecoding fuel format fileBuffer palette extractIndividualFrames
        extractSpritesheet).spans = pre ++ s :: post →
      getSize format (fileBuffer.drop s.offset) = .ret declared →
      fileBuffer.length < s.offset + declared →
      post = [] ∧
      ((format = .WAV ∨ ∃ d, decodeResource (fileBuffer.drop s.offset) palette
          extractIndividualFrames extractSpritesheet = .ok d) →
        pre.length + 1 < fuel →
        (extractFilesDecoding fuel format fileBuffer palette extractIndividualFrames
          extractSpritesheet).ending = .finished)) ∧
    (∀ position s decoded next declared,
      loopPass format fileBuffer palette extractIndividualFrames extractSpritesheet position
        = .complete s decoded next →
      getSize format (fileBuffer.drop s.offset) = .ret declared →
      fileBuffer.length < s.offset + declared →
      next = fileBuffer.length ∧
      loopPass format fileBuffer palette extractIndividualFrames extractSpritesheet next
        = .stop) ∧
    (∀ position s next declared,
      carveStep format fileBuffer position = .emit s next →
      getSize format (fileBuffer.drop s.offset) = .ret declared →
      fileBuffer.length < s.offset + declared →
      (format = .WAV ∨ ∃ d, decodeResource (fileBuffer.drop s.offset) palette
          extractIndividualFrames extractSpritesheet = .ok d) →
      ∃ decoded, loopPass format fileBuffer palette extractIndividualFrames
        extractSpritesheet position = .complete s decoded fileBuffer.length) := by
  have hnext : ∀ position s next declared,
      carveStep format fileBuffer position = .emit s next →
      getSize format (fileBuffer.drop s.offset) = .ret declared →
      fileBuffer.length < s.offset + declared → next = fileBuffer.length := by
    intro position s next declared hstep hsize hover
    obtain ⟨headerPos, d, _, _, _, _, _, hmin, hd, hl, hnext⟩ := carveStep_emit hlen hstep
    rw [hsize] at hd
    simp only [Run.ret.injEq] at hd
    subst hd
    rw [if_pos hover] at hl
    omega
  refine ⟨?_, ?_, ?_⟩
  · intro pre post s declared h hsize hover
    unfold extractFilesDecoding at h ⊢
    split at h
    · simp at h
    · rename_i hne
      rw [if_neg hne]
      exact passLoop_clamped_last palette extractIndividualFrames extractSpritesheet hlen
        fuel 0 pre post s declared h hsize hover
  · intro position s decoded next declared hp hsize hover
    have hstep : carveStep format fileBuffer position = .emit s next := by
      rcases loopPass_cases format fileBuffer palette extractIndividualFrames
        extractSpritesheet position with ⟨_, hp'⟩ | ⟨i, _, hp'⟩ | ⟨t, n, hstep, hrest⟩
      · rw [hp'] at hp; simp at hp
      · rw [hp'] at hp; simp at hp
      · rcases hrest with ⟨_, hp'⟩ | ⟨_, ⟨d, _, hp'⟩ | ⟨i, _, hp'⟩ | ⟨i, _, hp'⟩⟩
        · rw [hp'] at hp
          simp only [Pass.complete.injEq] at hp
          rw [hstep, hp.1, hp.2.2]
        · rw [hp'] at hp
          simp only [Pass.complete.injEq] at hp
          rw [hstep, hp.1, hp.2.2]
        · rw [hp'] at hp; simp at hp
        · rw [hp'] at hp; simp at hp
    have hn := hnext position s next declared hstep hsize hover
    subst hn
    exact ⟨rfl, loopPass_at_end format fileBuffer palette extractIndividualFrames
      extractSpritesheet⟩
  · intro position s next declared hstep hsize hover hok
    have hn := hnext position s next declared hstep hsize hover
    subst hn
    rcases loopPass_cases format fileBuffer palette extractIndividualFrames
      extractSpritesheet position with ⟨hs, _⟩ | ⟨i, hs, _⟩ | ⟨t, n, hs, hrest⟩
    · rw [hs] at hstep; simp at hstep
    · rw [hs] at hstep; simp at hstep
    · rw [hs] at hstep
      simp only [Step.emit.injEq] at hstep
      obtain ⟨rfl, rfl⟩ := hstep
      rcases hrest with ⟨_, hp'⟩ | ⟨hfmt, ⟨d, _, hp'⟩ | ⟨i, hd, _⟩ | ⟨i, hd, _⟩⟩
      · exact ⟨_, hp'⟩
      · exact ⟨_, hp'⟩
      · rcases hok with hw | ⟨d, hd'⟩
        · rw [hfmt] at hw; simp at hw
        · rw [hd'] at hd; simp at hd
      · rcases hok with hw | ⟨d, hd'⟩
        · rw [hfmt] at hw; simp at hw
        · rw [hd'] at hd; simp at hd

/-- The 16-byte audio file with declared size 108 gives one resource of length 16,
written by the first pass, and the run ends. -/
theorem clamped_span_ends_run_witness :
    riffTruncated.length < 2 ^ 63 ∧
    (extractFilesDecoding 2 .WAV riffTruncated paletteBW true false).spans
      = [] ++ (⟨0, 16⟩ : Span) :: [] ∧
    getSize .WAV (riffTruncated.drop 0) = .ret 108 ∧ riffTruncated.length < 0 + 108 ∧
    (extractFilesDecoding 2 .WAV riffTruncated paletteBW true false).ending = .finished :=
  ⟨by decide, by decide, by decide, by decide,
    ((clamped_span_ends_run 2 .WAV riffTruncated paletteBW true false (by decide)).1 [] []
      ⟨0, 16⟩ 108 (by decide) (by decide) (by decide)).2 (Or.inl rfl) (by decide)⟩

end FileUnpacker
